import Mathlib

/-!
# Trajectory planner (`src/emc/tp/tp.c`, `src/emc/tp/blendmath.c`, `src/emc/tp/tc.h`)

A shallow embedding of the segment engine of the trajectory planner.

* C `double` is idealised as an arbitrary linearly ordered field `K`
  (exact arithmetic; instantiate `K := ℚ` to run the definitions,
  `K := ℝ` for the statements that involve `sin`, `cos`, `tan`, `sqrt`).
* C `int` flags and enumerations stay integers with the values of `tc.h`.
* Pointers to segments become values that are passed in and returned.
* Routines of libm and posemath and the constants of headers that are not part
  of the sources at hand are parameters (`MathLib`, `TPConst`, `ExtGeom`).
* Pointers into the queue are queue slots: what `tpRunCycle` writes through `tc` and
  `nexttc` is written back to slots 0 and 1.
* Calls into the motion controller (`emcmotDioWrite`, `emcmotAioWrite`,
  `emcmotSetRotaryUnlock`) are returned as a list of `IoEvent`s in call order.
* The bit masks of `syncdio_t` are natural numbers below `2 ^ 64`; the `int` shift
  `1 << i` is done in 32 bits with the shift count taken modulo 32 (`int_shl1`).
* A quotient is the quotient of the field `K`, in which `x / 0 = 0`; C computes an
  infinite quotient there, or none for `0.0 / 0.0`. `tpActivateSegment` and
  `tpGetPlanarLimit` spell out the C result for a zero divisor; the statements about the
  velocity update (`tpCalculateTrapezoidalAccel`) assume `cycle_time ≠ 0`.
-/

namespace LinuxCNC

variable {K : Type} [LinearOrderedField K]

/-! ## External parameters -/

/-- The libm / posemath routines the planner calls (`pmSqrt`, `sin`, `cos`, `tan`, `PM_PI`,
`acos`). -/
structure MathLib (K : Type) where
  sqrt : K → K
  sin : K → K
  cos : K → K
  tan : K → K
  pi : K
  acos : K → K

/-- Constants of `tp.h`, `motion.h`, `motion_types.h` and `posemath.h` used by `tp.c`. -/
structure TPConst (K : Type) where
  TP_VEL_EPSILON : K
  TP_POS_EPSILON : K
  TP_TIME_EPSILON : K
  TP_ACC_RATIO_TANGENTIAL : K
  TP_ACC_RATIO_NORMAL : K
  TP_MIN_SEGMENT_CYCLES : K
  TP_MIN_ARC_LENGTH : K
  TP_MIN_ARC_ANGLE : K
  TP_ANGLE_EPSILON : K
  CART_FUZZ : K
  TP_OPTIMIZATION_CUTOFF : Int
  TC_ACCEL_TRAPZ : Int
  TC_ACCEL_RAMP : Int
  EMC_MOTION_TYPE_TRAVERSE : Int
  EMC_MOTION_TYPE_ARC : Int
  MOTION_INVALID_ID : Int
  MOTION_ID_VALID : Int → Bool

/-! ## Return codes and enumerations (`tc.h`) -/

/-- Planner result codes: the spec fixes `Ok = 0` and `Fail = -1`; the advisory codes
are kept symbolic. -/
inductive TPErr where
  | OK
  | FAIL
  | NO_ACTION
  | SLOWING
  | STOPPED
  | WAITING
  | MISSING_INPUT
  deriving DecidableEq, Repr

def TC_TERM_COND_STOP : Int := 1
def TC_TERM_COND_PARABOLIC : Int := 2
def TC_TERM_COND_TANGENT : Int := 3

def TC_LINEAR : Int := 1
def TC_CIRCULAR : Int := 2
def TC_RIGIDTAP : Int := 3
def TC_SPHERICAL : Int := 4

def TC_SYNC_NONE : Int := 0
def TC_SYNC_VELOCITY : Int := 1
def TC_SYNC_POSITION : Int := 2

def TC_OPTIM_UNTOUCHED : Int := 0
def TC_OPTIM_AT_MAX : Int := 1

/-- The enum `RIGIDTAP_STATE` of `tc.h`, in declaration order. -/
inductive RIGIDTAP_STATE where
  | TAPPING
  | REVERSING
  | RETRACTION
  | FINAL_REVERSAL
  | FINAL_PLACEMENT
  deriving DecidableEq, Repr

/-! ## Geometry records -/

/-- A posemath Cartesian triple. -/
structure PmCartesian (K : Type) [LinearOrderedField K] where
  x : K := 0
  y : K := 0
  z : K := 0
  deriving DecidableEq

/-- A posemath line: end points, unit direction, length and the zero-length flag. -/
structure PmCartLine (K : Type) [LinearOrderedField K] where
  start : PmCartesian K := {}
  end_ : PmCartesian K := {}
  uVec : PmCartesian K := {}
  tmag : K := 0
  tmag_zero : Int := 0
  deriving DecidableEq

/-- The struct `PmLine9` of `tc.h`. -/
structure PmLine9 (K : Type) [LinearOrderedField K] where
  xyz : PmCartLine K := {}
  abc : PmCartLine K := {}
  uvw : PmCartLine K := {}
  deriving DecidableEq

/-- The part of posemath's `PmCircle` that `tp.c` reads. -/
structure PmCircle (K : Type) [LinearOrderedField K] where
  radius : K := 0
  angle : K := 0
  rHelix : PmCartesian K := {}
  center : PmCartesian K := {}
  normal : PmCartesian K := {}
  rTan : PmCartesian K := {}
  rPerp : PmCartesian K := {}
  deriving DecidableEq

/-- The struct `PmCircle9` of `tc.h`. -/
structure PmCircle9 (K : Type) [LinearOrderedField K] where
  xyz : PmCircle K := {}
  abc : PmCartLine K := {}
  uvw : PmCartLine K := {}
  deriving DecidableEq

/-- The struct `PmRigidTap` of `tc.h`. -/
structure PmRigidTap (K : Type) [LinearOrderedField K] where
  xyz : PmCartLine K := {}
  aux_xyz : PmCartLine K := {}
  abc : PmCartesian K := {}
  uvw : PmCartesian K := {}
  reversal_target : K := 0
  spindlerevs_at_reversal : K := 0
  state : RIGIDTAP_STATE := RIGIDTAP_STATE.TAPPING
  deriving DecidableEq

/-- The part of `SphericalArc` / `Arc9` (spherical_arc.h) that `tp.c` reads. -/
structure Arc9 (K : Type) [LinearOrderedField K] where
  radius : K := 0
  angle : K := 0
  line_length : K := 0
  abc : PmCartesian K := {}
  uvw : PmCartesian K := {}
  deriving DecidableEq

/-- The union `coords` of `TC_STRUCT`; the member in use is the constructor. -/
inductive Coords (K : Type) [LinearOrderedField K] where
  | line (l : PmLine9 K)
  | circle (c : PmCircle9 K)
  | rigidtap (r : PmRigidTap K)
  | arc (a : Arc9 K)
  deriving DecidableEq

/-- The struct `syncdio_t` of `tc.h`. -/
structure syncdio_t (K : Type) [LinearOrderedField K] where
  anychanged : Int := 0
  dio_mask : Nat := 0
  aio_mask : Nat := 0
  dios : List Int := []
  aios : List K := []
  deriving DecidableEq

/-! ## The segment `TC_STRUCT` -/

/-- The struct `TC_STRUCT` (`tc.h`, with the fields `accel_mode` and `finalized`
that `tp.c` uses). -/
structure TC (K : Type) [LinearOrderedField K] where
  cycle_time : K := 0
  target : K := 0
  progress : K := 0
  nominal_length : K := 0
  reqvel : K := 0
  target_vel : K := 0
  maxvel : K := 0
  currentvel : K := 0
  finalvel : K := 0
  maxaccel : K := 0
  id : Int := 0
  coords : Coords K := Coords.line {}
  motion_type : Int := TC_LINEAR
  active : Int := 0
  canon_motion_type : Int := 0
  term_cond : Int := TC_TERM_COND_STOP
  blending_next : Int := 0
  blend_vel : K := 0
  triangle_vel : K := 0
  tolerance : K := 0
  synchronized : Int := 0
  uu_per_rev : K := 0
  vel_at_blend_start : K := 0
  sync_accel : Int := 0
  enables : Int := 0
  atspeed : Int := 0
  syncdio : syncdio_t K := {}
  indexrotary : Int := -1
  optimization_state : Int := 0
  on_final_decel : Int := 0
  blend_prev : Int := 0
  smoothing : Int := 0
  splitting : Int := 0
  remove : Int := 0
  active_depth : Int := 0
  accel_mode : Int := 0
  finalized : Int := 0
  deriving DecidableEq

/-! ## Small numeric helpers (`tp.c`, top of file) -/

/-- `fmin` as defined in `tp.c`: `(a) < (b) ? (a) : (b)`. -/
def fmin (a b : K) : K := if a < b then a else b

/-- `fmax` as defined in `tp.c`: `(a) > (b) ? (a) : (b)`. -/
def fmax (a b : K) : K := if a > b then a else b

/-- `pmSq`. -/
def pmSq (x : K) : K := x * x

/-- `fabs`. -/
def fabs (x : K) : K := if x < 0 then -x else x

/-- `saturate`: clamp `x` to `[-max, max]`. -/
def saturate (x max : K) : K :=
  if x > max then max
  else if x < -max then -max
  else x

/-- `sat_inplace`: the saturated value and the return code (1, -1 or 0). -/
def sat_inplace (x max : K) : K × Int :=
  if x > max then (max, 1)
  else if x < -max then (-max, -1)
  else (x, 0)

/-- `clip_min`: the clipped value. -/
def clip_min (x min : K) : K := if x < min then min else x

/-- `clip_max`: the clipped value. -/
def clip_max (x max : K) : K := if x > max then max else x

/-! ## `tcUpdateDistFromAccel` -/

/-- `tcUpdateDistFromAccel` (tp.c): integrate one cycle with acceleration `acc`. -/
def tcUpdateDistFromAccel (c : TPConst K) (tc : TC K) (acc vel_desired : K) : TC K :=
  let v_next := tc.currentvel + acc * tc.cycle_time
  let tc1 : TC K :=
    if v_next < 0 then
      let tc0 : TC K :=
        if (tc.target - tc.progress) < (tc.currentvel * tc.cycle_time) then
          { tc with progress := tc.target }
        else tc
      { tc0 with currentvel := 0 }
    else
      let displacement := (v_next + tc.currentvel) * (1 / 2) * tc.cycle_time
      { tc with progress := clip_max (tc.progress + displacement) tc.target,
                currentvel := v_next }
  { tc1 with on_final_decel :=
      if fabs (vel_desired - tc1.currentvel) < c.TP_VEL_EPSILON ∧ acc < 0 then 1 else 0 }

/-! ## Planner, status and configuration records -/

/-- A nine-axis pose `EmcPose`. -/
structure EmcPose (K : Type) [LinearOrderedField K] where
  tran : PmCartesian K := {}
  a : K := 0
  b : K := 0
  c : K := 0
  u : K := 0
  v : K := 0
  w : K := 0
  deriving DecidableEq

/-- The fields of `emcmotStatus` that the planner reads or writes. -/
structure EmcmotStatus (K : Type) [LinearOrderedField K] where
  net_feed_scale : K := 1
  spindleRevs : K := 0
  spindleSpeedIn : K := 0
  spindle_speed : K := 0
  spindle_direction : Int := 0
  spindleSync : Int := 0
  current_vel : K := 0
  requested_vel : K := 0
  distance_to_go : K := 0
  dtg : EmcPose K := {}
  spindle_is_atspeed : Int := 0
  spindle_index_enable : Int := 0
  enables_queued : Int := 0
  enables_new : Int := 0
  tcqlen : Int := 0
  deriving DecidableEq

/-- The fields of `emcmotDebug` that the planner reads. -/
structure EmcmotDebug (K : Type) [LinearOrderedField K] where
  stepping : Int := 0
  acc_limit : PmCartesian K := {}
  vel_limit : PmCartesian K := {}
  deriving DecidableEq

/-- The fields of `emcmotConfig` that the planner reads, with the globals `num_dio` and
`num_aio`. -/
structure EmcmotConfig (K : Type) [LinearOrderedField K] where
  maxFeedScale : K := 1
  arcBlendEnable : Int := 0
  arcBlendFallbackEnable : Int := 0
  arcBlendOptDepth : Int := 0
  arcBlendGapCycles : Int := 0
  arcBlendGreediness : K := 0
  num_dio : Nat := 0
  num_aio : Nat := 0
  deriving DecidableEq

/-- Modelled from the spec: the segment queue `TC_QUEUE_STRUCT` (its code, `tcq.c`, is
not among the sources). Section 4.1: a fixed-capacity ring of segments in which `len` is
authoritative; the ring is represented by the list of its items from head to tail
together with the capacity. -/
structure TC_QUEUE_STRUCT (K : Type) [LinearOrderedField K] where
  queue : List (TC K) := []
  size : Nat := 0
  deriving DecidableEq

/-- The spindle sub-state of `TP_STRUCT`. -/
structure TPSpindle (K : Type) [LinearOrderedField K] where
  offset : K := 0
  revs : K := 0
  waiting_for_index : Int := 0
  waiting_for_atspeed : Int := 0
  deriving DecidableEq

/-- The planner `TP_STRUCT` (fields as used by `tp.c`). -/
structure TP (K : Type) [LinearOrderedField K] where
  queue : TC_QUEUE_STRUCT K := {}
  queueSize : Int := 0
  cycleTime : K := 0
  vMax : K := 0
  ini_maxvel : K := 0
  vLimit : K := 0
  aMax : K := 0
  aLimit : K := 0
  wMax : K := 0
  wDotMax : K := 0
  nextId : Int := 0
  execId : Int := 0
  termCond : Int := TC_TERM_COND_PARABOLIC
  currentPos : EmcPose K := {}
  goalPos : EmcPose K := {}
  tolerance : K := 0
  done : Int := 1
  depth : Int := 0
  activeDepth : Int := 0
  aborting : Int := 0
  pausing : Int := 0
  motionType : Int := 0
  synchronized : Int := 0
  uu_per_rev : K := 0
  spindle : TPSpindle K := {}
  syncdio : syncdio_t K := {}
  deriving DecidableEq

/-! ## State checks and getters (`tp.c`) -/

/-- `tpPureRotaryCheck`: the segment is a line with no XYZ and no UVW motion. -/
def tpPureRotaryCheck (tc : TC K) : Bool :=
  decide (tc.motion_type = TC_LINEAR) &&
    (match tc.coords with
     | Coords.line l => decide (l.xyz.tmag_zero ≠ 0) && decide (l.uvw.tmag_zero ≠ 0)
     | _ => false)

/-- `tpGetFeedScale`. -/
def tpGetFeedScale (c : TPConst K) (st : EmcmotStatus K) (tp : TP K) (tc : TC K) : K :=
  if tp.pausing ≠ 0 ∨ tp.aborting ≠ 0 then 0
  else if tc.canon_motion_type = c.EMC_MOTION_TYPE_TRAVERSE ∨ tc.synchronized = TC_SYNC_POSITION
  then 1
  else st.net_feed_scale

/-- `tpGetRealTargetVel`. -/
def tpGetRealTargetVel (c : TPConst K) (st : EmcmotStatus K) (tp : TP K) (tc : TC K) : K :=
  fmin (tc.target_vel * tpGetFeedScale c st tp tc) tc.maxvel

/-- `tpGetMaxTargetVel`. -/
def tpGetMaxTargetVel (cfg : EmcmotConfig K) (tc : TC K) : K :=
  let tc_maxvel := tc.maxvel
  fmin (tc.target_vel * cfg.maxFeedScale) tc_maxvel

/-- `tpGetRealFinalVel`. -/
def tpGetRealFinalVel (c : TPConst K) (st : EmcmotStatus K) (dbg : EmcmotDebug K) (tp : TP K)
    (tc : TC K) (target_vel : K) : K :=
  if dbg.stepping ≠ 0 ∨ tc.term_cond ≠ TC_TERM_COND_TANGENT then 0
  else
    let finalvel := tc.finalvel * fmin (tpGetFeedScale c st tp tc) 1
    if finalvel > target_vel then target_vel else finalvel

/-- `tpGetScaledAccel`. -/
def tpGetScaledAccel (c : TPConst K) (tc : TC K) : K :=
  let a_scale := tc.maxaccel
  let a_scale := if tc.term_cond = TC_TERM_COND_PARABOLIC ∨ tc.blend_prev ≠ 0
    then a_scale * (1 / 2) else a_scale
  if tc.motion_type = TC_CIRCULAR ∨ tc.motion_type = TC_SPHERICAL
  then a_scale * c.TP_ACC_RATIO_TANGENTIAL else a_scale

/-! ## Velocity profile (`tp.c`) -/

/-- `tpCalculateTrapezoidalAccel`: returns `(acc, vel_desired)`. The last quotient divides
by `tc.cycle_time`: for `cycle_time = 0` C computes an infinite quotient, or `0.0 / 0.0`
when `newvel = currentvel`, which `saturate` hands on; no value of `K` stands for that,
so what is stated about the returned acceleration assumes `cycle_time ≠ 0`. -/
def tpCalculateTrapezoidalAccel (m : MathLib K) (c : TPConst K) (st : EmcmotStatus K)
    (dbg : EmcmotDebug K) (tp : TP K) (tc : TC K) : K × K :=
  let tc_target_vel := tpGetRealTargetVel c st tp tc
  let tc_finalvel := tpGetRealFinalVel c st dbg tp tc tc_target_vel
  let tc_finalvel :=
    if tc_finalvel > 0 ∧ tc.term_cond ≠ TC_TERM_COND_TANGENT then 0 else tc_finalvel
  let dx := tc.target - tc.progress
  let maxaccel := tpGetScaledAccel c tc
  let discr_term1 := pmSq tc_finalvel
  let discr_term2 := maxaccel * (2 * dx - tc.currentvel * tc.cycle_time)
  let tmp_adt := maxaccel * tc.cycle_time * (1 / 2)
  let discr_term3 := pmSq tmp_adt
  let discr := discr_term1 + discr_term2 + discr_term3
  let maxnewvel := -tmp_adt
  let maxnewvel := if discr > discr_term3 then maxnewvel + m.sqrt discr else maxnewvel
  let newvel := saturate maxnewvel tc_target_vel
  let newvel :=
    if !tpPureRotaryCheck tc ∧ tc.synchronized ≠ TC_SYNC_POSITION
    then (sat_inplace newvel tp.vLimit).1 else newvel
  let maxnewaccel := (newvel - tc.currentvel) / tc.cycle_time
  (saturate maxnewaccel maxaccel, maxnewvel)

/-- The estimate `dt` of the time left in the segment that `tpCalculateRampAccel`
computes from `dx`, the current and the final velocity. -/
def rampTimeRemaining (c : TPConst K) (tc : TC K) (vel_final : K) : K :=
  let dx := tc.target - tc.progress
  let vel_avg := (tc.currentvel + vel_final) / 2
  if vel_avg > c.TP_VEL_EPSILON then fmax (dx / vel_avg) (1 / 10 ^ 16) else 1 / 10 ^ 16

/-- `tpCalculateRampAccel`: the segment (its `vel_at_blend_start` may be refreshed) and,
unless the ramp is refused (`TP_ERR_FAIL`), the pair `(acc, vel_desired)`. -/
def tpCalculateRampAccel (c : TPConst K) (st : EmcmotStatus K) (dbg : EmcmotDebug K)
    (tp : TP K) (tc : TC K) : TC K × Option (K × K) :=
  let tc := if tc.blending_next = 0 then { tc with vel_at_blend_start := tc.currentvel } else tc
  let target_vel := tpGetRealTargetVel c st tp tc
  let vel_final := tpGetRealFinalVel c st dbg tp tc target_vel
  if vel_final < c.TP_VEL_EPSILON then (tc, none)
  else
    let dt := rampTimeRemaining c tc vel_final
    let dv := vel_final - tc.currentvel
    let acc_final := dv / dt
    let acc_max := tpGetScaledAccel c tc
    (tc, some (saturate acc_final acc_max, vel_final))

/-- `tcSetSplitCycle`. -/
def tcSetSplitCycle (tc : TC K) (split_time v_f : K) : TC K :=
  { tc with splitting := 1, cycle_time := split_time, vel_at_blend_start := v_f }

/-- `tpCheckEndCondition`: flag a split cycle or removal when the segment is about to end. -/
def tpCheckEndCondition (m : MathLib K) (c : TPConst K) (st : EmcmotStatus K)
    (dbg : EmcmotDebug K) (tp : TP K) (tc : TC K) : TC K × TPErr :=
  let tc := { tc with cycle_time := tp.cycleTime }
  let dx := tc.target - tc.progress
  if dx ≤ c.TP_POS_EPSILON then
    let tc := { tc with progress := tc.target }
    let tc := tcSetSplitCycle tc 0 tc.currentvel
    let tc := if tc.term_cond ≠ TC_TERM_COND_TANGENT then { tc with remove := 1 } else tc
    (tc, TPErr.OK)
  else if tc.term_cond ≠ TC_TERM_COND_TANGENT then (tc, TPErr.NO_ACTION)
  else
    let target_vel := tpGetRealTargetVel c st tp tc
    let v_f := tpGetRealFinalVel c st dbg tp tc target_vel
    let v_avg := (tc.currentvel + v_f) / 2
    let dt := c.TP_TIME_EPSILON / 2
    if ¬ (v_avg > c.TP_VEL_EPSILON) ∧ (dx > v_avg * tp.cycleTime ∧ dx > c.TP_POS_EPSILON) then
      (tc, TPErr.NO_ACTION)
    else
      let dt := if v_avg > c.TP_VEL_EPSILON then fmax dt (dx / v_avg) else dt
      let dv := v_f - tc.currentvel
      let a_f := dv / dt
      let a_max := tpGetScaledAccel c tc
      let a := (sat_inplace a_f a_max).1
      let recalc := (sat_inplace a_f a_max).2
      let disc := pmSq (tc.currentvel / a) + 2 / a * dx
      if recalc ≠ 0 ∧ disc < 0 then (tc, TPErr.NO_ACTION)
      else
        let dt :=
          if recalc ≠ 0 then
            (if disc < c.TP_TIME_EPSILON * c.TP_TIME_EPSILON then -tc.currentvel / a
             else if a > 0 then -tc.currentvel / a + m.sqrt disc
             else -tc.currentvel / a - m.sqrt disc)
          else dt
        let v_f := if recalc ≠ 0 then tc.currentvel + dt * a else v_f
        if dt < c.TP_TIME_EPSILON then
          (tcSetSplitCycle { tc with progress := tc.target } 0 v_f, TPErr.OK)
        else if dt < tp.cycleTime then (tcSetSplitCycle tc dt v_f, TPErr.OK)
        else (tc, TPErr.OK)

/-- `tpUpdateCycle`, the part acting on the segment: choose ramp or trapezoidal
acceleration, integrate with `tcUpdateDistFromAccel`, then run `tpCheckEndCondition`.
(The pose bookkeeping with `tcGetPos` acts on `tp.currentPos` only.) -/
def tpUpdateCycle (m : MathLib K) (c : TPConst K) (st : EmcmotStatus K) (dbg : EmcmotDebug K)
    (tp : TP K) (tc : TC K) : TC K :=
  let tc := if tc.blending_next = 0 then { tc with vel_at_blend_start := tc.currentvel } else tc
  let ramp : TC K × Option (K × K) :=
    if tc.accel_mode ≠ 0 ∧ tc.term_cond = TC_TERM_COND_TANGENT
    then tpCalculateRampAccel c st dbg tp tc else (tc, none)
  let tc := ramp.1
  let av : K × K :=
    match ramp.2 with
    | some av => av
    | none => tpCalculateTrapezoidalAccel m c st dbg tp tc
  let tc := tcUpdateDistFromAccel c tc av.1 av.2
  (tpCheckEndCondition m c st dbg tp tc).1

/-- The acceleration that `tpUpdateCycle` hands to `tcUpdateDistFromAccel`: the ramp value
when ramp mode applies and the ramp is accepted, the trapezoidal value otherwise. -/
def tpUpdateCycleAccel (m : MathLib K) (c : TPConst K) (st : EmcmotStatus K)
    (dbg : EmcmotDebug K) (tp : TP K) (tc : TC K) : K :=
  if tc.accel_mode ≠ 0 ∧ tc.term_cond = TC_TERM_COND_TANGENT then
    match (tpCalculateRampAccel c st dbg tp tc).2 with
    | some av => av.1
    | none => (tpCalculateTrapezoidalAccel m c st dbg tp tc).1
  else (tpCalculateTrapezoidalAccel m c st dbg tp tc).1

/-- The real-number instance of the math routines. -/
noncomputable def realMath : MathLib ℝ :=
  ⟨Real.sqrt, Real.sin, Real.cos, Real.tan, Real.pi, Real.arccos⟩

/-! ## Blend arcs (`blendmath.c`, `tp.c`) -/

/-- The struct `BlendParameters` of `blendmath.h`. -/
structure BlendParameters (K : Type) [LinearOrderedField K] where
  tolerance : K := 0
  L1 : K := 0
  L2 : K := 0
  v_req : K := 0
  a_max : K := 0
  theta : K := 0
  phi : K := 0
  a_n_max : K := 0
  R_plan : K := 0
  d_plan : K := 0
  v_goal : K := 0
  v_plan : K := 0
  v_actual : K := 0
  s_arc : K := 0
  consume : Int := 0
  deriving DecidableEq

/-- `tcFindBlendTolerance` (tp.c): returns `(T_blend, nominal_tolerance)`. -/
def tcFindBlendTolerance (prev_tc tc : TC K) : K × K :=
  let tolerance_ratio : K := 1 / 4
  let T1 := prev_tc.tolerance
  let T2 := tc.tolerance
  let T1 := if T1 = 0 then prev_tc.nominal_length * tolerance_ratio else T1
  let T2 := if T2 = 0 then tc.nominal_length * tolerance_ratio else T2
  let nominal_tolerance := fmin T1 T2
  let blend_tolerance := fmin (fmin nominal_tolerance (prev_tc.nominal_length * tolerance_ratio))
    (tc.nominal_length * tolerance_ratio)
  (blend_tolerance, nominal_tolerance)

/-- `blendComputeParameters` (blendmath.c): the updated parameters and the return code. -/
def blendComputeParameters (m : MathLib K) (c : TPConst K) (param : BlendParameters K) :
    BlendParameters K × TPErr :=
  let h_tol := param.tolerance / (1 - m.sin param.theta)
  let d_tol := m.cos param.theta * h_tol
  let d_lengths := fmin param.L1 param.L2
  let d_geom := fmin d_lengths d_tol
  let R_geom := m.tan param.theta * d_geom
  let v_normal := m.sqrt (param.a_n_max * R_geom)
  let param := { param with v_plan := fmin v_normal param.v_goal }
  let param := { param with R_plan := pmSq param.v_plan / param.a_n_max }
  let param := { param with d_plan := param.R_plan / m.tan param.theta }
  let param := { param with
    v_actual := if param.v_plan > param.v_req then param.v_req else param.v_plan }
  let param := { param with s_arc := param.R_plan * param.phi }
  if param.R_plan < c.TP_POS_EPSILON then (param, TPErr.FAIL)
  else if param.s_arc < c.TP_MIN_ARC_LENGTH then (param, TPErr.FAIL)
  else (param, TPErr.OK)

/-- `tpCalculateTriangleVel` (tp.c). -/
def tpCalculateTriangleVel (m : MathLib K) (c : TPConst K) (tc : TC K) : K :=
  let acc_scaled := tpGetScaledAccel c tc
  m.sqrt (acc_scaled * tc.target)

/-- `tpComputeBlendVelocity` (tp.c) for two existing segments. `theta` is the angle that
`tpFindIntersectionAngle` returns for the acceleration unit vectors of the two segments
(`tcGetEndAccelUnitVector`, `tcGetStartAccelUnitVector`); `want_parabolic` tells whether
the caller passed a non-null `v_parabolic`. Returns both segments, the value written to
`*v_parabolic` (if any) and the return code. -/
def tpComputeBlendVelocity (m : MathLib K) (c : TPConst K) (cfg : EmcmotConfig K)
    (st : EmcmotStatus K) (tp : TP K) (theta : K) (tc nexttc : TC K) (planning : Bool)
    (want_parabolic : Bool) : TC K × TC K × Option K × TPErr :=
  if tc.term_cond ≠ TC_TERM_COND_PARABOLIC ∧ planning = false then
    (tc, nexttc, none, TPErr.NO_ACTION)
  else
    let acc_this := tpGetScaledAccel c tc
    let acc_next := tpGetScaledAccel c nexttc
    let target_vel_this :=
      if planning then tpGetMaxTargetVel cfg tc else tpGetRealTargetVel c st tp tc
    let target_vel_next :=
      if planning then tpGetMaxTargetVel cfg nexttc else tpGetRealTargetVel c st tp nexttc
    let v_reachable_this := fmin (tpCalculateTriangleVel m c tc) target_vel_this
    let v_reachable_next := fmin (tpCalculateTriangleVel m c nexttc) target_vel_next
    let v_blend_this := v_reachable_next * acc_this / acc_next
    let v_blend_next := v_reachable_next
    let vb : K × K :=
      if v_reachable_this < v_reachable_next then
        (fmin v_reachable_this v_blend_this,
         fmin (v_reachable_this * acc_next / acc_this) v_blend_next)
      else
        (fmin v_blend_this (v_reachable_next * acc_this / acc_next),
         fmin v_blend_next v_reachable_next)
    let inTol : Prop := tc.tolerance > 0 ∨ planning = true
    let min_cos_theta := m.cos (m.pi / 2 - c.TP_MIN_ARC_ANGLE)
    let tblend_vel := 2 * m.sqrt (acc_this * tc.tolerance / m.cos theta)
    let vb : K × K :=
      if inTol ∧ m.cos theta > min_cos_theta then
        (fmin vb.1 tblend_vel, fmin vb.2 tblend_vel)
      else vb
    let vsq := pmSq vb.1 + pmSq vb.2 - 2 * vb.1 * vb.2 * m.cos (2 * theta)
    let v_parabolic : Option K :=
      if inTol ∧ want_parabolic = true then some (m.sqrt vsq / 2) else none
    if planning then (tc, nexttc, v_parabolic, TPErr.OK)
    else ({ tc with blend_vel := vb.1 }, { nexttc with blend_vel := vb.2 }, v_parabolic,
      TPErr.OK)

/-- The locals of `tpCreateLineLineBlend` at the point where the arc is built. `abort` is
the code with which the function returns before building the arc (`none`: the arc is
built by `arcFromLines` / `tpInitBlendArc` with `R_plan`, `d_plan`, `h_plan`, and
`v_actual`, `v_plan` as the arc's `reqvel` and `maxvel`). -/
structure LineLineBlend (K : Type) [LinearOrderedField K] where
  phi : K
  a_n_max : K
  v_req : K
  v_goal : K
  L1 : K
  L2 : K
  tolerance : K
  R_geom : K
  R_plan : K
  d_plan : K
  consume : Bool
  s_arc : K
  v_plan : K
  v_actual : K
  h_plan : K
  abort : Option TPErr

/-- `tpCreateLineLineBlend` (tp.c), the planning of the blend arc. The arguments `theta`,
`a_max` and `v_max` are the values the function obtains from `tpFindIntersectionAngle`,
`tpGetPlanarAccelLimit` and `tpGetPlanarVelLimit`, and `theta_acc` is the angle used inside
`tpComputeBlendVelocity`; the construction of the arc geometry that follows
(`arcFromLines`, `tpInitBlendArc`, `tcConnectBlendArc`) uses the values returned here. -/
def tpCreateLineLineBlend (m : MathLib K) (c : TPConst K) (cfg : EmcmotConfig K)
    (st : EmcmotStatus K) (tp : TP K) (theta a_max v_max theta_acc : K) (prev_tc tc : TC K) :
    LineLineBlend K :=
  let phi := m.pi - theta * 2
  let a_n_max := a_max * c.TP_ACC_RATIO_NORMAL
  let v_req := fmin prev_tc.reqvel tc.reqvel
  let v_goal := v_req * cfg.maxFeedScale
  let v_goal := fmin v_goal v_max
  let Ctheta := m.cos theta
  let Stheta := m.sin theta
  let Ttheta := m.tan theta
  let greediness := fmin cfg.arcBlendGreediness 1
  let L1 := fmin prev_tc.target (prev_tc.nominal_length * greediness)
  let L2 := tc.target * greediness
  let min_segment_time := tp.cycleTime * c.TP_MIN_SEGMENT_CYCLES
  let tolerance := (tcFindBlendTolerance prev_tc tc).1
  let h_tol := tolerance / (1 - Stheta)
  let d_tol := Ctheta * h_tol
  let d_lengths := fmin L1 L2
  let d_geom := fmin d_lengths d_tol
  let R_geom := Ttheta * d_geom
  let v_normal := m.sqrt (a_n_max * R_geom)
  let v_plan := if v_normal > v_goal then v_goal else v_normal
  let R_plan := if v_normal > v_goal then pmSq v_goal / a_n_max else R_geom
  let d_plan := R_plan / Ttheta
  let L_prev := prev_tc.target - d_plan
  let prev_seg_time := L_prev / v_plan
  let consume : Bool := decide (prev_seg_time < (cfg.arcBlendGapCycles : K) * min_segment_time)
  let s_arc := phi * R_plan
  let s_arc := if consume then s_arc + L_prev else s_arc
  let v_sample_arc := s_arc / min_segment_time
  let v_plan := if v_plan > v_sample_arc then v_sample_arc else v_plan
  let v_actual := if v_plan > v_req then v_req else v_plan
  let v_parabolic : K :=
    (tpComputeBlendVelocity m c cfg st tp theta_acc prev_tc tc true true).2.2.1.getD 0
  let abort : Option TPErr :=
    if cfg.arcBlendFallbackEnable ≠ 0 then
      (if v_plan ≤ v_parabolic then some TPErr.NO_ACTION else none)
    else
      (if R_plan < c.TP_POS_EPSILON then some TPErr.FAIL else none)
  let h_plan := R_plan / Stheta
  { phi := phi, a_n_max := a_n_max, v_req := v_req, v_goal := v_goal, L1 := L1, L2 := L2,
    tolerance := tolerance, R_geom := R_geom, R_plan := R_plan, d_plan := d_plan,
    consume := consume, s_arc := s_arc, v_plan := v_plan, v_actual := v_actual,
    h_plan := h_plan, abort := abort }

/-- The facts about `sin`, `cos`, `tan` and `PM_PI` at an intersection half-angle `θ`
strictly between 0 and a right angle. -/
structure TrigAt (m : MathLib K) (θ : K) : Prop where
  sin_pos : 0 < m.sin θ
  sin_lt_one : m.sin θ < 1
  cos_pos : 0 < m.cos θ
  tan_eq : m.tan θ = m.sin θ / m.cos θ
  two_mul_lt_pi : θ * 2 < m.pi

/-- The facts about `pmSqrt`: non-negative, exact on non-negative arguments, 0 otherwise. -/
structure SqrtExact (m : MathLib K) : Prop where
  nonneg : ∀ x, 0 ≤ m.sqrt x
  mul_self : ∀ x, 0 ≤ x → m.sqrt x * m.sqrt x = x
  of_nonpos : ∀ x, x ≤ 0 → m.sqrt x = 0

/-! ## Posemath lines and the queue (outside the sources at hand) -/

/-- Modelled from the spec: posemath's `pmCartLineInit` is not among the sources; section 2
lists the primitive as a unit-vector line with a length. The line from `start` to `end_`
stores both points, the unit direction and the length `tmag`; a length below `CART_FUZZ`
sets `tmag_zero` and the direction `(1, 0, 0)`. The return code is 0. -/
def pmCartLineInit (m : MathLib K) (c : TPConst K) (start end_ : PmCartesian K) :
    PmCartLine K × Int :=
  let d : PmCartesian K := ⟨end_.x - start.x, end_.y - start.y, end_.z - start.z⟩
  let tmag := m.sqrt (d.x * d.x + d.y * d.y + d.z * d.z)
  if fabs tmag < c.CART_FUZZ then
    ({ start := start, end_ := end_, uVec := ⟨1, 0, 0⟩, tmag := tmag, tmag_zero := 1 }, 0)
  else
    ({ start := start, end_ := end_, uVec := ⟨d.x / tmag, d.y / tmag, d.z / tmag⟩,
       tmag := tmag, tmag_zero := 0 }, 0)

/-- Modelled from the spec: posemath's `pmCartLinePoint` (point-at-parameter of a line, section
2): the point at arc length `len` from the start of the line. -/
def pmCartLinePoint (line : PmCartLine K) (len : K) : PmCartesian K :=
  ⟨line.start.x + line.uVec.x * len, line.start.y + line.uVec.y * len,
    line.start.z + line.uVec.z * len⟩

/-- Modelled from the spec: `tcqInit` (tcq.c is not among the sources) resets the queue to
empty. -/
def tcqInit (q : TC_QUEUE_STRUCT K) : TC_QUEUE_STRUCT K := { q with queue := [] }

/-- Modelled from the spec: `tcqLen` is the number of segments in the queue. -/
def tcqLen (q : TC_QUEUE_STRUCT K) : Int := q.queue.length

/-- Modelled from the spec: `tcqItem` returns the n-th segment from the head, or none. -/
def tcqItem (q : TC_QUEUE_STRUCT K) (n : Int) : Option (TC K) :=
  if n < 0 then none else q.queue.get? n.toNat

/-- Modelled from the spec: `tcqLast` returns the tail segment, or none. -/
def tcqLast (q : TC_QUEUE_STRUCT K) : Option (TC K) := q.queue.getLast?

/-- Modelled from the spec: `tcqPut` appends at the tail; it fails (-1) when the queue
holds `size` segments (section 4.1: `QueueFull` when `len == capacity`). -/
def tcqPut (q : TC_QUEUE_STRUCT K) (tc : TC K) : TC_QUEUE_STRUCT K × Int :=
  if q.queue.length ≥ q.size then (q, -1) else ({ q with queue := q.queue ++ [tc] }, 0)

/-- Overwrite the tail segment: the effect of writing through the pointer that `tcqLast`
returned. -/
def tcqSetLast (q : TC_QUEUE_STRUCT K) (tc : TC K) : TC_QUEUE_STRUCT K :=
  { q with queue := q.queue.dropLast ++ [tc] }

/-- Overwrite the n-th segment: the effect of writing through the pointer that `tcqItem`
returned. -/
def tcqSetItem (q : TC_QUEUE_STRUCT K) (n : Int) (tc : TC K) : TC_QUEUE_STRUCT K :=
  if n < 0 then q else { q with queue := q.queue.set n.toNat tc }

/-! ## Pause, resume, abort (`tp.c`) -/

/-- `tpResume` on an existing planner. -/
def tpResume (tp : TP K) : TP K × TPErr := ({ tp with pausing := 0 }, TPErr.OK)

/-- `tpHandleAbort` (tp.c): `tc` is the head segment, `nexttc` its successor if any. -/
def tpHandleAbort (c : TPConst K) (st : EmcmotStatus K) (tp : TP K) (tc : TC K)
    (nexttc : Option (TC K)) : TP K × EmcmotStatus K × TPErr :=
  if tp.aborting = 0 then (tp, st, TPErr.NO_ACTION)
  else if (c.MOTION_ID_VALID tp.spindle.waiting_for_index ||
      c.MOTION_ID_VALID tp.spindle.waiting_for_atspeed ||
      (decide (tc.currentvel = 0) &&
        (match nexttc with
         | none => true
         | some n => decide (n.currentvel = 0)))) = true then
    let tp := { tp with queue := tcqInit tp.queue }
    let tp := { tp with goalPos := tp.currentPos }
    let tp := { tp with done := 1 }
    let tp := { tp with depth := 0, activeDepth := 0 }
    let tp := { tp with aborting := 0 }
    let tp := { tp with execId := 0 }
    let tp := { tp with motionType := 0 }
    let tp := { tp with synchronized := 0 }
    let tp := { tp with spindle := { tp.spindle with waiting_for_index := c.MOTION_INVALID_ID } }
    let tp := { tp with spindle :=
      { tp.spindle with waiting_for_atspeed := c.MOTION_INVALID_ID } }
    let st := { st with spindleSync := 0 }
    let tp := (tpResume tp).1
    (tp, st, TPErr.STOPPED)
  else (tp, st, TPErr.SLOWING)

/-! ## Rigid tapping (`tp.c`) -/

/-- Position of a state in the declaration order of `RIGIDTAP_STATE`. -/
def RIGIDTAP_STATE.index : RIGIDTAP_STATE → Nat
  | RIGIDTAP_STATE.TAPPING => 0
  | RIGIDTAP_STATE.REVERSING => 1
  | RIGIDTAP_STATE.RETRACTION => 2
  | RIGIDTAP_STATE.FINAL_REVERSAL => 3
  | RIGIDTAP_STATE.FINAL_PLACEMENT => 4

/-- The rigid-tap state of a segment whose `coords` member in use is `rigidtap`. -/
def rigidTapState (tc : TC K) : Option RIGIDTAP_STATE :=
  match tc.coords with
  | Coords.rigidtap r => some r.state
  | _ => none

/-- `tpUpdateRigidTapState` (tp.c). The function-local `static double old_spindlepos` is
the first argument and the first component of the result; the status record carries
`spindle.speed`. The function is called for `TC_RIGIDTAP` segments only; for another
`coords` member nothing is changed. -/
def tpUpdateRigidTapState (m : MathLib K) (c : TPConst K) (old_spindlepos : K)
    (st : EmcmotStatus K) (tp : TP K) (tc : TC K) : K × EmcmotStatus K × TC K :=
  let new_spindlepos := st.spindleRevs
  let new_spindlepos := if st.spindle_direction < 0 then -new_spindlepos else new_spindlepos
  match tc.coords with
  | Coords.rigidtap r =>
    match r.state with
    | RIGIDTAP_STATE.TAPPING =>
      if tc.progress ≥ r.reversal_target then
        (old_spindlepos, { st with spindle_speed := st.spindle_speed * (-1) },
          { tc with coords := Coords.rigidtap { r with state := RIGIDTAP_STATE.REVERSING } })
      else (old_spindlepos, st, tc)
    | RIGIDTAP_STATE.REVERSING =>
      let tc :=
        if new_spindlepos < old_spindlepos then
          let start := pmCartLinePoint r.xyz tc.progress
          let end_ := r.xyz.start
          let aux := (pmCartLineInit m c start end_).1
          { tc with
            coords := Coords.rigidtap { r with
              spindlerevs_at_reversal := new_spindlepos + tp.spindle.offset,
              aux_xyz := aux,
              reversal_target := aux.tmag,
              state := RIGIDTAP_STATE.RETRACTION },
            target := aux.tmag + 10 * tc.uu_per_rev,
            progress := 0 }
        else tc
      (new_spindlepos, st, tc)
    | RIGIDTAP_STATE.RETRACTION =>
      if tc.progress ≥ r.reversal_target then
        (old_spindlepos, { st with spindle_speed := st.spindle_speed * (-1) },
          { tc with coords :=
            Coords.rigidtap { r with state := RIGIDTAP_STATE.FINAL_REVERSAL } })
      else (old_spindlepos, st, tc)
    | RIGIDTAP_STATE.FINAL_REVERSAL =>
      let tc :=
        if new_spindlepos > old_spindlepos then
          let start := pmCartLinePoint r.aux_xyz tc.progress
          let end_ := r.xyz.start
          let aux := (pmCartLineInit m c start end_).1
          { tc with
            coords := Coords.rigidtap { r with
              aux_xyz := aux,
              state := RIGIDTAP_STATE.FINAL_PLACEMENT },
            target := aux.tmag,
            progress := 0,
            synchronized := 0,
            target_vel := tc.maxvel }
        else tc
      (new_spindlepos, st, tc)
    | RIGIDTAP_STATE.FINAL_PLACEMENT => (old_spindlepos, st, tc)
  | _ => (old_spindlepos, st, tc)

/-! ## Append pipeline (`tp.c`) -/

/-- Routines on segment geometry that live outside the sources at hand, and the blend-arc
step of `tpAddLine`.

* `tcGetEndpoint` (tc.c) returns the pose at the end of a segment.
* `tpHandleBlendArc` stands for the function of that name in `tp.c` as a whole: on the
  planner and the new segment it may flag the tail tangent, shorten or pop the tail and
  queue a blend arc. Its tangent and arc constructions call helpers of `tc.c`,
  `spherical_arc.c` and posemath, so here it is an argument; `tpAddLine` calls it only when
  `arcBlendEnable` is set.
* `pmCircleInit` (posemath) builds the circle of `tpAddCircle` from start, end, center,
  normal and turn count, and returns it with its error code.
* `tcGetPos` (tc.c) returns the pose at the current progress of a segment.
* `tcIsBlending` (tc.c) latches and returns the `blending_next` flag of a segment.
* `accelAngle` is the angle that `tpFindIntersectionAngle` returns for the acceleration
  unit vectors of two consecutive segments (`tcGetEndAccelUnitVector`,
  `tcGetStartAccelUnitVector` of tc.c).
* `emcmotGetRotaryIsUnlocked` reads the lock state of a rotary axis from the motion
  controller. -/
structure ExtGeom (K : Type) [LinearOrderedField K] where
  tcGetEndpoint : TC K → EmcPose K
  tpHandleBlendArc : TP K → TC K → TP K × TC K
  pmCircleInit : PmCartesian K → PmCartesian K → PmCartesian K → PmCartesian K → Int →
    PmCircle K × Int
  tcGetPos : TC K → EmcPose K
  tcIsBlending : TC K → TC K × Int
  accelAngle : TC K → TC K → K
  emcmotGetRotaryIsUnlocked : Int → Int

/-- Modelled from the spec: `emcPoseToPmCartesian` (emcpose.c) splits a nine-axis pose into
its XYZ, ABC and UVW triples. -/
def emcPoseToPmCartesian (p : EmcPose K) : PmCartesian K × PmCartesian K × PmCartesian K :=
  (p.tran, ⟨p.a, p.b, p.c⟩, ⟨p.u, p.v, p.w⟩)

/-- `tpErrorCheck` on an existing planner. -/
def tpErrorCheck (tp : TP K) : TPErr :=
  if tp.aborting ≠ 0 then TPErr.FAIL else TPErr.OK

/-- `tpClearDIOs`: clear the pending DIO/AIO buffer (the first `num_dio` digital and the
first `num_aio` analog entries are zeroed). -/
def tpClearDIOs (cfg : EmcmotConfig K) (tp : TP K) : TP K × TPErr :=
  ({ tp with syncdio :=
      { anychanged := 0, dio_mask := 0, aio_mask := 0,
        dios := List.replicate (min cfg.num_dio tp.syncdio.dios.length) 0
          ++ tp.syncdio.dios.drop cfg.num_dio,
        aios := List.replicate (min cfg.num_aio tp.syncdio.aios.length) 0
          ++ tp.syncdio.aios.drop cfg.num_aio } }, TPErr.OK)

/-- `tpInitializeNewSegment`. -/
def tpInitializeNewSegment (c : TPConst K) (tp : TP K) (tc : TC K) (vel ini_maxvel acc : K)
    (enables : Int) : TC K :=
  { tc with
    enables := enables,
    cycle_time := tp.cycleTime,
    id := -1,
    maxaccel := acc,
    maxvel := ini_maxvel,
    reqvel := vel,
    target_vel := vel,
    blend_prev := 0,
    optimization_state := 0,
    finalvel := 0,
    accel_mode := c.TC_ACCEL_TRAPZ,
    active := 0,
    progress := 0,
    nominal_length := tc.target,
    sync_accel := 0,
    currentvel := 0,
    vel_at_blend_start := 0,
    blend_vel := 0,
    blending_next := 0,
    on_final_decel := 0,
    splitting := 0,
    remove := 0,
    active_depth := 1,
    finalized := 0 }

/-- `tcCheckLastParabolic`. -/
def tcCheckLastParabolic (tc : TC K) (prev_tc : Option (TC K)) : TC K :=
  match prev_tc with
  | some p => if p.term_cond = TC_TERM_COND_PARABOLIC then { tc with blend_prev := 1 } else tc
  | none => tc

/-- `tpFinalizeSegmentLength`: the segment, finalized, if there is one. -/
def tpFinalizeSegmentLength (m : MathLib K) (tc : Option (TC K)) : Option (TC K) × TPErr :=
  match tc with
  | none => (none, TPErr.FAIL)
  | some tc =>
    let parabolic : Bool :=
      decide (tc.blend_prev ≠ 0) || decide (tc.term_cond = TC_TERM_COND_PARABOLIC)
    let tc :=
      if tc.motion_type = TC_CIRCULAR ∧ parabolic = true
      then { tc with maxvel := tc.maxvel * m.sqrt (1 / 2) } else tc
    (some { tc with finalized := 1 }, TPErr.OK)

/-- `tpAddSegmentToQueue`. -/
def tpAddSegmentToQueue (g : ExtGeom K) (tp : TP K) (tc : TC K) (inc_id : Bool) :
    TP K × TC K × TPErr :=
  let tc := { tc with id := tp.nextId }
  let put := tcqPut tp.queue tc
  if put.2 = -1 then (tp, tc, TPErr.FAIL)
  else
    let tp := { tp with queue := put.1 }
    let tp := if inc_id then { tp with nextId := tp.nextId + 1 } else tp
    let tp := { tp with goalPos := g.tcGetEndpoint tc }
    let tp := { tp with done := 0 }
    let tp := { tp with depth := tcqLen tp.queue }
    (tp, tc, TPErr.OK)

/-- `tpComputeOptimalVelocity`: returns `(tc, prev1_tc)` after the update. -/
def tpComputeOptimalVelocity (m : MathLib K) (c : TPConst K) (tp : TP K)
    (tc prev1_tc : TC K) : TC K × TC K :=
  let acc_this := tpGetScaledAccel c tc
  let vs_back := m.sqrt (pmSq tc.finalvel + 2 * acc_this * tc.target)
  let vf_limit_this := tc.maxvel
  let vf_limit_prev := prev1_tc.maxvel
  let vf_limit := fmin vf_limit_this vf_limit_prev
  let prev1_tc :=
    if vs_back ≥ vf_limit then { prev1_tc with optimization_state := TC_OPTIM_AT_MAX }
    else prev1_tc
  let vs_back := if vs_back ≥ vf_limit then vf_limit else vs_back
  let prev1_tc := { prev1_tc with finalvel := vs_back }
  let sample_maxvel := tc.target / (tp.cycleTime * c.TP_MIN_SEGMENT_CYCLES)
  let tc := { tc with maxvel := fmin tc.maxvel sample_maxvel }
  (tc, prev1_tc)

/-- The `for` loop of `tpRunOptimization`, from loop counter `x` on; `len` is the queue
length read before the loop and the first argument bounds the remaining iterations. -/
def tpRunOptimizationLoop (m : MathLib K) (c : TPConst K) (cfg : EmcmotConfig K) (len : Int) :
    Nat → Int → Int → TP K → TP K
  | 0, _, _, tp => tp
  | fuel + 1, x, hit_peaks, tp =>
    if ¬ (x < cfg.arcBlendOptDepth + 2) then tp
    else
      let ind := len - x
      match tcqItem tp.queue ind, tcqItem tp.queue (ind - 1) with
      | some tc, some prev1_tc =>
        if tc.finalized = 0 then tpRunOptimizationLoop m c cfg len fuel (x + 1) hit_peaks tp
        else if prev1_tc.term_cond ≠ TC_TERM_COND_TANGENT then tp
        else if prev1_tc.progress > 0 then tp
        else
          let tc := if tc.atspeed ≠ 0 then { tc with finalvel := 0 } else tc
          let r := tpComputeOptimalVelocity m c tp tc prev1_tc
          let tc := { r.1 with active_depth := x - 2 - hit_peaks }
          let tp := { tp with queue := tcqSetItem (tcqSetItem tp.queue ind tc) (ind - 1) r.2 }
          let hit_peaks :=
            if tc.optimization_state = TC_OPTIM_AT_MAX then hit_peaks + 1 else hit_peaks
          if hit_peaks > c.TP_OPTIMIZATION_CUTOFF then tp
          else tpRunOptimizationLoop m c cfg len fuel (x + 1) hit_peaks tp
      | _, _ => tp

/-- `tpRunOptimization`: the loop runs for `x = 1, …, arcBlendOptDepth + 1`. -/
def tpRunOptimization (m : MathLib K) (c : TPConst K) (cfg : EmcmotConfig K) (tp : TP K) :
    TP K :=
  tpRunOptimizationLoop m c cfg (tcqLen tp.queue) (cfg.arcBlendOptDepth + 1).toNat 1 0 tp

/-- `tpAddLine` (tp.c) on an existing planner: the planner after the call and the return
code. The local `tc` starts from the all-zero segment; the pointer `prev_tc` taken before
the blend step is the queue slot `len - 1`. -/
def tpAddLine (m : MathLib K) (c : TPConst K) (cfg : EmcmotConfig K) (g : ExtGeom K)
    (tp : TP K) (end_ : EmcPose K) (type : Int) (vel ini_maxvel acc : K) (enables : Int)
    (atspeed : Int) (indexrotary : Int) : TP K × TPErr :=
  if tpErrorCheck tp ≠ TPErr.OK then (tp, TPErr.FAIL)
  else
    let s := emcPoseToPmCartesian tp.goalPos
    let e := emcPoseToPmCartesian end_
    let xyz := pmCartLineInit m c s.1 e.1
    let abc := pmCartLineInit m c s.2.1 e.2.1
    let uvw := pmCartLineInit m c s.2.2 e.2.2
    if xyz.2 ≠ 0 ∨ abc.2 ≠ 0 ∨ uvw.2 ≠ 0 then (tp, TPErr.FAIL)
    else
      let line_xyz := xyz.1
      let line_abc := abc.1
      let line_uvw := uvw.1
      let tc : TC K := { target := 0, motion_type := 0, term_cond := 0, indexrotary := 0 }
      let tc := { tc with target :=
        if line_xyz.tmag_zero = 0 then line_xyz.tmag
        else if line_uvw.tmag_zero = 0 then line_uvw.tmag
        else line_abc.tmag }
      let tc := { tc with atspeed := atspeed }
      let tc := { tc with coords := Coords.line ⟨line_xyz, line_abc, line_uvw⟩ }
      let tc := { tc with motion_type := TC_LINEAR, canon_motion_type := type }
      let tc := { tc with term_cond := tp.termCond }
      let tc := { tc with tolerance := tp.tolerance, synchronized := tp.synchronized,
                          uu_per_rev := tp.uu_per_rev, indexrotary := indexrotary }
      let tc :=
        if tp.syncdio.anychanged ≠ 0 then { tc with syncdio := tp.syncdio }
        else { tc with syncdio := { tc.syncdio with anychanged := 0 } }
      let tp := if tp.syncdio.anychanged ≠ 0 then (tpClearDIOs cfg tp).1 else tp
      let tc := tpInitializeNewSegment c tp tc vel ini_maxvel acc enables
      let prev_ind := tcqLen tp.queue - 1
      let blend := if cfg.arcBlendEnable ≠ 0 then g.tpHandleBlendArc tp tc else (tp, tc)
      let tp := blend.1
      let tc := blend.2
      let prev_tc := tcqItem tp.queue prev_ind
      let tc := tcCheckLastParabolic tc prev_tc
      let tp :=
        match (tpFinalizeSegmentLength m prev_tc).1 with
        | some p => { tp with queue := tcqSetItem tp.queue prev_ind p }
        | none => tp
      let added := tpAddSegmentToQueue g tp tc true
      let tp := tpRunOptimization m c cfg added.1
      (tp, added.2.2)

/-! ## Controller interface (`tp.c`) -/

/-- `tpSetCycleTime` on an existing planner. -/
def tpSetCycleTime (tp : TP K) (secs : K) : TP K × TPErr :=
  if secs ≤ 0 then (tp, TPErr.FAIL)
  else ({ tp with cycleTime := secs }, TPErr.OK)

/-- `tpSetVmax` on an existing planner. -/
def tpSetVmax (tp : TP K) (vMax ini_maxvel : K) : TP K × TPErr :=
  if vMax ≤ 0 ∨ ini_maxvel ≤ 0 then (tp, TPErr.FAIL)
  else
    let tp := { tp with vMax := vMax }
    let tp := { tp with ini_maxvel := ini_maxvel }
    (tp, TPErr.OK)

/-- `tpSetAmax` on an existing planner. -/
def tpSetAmax (tp : TP K) (aMax : K) : TP K × TPErr :=
  if aMax ≤ 0 then (tp, TPErr.FAIL)
  else ({ tp with aMax := aMax }, TPErr.OK)

/-- `tpPause` on an existing planner. -/
def tpPause (tp : TP K) : TP K × TPErr := ({ tp with pausing := 1 }, TPErr.OK)

/-- `tpAbort` on an existing planner. -/
def tpAbort (cfg : EmcmotConfig K) (tp : TP K) : TP K × TPErr :=
  let tp :=
    if tp.aborting = 0 then
      let tp := (tpPause tp).1
      { tp with aborting := 1 }
    else tp
  tpClearDIOs cfg tp

/-- `tpClear`: the planner and the status record after the call, and the return code. -/
def tpClear (cfg : EmcmotConfig K) (st : EmcmotStatus K) (tp : TP K) :
    TP K × EmcmotStatus K × TPErr :=
  let tp := { tp with queue := tcqInit tp.queue }
  let tp := { tp with queueSize := 0 }
  let tp := { tp with goalPos := tp.currentPos }
  let tp := { tp with nextId := 0 }
  let tp := { tp with execId := 0 }
  let tp := { tp with motionType := 0 }
  let tp := { tp with termCond := TC_TERM_COND_PARABOLIC }
  let tp := { tp with tolerance := 0 }
  let tp := { tp with done := 1 }
  let tp := { tp with depth := 0, activeDepth := 0 }
  let tp := { tp with aborting := 0 }
  let tp := { tp with pausing := 0 }
  let tp := { tp with synchronized := 0 }
  let tp := { tp with uu_per_rev := 0 }
  let st := { st with spindleSync := 0 }
  let st := { st with current_vel := 0 }
  let st := { st with requested_vel := 0 }
  let st := { st with distance_to_go := 0 }
  let st := { st with dtg := { tran := ⟨0, 0, 0⟩, a := 0, b := 0, c := 0, u := 0, v := 0, w := 0 } }
  let r := tpClearDIOs cfg tp
  (r.1, st, r.2)

/-- `tpQueueDepth` on an existing planner. -/
def tpQueueDepth (tp : TP K) : Int := tp.depth

/-! ## Appending circles and rigid taps (`tp.c`) -/

/-- Modelled from the spec: posemath's `pmCartMag`, the Euclidean length of a triple. -/
def pmCartMag (m : MathLib K) (v : PmCartesian K) : K :=
  m.sqrt (pmSq v.x + pmSq v.y + pmSq v.z)

/-- `pmCircleActualMaxVel`. -/
def pmCircleActualMaxVel (m : MathLib K) (c : TPConst K) (circle : PmCircle K)
    (v_max a_max : K) : K :=
  let a_n_max := c.TP_ACC_RATIO_NORMAL * a_max
  let v_max_acc := m.sqrt (a_n_max * circle.radius)
  if v_max_acc < v_max then v_max_acc else v_max

/-- `tpAddRigidTap` (tp.c) on an existing planner: the planner after the call and the
return code. The local `tc` starts from the all-zero segment; `prev_tc` is the queue slot
`len - 1`. -/
def tpAddRigidTap (m : MathLib K) (c : TPConst K) (cfg : EmcmotConfig K) (g : ExtGeom K)
    (tp : TP K) (end_ : EmcPose K) (vel ini_maxvel acc : K) (enables : Int) : TP K × TPErr :=
  if tpErrorCheck tp ≠ TPErr.OK then (tp, TPErr.FAIL)
  else
    let s := emcPoseToPmCartesian tp.goalPos
    let end_xyz := end_.tran
    let line_xyz := (pmCartLineInit m c s.1 end_xyz).1
    let tc : TC K := { target := 0, motion_type := 0, term_cond := 0, indexrotary := 0 }
    let r : PmRigidTap K := { reversal_target := line_xyz.tmag }
    let tc := { tc with target := line_xyz.tmag + 10 * tp.uu_per_rev }
    let tc := { tc with atspeed := 1 }
    let r := { r with xyz := line_xyz, abc := s.2.1, uvw := s.2.2,
                      state := RIGIDTAP_STATE.TAPPING }
    let tc := { tc with coords := Coords.rigidtap r }
    let tc := { tc with motion_type := TC_RIGIDTAP, canon_motion_type := 0, term_cond := 0,
                        tolerance := tp.tolerance }
    if tp.synchronized = 0 then (tp, TPErr.FAIL)
    else
      let tc := { tc with synchronized := tp.synchronized, uu_per_rev := tp.uu_per_rev,
                          indexrotary := -1 }
      let tc :=
        if tp.syncdio.anychanged ≠ 0 then { tc with syncdio := tp.syncdio }
        else { tc with syncdio := { tc.syncdio with anychanged := 0 } }
      let tp := if tp.syncdio.anychanged ≠ 0 then (tpClearDIOs cfg tp).1 else tp
      let tc := tpInitializeNewSegment c tp tc vel ini_maxvel acc enables
      let prev_ind := tcqLen tp.queue - 1
      let prev_tc := tcqItem tp.queue prev_ind
      let tp :=
        match (tpFinalizeSegmentLength m prev_tc).1 with
        | some p => { tp with queue := tcqSetItem tp.queue prev_ind p }
        | none => tp
      let added := tpAddSegmentToQueue g tp tc true
      let tp := tpRunOptimization m c cfg added.1
      (tp, added.2.2)

/-- `tpAddCircle` (tp.c) on an existing planner: the planner after the call and the return
code. The local `tc` starts from the all-zero segment; the pointer `prev_tc` taken before
the blend step is the queue slot `len - 1`. -/
def tpAddCircle (m : MathLib K) (c : TPConst K) (cfg : EmcmotConfig K) (g : ExtGeom K)
    (tp : TP K) (end_ : EmcPose K) (center normal : PmCartesian K) (turn : Int) (type : Int)
    (vel ini_maxvel acc : K) (enables : Int) (atspeed : Int) : TP K × TPErr :=
  if tpErrorCheck tp ≠ TPErr.OK then (tp, TPErr.FAIL)
  else
    let s := emcPoseToPmCartesian tp.goalPos
    let e := emcPoseToPmCartesian end_
    let xyz := g.pmCircleInit s.1 e.1 center normal turn
    let abc := pmCartLineInit m c s.2.1 e.2.1
    let uvw := pmCartLineInit m c s.2.2 e.2.2
    if xyz.2 ≠ 0 ∨ abc.2 ≠ 0 ∨ uvw.2 ≠ 0 then (tp, TPErr.FAIL)
    else
      let circle := xyz.1
      let helix_z_component := pmCartMag m circle.rHelix
      let helix_length := m.sqrt (pmSq (circle.angle * circle.radius) + pmSq helix_z_component)
      let tc : TC K := { target := 0, motion_type := 0, term_cond := 0, indexrotary := 0 }
      let tc := { tc with target := helix_length }
      let tc := { tc with atspeed := atspeed }
      let tc := { tc with coords := Coords.circle ⟨circle, abc.1, uvw.1⟩ }
      let tc := { tc with canon_motion_type := type, tolerance := tp.tolerance }
      let tc := { tc with synchronized := tp.synchronized, uu_per_rev := tp.uu_per_rev,
                          indexrotary := -1 }
      let tc :=
        if tp.syncdio.anychanged ≠ 0 then { tc with syncdio := tp.syncdio }
        else { tc with syncdio := { tc.syncdio with anychanged := 0 } }
      let tp := if tp.syncdio.anychanged ≠ 0 then (tpClearDIOs cfg tp).1 else tp
      let tc := { tc with motion_type := TC_CIRCULAR, term_cond := tp.termCond }
      let v_max_actual := pmCircleActualMaxVel m c circle ini_maxvel acc
      let tc := tpInitializeNewSegment c tp tc vel v_max_actual acc enables
      let prev_ind := tcqLen tp.queue - 1
      let blend := if cfg.arcBlendEnable ≠ 0 then g.tpHandleBlendArc tp tc else (tp, tc)
      let tp := blend.1
      let tc := blend.2
      let prev_tc := tcqItem tp.queue prev_ind
      let tc := tcCheckLastParabolic tc prev_tc
      let tp :=
        match (tpFinalizeSegmentLength m prev_tc).1 with
        | some p => { tp with queue := tcqSetItem tp.queue prev_ind p }
        | none => tp
      let added := tpAddSegmentToQueue g tp tc true
      let tp := tpRunOptimization m c cfg added.1
      (tp, added.2.2)

/-! ## A run of the rigid-tap state machine -/

/-- A run of `tpUpdateRigidTapState` on one rigid-tap segment, one call per servo cycle.
Between two calls the rest of the cycle changes the status record, the planner and fields
of the segment such as `progress`, but `tp.c` writes `coords.rigidtap` nowhere else; so
each cycle of the run supplies the status record, the planner and the other fields of the
segment, and the geometry `coords` and the static `old_spindlepos` are carried over. The
result is the last `old_spindlepos` and the segment as the last call left it. -/
def tpUpdateRigidTapStateRun (m : MathLib K) (c : TPConst K) :
    List (EmcmotStatus K × TP K × TC K) → K → TC K → K × TC K
  | [], old_spindlepos, tc => (old_spindlepos, tc)
  | (st, tp, other) :: rest, old_spindlepos, tc =>
    let r := tpUpdateRigidTapState m c old_spindlepos st tp { other with coords := tc.coords }
    tpUpdateRigidTapStateRun m c rest r.1 r.2.2

/-! ## Synchronized I/O (`tp.c`) -/

/-- The C expression `1 << i` of `tp.c`: the constant is an `int`, so the shift is done in
32 bits. For a count `i ≥ 32` ISO C leaves the result open; the shift instruction of x86
and x86_64, the platforms that `tc.h` names for `iomask_t`, takes the count modulo 32, and
that is the value here. For `i % 32 = 31` the bit is the sign bit of `int`. -/
def int_shl1 (i : Nat) : Int :=
  let v : Int := 2 ^ (i % 32)
  if v ≥ 2 ^ 31 then v - 2 ^ 32 else v

/-- Conversion of an `int` to `iomask_t` (`unsigned long long`, 64 bits wide). -/
def iomask_of_int (x : Int) : Nat := (x % 2 ^ 64).toNat

/-- A call into the motion controller made by the planner: `emcmotDioWrite`,
`emcmotAioWrite` or `emcmotSetRotaryUnlock`, with its arguments. -/
inductive IoEvent (K : Type) [LinearOrderedField K] where
  | dio (index : Nat) (value : Int)
  | aio (index : Nat) (value : K)
  | rotaryUnlock (axis : Int) (unlock : Int)
  deriving DecidableEq

/-- `tpSetDout` on an existing planner, for a non-negative `index`. -/
def tpSetDout (tp : TP K) (index : Nat) (start _end : Nat) : TP K × TPErr :=
  let sd := tp.syncdio
  let sd := { sd with anychanged := 1 }
  let sd := { sd with dio_mask := sd.dio_mask ||| iomask_of_int (int_shl1 index) }
  let sd :=
    if start > 0 then { sd with dios := sd.dios.set index 1 }
    else { sd with dios := sd.dios.set index (-1) }
  ({ tp with syncdio := sd }, TPErr.OK)

/-- `tpSetAout` on an existing planner. -/
def tpSetAout (tp : TP K) (index : Nat) (start _end : K) : TP K × TPErr :=
  let sd := tp.syncdio
  let sd := { sd with anychanged := 1 }
  let sd := { sd with aio_mask := sd.aio_mask ||| iomask_of_int (int_shl1 index) }
  let sd := { sd with aios := sd.aios.set index start }
  ({ tp with syncdio := sd }, TPErr.OK)

/-- `tpToggleDIOs`: the segment after the call and the writes made, in order. -/
def tpToggleDIOs (cfg : EmcmotConfig K) (tc : TC K) : TC K × List (IoEvent K) :=
  if tc.syncdio.anychanged ≠ 0 then
    let dio : List (IoEvent K) := (List.range cfg.num_dio).flatMap fun i =>
      if tc.syncdio.dio_mask &&& iomask_of_int (int_shl1 i) = 0 then []
      else
        (if tc.syncdio.dios.getD i 0 > 0 then [IoEvent.dio i 1] else []) ++
        (if tc.syncdio.dios.getD i 0 < 0 then [IoEvent.dio i 0] else [])
    let aio : List (IoEvent K) := (List.range cfg.num_aio).flatMap fun i =>
      if tc.syncdio.aio_mask &&& iomask_of_int (int_shl1 i) = 0 then []
      else [IoEvent.aio i (tc.syncdio.aios.getD i 0)]
    ({ tc with syncdio := { tc.syncdio with anychanged := 0 } }, dio ++ aio)
  else (tc, [])

/-! ## Spindle synchronization (`tp.c`) -/

/-- `tpGetSignedSpindlePosition`. -/
def tpGetSignedSpindlePosition (spindle_pos : K) (spindle_dir : Int) : K :=
  if spindle_dir < 0 then spindle_pos * (-1) else spindle_pos

/-- `tpSyncVelocityMode`: the head segment after the call. -/
def tpSyncVelocityMode (st : EmcmotStatus K) (tc : TC K) (nexttc : Option (TC K)) : TC K :=
  let speed := st.spindleSpeedIn
  let pos_error := fabs speed * tc.uu_per_rev
  let pos_error :=
    match nexttc with
    | some n => pos_error - n.progress
    | none => pos_error
  { tc with target_vel := pos_error }

/-- `tpSyncPositionMode`: the planner, the head segment and its successor after the call.
The rigid-tap state is read from `coords.rigidtap`, the member in use when `motion_type`
is `TC_RIGIDTAP`. -/
def tpSyncPositionMode (m : MathLib K) (c : TPConst K) (st : EmcmotStatus K) (tp : TP K)
    (tc : TC K) (nexttc : Option (TC K)) : TP K × TC K × Option (TC K) :=
  let spindle_pos := tpGetSignedSpindlePosition st.spindleRevs st.spindle_direction
  let oldrevs := tp.spindle.revs
  let revs :=
    match tc.coords with
    | Coords.rigidtap r =>
      if tc.motion_type = TC_RIGIDTAP ∧ (r.state = RIGIDTAP_STATE.RETRACTION ∨
          r.state = RIGIDTAP_STATE.FINAL_REVERSAL)
      then r.spindlerevs_at_reversal - spindle_pos else spindle_pos
    | _ => spindle_pos
  let tp := { tp with spindle := { tp.spindle with revs := revs } }
  let pos_desired := (tp.spindle.revs - tp.spindle.offset) * tc.uu_per_rev
  let pos_error := pos_desired - tc.progress
  let pos_error :=
    match nexttc with
    | some n => pos_error - n.progress
    | none => pos_error
  let r : TP K × TC K :=
    if tc.sync_accel ≠ 0 then
      let spindle_vel := tp.spindle.revs / (tc.cycle_time * (tc.sync_accel : K))
      let tc := { tc with sync_accel := tc.sync_accel + 1 }
      let target_vel := spindle_vel * tc.uu_per_rev
      if tc.currentvel ≥ target_vel then
        let tp := { tp with spindle :=
          { tp.spindle with offset := tp.spindle.revs - tc.progress / tc.uu_per_rev } }
        let tc := { tc with sync_accel := 0 }
        (tp, { tc with target_vel := target_vel })
      else (tp, { tc with target_vel := tc.maxvel })
    else
      let spindle_vel := (tp.spindle.revs - oldrevs) / tp.cycleTime
      let target_vel := spindle_vel * tc.uu_per_rev
      let errorvel := m.sqrt (fabs pos_error * tpGetScaledAccel c tc)
      let errorvel := if pos_error < 0 then errorvel * (-1) else errorvel
      (tp, { tc with target_vel := target_vel + errorvel })
  let tp := r.1
  let tc := r.2
  let tc := if tc.target_vel < 0 then { tc with target_vel := 0 } else tc
  let nexttc :=
    match nexttc with
    | some n => if n.synchronized ≠ 0 then some { n with target_vel := tc.target_vel } else some n
    | none => none
  (tp, tc, nexttc)

/-! ## The servo cycle (`tp.c`) -/

/-- Modelled from the spec: `emcPoseSub` (emcpose.c), the component-wise difference of two
poses. -/
def emcPoseSub (p1 p2 : EmcPose K) : EmcPose K :=
  { tran := ⟨p1.tran.x - p2.tran.x, p1.tran.y - p2.tran.y, p1.tran.z - p2.tran.z⟩,
    a := p1.a - p2.a, b := p1.b - p2.b, c := p1.c - p2.c,
    u := p1.u - p2.u, v := p1.v - p2.v, w := p1.w - p2.w }

/-- Modelled from the spec: `emcPoseAdd` (emcpose.c), the component-wise sum of two
poses. -/
def emcPoseAdd (p1 p2 : EmcPose K) : EmcPose K :=
  { tran := ⟨p1.tran.x + p2.tran.x, p1.tran.y + p2.tran.y, p1.tran.z + p2.tran.z⟩,
    a := p1.a + p2.a, b := p1.b + p2.b, c := p1.c + p2.c,
    u := p1.u + p2.u, v := p1.v + p2.v, w := p1.w + p2.w }

/-- Modelled from the spec: `tcSetTermCond` (tc.c) stores the termination condition. -/
def tcSetTermCond (tc : TC K) (term_cond : Int) : TC K := { tc with term_cond := term_cond }

/-- Modelled from the spec: `tcqRemove` (tcq.c) drops `n` segments from the head of the
queue; it fails (-1) when the queue holds fewer than `n` segments. -/
def tcqRemove (q : TC_QUEUE_STRUCT K) (n : Int) : TC_QUEUE_STRUCT K × Int :=
  if n ≤ 0 then (q, 0)
  else if (q.queue.length : Int) < n then (q, -1)
  else ({ q with queue := q.queue.drop n.toNat }, 0)

/-- Write a segment back to queue slot `n` if there is one to write. -/
def tcqSetItemOpt (q : TC_QUEUE_STRUCT K) (n : Int) (tc : Option (TC K)) :
    TC_QUEUE_STRUCT K :=
  match tc with
  | some tc => tcqSetItem q n tc
  | none => q

/-- `tpUpdateMovementStatus`. -/
def tpUpdateMovementStatus (g : ExtGeom K) (st : EmcmotStatus K) (tp : TP K) (tc : TC K) :
    TP K × EmcmotStatus K :=
  let target := g.tcGetEndpoint tc
  let tp := { tp with motionType := tc.canon_motion_type }
  let tp := { tp with activeDepth := tc.active_depth }
  let st := { st with distance_to_go := tc.target - tc.progress }
  let st := { st with enables_queued := tc.enables }
  let tp := { tp with execId := tc.id }
  let st := { st with requested_vel := tc.reqvel }
  let st := { st with current_vel := tc.currentvel }
  let st := { st with dtg := emcPoseSub target tp.currentPos }
  (tp, st)

/-- The whole of `tpUpdateCycle`: the segment update (`tpUpdateCycle` above) and the
displacement of the segment added to `tp->currentPos`. -/
def tpUpdateCycleTP (g : ExtGeom K) (m : MathLib K) (c : TPConst K) (st : EmcmotStatus K)
    (dbg : EmcmotDebug K) (tp : TP K) (tc : TC K) : TP K × TC K :=
  let before := g.tcGetPos tc
  let tc := tpUpdateCycle m c st dbg tp tc
  let displacement := emcPoseSub (g.tcGetPos tc) before
  ({ tp with currentPos := emcPoseAdd tp.currentPos displacement }, tc)

/-- `tpUpdateBlend`: the planner and the successor segment after the call. -/
def tpUpdateBlend (g : ExtGeom K) (m : MathLib K) (c : TPConst K) (st : EmcmotStatus K)
    (dbg : EmcmotDebug K) (tp : TP K) (tc nexttc : TC K) : TP K × TC K :=
  let save_vel := nexttc.target_vel
  let nexttc :=
    if tpGetFeedScale c st tp nexttc > c.TP_VEL_EPSILON then
      let dv := tc.vel_at_blend_start - tc.currentvel
      let blend_progress := fmin (dv / tc.vel_at_blend_start) 1
      let blend_scale := tc.vel_at_blend_start / tc.blend_vel
      { nexttc with target_vel := blend_progress * nexttc.blend_vel * blend_scale }
    else { nexttc with target_vel := 0 }
  let r := tpUpdateCycleTP g m c st dbg tp nexttc
  (r.1, { r.2 with target_vel := save_vel })

/-- `tpHandleEmptyQueue`. -/
def tpHandleEmptyQueue (tp : TP K) (st : EmcmotStatus K) : TP K × EmcmotStatus K :=
  let tp := { tp with queue := tcqInit tp.queue }
  let tp := { tp with goalPos := tp.currentPos }
  let tp := { tp with done := 1 }
  let tp := { tp with depth := 0, activeDepth := 0 }
  let tp := { tp with aborting := 0 }
  let tp := { tp with execId := 0 }
  let tp := { tp with motionType := 0 }
  let tp := (tpResume tp).1
  (tp, { st with enables_queued := st.enables_new })

/-- `tpCompleteSegment`: the planner after the call, the controller calls made and the
return code. -/
def tpCompleteSegment (g : ExtGeom K) (tp : TP K) (tc : TC K) :
    TP K × List (IoEvent K) × TPErr :=
  if tp.spindle.waiting_for_atspeed = tc.id then (tp, [], TPErr.FAIL)
  else
    let tp :=
      if tc.synchronized ≠ TC_SYNC_NONE then
        { tp with spindle :=
          { tp.spindle with offset := tp.spindle.offset + tc.target / tc.uu_per_rev } }
      else { tp with spindle := { tp.spindle with offset := 0 } }
    if tc.indexrotary ≠ -1 ∧ g.emcmotGetRotaryIsUnlocked tc.indexrotary ≠ 0 then
      (tp, [IoEvent.rotaryUnlock tc.indexrotary 0], TPErr.FAIL)
    else
      let io : List (IoEvent K) :=
        if tc.indexrotary ≠ -1 then [IoEvent.rotaryUnlock tc.indexrotary 0] else []
      ({ tp with queue := (tcqRemove tp.queue 1).1 }, io, TPErr.OK)

/-- `tpHandleWaiting`: planner, status record and head segment after the call, and the
return code. -/
def tpHandleWaiting (c : TPConst K) (st : EmcmotStatus K) (tp : TP K) (tc : TC K) :
    TP K × EmcmotStatus K × TC K × TPErr :=
  let tp :=
    if c.MOTION_ID_VALID tp.spindle.waiting_for_index = true ∧
        tp.spindle.waiting_for_index ≠ tc.id
    then { tp with spindle := { tp.spindle with waiting_for_index := c.MOTION_INVALID_ID } }
    else tp
  let tp :=
    if c.MOTION_ID_VALID tp.spindle.waiting_for_atspeed = true ∧
        tp.spindle.waiting_for_atspeed ≠ tc.id
    then { tp with spindle := { tp.spindle with waiting_for_atspeed := c.MOTION_INVALID_ID } }
    else tp
  if c.MOTION_ID_VALID tp.spindle.waiting_for_atspeed = true ∧ st.spindle_is_atspeed = 0 then
    (tp, st, tc, TPErr.WAITING)
  else
    let tp :=
      if c.MOTION_ID_VALID tp.spindle.waiting_for_atspeed = true
      then { tp with spindle := { tp.spindle with waiting_for_atspeed := c.MOTION_INVALID_ID } }
      else tp
    if c.MOTION_ID_VALID tp.spindle.waiting_for_index = true then
      if st.spindle_index_enable ≠ 0 then (tp, st, tc, TPErr.WAITING)
      else
        let st := { st with spindleSync := 1 }
        let tp := { tp with spindle :=
          { tp.spindle with waiting_for_index := c.MOTION_INVALID_ID } }
        let tc := { tc with sync_accel := 1 }
        let tp := { tp with spindle := { tp.spindle with revs := 0 } }
        (tp, st, tc, TPErr.OK)
    else (tp, st, tc, TPErr.OK)

/-- `tpForceFinalizeSegment` on the segment in queue slot `n` (the pointer argument of the
C function; no segment there stands for the null pointer). -/
def tpForceFinalizeSegment (m : MathLib K) (c : TPConst K) (cfg : EmcmotConfig K) (tp : TP K)
    (n : Int) : TP K × TPErr :=
  match tcqItem tp.queue n with
  | none => (tp, TPErr.NO_ACTION)
  | some tc =>
    if tc.finalized = 0 then
      let tp := { tp with queue := tcqSetItem tp.queue n { tc with finalized := 1 } }
      (tpRunOptimization m c cfg tp, TPErr.OK)
    else (tp, TPErr.NO_ACTION)

/-- `tpFlagEarlyStop`: the first segment after the call, and the return code. -/
def tpFlagEarlyStop (tc nexttc : Option (TC K)) : Option (TC K) × TPErr :=
  match tc, nexttc with
  | some tc, some nexttc =>
    let tc :=
      if tc.synchronized ≠ TC_SYNC_POSITION ∧ nexttc.synchronized = TC_SYNC_POSITION
      then tcSetTermCond tc TC_TERM_COND_STOP else tc
    let tc := if nexttc.atspeed ≠ 0 then tcSetTermCond tc TC_TERM_COND_STOP else tc
    (some tc, TPErr.OK)
  | tc, _ => (tc, TPErr.NO_ACTION)

/-- `tpActivateSegment` on an existing segment: planner, status record and segment after
the call, the controller calls made and the return code. A zero sum
`currentvel + finalvel` makes `segment_time` infinite (or undefined for a zero length), so
the comparison with the cutoff time holds only for a negative length. -/
def tpActivateSegment (c : TPConst K) (g : ExtGeom K) (st : EmcmotStatus K) (tp : TP K)
    (tc : TC K) : TP K × EmcmotStatus K × TC K × List (IoEvent K) × TPErr :=
  if tc.active ≠ 0 then (tp, st, tc, [], TPErr.OK)
  else
    let cutoff_freq : K := 50
    let cutoff_time := 1 / cutoff_freq
    let length := tc.target - tc.progress
    let short : Bool :=
      if tc.currentvel + tc.finalvel = 0 then decide (length < 0)
      else decide (2 * length / (tc.currentvel + tc.finalvel) < cutoff_time)
    let tc :=
      if short = true ∧ tc.canon_motion_type ≠ c.EMC_MOTION_TYPE_TRAVERSE ∧
          tc.term_cond = TC_TERM_COND_TANGENT
      then { tc with accel_mode := c.TC_ACCEL_RAMP } else tc
    let needs_atspeed : Prop :=
      tc.atspeed ≠ 0 ∨ (tc.synchronized = TC_SYNC_POSITION ∧ st.spindleSync = 0)
    if needs_atspeed ∧ st.spindle_is_atspeed = 0 then
      ({ tp with spindle := { tp.spindle with waiting_for_atspeed := tc.id } }, st, tc, [],
        TPErr.WAITING)
    else if tc.indexrotary ≠ -1 ∧ g.emcmotGetRotaryIsUnlocked tc.indexrotary = 0 then
      (tp, st, tc, [IoEvent.rotaryUnlock tc.indexrotary 1], TPErr.WAITING)
    else
      let io : List (IoEvent K) :=
        if tc.indexrotary ≠ -1 then [IoEvent.rotaryUnlock tc.indexrotary 1] else []
      let tc := { tc with active := 1 }
      let tp := { tp with motionType := tc.canon_motion_type }
      let tc := { tc with blending_next := 0 }
      let tc := { tc with on_final_decel := 0 }
      if tc.synchronized = TC_SYNC_POSITION ∧ st.spindleSync = 0 then
        let tp := { tp with spindle := { tp.spindle with waiting_for_index := tc.id } }
        let st := { st with spindle_index_enable := 1 }
        let tp := { tp with spindle := { tp.spindle with offset := 0 } }
        (tp, st, tc, io, TPErr.WAITING)
      else (tp, st, tc, io, TPErr.OK)

/-- `tpDoParabolicBlending`: planner, status record and successor segment after the call,
and the writes made. `TP_SHOW_BLENDS` is defined at the top of `tp.c`, so the motion type
reported by the planner is reset to 0 after the status update. -/
def tpDoParabolicBlending (cfg : EmcmotConfig K) (g : ExtGeom K) (m : MathLib K)
    (c : TPConst K) (st : EmcmotStatus K) (dbg : EmcmotDebug K) (tp : TP K) (tc nexttc : TC K) :
    TP K × EmcmotStatus K × TC K × List (IoEvent K) :=
  let b := tpUpdateBlend g m c st dbg tp tc nexttc
  let tp := b.1
  let nexttc := b.2
  let r : TP K × EmcmotStatus K × TC K × List (IoEvent K) :=
    if tc.currentvel > nexttc.currentvel then
      let u := tpUpdateMovementStatus g st tp tc
      (u.1, u.2, nexttc, [])
    else
      let t := tpToggleDIOs cfg nexttc
      let u := tpUpdateMovementStatus g st tp t.1
      (u.1, u.2, t.1, t.2)
  let tp := { r.1 with motionType := 0 }
  let st := { r.2.1 with current_vel := tc.currentvel + r.2.2.1.currentvel }
  (tp, st, r.2.2.1, r.2.2.2)

/-- `tpHandleSplitCycle`: planner, status record, head segment and successor after the
call, the writes made and the return code. -/
def tpHandleSplitCycle (cfg : EmcmotConfig K) (g : ExtGeom K) (m : MathLib K) (c : TPConst K)
    (st : EmcmotStatus K) (dbg : EmcmotDebug K) (tp : TP K) (tc : TC K)
    (nexttc : Option (TC K)) :
    TP K × EmcmotStatus K × TC K × Option (TC K) × List (IoEvent K) × TPErr :=
  if tc.remove ≠ 0 then (tp, st, tc, nexttc, [], TPErr.NO_ACTION)
  else
    let before := g.tcGetPos tc
    let tc := { tc with progress := tc.target }
    let displacement := emcPoseSub (g.tcGetPos tc) before
    let tp := { tp with currentPos := emcPoseAdd tp.currentPos displacement }
    match nexttc with
    | some n =>
      if tc.term_cond = TC_TERM_COND_TANGENT then
        let n := { n with cycle_time := tp.cycleTime - tc.cycle_time }
        let n := { n with currentvel := tc.vel_at_blend_start }
        let u := tpUpdateCycleTP g m c st dbg tp n
        let tp := u.1
        let n := u.2
        if tc.cycle_time > n.cycle_time then
          let t := tpToggleDIOs cfg tc
          let s := tpUpdateMovementStatus g st tp t.1
          (s.1, s.2, { t.1 with remove := 1 }, some n, t.2, TPErr.OK)
        else
          let t := tpToggleDIOs cfg n
          let s := tpUpdateMovementStatus g st tp t.1
          (s.1, s.2, { tc with remove := 1 }, some t.1, t.2, TPErr.OK)
      else (tp, st, { tc with remove := 1 }, some n, [], TPErr.OK)
    | none => (tp, st, { tc with remove := 1 }, none, [], TPErr.OK)

/-- `tpHandleRegularCycle`: planner, status record, head segment and successor after the
call, the writes made and the return code. -/
def tpHandleRegularCycle (cfg : EmcmotConfig K) (g : ExtGeom K) (m : MathLib K)
    (c : TPConst K) (st : EmcmotStatus K) (dbg : EmcmotDebug K) (tp : TP K) (tc : TC K)
    (nexttc : Option (TC K)) :
    TP K × EmcmotStatus K × TC K × Option (TC K) × List (IoEvent K) × TPErr :=
  if tc.remove ≠ 0 then (tp, st, tc, nexttc, [], TPErr.NO_ACTION)
  else
    let tc := { tc with cycle_time := tp.cycleTime }
    let u := tpUpdateCycleTP g m c st dbg tp tc
    let tp := u.1
    let tc := u.2
    match nexttc with
    | some n =>
      let bv := tpComputeBlendVelocity m c cfg st tp (g.accelAngle tc n) tc n false false
      let tc := bv.1
      let n := bv.2.1
      let bl := g.tcIsBlending tc
      let tc := bl.1
      if bl.2 ≠ 0 then
        let p := tpDoParabolicBlending cfg g m c st dbg tp tc n
        (p.1, p.2.1, tc, some p.2.2.1, p.2.2.2, TPErr.OK)
      else
        let t := tpToggleDIOs cfg tc
        let s := tpUpdateMovementStatus g st tp t.1
        (s.1, s.2, t.1, some n, t.2, TPErr.OK)
    | none =>
      let t := tpToggleDIOs cfg tc
      let s := tpUpdateMovementStatus g st tp t.1
      (s.1, s.2, t.1, none, t.2, TPErr.OK)

/-- `tpUpdateInitialStatus`. -/
def tpUpdateInitialStatus (st : EmcmotStatus K) (tp : TP K) : EmcmotStatus K :=
  let st := { st with tcqlen := tcqLen tp.queue }
  { st with requested_vel := 0 }

/-- What one call of `tpRunCycle` leaves behind: the planner, the status record, the static
`old_spindlepos` of `tpUpdateRigidTapState`, the calls made into the motion controller and
the return code. -/
structure CycleResult (K : Type) [LinearOrderedField K] where
  tp : TP K
  st : EmcmotStatus K
  old_spindlepos : K
  io : List (IoEvent K)
  ret : TPErr

/-- `tpRunCycle` (tp.c) on an existing planner. The pointers `tc`, `nexttc` and `next2_tc`
are the queue slots 0, 1 and 2: what the cycle writes through them is written back to
those slots (the optimizer called by `tpForceFinalizeSegment` works on the queue itself
and keeps its length). -/
def tpRunCycle (m : MathLib K) (c : TPConst K) (cfg : EmcmotConfig K) (g : ExtGeom K)
    (dbg : EmcmotDebug K) (old_spindlepos : K) (st : EmcmotStatus K) (tp : TP K) :
    CycleResult K :=
  let st := tpUpdateInitialStatus st tp
  match tcqItem tp.queue 0 with
  | none =>
    let e := tpHandleEmptyQueue tp st
    ⟨e.1, e.2, old_spindlepos, [], TPErr.WAITING⟩
  | some tc0 =>
    let f1 := tpFlagEarlyStop (some tc0) (tcqItem tp.queue 1)
    let tp := { tp with queue := tcqSetItemOpt tp.queue 0 f1.1 }
    let f2 := tpFlagEarlyStop (tcqItem tp.queue 1) (tcqItem tp.queue 2)
    let tp := { tp with queue := tcqSetItemOpt tp.queue 1 f2.1 }
    let tp := (tpForceFinalizeSegment m c cfg tp 2).1
    let tc := (tcqItem tp.queue 0).getD tc0
    let nexttc := tcqItem tp.queue 1
    let ab := tpHandleAbort c st tp tc nexttc
    if ab.2.2 = TPErr.STOPPED then ⟨ab.1, ab.2.1, old_spindlepos, [], TPErr.STOPPED⟩
    else
      let w := tpHandleWaiting c ab.2.1 ab.1 tc
      let tp := { w.1 with queue := tcqSetItem w.1.queue 0 w.2.2.1 }
      let st := w.2.1
      let tc := w.2.2.1
      if w.2.2.2 ≠ TPErr.OK then ⟨tp, st, old_spindlepos, [], TPErr.WAITING⟩
      else
        let a := tpActivateSegment c g st tp tc
        let tp := { a.1 with queue := tcqSetItem a.1.queue 0 a.2.2.1 }
        let st := a.2.1
        let tc := a.2.2.1
        let io := a.2.2.2.1
        if a.2.2.2.2 = TPErr.WAITING then ⟨tp, st, old_spindlepos, io, TPErr.WAITING⟩
        else
          let rt : K × EmcmotStatus K × TC K :=
            if tc.motion_type = TC_RIGIDTAP
            then tpUpdateRigidTapState m c old_spindlepos st tp tc
            else (old_spindlepos, st, tc)
          let old_spindlepos := rt.1
          let st := rt.2.1
          let tc := rt.2.2
          let st := if tc.synchronized = 0 then { st with spindleSync := 0 } else st
          let sy : TP K × TC K × Option (TC K) :=
            if tc.synchronized = TC_SYNC_VELOCITY then
              (tp, tpSyncVelocityMode st tc nexttc, nexttc)
            else if tc.synchronized = TC_SYNC_POSITION then
              tpSyncPositionMode m c st tp tc nexttc
            else (tp, tc, nexttc)
          let h :=
            if sy.2.1.splitting ≠ 0
            then tpHandleSplitCycle cfg g m c st dbg sy.1 sy.2.1 sy.2.2
            else tpHandleRegularCycle cfg g m c st dbg sy.1 sy.2.1 sy.2.2
          let tc := h.2.2.1
          let q := tcqSetItemOpt (tcqSetItem h.1.queue 0 tc) 1 h.2.2.2.1
          let tp := { h.1 with queue := q }
          let io := io ++ h.2.2.2.2.1
          if tc.remove ≠ 0 then
            let cs := tpCompleteSegment g tp tc
            ⟨cs.1, h.2.1, old_spindlepos, io ++ cs.2.1, TPErr.OK⟩
          else ⟨tp, h.2.1, old_spindlepos, io, TPErr.OK⟩

/-! ## The blend-arc step of the append pipeline (`tp.c`) -/

/-- Modelled from the spec: posemath's `pmCartCartDot`, the dot product of two triples. -/
def pmCartCartDot (a b : PmCartesian K) : K := a.x * b.x + a.y * b.y + a.z * b.z

/-- Modelled from the spec: posemath's `pmCartCartCross`, the cross product. -/
def pmCartCartCross (a b : PmCartesian K) : PmCartesian K :=
  ⟨a.y * b.z - a.z * b.y, a.z * b.x - a.x * b.z, a.x * b.y - a.y * b.x⟩

/-- Modelled from the spec: posemath's `pmCartCartSub`, the difference `a - b`. -/
def pmCartCartSub (a b : PmCartesian K) : PmCartesian K := ⟨a.x - b.x, a.y - b.y, a.z - b.z⟩

/-- Modelled from the spec: posemath's `pmCartCartAdd`, the sum. -/
def pmCartCartAdd (a b : PmCartesian K) : PmCartesian K := ⟨a.x + b.x, a.y + b.y, a.z + b.z⟩

/-- Modelled from the spec: posemath's `pmCartScalMult`, the multiple `d · v`. -/
def pmCartScalMult (v : PmCartesian K) (d : K) : PmCartesian K := ⟨v.x * d, v.y * d, v.z * d⟩

/-- Modelled from the spec: posemath's `pmCartAbs`, the componentwise absolute value. -/
def pmCartAbs (v : PmCartesian K) : PmCartesian K := ⟨fabs v.x, fabs v.y, fabs v.z⟩

/-- Modelled from the spec: posemath's `pmCartCartDiv`, the componentwise quotient. -/
def pmCartCartDiv (a b : PmCartesian K) : PmCartesian K := ⟨a.x / b.x, a.y / b.y, a.z / b.z⟩

/-- Modelled from the spec: posemath's `pmCartUnit` (and its in-place form `pmCartUnitEq`),
the triple divided by its Euclidean length. The zero vector, for which posemath reports an
error, is left as it is. -/
def pmCartUnit (m : MathLib K) (v : PmCartesian K) : PmCartesian K :=
  let size := pmCartMag m v
  if size = 0 then v else ⟨v.x / size, v.y / size, v.z / size⟩

/-- Modelled from the spec: `tcqPopBack` (section 4.1: `pop_back` drops the tail); it fails
(-1) on an empty queue. -/
def tcqPopBack (q : TC_QUEUE_STRUCT K) : TC_QUEUE_STRUCT K × Int :=
  if q.queue.length = 0 then (q, -1) else ({ q with queue := q.queue.dropLast }, 0)

/-- The member `line` of the union `coords`; read on a segment that holds another member
it is the all-zero line. -/
def Coords.asLine : Coords K → PmLine9 K
  | Coords.line l => l
  | _ => {}

/-- The member `circle` of the union `coords` (all-zero when another member is held). -/
def Coords.asCircle : Coords K → PmCircle9 K
  | Coords.circle c => c
  | _ => {}

/-- The member `arc` of the union `coords` (all-zero when another member is held). -/
def Coords.asArc : Coords K → Arc9 K
  | Coords.arc a => a
  | _ => {}

/-- Routines of `tc.c`, `spherical_arc.c` and posemath that the blend-arc step calls and
that live outside the sources at hand.

* `tcGetEndTangentUnitVector`, `tcGetStartTangentUnitVector` (tc.c): the unit tangent at
  the end and at the start of a segment.
* `arcFromLines` (spherical_arc.c): from the arc to fill in, the two lines, `R_plan`,
  `d_plan`, `h_plan` and the `consume` flag it returns the arc and the points `circ_start`
  and `circ_end`.
* `arcLength` (spherical_arc.c): the length of a blend arc.
* `tcConnectBlendArc` (tc.c): shortens the previous segment (if one is passed) and the new
  segment to the end points of the arc; returns both and its return code.
* `pmCircleStretch`, `pmCartLineStretch` (posemath): the circle with a new angle and the
  line with a new length, measured from the start (`from_end = 0`) or from the end. -/
structure BlendExt (K : Type) [LinearOrderedField K] where
  tcGetEndTangentUnitVector : TC K → PmCartesian K
  tcGetStartTangentUnitVector : TC K → PmCartesian K
  arcFromLines : Arc9 K → PmCartLine K → PmCartLine K → K → K → K → Bool →
    Arc9 K × PmCartesian K × PmCartesian K
  arcLength : Arc9 K → K
  tcConnectBlendArc : Option (TC K) → TC K → PmCartesian K → PmCartesian K →
    Option (TC K) × TC K × TPErr
  pmCircleStretch : PmCircle K → K → Int → PmCircle K
  pmCartLineStretch : PmCartLine K → K → Int → PmCartLine K

/-- `tpRotaryMotionCheck`: true if there is motion along ABC or UVW. -/
def tpRotaryMotionCheck (tc : TC K) : Bool :=
  if tc.motion_type = TC_RIGIDTAP then false
  else if tc.motion_type = TC_LINEAR then
    !(decide (tc.coords.asLine.abc.tmag_zero ≠ 0) && decide (tc.coords.asLine.uvw.tmag_zero ≠ 0))
  else if tc.motion_type = TC_CIRCULAR then
    !(decide (tc.coords.asCircle.abc.tmag_zero ≠ 0) &&
      decide (tc.coords.asCircle.uvw.tmag_zero ≠ 0))
  else if tc.motion_type = TC_SPHERICAL then true
  else false

/-- `tpGetMachineAccelLimit`: the lowest acceleration bound of the joints 0, 1, 2. -/
def tpGetMachineAccelLimit (dbg : EmcmotDebug K) : K :=
  fmin (fmin dbg.acc_limit.x dbg.acc_limit.y) dbg.acc_limit.z

/-- `pmCartMin` (tp.c). -/
def pmCartMin (v : PmCartesian K) : K := fmin (fmin v.x v.y) v.z

/-- `tpGetPlanarLimit` (tp.c) and `calculateInscribedDiameter` (blendmath.c), which have
the same body: the diameter returned for a plane normal and the extents of the box. A
scale that is zero (normal along an axis) makes the C quotient of a non-negative extent
infinite or undefined, and `fmin` then returns its other operand: such a component is left
out of the minimum here. -/
def tpGetPlanarLimit (m : MathLib K) (normal extents : PmCartesian K) : K :=
  let planar_x := pmCartScalMult normal (-normal.x)
  let planar_y := pmCartScalMult normal (-normal.y)
  let planar_z := pmCartScalMult normal (-normal.z)
  let planar_x := { planar_x with x := planar_x.x + 1 }
  let planar_y := { planar_y with y := planar_y.y + 1 }
  let planar_z := { planar_z with z := planar_z.z + 1 }
  let planar_x := pmCartAbs planar_x
  let planar_y := pmCartAbs planar_y
  let planar_z := pmCartAbs planar_z
  let planar_scales : PmCartesian K :=
    ⟨pmCartMag m planar_x, pmCartMag m planar_y, pmCartMag m planar_z⟩
  let extents := pmCartCartDiv extents planar_scales
  if planar_scales.x = 0 then
    (if planar_scales.y = 0 then extents.z
     else if planar_scales.z = 0 then extents.y
     else fmin extents.y extents.z)
  else if planar_scales.y = 0 then
    (if planar_scales.z = 0 then extents.x else fmin extents.x extents.z)
  else if planar_scales.z = 0 then fmin extents.x extents.y
  else pmCartMin extents

/-- `tpGetPlanarAccelLimit`. -/
def tpGetPlanarAccelLimit (m : MathLib K) (dbg : EmcmotDebug K) (normal : PmCartesian K) : K :=
  let acc_bound := dbg.acc_limit
  if acc_bound.x = acc_bound.y ∧ acc_bound.y = acc_bound.z then acc_bound.x
  else tpGetPlanarLimit m normal acc_bound

/-- `tpGetPlanarVelLimit`. -/
def tpGetPlanarVelLimit (m : MathLib K) (dbg : EmcmotDebug K) (normal : PmCartesian K) : K :=
  let vel_bound := dbg.vel_limit
  if vel_bound.x = vel_bound.y ∧ vel_bound.y = vel_bound.z then vel_bound.x
  else tpGetPlanarLimit m normal vel_bound

/-- `tpMaxTangentAngle`. -/
def tpMaxTangentAngle (c : TPConst K) (tp : TP K) (v acc : K) : K :=
  let dx := v / tp.cycleTime
  if dx > 0 then acc / dx else c.TP_ANGLE_EPSILON

/-- `tpFindIntersectionAngle` (tp.c) and `findIntersectionAngle` (blendmath.c), which have
the same body: the angle `theta`; the return code is always `TP_ERR_OK`. -/
def tpFindIntersectionAngle (m : MathLib K) (u1 u2 : PmCartesian K) : K :=
  let dot := pmCartCartDot u1 u2
  let dot := if dot > 1 ∨ dot < -1 then (sat_inplace dot 1).1 else dot
  m.acos (-dot) / 2

/-- `tpInitBlendArc`: the blend arc after the call and the return code. -/
def tpInitBlendArc (c : TPConst K) (x : BlendExt K) (tp : TP K) (prev_line_tc blend_tc : TC K)
    (vel ini_maxvel acc : K) : TC K × TPErr :=
  if tpErrorCheck tp ≠ TPErr.OK then (blend_tc, TPErr.FAIL)
  else
    let blend_tc := { blend_tc with atspeed := prev_line_tc.atspeed }
    let blend_tc := { blend_tc with motion_type := TC_SPHERICAL }
    let blend_tc := { blend_tc with canon_motion_type := c.EMC_MOTION_TYPE_ARC }
    let blend_tc := { blend_tc with synchronized := prev_line_tc.synchronized,
                                    uu_per_rev := prev_line_tc.uu_per_rev, indexrotary := -1,
                                    enables := prev_line_tc.enables }
    let blend_tc := { blend_tc with syncdio := prev_line_tc.syncdio }
    if tpErrorCheck tp ≠ TPErr.OK then (blend_tc, TPErr.FAIL)
    else
      let length := x.arcLength blend_tc.coords.asArc
      let blend_tc := { blend_tc with target := length }
      let blend_tc := tcSetTermCond blend_tc TC_TERM_COND_TANGENT
      let blend_tc := { blend_tc with tolerance := 0 }
      let blend_tc := tpInitializeNewSegment c tp blend_tc vel ini_maxvel acc
        prev_line_tc.enables
      ({ blend_tc with finalized := 1 }, TPErr.OK)

/-- `quadraticFormula`: the two roots (left as passed in when the discriminant is
negative) and the return code. -/
def quadraticFormula (m : MathLib K) (A B C root0 root1 : K) : K × K × TPErr :=
  let disc := pmSq B - 4 * A * C
  if disc < 0 then (root0, root1, TPErr.FAIL)
  else
    let t1 := m.sqrt disc
    ((-B + t1) / (2 * A), (-B - t1) / (2 * A), TPErr.OK)

/-- `tpFindArcLineDist`: the distance `d`; the return code is always `TP_ERR_OK`. -/
def tpFindArcLineDist (m : MathLib K) (a b R1 T : K) (convex : Int) : K :=
  let sgn : K := if convex ≠ 0 then -1 else 1
  let A := T / (b - sgn * R1) - 1
  let B := T * a / (b - sgn * R1)
  let C := m.sqrt T
  let q := quadraticFormula m A B C 0 0
  let d0 := q.1
  let d1 := q.2.1
  if d0 > 0 ∧ d1 > 0 then fmin d0 d1 else fmax d0 d1

/-- `tpFindRadiusFromDist`: the radius written to `*R` (left at `R` on failure) and the
return code. -/
def tpFindRadiusFromDist (c : TPConst K) (a b R1 d : K) (convex : Int) (R : K) : K × TPErr :=
  let sgn : K := if convex ≠ 0 then -1 else 1
  let den := R1 - sgn * b
  if fabs den < c.TP_POS_EPSILON then (R, TPErr.FAIL)
  else (sgn * (pmSq d / 2 + a * d) / den, TPErr.OK)

/-- `tpFindDistFromRadius`: the distance `d`. -/
def tpFindDistFromRadius (m : MathLib K) (a b R1 R : K) (convex : Int) : K :=
  let sgn : K := if convex ≠ 0 then -1 else 1
  let K1 := pmSq (b + R)
  let K2 := pmSq (R1 + sgn * R)
  let q := quadraticFormula m 1 (2 * a) (K1 - K2 + pmSq a) 0 0
  let d0 := q.1
  let d1 := q.2.1
  if d0 > 0 ∧ d1 > 0 then fmin d0 d1 else fmax d0 d1

/-- `tpLineArcConvexTest`. -/
def tpLineArcConvexTest (C1 P u2 : PmCartesian K) : Int :=
  let diff := pmCartCartSub P C1
  let dot := pmCartCartDot diff u2
  if dot > 0 then 0 else 1

/-- The struct `LineArcData` with the fields that `tp.c` uses (its declaration is not
among the sources at hand). -/
structure LineArcData (K : Type) [LinearOrderedField K] where
  tolerance : K := 0
  u1 : PmCartesian K := {}
  u2 : PmCartesian K := {}
  P : PmCartesian K := {}
  C1 : PmCartesian K := {}
  R1 : K := 0
  L2 : K := 0
  v_req : K := 0
  a_max : K := 0
  R : K := 0
  d : K := 0
  v_plan : K := 0
  v_actual : K := 0
  C : PmCartesian K := {}
  Q1 : PmCartesian K := {}
  Q2 : PmCartesian K := {}
  dphi1 : K := 0
  deriving DecidableEq

/-- `lineArcComputeData`: the data after the call; the return code is always
`TP_ERR_OK`. -/
def lineArcComputeData (m : MathLib K) (c : TPConst K) (dbg : EmcmotDebug K)
    (linearc : LineArcData K) : LineArcData K :=
  let binormal := pmCartCartCross linearc.u1 linearc.u2
  let binormal := pmCartUnit m binormal
  let n2 := pmCartCartCross binormal linearc.u2
  let convex := tpLineArcConvexTest linearc.C1 linearc.P linearc.u2
  let sgn : K := if convex ≠ 0 then -1 else 1
  let r_C1P := pmCartCartSub linearc.P linearc.C1
  let a := pmCartCartDot r_C1P linearc.u2
  let b := pmCartCartDot r_C1P n2
  let d_tol := tpFindArcLineDist m a b linearc.R1 linearc.tolerance convex
  let d_line := fmin d_tol (linearc.L2 * (1 / 2))
  let R_line := (tpFindRadiusFromDist c a b linearc.R1 d_line convex 0).1
  let R_bound : K := 10
  let R_geom := fmin R_line R_bound
  let a_max := tpGetMachineAccelLimit dbg
  let a_n_max := a_max * c.TP_ACC_RATIO_NORMAL
  let v_normal := m.sqrt (a_n_max * R_geom)
  let v_upper := fmin linearc.v_req v_normal
  let R_upper := pmSq v_upper / a_n_max
  let d_upper := tpFindDistFromRadius m a b linearc.R1 R_upper convex
  let C := pmCartScalMult linearc.u2 d_upper
  let tmp := pmCartScalMult n2 R_upper
  let C := pmCartCartAdd linearc.P C
  let C := pmCartCartAdd tmp C
  let r_C1C := pmCartCartSub linearc.C1 C
  let uc := pmCartUnit m r_C1C
  let Q1 := pmCartScalMult uc (R_upper * sgn)
  let Q1 := pmCartCartAdd Q1 C
  let Q2 := pmCartScalMult linearc.u2 d_upper
  let Q2 := pmCartCartAdd linearc.P Q2
  let up := pmCartUnit m r_C1P
  let dot := pmCartCartDot up uc
  { linearc with a_max := a_max, R := R_upper, d := d_upper, v_plan := v_upper, C := C,
                 Q1 := Q1, Q2 := Q2, dphi1 := m.acos dot }

/-- `tpCreateArcLineBlend`: the previous segment, the new segment and the blend arc after
the call, and the return code. The call `tcFindBlendTolerance(prev_tc, tc)` passes two of
the four arguments, so nothing is written to a tolerance; what is assigned to
`linearc.tolerance` is the return code of that function, `TP_ERR_OK = 0`. -/
def tpCreateArcLineBlend (m : MathLib K) (c : TPConst K) (cfg : EmcmotConfig K)
    (x : BlendExt K) (st : EmcmotStatus K) (dbg : EmcmotDebug K) (tp : TP K)
    (prev_tc tc blend_tc : TC K) : TC K × TC K × TC K × TPErr :=
  let linearc : LineArcData K := { tolerance := 0 }
  let dot := pmCartCartDot prev_tc.coords.asCircle.xyz.normal tc.coords.asLine.xyz.uVec
  if dot > c.TP_POS_EPSILON then (prev_tc, tc, blend_tc, TPErr.FAIL)
  else
    let linearc := { linearc with
      u1 := x.tcGetEndTangentUnitVector prev_tc,
      u2 := x.tcGetStartTangentUnitVector tc,
      P := tc.coords.asLine.xyz.start,
      C1 := prev_tc.coords.asCircle.xyz.center,
      R1 := prev_tc.coords.asCircle.xyz.radius,
      L2 := tc.target,
      v_req := fmax (tpGetMaxTargetVel cfg prev_tc) (tpGetMaxTargetVel cfg tc) }
    let linearc := lineArcComputeData m c dbg linearc
    let v_actual := fmin (fmax (tpGetRealTargetVel c st tp prev_tc)
      (tpGetRealTargetVel c st tp tc)) linearc.v_plan
    let linearc := { linearc with v_actual := v_actual }
    let blend_tc :=
      (tpInitBlendArc c x tp prev_tc blend_tc linearc.v_actual linearc.v_plan linearc.a_max).1
    let new_angle := prev_tc.coords.asCircle.xyz.angle - linearc.dphi1
    let circle9 : PmCircle9 K :=
      { prev_tc.coords.asCircle with
        xyz := x.pmCircleStretch prev_tc.coords.asCircle.xyz new_angle 0 }
    let prev_tc := { prev_tc with coords := Coords.circle circle9 }
    let new_len := tc.coords.asLine.xyz.tmag - linearc.d
    let line9 : PmLine9 K :=
      { tc.coords.asLine with xyz := x.pmCartLineStretch tc.coords.asLine.xyz new_len 1 }
    let tc := { tc with coords := Coords.line line9 }
    (prev_tc, tc, blend_tc, TPErr.FAIL)

/-- The whole of `tpCreateLineLineBlend`: the planning (`tpCreateLineLineBlend` above)
followed by the construction of the arc and its connection to the two lines. `prev_tc` is
the tail of the queue; what the function writes through that pointer is written back to
the tail slot. Returns the planner, the new segment and the blend arc after the call, and
the return code. -/
def tpCreateLineLineBlendTC (m : MathLib K) (c : TPConst K) (cfg : EmcmotConfig K)
    (g : ExtGeom K) (x : BlendExt K) (st : EmcmotStatus K) (dbg : EmcmotDebug K) (tp : TP K)
    (prev_tc tc blend_tc : TC K) : TP K × TC K × TC K × TPErr :=
  let l1 := prev_tc.coords.asLine.xyz
  let l2 := tc.coords.asLine.xyz
  let theta := tpFindIntersectionAngle m l1.uVec l2.uVec
  let binormal := pmCartUnit m (pmCartCartCross l1.uVec l2.uVec)
  let a_max := tpGetPlanarAccelLimit m dbg binormal
  let v_max := tpGetPlanarVelLimit m dbg binormal
  let p := tpCreateLineLineBlend m c cfg st tp theta a_max v_max (g.accelAngle prev_tc tc)
    prev_tc tc
  match p.abort with
  | some e => (tp, tc, blend_tc, e)
  | none =>
    let arc := x.arcFromLines blend_tc.coords.asArc l1 l2 p.R_plan p.d_plan p.h_plan p.consume
    let blend_tc := { blend_tc with coords := Coords.arc arc.1 }
    let circ_start := arc.2.1
    let circ_end := arc.2.2
    let arc9 : Arc9 K :=
      { blend_tc.coords.asArc with abc := prev_tc.coords.asLine.abc.end_,
                                   uvw := prev_tc.coords.asLine.uvw.end_ }
    let blend_tc := { blend_tc with coords := Coords.arc arc9 }
    let blend_tc := (tpInitBlendArc c x tp prev_tc blend_tc p.v_actual p.v_plan a_max).1
    if p.consume then
      let pop := tcqPopBack tp.queue
      let tp := { tp with queue := pop.1 }
      if pop.2 ≠ 0 then (tp, tc, blend_tc, TPErr.FAIL)
      else
        let cn := x.tcConnectBlendArc none tc circ_start circ_end
        (tp, cn.2.1, blend_tc, cn.2.2)
    else
      let arc9 : Arc9 K := { blend_tc.coords.asArc with line_length := 0 }
      let blend_tc := { blend_tc with coords := Coords.arc arc9 }
      let cn := x.tcConnectBlendArc (some prev_tc) tc circ_start circ_end
      let tp :=
        match cn.1 with
        | some p => { tp with queue := tcqSetLast tp.queue p }
        | none => tp
      (tp, cn.2.1, blend_tc, cn.2.2)

/-- The enumeration `blend_type_t` used by `tpCheckBlendArcType`. -/
inductive blend_type_t where
  | BLEND_NONE
  | BLEND_LINE_LINE
  | BLEND_LINE_ARC
  | BLEND_ARC_LINE
  | BLEND_ARC_ARC
  deriving DecidableEq, Repr

/-- `tpCheckBlendArcType` (the local `omega` is 0 throughout). -/
def tpCheckBlendArcType (m : MathLib K) (c : TPConst K) (prev_tc : Option (TC K)) (tc : TC K) :
    blend_type_t :=
  let omega : K := 0
  match prev_tc with
  | none => blend_type_t.BLEND_NONE
  | some prev_tc =>
    if prev_tc.term_cond ≠ TC_TERM_COND_PARABOLIC then blend_type_t.BLEND_NONE
    else if tpRotaryMotionCheck tc = true ∨ tpRotaryMotionCheck prev_tc = true then
      blend_type_t.BLEND_NONE
    else if m.pi - omega < c.TP_MIN_ARC_ANGLE then blend_type_t.BLEND_NONE
    else if tc.finalized ≠ 0 ∨ prev_tc.finalized ≠ 0 then blend_type_t.BLEND_NONE
    else if prev_tc.motion_type = TC_LINEAR ∧ tc.motion_type = TC_LINEAR then
      blend_type_t.BLEND_LINE_LINE
    else if prev_tc.motion_type = TC_LINEAR ∧ tc.motion_type = TC_CIRCULAR then
      blend_type_t.BLEND_LINE_ARC
    else if prev_tc.motion_type = TC_CIRCULAR ∧ tc.motion_type = TC_LINEAR then
      blend_type_t.BLEND_ARC_LINE
    else if prev_tc.motion_type = TC_CIRCULAR ∧ tc.motion_type = TC_CIRCULAR then
      blend_type_t.BLEND_ARC_ARC
    else blend_type_t.BLEND_NONE

/-- `tpSetupTangent` for two existing segments: the previous segment and the new segment
after the call, and the return code. -/
def tpSetupTangent (m : MathLib K) (c : TPConst K) (cfg : EmcmotConfig K) (x : BlendExt K)
    (dbg : EmcmotDebug K) (tp : TP K) (prev_tc tc : TC K) : TC K × TC K × TPErr :=
  if tpRotaryMotionCheck tc = true ∨ tpRotaryMotionCheck prev_tc = true then
    (prev_tc, tc, TPErr.NO_ACTION)
  else if cfg.arcBlendOptDepth < 2 then (prev_tc, tc, TPErr.NO_ACTION)
  else
    let prev_tan := x.tcGetEndTangentUnitVector prev_tc
    let this_tan := x.tcGetStartTangentUnitVector tc
    let theta := tpFindIntersectionAngle m prev_tan this_tan
    let phi := m.pi - 2 * theta
    let v_reachable := fmax (tpGetMaxTargetVel cfg tc) (tpGetMaxTargetVel cfg prev_tc)
    let acc_limit := tpGetMachineAccelLimit dbg
    let TP_ACC_RATIO_TANGENT_NORMAL := c.TP_ACC_RATIO_NORMAL * (2 / 10)
    let acc_margin := TP_ACC_RATIO_TANGENT_NORMAL * acc_limit
    let max_angle := tpMaxTangentAngle c tp v_reachable acc_margin
    let a_n_actual := 2 * m.sin (phi / 2) * v_reachable / tp.cycleTime
    let a_t_ratio := 1 - a_n_actual / acc_limit
    if phi ≤ max_angle then
      let prev_tc := tcSetTermCond prev_tc TC_TERM_COND_TANGENT
      let prev_tc := { prev_tc with maxaccel := prev_tc.maxaccel * a_t_ratio }
      let tc := { tc with maxaccel := tc.maxaccel * a_t_ratio }
      let prev_tc := { prev_tc with
        maxvel := fmin prev_tc.maxvel (prev_tc.target / tp.cycleTime / c.TP_MIN_SEGMENT_CYCLES) }
      (prev_tc, tc, TPErr.OK)
    else (prev_tc, tc, TPErr.NO_ACTION)

/-- `tpHandleBlendArc`: the planner and the new segment after the call, and the return
code. `prev_tc` is the tail of the queue; what is written through that pointer is written
back to the tail slot. The local `blend_tc` starts as the all-zero segment. -/
def tpHandleBlendArc (m : MathLib K) (c : TPConst K) (cfg : EmcmotConfig K) (g : ExtGeom K)
    (x : BlendExt K) (st : EmcmotStatus K) (dbg : EmcmotDebug K) (tp : TP K) (tc : TC K) :
    TP K × TC K × TPErr :=
  match tcqLast tp.queue with
  | none => (tp, tc, TPErr.FAIL)
  | some prev_tc =>
    if prev_tc.progress > 0 then (tp, tc, TPErr.FAIL)
    else
      let t := tpSetupTangent m c cfg x dbg tp prev_tc tc
      let tp := { tp with queue := tcqSetLast tp.queue t.1 }
      let prev_tc := t.1
      let tc := t.2.1
      if t.2.2 = TPErr.OK then (tp, tc, TPErr.OK)
      else
        let blend_tc : TC K :=
          { target := 0, motion_type := 0, term_cond := 0, indexrotary := 0,
            coords := Coords.arc {} }
        match tpCheckBlendArcType m c (some prev_tc) tc with
        | blend_type_t.BLEND_LINE_LINE =>
          let r := tpCreateLineLineBlendTC m c cfg g x st dbg tp prev_tc tc blend_tc
          if r.2.2.2 = TPErr.OK then
            ((tpAddSegmentToQueue g r.1 r.2.2.1 false).1, r.2.1, TPErr.OK)
          else (r.1, r.2.1, r.2.2.2)
        | blend_type_t.BLEND_LINE_ARC => (tp, tc, TPErr.FAIL)
        | blend_type_t.BLEND_ARC_LINE =>
          let r := tpCreateArcLineBlend m c cfg x st dbg tp prev_tc tc blend_tc
          let tp := { tp with queue := tcqSetLast tp.queue r.1 }
          if r.2.2.2 = TPErr.OK then
            ((tpAddSegmentToQueue g tp r.2.2.1 false).1, r.2.1, TPErr.OK)
          else (tp, r.2.1, r.2.2.2)
        | blend_type_t.BLEND_ARC_ARC => (tp, tc, TPErr.FAIL)
        | blend_type_t.BLEND_NONE => (tp, tc, TPErr.FAIL)

/-- The geometry routines `g` with the blend-arc step of `tpAddLine` and `tpAddCircle`
given by `tpHandleBlendArc` of `tp.c`. -/
def ExtGeom.withBlendArc (g : ExtGeom K) (m : MathLib K) (c : TPConst K)
    (cfg : EmcmotConfig K) (x : BlendExt K) (st : EmcmotStatus K) (dbg : EmcmotDebug K) :
    ExtGeom K :=
  { g with tpHandleBlendArc := fun tp tc =>
      ((LinuxCNC.tpHandleBlendArc m c cfg g x st dbg tp tc).1,
        (LinuxCNC.tpHandleBlendArc m c cfg g x st dbg tp tc).2.1) }

/-! ## Initialisation and the remaining setters (`tp.c`) -/

/-- `tpGetMachineVelLimit`: the lowest velocity bound of the joints 0, 1, 2. -/
def tpGetMachineVelLimit (dbg : EmcmotDebug K) : K :=
  fmin (fmin dbg.vel_limit.x dbg.vel_limit.y) dbg.vel_limit.z

/-- `tpInit` on an existing planner: the planner and the status record after the call, and
the return code. -/
def tpInit (c : TPConst K) (cfg : EmcmotConfig K) (dbg : EmcmotDebug K) (st : EmcmotStatus K)
    (tp : TP K) : TP K × EmcmotStatus K × TPErr :=
  let tp := { tp with cycleTime := 0 }
  let tp := { tp with vLimit := 0 }
  let tp := { tp with ini_maxvel := 0 }
  let tp := { tp with aLimit := 0 }
  let tp := { tp with aMax := tpGetMachineAccelLimit dbg }
  let tp := { tp with wMax := 0 }
  let tp := { tp with wDotMax := 0 }
  let tp := { tp with spindle :=
    { offset := 0, revs := 0, waiting_for_index := c.MOTION_INVALID_ID,
      waiting_for_atspeed := c.MOTION_INVALID_ID } }
  let tp := { tp with currentPos :=
    { tran := ⟨0, 0, 0⟩, a := 0, b := 0, c := 0, u := 0, v := 0, w := 0 } }
  let tp := { tp with vMax := tpGetMachineVelLimit dbg }
  tpClear cfg st tp

/-- `tpSetVlimit` on an existing planner. -/
def tpSetVlimit (tp : TP K) (vLimit : K) : TP K × TPErr :=
  if vLimit < 0 then ({ tp with vLimit := 0 }, TPErr.OK)
  else ({ tp with vLimit := vLimit }, TPErr.OK)

/-- `tpSetTermCond` on an existing planner (an invalid condition returns -1, the value of
`TP_ERR_FAIL`). -/
def tpSetTermCond (tp : TP K) (cond : Int) (tolerance : K) : TP K × TPErr :=
  if cond = TC_TERM_COND_PARABOLIC ∨ cond = TC_TERM_COND_TANGENT ∨ cond = TC_TERM_COND_STOP
  then ({ tp with termCond := cond, tolerance := tolerance }, TPErr.OK)
  else (tp, TPErr.FAIL)

/-- `tpSetPos` on an existing planner. -/
def tpSetPos (tp : TP K) (pos : EmcPose K) : TP K × TPErr :=
  ({ tp with currentPos := pos, goalPos := pos }, TPErr.OK)

/-- `tpIsDone` on an existing planner. -/
def tpIsDone (tp : TP K) : Int := tp.done

/-! ## Blend initialisation (`blendmath.c`) -/

/-- The struct `BlendGeom3` of `blendmath.h`. -/
structure BlendGeom3 (K : Type) [LinearOrderedField K] where
  u1 : PmCartesian K := {}
  u2 : PmCartesian K := {}
  P : PmCartesian K := {}
  normal : PmCartesian K := {}
  binormal : PmCartesian K := {}
  deriving DecidableEq

/-- `findIntersectionAngle` (blendmath.c), whose body is that of
`tpFindIntersectionAngle`. -/
def findIntersectionAngle (m : MathLib K) (u1 u2 : PmCartesian K) : K :=
  tpFindIntersectionAngle m u1 u2

/-- `calculateInscribedDiameter` (blendmath.c), whose body is that of `tpGetPlanarLimit`. -/
def calculateInscribedDiameter (m : MathLib K) (normal bounds : PmCartesian K) : K :=
  tpGetPlanarLimit m normal bounds

/-- `blendCalculateNormals3` (blendmath.c): the geometry with its binormal and normal. -/
def blendCalculateNormals3 (m : MathLib K) (geom : BlendGeom3 K) : BlendGeom3 K :=
  let binormal := pmCartCartCross geom.u1 geom.u2
  let binormal := pmCartUnit m binormal
  let normal := pmCartCartSub geom.u2 geom.u1
  let normal := pmCartUnit m normal
  { geom with binormal := binormal, normal := normal }

/-- `blendInit3` (blendmath.c): geometry and parameters after the call, and the return
code. -/
def blendInit3 (m : MathLib K) (c : TPConst K) (geom : BlendGeom3 K)
    (param : BlendParameters K) (prev_tc tc : TC K) (acc_bound vel_bound : PmCartesian K)
    (maxFeedScale : K) : BlendGeom3 K × BlendParameters K × TPErr :=
  let geom := { geom with u1 := prev_tc.coords.asLine.xyz.uVec,
                          u2 := tc.coords.asLine.xyz.uVec,
                          P := prev_tc.coords.asLine.xyz.end_ }
  let theta := findIntersectionAngle m geom.u1 geom.u2
  let phi := m.pi - theta * 2
  let geom := blendCalculateNormals3 m geom
  let a_max := calculateInscribedDiameter m geom.binormal acc_bound
  let a_n_max := a_max * c.TP_ACC_RATIO_NORMAL
  let v_req := fmin prev_tc.reqvel tc.reqvel
  let v_goal := v_req * maxFeedScale
  let v_max := calculateInscribedDiameter m geom.binormal vel_bound
  let v_goal := fmin v_goal v_max
  let greediness : K := 1 / 2
  let L1 := fmin prev_tc.target (prev_tc.nominal_length * greediness)
  let L2 := tc.target * greediness
  let tolerance := (tcFindBlendTolerance prev_tc tc).1
  (geom,
   { param with theta := theta, phi := phi, a_max := a_max, a_n_max := a_n_max,
                v_req := v_req, v_goal := v_goal, L1 := L1, L2 := L2, tolerance := tolerance },
   TPErr.OK)

/-! ## Parts of the cycle named in the statements (`tp.c`) -/

/-- The discriminant `discr` that `tpCalculateTrapezoidalAccel` computes:
`v_f² + a (2 dx - v dt) + (a dt / 2)²`. -/
def trapezoidDiscr (c : TPConst K) (st : EmcmotStatus K) (dbg : EmcmotDebug K) (tp : TP K)
    (tc : TC K) : K :=
  let tc_target_vel := tpGetRealTargetVel c st tp tc
  let tc_finalvel := tpGetRealFinalVel c st dbg tp tc tc_target_vel
  let tc_finalvel :=
    if tc_finalvel > 0 ∧ tc.term_cond ≠ TC_TERM_COND_TANGENT then 0 else tc_finalvel
  let dx := tc.target - tc.progress
  let maxaccel := tpGetScaledAccel c tc
  let discr_term1 := pmSq tc_finalvel
  let discr_term2 := maxaccel * (2 * dx - tc.currentvel * tc.cycle_time)
  let tmp_adt := maxaccel * tc.cycle_time * (1 / 2)
  let discr_term3 := pmSq tmp_adt
  discr_term1 + discr_term2 + discr_term3

/-- One trapezoidal update of a segment: `tpCalculateTrapezoidalAccel` followed by
`tcUpdateDistFromAccel`, as in `tpUpdateCycle`. -/
def tpTrapezoidalUpdate (m : MathLib K) (c : TPConst K) (st : EmcmotStatus K)
    (dbg : EmcmotDebug K) (tp : TP K) (tc : TC K) : TC K :=
  let av := tpCalculateTrapezoidalAccel m c st dbg tp tc
  tcUpdateDistFromAccel c tc av.1 av.2

/-- The planner as `tpHandleSplitCycle` leaves it after moving the head segment to its
target: the displacement of the head is added to `currentPos`. -/
def tpSplitPlanner (g : ExtGeom K) (tp : TP K) (tc : TC K) : TP K :=
  let before := g.tcGetPos tc
  let tc := { tc with progress := tc.target }
  let displacement := emcPoseSub (g.tcGetPos tc) before
  { tp with currentPos := emcPoseAdd tp.currentPos displacement }

/-- The successor as `tpHandleSplitCycle` hands it to `tpUpdateCycle` behind a tangent head:
`nexttc->cycle_time = tp->cycleTime - tc->cycle_time` and
`nexttc->currentvel = tc->vel_at_blend_start`. -/
def tpSplitSuccessor (tp : TP K) (tc n : TC K) : TC K :=
  let n := { n with cycle_time := tp.cycleTime - tc.cycle_time }
  { n with currentvel := tc.vel_at_blend_start }

/-- The struct `BlendPoints3` of `blendmath.h`. -/
structure BlendPoints3 (K : Type) [LinearOrderedField K] where
  arc_start : PmCartesian K := {}
  arc_end : PmCartesian K := {}
  arc_center : PmCartesian K := {}
  deriving DecidableEq

/-- `blendFindPoints3` (blendmath.c): the three arc points and the return code. -/
def blendFindPoints3 (m : MathLib K) (points : BlendPoints3 K) (geom : BlendGeom3 K)
    (param : BlendParameters K) : BlendPoints3 K × TPErr :=
  let center_dist := param.R_plan / m.sin param.theta
  let arc_center := pmCartScalMult geom.normal center_dist
  let arc_center := pmCartCartAdd arc_center geom.P
  let arc_start := pmCartScalMult geom.u1 (-param.d_plan)
  let arc_start := pmCartCartAdd arc_start geom.P
  let arc_end := pmCartScalMult geom.u2 param.d_plan
  let arc_end := pmCartCartAdd arc_end geom.P
  ({ points with arc_start := arc_start, arc_end := arc_end, arc_center := arc_center },
   TPErr.OK)

/-- `tpActiveDepth` on an existing planner. -/
def tpActiveDepth (tp : TP K) : Int := tp.activeDepth

/-! ## Predicates used in the statements -/

/-- What `tpCheckEndCondition` and `tpHandleSplitCycle` leave in `cycle_time`: a positive
fragment of the servo period, or 0 on a segment flagged `splitting` that stands at its
target. -/
def SplitTimeOk (period : K) (tc : TC K) : Prop :=
  (0 < tc.cycle_time ∧ tc.cycle_time ≤ period) ∨
  (tc.cycle_time = 0 ∧ tc.splitting = 1 ∧ tc.progress = tc.target)

/-- What a later append leaves of a segment `a` that was finalized: the segment `b` found
in its place has the same `target`, is finalized, and its `maxvel` is not above
`max a.maxvel 0`. -/
def FinalizedKept (a b : TC K) : Prop :=
  b.target = a.target ∧ b.finalized = 1 ∧ b.maxvel ≤ max a.maxvel 0

/-- Every segment of the queue `l` whose `finalized` flag is 1 is found in the same slot of
the queue `l'`, with the properties of `FinalizedKept`. -/
def QueueFinalizedKept (l l' : List (TC K)) : Prop :=
  ∀ (i : Nat) (a : TC K), l[i]? = some a → a.finalized = 1 →
    ∃ b : TC K, l'[i]? = some b ∧ FinalizedKept a b

/-! ## Sample data for concrete evaluations -/

/-- Sample values for the constants of the absent headers (used only to evaluate the
model on concrete inputs). -/
def sampleConst : TPConst K :=
  { TP_VEL_EPSILON := 1 / 10 ^ 8
    TP_POS_EPSILON := 1 / 10 ^ 12
    TP_TIME_EPSILON := 1 / 10 ^ 12
    TP_ACC_RATIO_TANGENTIAL := 1 / 2
    TP_ACC_RATIO_NORMAL := 1 / 2
    TP_MIN_SEGMENT_CYCLES := 2
    TP_MIN_ARC_LENGTH := 1 / 10 ^ 6
    TP_MIN_ARC_ANGLE := 1 / 10 ^ 3
    TP_ANGLE_EPSILON := 1 / 10 ^ 6
    CART_FUZZ := 1 / 10 ^ 8
    TP_OPTIMIZATION_CUTOFF := 4
    TC_ACCEL_TRAPZ := 0
    TC_ACCEL_RAMP := 1
    EMC_MOTION_TYPE_TRAVERSE := 1
    EMC_MOTION_TYPE_ARC := 3
    MOTION_INVALID_ID := -1
    MOTION_ID_VALID := fun x => decide (x ≠ -1) }

/-- A tangent segment in ramp mode, one ten-thousandth of a unit before its end, moving
at 9 with `maxvel = 10` and a final velocity of 10. -/
def rampOvershootSeg : TC K :=
  { accel_mode := 1, term_cond := TC_TERM_COND_TANGENT, currentvel := 9, maxvel := 10,
    target_vel := 10, finalvel := 10, maxaccel := 2000, cycle_time := 1 / 1000,
    target := 1, progress := 9999 / 10000 }

/-- A tangent segment in ramp mode in the middle of a long move. -/
def rampCruiseSeg : TC K :=
  { accel_mode := 1, term_cond := TC_TERM_COND_TANGENT, currentvel := 9, maxvel := 10,
    target_vel := 10, finalvel := 10, maxaccel := 2000, cycle_time := 1 / 1000,
    target := 100, progress := 5 }

/-- The intersection half-angle of the 3-4-5 triangle: `sin θ = 3/5`, `cos θ = 4/5`. -/
noncomputable def blendTheta : ℝ := Real.arcsin (3 / 5)

/-- A line of length 10 with feed 100 and blend tolerance 0.1 (scenario S3). -/
def blendSeg : TC K :=
  { target := 10, nominal_length := 10, reqvel := 100, target_vel := 100, maxvel := 150,
    maxaccel := 200, tolerance := 1 / 10, term_cond := TC_TERM_COND_PARABOLIC,
    cycle_time := 1 / 1000 }

/-- Blend arcs enabled with greediness 1/2 and no parabolic fallback. -/
def blendCfg : EmcmotConfig K :=
  { maxFeedScale := 1, arcBlendEnable := 1, arcBlendGreediness := 1 / 2 }

/-- Blend parameters as `blendInit3` produces them for two `blendSeg` lines meeting at
`blendTheta` with planar limits 200 and 150. -/
noncomputable def blendParam : BlendParameters ℝ :=
  { tolerance := 1 / 10, L1 := 5, L2 := 5, v_req := 100, a_max := 200, theta := blendTheta,
    phi := Real.pi - blendTheta * 2, a_n_max := 100, v_goal := 100 }

/-- A rigid-tap segment in state `TAPPING` that has just reached its reversal depth 2. -/
def tapSegAtDepth : TC K :=
  { motion_type := TC_RIGIDTAP, synchronized := TC_SYNC_POSITION, uu_per_rev := 1,
    target := 12, progress := 2, maxvel := 120, maxaccel := 400, cycle_time := 1 / 1000,
    coords := Coords.rigidtap
      { xyz := { start := ⟨0, 0, 0⟩, end_ := ⟨0, 0, 2⟩, uVec := ⟨0, 0, 1⟩, tmag := 2 },
        reversal_target := 2, state := RIGIDTAP_STATE.TAPPING } }

/-- A moving head segment of an aborting planner. -/
def movingSeg : TC K := { target := 10, progress := 5, currentvel := 3, maxvel := 50 }

/-- A head segment at rest. -/
def restingSeg : TC K := { target := 10, progress := 5, currentvel := 0, maxvel := 50 }

/-- An aborting planner with one queued segment and no pending spindle wait. -/
def abortingTP : TP K :=
  { aborting := 1, pausing := 1, done := 0, depth := 1, execId := 7,
    queue := { queue := [restingSeg], size := 32 },
    spindle := { waiting_for_index := -1, waiting_for_atspeed := -1 } }

/-- The sample tap after the reversal has been commanded. -/
def tapSegReversing : TC K :=
  { motion_type := TC_RIGIDTAP, synchronized := TC_SYNC_POSITION, uu_per_rev := 1,
    target := 12, progress := 2, maxvel := 120, maxaccel := 400, cycle_time := 1 / 1000,
    coords := Coords.rigidtap
      { xyz := { start := ⟨0, 0, 0⟩, end_ := ⟨0, 0, 2⟩, uVec := ⟨0, 0, 1⟩, tmag := 2 },
        reversal_target := 2, state := RIGIDTAP_STATE.REVERSING } }

/-- An earlier tap in state `FINAL_REVERSAL`, back at its start point. -/
def earlierTapSeg : TC K :=
  { motion_type := TC_RIGIDTAP, synchronized := TC_SYNC_POSITION, uu_per_rev := 1,
    target := 15, progress := 5, maxvel := 120, maxaccel := 400, cycle_time := 1 / 1000,
    coords := Coords.rigidtap
      { xyz := { start := ⟨0, 0, 0⟩, end_ := ⟨0, 0, 5⟩, uVec := ⟨0, 0, 1⟩, tmag := 5 },
        aux_xyz := { start := ⟨0, 0, 5⟩, end_ := ⟨0, 0, 0⟩, uVec := ⟨0, 0, -1⟩, tmag := 5 },
        reversal_target := 5, state := RIGIDTAP_STATE.FINAL_REVERSAL } }

/-- Last `FINAL_REVERSAL` cycle of the earlier tap: the spindle turns forward again and
reads 3.0 after 2.9, so the tap goes to `FINAL_PLACEMENT` and the static `old_spindlepos`
is left at 3.0. -/
noncomputable def tapCycle0 : ℝ × EmcmotStatus ℝ × TC ℝ :=
  tpUpdateRigidTapState realMath sampleConst (29 / 10)
    { spindleRevs := 3, spindle_direction := 1, spindle_speed := 100 } {} earlierTapSeg

/-- First `REVERSING`-bound cycle of the next tap: it reaches its depth while the spindle
reads 2.0 revolutions; the static `old_spindlepos` is what the earlier tap left. -/
noncomputable def tapCycle1 : ℝ × EmcmotStatus ℝ × TC ℝ :=
  tpUpdateRigidTapState realMath sampleConst tapCycle0.1
    { spindleRevs := 2, spindle_direction := 1, spindle_speed := 100 } {} tapSegAtDepth

/-- Next servo cycle: the spindle has not reversed yet and reads 2.1 revolutions. -/
noncomputable def tapCycle2 : ℝ × EmcmotStatus ℝ × TC ℝ :=
  tpUpdateRigidTapState realMath sampleConst tapCycle1.1
    { tapCycle1.2.1 with spindleRevs := 21 / 10 } {} tapCycle1.2.2

/-- Sample geometry routines: the end pose of a line segment taken from its three lines
and its current pose from the XYZ line at the current progress; the blend step left out,
no circles, the blending flag returned as stored, a right angle between consecutive
segments and every rotary axis locked. -/
def sampleGeom : ExtGeom K :=
  { tcGetEndpoint := fun tc =>
      match tc.coords with
      | Coords.line l =>
        { tran := l.xyz.end_, a := l.abc.end_.x, b := l.abc.end_.y, c := l.abc.end_.z,
          u := l.uvw.end_.x, v := l.uvw.end_.y, w := l.uvw.end_.z }
      | _ => {}
    tpHandleBlendArc := fun tp tc => (tp, tc)
    pmCircleInit := fun _ _ _ _ _ => ({}, -1)
    tcGetPos := fun tc =>
      match tc.coords with
      | Coords.line l =>
        { tran := ⟨l.xyz.start.x + l.xyz.uVec.x * tc.progress,
                   l.xyz.start.y + l.xyz.uVec.y * tc.progress,
                   l.xyz.start.z + l.xyz.uVec.z * tc.progress⟩ }
      | _ => {}
    tcIsBlending := fun tc => (tc, tc.blending_next)
    accelAngle := fun _ _ => 0
    emcmotGetRotaryIsUnlocked := fun _ => 0 }

/-- A line from the origin to (10, 0, 0), queued and not yet started. -/
def queuedLine : TC K :=
  { target := 10, nominal_length := 10, reqvel := 50, target_vel := 50, maxvel := 100,
    maxaccel := 100, cycle_time := 1 / 1000, id := 1, term_cond := TC_TERM_COND_STOP,
    coords := Coords.line
      { xyz := { start := ⟨0, 0, 0⟩, end_ := ⟨10, 0, 0⟩, uVec := ⟨1, 0, 0⟩, tmag := 10 },
        abc := { tmag_zero := 1 }, uvw := { tmag_zero := 1 } } }

/-- A planner whose queue of capacity 1 is full, with a pending request to switch digital
output 0 on. -/
def fullQueueTP : TP K :=
  { queue := { queue := [queuedLine], size := 1 }, queueSize := 1, cycleTime := 1 / 1000,
    nextId := 2, done := 0, depth := 1, termCond := TC_TERM_COND_STOP,
    goalPos := { tran := ⟨10, 0, 0⟩ },
    syncdio := { anychanged := 1, dio_mask := 1, dios := [1, 0, 0, 0] } }

/-- A planner in position-synchronized mode (one unit per revolution) at the origin, with
an empty queue of capacity 32. -/
def syncedTP : TP K :=
  { queue := { queue := [], size := 32 }, queueSize := 32, cycleTime := 1 / 1000,
    synchronized := TC_SYNC_POSITION, uu_per_rev := 1, termCond := TC_TERM_COND_STOP }

/-- The rigid-tap geometry of `tapSegAtDepth`. -/
def tapAtDepthGeom : PmRigidTap K :=
  { xyz := { start := ⟨0, 0, 0⟩, end_ := ⟨0, 0, 2⟩, uVec := ⟨0, 0, 1⟩, tmag := 2 },
    reversal_target := 2, state := RIGIDTAP_STATE.TAPPING }

/-- Three servo cycles of the sample tap: the depth is reached while the spindle reads 2.0
revolutions, the spindle coasts on to 2.1 and then turns back to 2.0. -/
def tapRun : List (EmcmotStatus K × TP K × TC K) :=
  [({ spindleRevs := 2, spindle_direction := 1, spindle_speed := 100 }, {}, tapSegAtDepth),
   ({ spindleRevs := 21 / 10, spindle_direction := 1, spindle_speed := -100 }, {},
      { tapSegAtDepth with progress := 21 / 10 }),
   ({ spindleRevs := 2, spindle_direction := 1, spindle_speed := -100 }, {},
      { tapSegAtDepth with progress := 215 / 100 })]

/-- A head segment synchronized to the spindle speed, one unit per revolution. -/
def velSyncSeg : TC K :=
  { synchronized := TC_SYNC_VELOCITY, uu_per_rev := 1, target := 10, maxvel := 50,
    term_cond := TC_TERM_COND_PARABOLIC, active := 1 }

/-- A line from (10, 0, 0) to (10, 10, 0), queued behind `queuedLine`. -/
def secondLine : TC K :=
  { target := 10, nominal_length := 10, reqvel := 50, target_vel := 50, maxvel := 100,
    maxaccel := 100, cycle_time := 1 / 1000, id := 2, term_cond := TC_TERM_COND_STOP,
    finalized := 1, active_depth := 1,
    coords := Coords.line
      { xyz := { start := ⟨10, 0, 0⟩, end_ := ⟨10, 10, 0⟩, uVec := ⟨0, 1, 0⟩, tmag := 10 },
        abc := { tmag_zero := 1 }, uvw := { tmag_zero := 1 } } }

/-- The line `queuedLine` at its end: active, `progress = target`, flagged `splitting` by
the previous cycle. -/
def doneLine : TC K :=
  { queuedLine with active := 1, progress := 10, splitting := 1, cycle_time := 0,
                    finalized := 1, active_depth := 1 }

/-- A planner with two queued lines whose head has reached its end in the previous cycle
(`progress = target`, flagged `splitting`); `depth` is the number of queued segments. -/
def poppingTP : TP K :=
  { queue := { queue := [doneLine, secondLine], size := 32 },
    queueSize := 32, cycleTime := 1 / 1000, nextId := 3, execId := 1, done := 0, depth := 2,
    activeDepth := 1, termCond := TC_TERM_COND_STOP,
    currentPos := { tran := ⟨10, 0, 0⟩ }, goalPos := { tran := ⟨10, 10, 0⟩ },
    spindle := { waiting_for_index := -1, waiting_for_atspeed := -1 } }

/-- Digital and analog outputs 0 to 63 in use. -/
def dioCfg : EmcmotConfig K := { num_dio := 64, num_aio := 64 }

/-- A resting planner with an empty queue of capacity 32 and an empty pending DIO/AIO
buffer of 64 entries each. -/
def dioTP : TP K :=
  { queue := { queue := [], size := 32 }, queueSize := 32, cycleTime := 1 / 1000,
    termCond := TC_TERM_COND_STOP,
    syncdio := { dios := List.replicate 64 0, aios := List.replicate 64 0 } }

/-- A fourth servo cycle of the sample tap: the retraction has passed the start point of
the tap line. -/
def tapBackCycle : EmcmotStatus K × TP K × TC K :=
  ({ spindleRevs := 1 / 10, spindle_direction := 1, spindle_speed := -100 }, {},
    { tapSegAtDepth with progress := 3 })

/-- A fifth servo cycle of the sample tap: the spindle, reversed again, still coasts
backwards and reads 0.05 revolutions. -/
def tapCoastCycle : EmcmotStatus K × TP K × TC K :=
  ({ spindleRevs := 1 / 20, spindle_direction := 1, spindle_speed := 100 }, {},
    { tapSegAtDepth with progress := 31 / 10 })

/-- Five servo cycles of the sample tap: `tapRun`, then `tapBackCycle` and
`tapCoastCycle`. -/
def tapRunBack : List (EmcmotStatus K × TP K × TC K) :=
  tapRun ++ [tapBackCycle, tapCoastCycle]

/-- The line `queuedLine`, finalized and flagged tangent to its successor. -/
def tangentLine : TC K :=
  { queuedLine with term_cond := TC_TERM_COND_TANGENT, finalized := 1 }

/-- A planner with the finalized lines `tangentLine` and `secondLine` queued: the optimizer
processes the pair. -/
def tangentPairTP : TP K :=
  { queue := { queue := [tangentLine, secondLine], size := 32 }, queueSize := 32,
    cycleTime := 1 / 1000, nextId := 3, done := 0, depth := 2,
    termCond := TC_TERM_COND_STOP, goalPos := { tran := ⟨10, 10, 0⟩ } }

/-- Sample routines for the blend-arc step. The tangent of a line is its unit vector; a
circle starts along `rPerp` and ends along `rPerp · cos(angle) - rTan · sin(angle)`. The
blend arc takes the planned radius and, when the previous line is consumed, what is left
of that line; its end points lie `d_plan` before and after the corner. The connection
re-initialises the previous line up to the start of the arc (flagging it tangent) and the
new line from the end of the arc. The stretch routines refuse a non-positive angle or
length; `pmCircleStretch` handles the stretch from the start only. -/
def sampleBlendExt (m : MathLib K) (c : TPConst K) : BlendExt K :=
  { tcGetEndTangentUnitVector := fun tc =>
      match tc.coords with
      | Coords.line l => l.xyz.uVec
      | Coords.circle ci =>
        pmCartUnit m (pmCartCartSub (pmCartScalMult ci.xyz.rPerp (m.cos ci.xyz.angle))
          (pmCartScalMult ci.xyz.rTan (m.sin ci.xyz.angle)))
      | Coords.rigidtap r => r.xyz.uVec
      | Coords.arc _ => {}
    tcGetStartTangentUnitVector := fun tc =>
      match tc.coords with
      | Coords.line l => l.xyz.uVec
      | Coords.circle ci => pmCartUnit m ci.xyz.rPerp
      | Coords.rigidtap r => r.xyz.uVec
      | Coords.arc _ => {}
    arcFromLines := fun arc l1 l2 R d _ consume =>
      ({ arc with radius := R, line_length := if consume then l1.tmag - d else 0 },
        pmCartCartSub l1.end_ (pmCartScalMult l1.uVec d),
        pmCartCartAdd l2.start (pmCartScalMult l2.uVec d))
    arcLength := fun arc => arc.radius * arc.angle + arc.line_length
    tcConnectBlendArc := fun prev tc circ_start circ_end =>
      let l2 := (pmCartLineInit m c circ_end tc.coords.asLine.xyz.end_).1
      let line9 : PmLine9 K := { tc.coords.asLine with xyz := l2 }
      (prev.map (fun p =>
          let l1 := (pmCartLineInit m c p.coords.asLine.xyz.start circ_start).1
          let prev9 : PmLine9 K := { p.coords.asLine with xyz := l1 }
          { p with coords := Coords.line prev9, target := l1.tmag,
                   term_cond := TC_TERM_COND_TANGENT }),
        { tc with coords := Coords.line line9, target := l2.tmag, blend_prev := 0 },
        TPErr.OK)
    pmCircleStretch := fun circ new_angle from_end =>
      if new_angle ≤ 0 ∨ from_end ≠ 0 then circ else { circ with angle := new_angle }
    pmCartLineStretch := fun line new_len from_end =>
      if line.tmag_zero ≠ 0 ∨ new_len ≤ 0 then line
      else if from_end ≠ 0 then
        { line with start := pmCartCartSub line.end_ (pmCartScalMult line.uVec new_len),
                    tmag := new_len }
      else
        { line with end_ := pmCartCartAdd line.start (pmCartScalMult line.uVec new_len),
                    tmag := new_len } }

/-- Tangent detection enabled: blend arcs on, optimizer depth 2. -/
def tangentCfg : EmcmotConfig K :=
  { maxFeedScale := 1, arcBlendEnable := 1, arcBlendOptDepth := 2 }

/-- Joint limits of the sample machine: acceleration 100 and velocity 100 on X, Y, Z. -/
def sampleDbg : EmcmotDebug K :=
  { acc_limit := ⟨100, 100, 100⟩, vel_limit := ⟨100, 100, 100⟩ }

/-- A planner with the line `queuedLine` queued, term condition `Parabolic`. -/
def oneLineTP : TP K :=
  { queue := { queue := [queuedLine], size := 32 }, queueSize := 32, cycleTime := 1 / 1000,
    nextId := 2, done := 0, depth := 1, termCond := TC_TERM_COND_PARABOLIC,
    goalPos := { tran := ⟨10, 0, 0⟩ } }

/-- A short line from (10, 0, 0) to (10.1, 0, 0), collinear with `queuedLine`, as
`tpInitializeNewSegment` leaves it: feed 50, `maxvel = 100`, acceleration 100. -/
def shortLine : TC K :=
  { target := 1 / 10, nominal_length := 1 / 10, reqvel := 50, target_vel := 50, maxvel := 100,
    maxaccel := 100, cycle_time := 1 / 1000, id := -1, term_cond := TC_TERM_COND_PARABOLIC,
    active_depth := 1,
    coords := Coords.line
      { xyz := { start := ⟨10, 0, 0⟩, end_ := ⟨101 / 10, 0, 0⟩, uVec := ⟨1, 0, 0⟩,
                 tmag := 1 / 10 },
        abc := { tmag_zero := 1 }, uvw := { tmag_zero := 1 } } }

/-- Three quarters of the unit circle about the origin in the XY plane, counter-clockwise
from (0, 1, 0) to (1, 0, 0), where it heads along +Y; queued with a parabolic blend, feed
50 and not yet started. -/
noncomputable def threeQuarterArc : TC ℝ :=
  { target := 3 * Real.pi / 2, nominal_length := 3 * Real.pi / 2, reqvel := 50,
    target_vel := 50, maxvel := 100, maxaccel := 100, cycle_time := 1 / 1000, id := 1,
    motion_type := TC_CIRCULAR, term_cond := TC_TERM_COND_PARABOLIC, active_depth := 1,
    coords := Coords.circle
      { xyz := { radius := 1, angle := 3 * Real.pi / 2, center := ⟨0, 0, 0⟩,
                 normal := ⟨0, 0, 1⟩, rTan := ⟨0, 1, 0⟩, rPerp := ⟨-1, 0, 0⟩ },
        abc := { tmag_zero := 1 }, uvw := { tmag_zero := 1 } } }

/-- A line from (1, 0, 0) to (11, 0, 0), leaving the end of `threeQuarterArc` at a right
angle, as `tpAddLine` has initialised it. -/
def arcExitLine : TC K :=
  { target := 10, nominal_length := 10, reqvel := 50, target_vel := 50, maxvel := 100,
    maxaccel := 100, cycle_time := 1 / 1000, id := -1, term_cond := TC_TERM_COND_PARABOLIC,
    active_depth := 1,
    coords := Coords.line
      { xyz := { start := ⟨1, 0, 0⟩, end_ := ⟨11, 0, 0⟩, uVec := ⟨1, 0, 0⟩, tmag := 10 },
        abc := { tmag_zero := 1 }, uvw := { tmag_zero := 1 } } }

/-- A planner with `threeQuarterArc` queued. -/
noncomputable def arcTP : TP ℝ :=
  { queue := { queue := [threeQuarterArc], size := 32 }, queueSize := 32,
    cycleTime := 1 / 1000, nextId := 2, done := 0, depth := 1,
    termCond := TC_TERM_COND_PARABOLIC, goalPos := { tran := ⟨1, 0, 0⟩ } }

/-- The arc `threeQuarterArc` with its length finalized (as `tpForceFinalizeSegment`
leaves the last segment of a starved queue). -/
noncomputable def finalizedArc : TC ℝ := { threeQuarterArc with finalized := 1 }

/-- A planner with `finalizedArc` queued. -/
noncomputable def finalizedArcTP : TP ℝ :=
  { queue := { queue := [finalizedArc], size := 32 }, queueSize := 32,
    cycleTime := 1 / 1000, nextId := 2, done := 0, depth := 1,
    termCond := TC_TERM_COND_PARABOLIC, goalPos := { tran := ⟨1, 0, 0⟩ } }

/-- A planner as `tpCreate` leaves its queue: empty, with room for 32 segments. -/
def createdTP : TP K := { queue := { queue := [], size := 32 }, queueSize := 32 }

/-- The planner of scenario S2 before its first `tpAddLine`: `tpInit`, position 0, cycle
time 0.001, `aMax = 100`, `vMax = 50` with `ini_maxvel = 100`, term condition `Tangent`. -/
def s2TP : TP K :=
  (tpSetTermCond (tpSetVmax (tpSetAmax (tpSetCycleTime (tpSetPos
    (tpInit sampleConst tangentCfg sampleDbg {} createdTP).1 {}).1 (1 / 1000)).1 100).1
    50 100).1 TC_TERM_COND_TANGENT 0).1

/-- A half-angle with sine 4/5, steeper than `blendTheta`. -/
noncomputable def steepTheta : ℝ := Real.arcsin (4 / 5)

/-- A line of length 1 with feed 100 and a blend tolerance larger than the line. -/
def unitSeg : TC K :=
  { target := 1, nominal_length := 1, reqvel := 100, target_vel := 100, maxvel := 150,
    maxaccel := 200, tolerance := 1, term_cond := TC_TERM_COND_PARABOLIC,
    cycle_time := 1 / 1000 }

/-- Blend arcs enabled with greediness 1. -/
def greedyCfg : EmcmotConfig K :=
  { maxFeedScale := 1, arcBlendEnable := 1, arcBlendGreediness := 1 }

/-- A line from (1, -10, 0) to (1, 0, 0), which meets `arcExitLine` at a right angle. -/
def cornerLine : TC K :=
  { target := 10, nominal_length := 10, reqvel := 50, target_vel := 50, maxvel := 100,
    maxaccel := 100, cycle_time := 1 / 1000, term_cond := TC_TERM_COND_PARABOLIC,
    active_depth := 1,
    coords := Coords.line
      { xyz := { start := ⟨1, -10, 0⟩, end_ := ⟨1, 0, 0⟩, uVec := ⟨0, 1, 0⟩, tmag := 10 },
        abc := { tmag_zero := 1 }, uvw := { tmag_zero := 1 } } }

/-- The planner of scenario S1 before its `tpAddLine`: `tpInit`, position 0, cycle time
0.001, `aMax = 100`, `vMax = 50` with `ini_maxvel = 100`, term condition `Stop`. No call
sets `vLimit`. -/
def s1TP : TP K :=
  (tpSetTermCond (tpSetVmax (tpSetAmax (tpSetCycleTime (tpSetPos
    (tpInit sampleConst tangentCfg sampleDbg {} createdTP).1 {}).1 (1 / 1000)).1 100).1
    50 100).1 TC_TERM_COND_STOP 0).1

/-- The status record of scenario S1: as `tpInit` leaves it, with feed scale 1. -/
def s1Status : EmcmotStatus K :=
  { (tpInit sampleConst tangentCfg sampleDbg {} createdTP).2.1 with net_feed_scale := 1 }

/-- `n` consecutive calls of `tpRunCycle`, each on the static spindle position, the status
record and the planner that the call before it left. -/
def tpRunCycles (m : MathLib K) (c : TPConst K) (cfg : EmcmotConfig K) (g : ExtGeom K)
    (dbg : EmcmotDebug K) : Nat → K × EmcmotStatus K × TP K → K × EmcmotStatus K × TP K
  | 0, s => s
  | n + 1, s =>
    let p := tpRunCycles m c cfg g dbg n s
    let r := tpRunCycle m c cfg g dbg p.1 p.2.1 p.2.2
    (r.old_spindlepos, r.st, r.tp)

/-- The line of scenario S1 as `tpAddLine` queues it: from the origin to (10, 0, 0), feed
50, `maxvel = 100`, acceleration 100, term condition `Stop`. -/
def s1Line : TC K :=
  { target := 10, nominal_length := 10, reqvel := 50, target_vel := 50, maxvel := 100,
    maxaccel := 100, cycle_time := 1 / 1000, id := 0, canon_motion_type := 2,
    term_cond := TC_TERM_COND_STOP, active_depth := 1,
    coords := Coords.line
      { xyz := { start := ⟨0, 0, 0⟩, end_ := ⟨10, 0, 0⟩, uVec := ⟨1, 0, 0⟩, tmag := 10 },
        abc := { uVec := ⟨1, 0, 0⟩, tmag_zero := 1 },
        uvw := { uVec := ⟨1, 0, 0⟩, tmag_zero := 1 } } }

/-- The planner of scenario S1 after its `tpAddLine`. -/
def s1QueuedTP : TP K :=
  { queue := { queue := [s1Line], size := 32 }, queueSize := 0, cycleTime := 1 / 1000,
    vMax := 50, ini_maxvel := 100, aMax := 100, termCond := TC_TERM_COND_STOP, nextId := 1,
    done := 0, depth := 1, goalPos := { tran := ⟨10, 0, 0⟩ },
    spindle := { waiting_for_index := -1, waiting_for_atspeed := -1 } }

/-- The planner of scenario S1 after its first `tpRunCycle`: the line is active and has
not moved. -/
def s1StuckTP : TP K :=
  { queue := { queue := [{ s1Line with active := 1 }], size := 32 }, queueSize := 0,
    cycleTime := 1 / 1000, vMax := 50, ini_maxvel := 100, aMax := 100,
    termCond := TC_TERM_COND_STOP, nextId := 1, done := 0, depth := 1, activeDepth := 1,
    motionType := 2, goalPos := { tran := ⟨10, 0, 0⟩ },
    spindle := { waiting_for_index := -1, waiting_for_atspeed := -1 } }

/-- The status record of scenario S1 after its first `tpRunCycle`. -/
def s1StuckStatus : EmcmotStatus K :=
  { net_feed_scale := 1, requested_vel := 50, current_vel := 0, distance_to_go := 10,
    dtg := { tran := ⟨10, 0, 0⟩ }, tcqlen := 1 }

/-- The velocities of a planner state are within `[0, vmax]`: the velocity reported in the
status record and the `currentvel` of every queued segment. -/
def VelocityWithin (vmax : K) (s : K × EmcmotStatus K × TP K) : Prop :=
  (0 ≤ s.2.1.current_vel ∧ s.2.1.current_vel ≤ vmax) ∧
  ∀ tc ∈ s.2.2.queue.queue, 0 ≤ tc.currentvel ∧ tc.currentvel ≤ vmax

/-- The run of consecutive `tpRunCycle` calls from the state `s` completes at `x`: there is
a number `n` of cycles after which `tpIsDone` is 1 and `currentPos.x = x`, and the
velocities are within `[0, vmax]` in every state from `s` to that cycle. -/
def CompletesAt (m : MathLib K) (c : TPConst K) (cfg : EmcmotConfig K) (g : ExtGeom K)
    (dbg : EmcmotDebug K) (x vmax : K) (s : K × EmcmotStatus K × TP K) : Prop :=
  ∃ n : Nat, tpIsDone (tpRunCycles m c cfg g dbg n s).2.2 = 1 ∧
    (tpRunCycles m c cfg g dbg n s).2.2.currentPos.tran.x = x ∧
    ∀ k : Nat, k ≤ n → VelocityWithin vmax (tpRunCycles m c cfg g dbg k s)

/-- The planner of scenario S1 with the additional call `tpSetVlimit(L)` before its
`tpAddLine`. -/
def s1LimitTP (L : K) : TP K := (tpSetVlimit s1TP L).1

/-- The line of scenario S1 under way: at speed `v` and progress `p`, with the values of
`vel_at_blend_start`, `cycle_time` and the flags `on_final_decel`, `active`, `splitting`
and `remove` that the cycle left. -/
def s1Head (v p vbs ct : K) (ofd act spl rem : Int) : TC K :=
  { s1Line with currentvel := v, progress := p, vel_at_blend_start := vbs, cycle_time := ct,
                on_final_decel := ofd, active := act, splitting := spl, remove := rem }

/-- The planner of scenario S1 with velocity limit `L`, the tool at `(x, 0, 0)`, the queue
`q` and the reported motion type and active depth `mt` and `ad`. -/
def s1MovingTP (L x : K) (mt ad : Int) (q : List (TC K)) : TP K :=
  { queue := { queue := q, size := 32 }, queueSize := 0, cycleTime := 1 / 1000, vMax := 50,
    ini_maxvel := 100, vLimit := L, aMax := 100, termCond := TC_TERM_COND_STOP, nextId := 1,
    done := 0, depth := 1, activeDepth := ad, motionType := mt,
    currentPos := { tran := ⟨x, 0, 0⟩ }, goalPos := { tran := ⟨10, 0, 0⟩ },
    spindle := { waiting_for_index := -1, waiting_for_atspeed := -1 } }

/-- The line `queuedLine` at speed 10, a millimetre short of its end: too fast to stop
within the rest of the segment. -/
def overshootLine : TC K :=
  { queuedLine with active := 1, progress := 10 - 1 / 1000, currentvel := 10 }

/-- A planner state with cycle time 0.001 and the tool-tip limit `vLimit = 100`. -/
def limitTP : TP K :=
  { queue := { queue := [], size := 32 }, queueSize := 32, cycleTime := 1 / 1000,
    vLimit := 100, done := 0 }

/-- A purely rotary line (no XYZ and no UVW motion) of 90 degrees about A. -/
def rotaryLine : TC K :=
  { target := 90, nominal_length := 90, reqvel := 50, target_vel := 50, maxvel := 100,
    maxaccel := 100, cycle_time := 1 / 1000, id := 1, term_cond := TC_TERM_COND_STOP,
    coords := Coords.line
      { xyz := { uVec := ⟨1, 0, 0⟩, tmag_zero := 1 },
        abc := { end_ := ⟨90, 0, 0⟩, uVec := ⟨1, 0, 0⟩, tmag := 90 },
        uvw := { uVec := ⟨1, 0, 0⟩, tmag_zero := 1 } } }

/-- A tangent line a hundredth of a unit before its end, moving at 10 with a planned final
velocity of 12 and an acceleration limit high enough to reach it. -/
def splitHead : TC K :=
  { queuedLine with term_cond := TC_TERM_COND_TANGENT, active := 1, finalized := 1,
                    progress := 10 - 1 / 100, currentvel := 10, finalvel := 12,
                    maxaccel := 10000 }

/-- A finalized line of length 0.0002 behind `tangentLine`, ending in an exact stop, with
`maxvel = 100` and acceleration 100. -/
def tinyLine : TC K :=
  { target := 1 / 5000, nominal_length := 1 / 5000, reqvel := 50, target_vel := 50,
    maxvel := 100, maxaccel := 100, cycle_time := 1 / 1000, id := 2,
    term_cond := TC_TERM_COND_STOP, finalized := 1, active_depth := 1,
    coords := Coords.line
      { xyz := { start := ⟨10, 0, 0⟩, end_ := ⟨10 + 1 / 5000, 0, 0⟩, uVec := ⟨1, 0, 0⟩,
                 tmag := 1 / 5000 },
        abc := { tmag_zero := 1 }, uvw := { tmag_zero := 1 } } }

/-- Blend parameters of a right-angle corner (`θ = π/4`) with planned radius 1. -/
noncomputable def cornerBlendParam : BlendParameters ℝ :=
  { theta := Real.pi / 4, R_plan := 1, d_plan := 1 / Real.tan (Real.pi / 4) }

/-- Sample geometry routines with a rotary axis that still reports unlocked. -/
def unlockedGeom : ExtGeom K :=
  { sampleGeom with emcmotGetRotaryIsUnlocked := fun _ => 1 }

/-- A finished indexing move on rotary axis 0, synchronized with the spindle in velocity
mode: length 2 at 1 unit per revolution, flagged `remove`. -/
def indexSyncLine : TC K :=
  { synchronized := TC_SYNC_VELOCITY, uu_per_rev := 1, target := 2, progress := 2,
    nominal_length := 2, maxvel := 50, maxaccel := 100, cycle_time := 1 / 1000, id := 5,
    indexrotary := 0, active := 1, splitting := 1, remove := 1,
    term_cond := TC_TERM_COND_STOP }

/-- A planner whose head segment is `indexSyncLine`; no spindle wait is pending and the
spindle offset is 0. -/
def indexTP : TP K :=
  { queue := { queue := [indexSyncLine], size := 32 }, queueSize := 32,
    cycleTime := 1 / 1000, nextId := 6, execId := 5, done := 0, depth := 1,
    termCond := TC_TERM_COND_STOP, synchronized := TC_SYNC_VELOCITY, uu_per_rev := 1,
    spindle := { offset := 0, waiting_for_index := -1, waiting_for_atspeed := -1 } }

/-- A planner running `queuedLine`-like lines: `tangentLine` is the head, a second tangent
line follows, and the tail `secondLine`-like segment has just been appended (not
finalized). -/
def threeLineTP : TP K :=
  { queue := { queue := [tangentLine, { tangentLine with id := 2 },
                         { secondLine with id := 3, finalized := 0 }], size := 32 },
    queueSize := 32, cycleTime := 1 / 1000, nextId := 4, done := 0, depth := 3,
    termCond := TC_TERM_COND_STOP, goalPos := { tran := ⟨10, 10, 0⟩ } }

/-! ## Theorems -/

/-- The velocity stored by `tcUpdateDistFromAccel`: `currentvel + acc * cycle_time`, clipped at 0. -/
theorem tcUpdateDistFromAccel_currentvel (c : TPConst K) (tc : TC K) (acc vel_desired : K) :
    (tcUpdateDistFromAccel c tc acc vel_desired).currentvel =
      if tc.currentvel + acc * tc.cycle_time < 0 then 0
      else tc.currentvel + acc * tc.cycle_time := by
  unfold tcUpdateDistFromAccel
  dsimp only
  split_ifs <;> rfl

/-- The progress stored by `tcUpdateDistFromAccel`. -/
theorem tcUpdateDistFromAccel_progress (c : TPConst K) (tc : TC K) (acc vel_desired : K) :
    (tcUpdateDistFromAccel c tc acc vel_desired).progress =
      if tc.currentvel + acc * tc.cycle_time < 0 then
        (if tc.target - tc.progress < tc.currentvel * tc.cycle_time then tc.target
         else tc.progress)
      else clip_max (tc.progress
        + (tc.currentvel + acc * tc.cycle_time + tc.currentvel) * (1 / 2) * tc.cycle_time)
          tc.target := by
  unfold tcUpdateDistFromAccel
  dsimp only
  split_ifs <;> rfl

/-- A property that holds of both branches holds of the conditional. -/
theorem ite_rec {α : Sort _} (P : α → Prop) {p : Prop} [Decidable p] {a b : α}
    (ha : P a) (hb : P b) : P (if p then a else b) := by
  split_ifs
  · exact ha
  · exact hb

/-- `tpCheckEndCondition` never touches the velocity. -/
theorem tpCheckEndCondition_currentvel (m : MathLib K) (c : TPConst K) (st : EmcmotStatus K)
    (dbg : EmcmotDebug K) (tp : TP K) (tc : TC K) :
    (tpCheckEndCondition m c st dbg tp tc).1.currentvel = tc.currentvel := by
  unfold tpCheckEndCondition
  refine ite_rec (fun r : TC K × TPErr => r.1.currentvel = tc.currentvel) ?_ ?_
  · exact ite_rec (fun t : TC K => t.currentvel = tc.currentvel) rfl rfl
  · refine ite_rec (fun r : TC K × TPErr => r.1.currentvel = tc.currentvel) rfl ?_
    refine ite_rec (fun r : TC K × TPErr => r.1.currentvel = tc.currentvel) rfl ?_
    refine ite_rec (fun r : TC K × TPErr => r.1.currentvel = tc.currentvel) rfl ?_
    refine ite_rec (fun r : TC K × TPErr => r.1.currentvel = tc.currentvel) rfl ?_
    exact ite_rec (fun r : TC K × TPErr => r.1.currentvel = tc.currentvel) rfl rfl

/-- The trapezoidal result does not read `vel_at_blend_start`. -/
theorem tpCalculateTrapezoidalAccel_blendStart (m : MathLib K) (c : TPConst K)
    (st : EmcmotStatus K) (dbg : EmcmotDebug K) (tp : TP K) (tc : TC K) (v : K) :
    tpCalculateTrapezoidalAccel m c st dbg tp { tc with vel_at_blend_start := v } =
      tpCalculateTrapezoidalAccel m c st dbg tp tc := rfl

/-- The ramp result does not read `vel_at_blend_start`. -/
theorem tpCalculateRampAccel_snd_blendStart (c : TPConst K) (st : EmcmotStatus K)
    (dbg : EmcmotDebug K) (tp : TP K) (tc : TC K) (v : K) :
    (tpCalculateRampAccel c st dbg tp { tc with vel_at_blend_start := v }).2 =
      (tpCalculateRampAccel c st dbg tp tc).2 := by
  unfold tpCalculateRampAccel
  by_cases hb : tc.blending_next = 0
  · simp only [hb, if_true]
  · simp only [hb, if_false]
    by_cases hv : tpGetRealFinalVel c st dbg tp tc (tpGetRealTargetVel c st tp tc)
        < c.TP_VEL_EPSILON
    · rw [if_pos hv, if_pos (by exact hv)]
    · rw [if_neg hv, if_neg (by exact hv)]
      rfl

/-- The segment returned by the ramp is the input with `vel_at_blend_start` possibly
refreshed. -/
theorem tpCalculateRampAccel_fst (c : TPConst K) (st : EmcmotStatus K)
    (dbg : EmcmotDebug K) (tp : TP K) (tc : TC K) :
    ∃ w, (tpCalculateRampAccel c st dbg tp tc).1 = { tc with vel_at_blend_start := w } := by
  unfold tpCalculateRampAccel
  by_cases hb : tc.blending_next = 0
  · rw [if_pos hb]
    refine ite_rec (fun r : TC K × Option (K × K) =>
      ∃ w, r.1 = { tc with vel_at_blend_start := w }) ?_ ?_
    · exact ⟨tc.currentvel, rfl⟩
    · exact ⟨tc.currentvel, rfl⟩
  · rw [if_neg hb]
    refine ite_rec (fun r : TC K × Option (K × K) =>
      ∃ w, r.1 = { tc with vel_at_blend_start := w }) ?_ ?_
    · exact ⟨tc.vel_at_blend_start, rfl⟩
    · exact ⟨tc.vel_at_blend_start, rfl⟩

/-- The velocity after `tpUpdateCycle`: old velocity plus the chosen acceleration times the
cycle time, clipped at 0. -/
theorem tpUpdateCycle_currentvel (m : MathLib K) (c : TPConst K) (st : EmcmotStatus K)
    (dbg : EmcmotDebug K) (tp : TP K) (tc : TC K) :
    (tpUpdateCycle m c st dbg tp tc).currentvel =
      if tc.currentvel + tpUpdateCycleAccel m c st dbg tp tc * tc.cycle_time < 0 then 0
      else tc.currentvel + tpUpdateCycleAccel m c st dbg tp tc * tc.cycle_time := by
  have h0 : ∃ w, (if tc.blending_next = 0 then { tc with vel_at_blend_start := tc.currentvel }
      else tc) = { tc with vel_at_blend_start := w } := by
    refine ite_rec (fun t : TC K => ∃ w, t = { tc with vel_at_blend_start := w }) ?_ ?_
    · exact ⟨_, rfl⟩
    · exact ⟨tc.vel_at_blend_start, rfl⟩
  obtain ⟨w, hw⟩ := h0
  unfold tpUpdateCycle tpUpdateCycleAccel
  rw [tpCheckEndCondition_currentvel, tcUpdateDistFromAccel_currentvel, hw]
  by_cases hr : tc.accel_mode ≠ 0 ∧ tc.term_cond = TC_TERM_COND_TANGENT
  · have hr2 : ({ tc with vel_at_blend_start := w } : TC K).accel_mode ≠ 0 ∧
        ({ tc with vel_at_blend_start := w } : TC K).term_cond = TC_TERM_COND_TANGENT := hr
    rw [if_pos hr, if_pos hr2]
    obtain ⟨w2, hw2⟩ := tpCalculateRampAccel_fst c st dbg tp { tc with vel_at_blend_start := w }
    rw [hw2, tpCalculateRampAccel_snd_blendStart]
    cases hres : (tpCalculateRampAccel c st dbg tp tc).2 with
    | none => rfl
    | some av => rfl
  · have hr2 : ¬ (({ tc with vel_at_blend_start := w } : TC K).accel_mode ≠ 0 ∧
        ({ tc with vel_at_blend_start := w } : TC K).term_cond = TC_TERM_COND_TANGENT) := hr
    rw [if_neg hr, if_neg hr2]
    rfl

/-- C1: for a segment with `0 ≤ progress ≤ target`, `currentvel ≥ 0` and
`cycle_time ≥ 0`, and any acceleration `acc`, `tcUpdateDistFromAccel` leaves the new
progress in `[old progress, target]` and the new `currentvel ≥ 0`. -/
theorem tcUpdateDistFromAccel_progress_bounds (c : TPConst K) (tc : TC K) (acc vel_desired : K)
    (_hp0 : 0 ≤ tc.progress) (hpt : tc.progress ≤ tc.target)
    (hv : 0 ≤ tc.currentvel) (hct : 0 ≤ tc.cycle_time) :
    tc.progress ≤ (tcUpdateDistFromAccel c tc acc vel_desired).progress ∧
    (tcUpdateDistFromAccel c tc acc vel_desired).progress ≤ tc.target ∧
    0 ≤ (tcUpdateDistFromAccel c tc acc vel_desired).currentvel := by
  rw [tcUpdateDistFromAccel_progress, tcUpdateDistFromAccel_currentvel]
  unfold clip_max
  split_ifs with h1 h2 h3
  · exact ⟨hpt, le_refl _, le_refl _⟩
  · exact ⟨le_refl _, hpt, le_refl _⟩
  · exact ⟨hpt, le_refl _, not_lt.mp h1⟩
  · have hnn : 0 ≤ tc.currentvel + acc * tc.cycle_time := not_lt.mp h1
    have hd : 0 ≤ (tc.currentvel + acc * tc.cycle_time + tc.currentvel) * (1 / 2)
        * tc.cycle_time := by positivity
    exact ⟨by linarith, not_lt.mp h3, hnn⟩

/-- Witness for C1: a segment half way along a length-10 line at speed 2. -/
theorem tcUpdateDistFromAccel_progress_bounds_witness :
    ((5 : ℚ) ≤ (tcUpdateDistFromAccel (K := ℚ) sampleConst
        { progress := 5, target := 10, currentvel := 2, cycle_time := 1 } 1 3).progress) ∧
    (tcUpdateDistFromAccel (K := ℚ) sampleConst
        { progress := 5, target := 10, currentvel := 2, cycle_time := 1 } 1 3).progress ≤ 10 ∧
    0 ≤ (tcUpdateDistFromAccel (K := ℚ) sampleConst
        { progress := 5, target := 10, currentvel := 2, cycle_time := 1 } 1 3).currentvel :=
  tcUpdateDistFromAccel_progress_bounds (K := ℚ) sampleConst
    { progress := 5, target := 10, currentvel := 2, cycle_time := 1 } 1 3
    (by norm_num) (by norm_num) (by norm_num) (by norm_num)

/-! ### Saturation facts -/

theorem saturate_le (x a : K) (ha : 0 ≤ a) : saturate x a ≤ a := by
  unfold saturate
  split_ifs with h1 h2
  · exact le_refl _
  · linarith
  · exact not_lt.mp h1

theorem neg_le_saturate (x a : K) (ha : 0 ≤ a) : -a ≤ saturate x a := by
  unfold saturate
  split_ifs with h1 h2
  · linarith
  · exact le_refl _
  · exact not_lt.mp h2

theorem saturate_le_max (x a : K) (ha : 0 ≤ a) : saturate x a ≤ max x 0 := by
  unfold saturate
  split_ifs with h1 h2
  · exact le_trans (le_of_lt h1) (le_max_left _ _)
  · exact le_trans (by linarith) (le_max_right x 0)
  · exact le_max_left _ _

theorem saturate_mul_nonpos (x a t : K) (ha : 0 ≤ a) (hx : x * t ≤ 0) : saturate x a * t ≤ 0 := by
  unfold saturate
  split_ifs with h1 h2
  · have hxpos : 0 < x := lt_of_le_of_lt ha h1
    have ht : t ≤ 0 := by
      by_contra hcon
      have : 0 < x * t := mul_pos hxpos (not_le.mp hcon)
      linarith
    exact mul_nonpos_of_nonneg_of_nonpos ha ht
  · have hxneg : x < 0 := by linarith
    have ht : 0 ≤ t := by
      by_contra hcon
      have : 0 < x * t := mul_pos_of_neg_of_neg hxneg (not_le.mp hcon)
      linarith
    have : 0 ≤ a * t := mul_nonneg ha ht
    linarith
  · exact hx

theorem sat_inplace_fst (x a : K) : (sat_inplace x a).1 = saturate x a := by
  unfold sat_inplace saturate
  split_ifs <;> rfl

theorem fmin_le_left (a b : K) : fmin a b ≤ a := by
  unfold fmin
  split_ifs with h
  · exact le_refl _
  · exact not_lt.mp h

theorem fmin_le_right (a b : K) : fmin a b ≤ b := by
  unfold fmin
  split_ifs with h
  · exact le_of_lt h
  · exact le_refl _

theorem le_fmin (a b x : K) (ha : x ≤ a) (hb : x ≤ b) : x ≤ fmin a b := by
  unfold fmin
  split_ifs
  · exact ha
  · exact hb

theorem le_fmax_right (a b : K) : b ≤ fmax a b := by
  unfold fmax
  split_ifs with h
  · exact le_of_lt h
  · exact le_refl _

/-- The scaled acceleration is non-negative when `maxaccel` and the tangential ratio are. -/
theorem tpGetScaledAccel_nonneg (c : TPConst K) (tc : TC K) (hc : 0 ≤ c.TP_ACC_RATIO_TANGENTIAL)
    (ha : 0 ≤ tc.maxaccel) : 0 ≤ tpGetScaledAccel c tc := by
  unfold tpGetScaledAccel
  dsimp only
  split_ifs <;> positivity

/-- The acceleration chosen by `tpUpdateCycle` is within the scaled acceleration. -/
theorem tpUpdateCycleAccel_abs_le (m : MathLib K) (c : TPConst K) (st : EmcmotStatus K)
    (dbg : EmcmotDebug K) (tp : TP K) (tc : TC K) (ha : 0 ≤ tpGetScaledAccel c tc) :
    -tpGetScaledAccel c tc ≤ tpUpdateCycleAccel m c st dbg tp tc ∧
    tpUpdateCycleAccel m c st dbg tp tc ≤ tpGetScaledAccel c tc := by
  have htrap : -tpGetScaledAccel c tc ≤ (tpCalculateTrapezoidalAccel m c st dbg tp tc).1 ∧
      (tpCalculateTrapezoidalAccel m c st dbg tp tc).1 ≤ tpGetScaledAccel c tc :=
    ⟨neg_le_saturate _ _ ha, saturate_le _ _ ha⟩
  have hramp : ∀ av, (tpCalculateRampAccel c st dbg tp tc).2 = some av →
      -tpGetScaledAccel c tc ≤ av.1 ∧ av.1 ≤ tpGetScaledAccel c tc := by
    intro av hav
    unfold tpCalculateRampAccel at hav
    dsimp only at hav
    split_ifs at hav
    · cases hav
      exact ⟨neg_le_saturate _ _ ha, saturate_le _ _ ha⟩
    · cases hav
      exact ⟨neg_le_saturate _ _ ha, saturate_le _ _ ha⟩
  unfold tpUpdateCycleAccel
  split_ifs with hr
  · cases hres : (tpCalculateRampAccel c st dbg tp tc).2 with
    | none => exact htrap
    | some av => exact hramp av hres
  · exact htrap

/-- C3: for a segment with `currentvel ≥ 0`, `maxaccel ≥ 0` and `cycle_time > 0`, one
velocity update of `tpUpdateCycle` (ramp or trapezoidal acceleration followed by
`tcUpdateDistFromAccel`) changes `currentvel` by at most
`tpGetScaledAccel(tc) * cycle_time` in absolute value. The constant
`TP_ACC_RATIO_TANGENTIAL` of the absent header is taken non-negative. -/
theorem tpUpdateCycle_accel_bound (m : MathLib K) (c : TPConst K) (st : EmcmotStatus K)
    (dbg : EmcmotDebug K) (tp : TP K) (tc : TC K) (hc : 0 ≤ c.TP_ACC_RATIO_TANGENTIAL)
    (hv : 0 ≤ tc.currentvel) (ha : 0 ≤ tc.maxaccel) (hct : 0 < tc.cycle_time) :
    |(tpUpdateCycle m c st dbg tp tc).currentvel - tc.currentvel| ≤
      tpGetScaledAccel c tc * tc.cycle_time := by
  have hs := tpGetScaledAccel_nonneg c tc hc ha
  obtain ⟨hlo, hhi⟩ := tpUpdateCycleAccel_abs_le m c st dbg tp tc hs
  rw [tpUpdateCycle_currentvel]
  have h1 : tpUpdateCycleAccel m c st dbg tp tc * tc.cycle_time ≤
      tpGetScaledAccel c tc * tc.cycle_time := mul_le_mul_of_nonneg_right hhi (le_of_lt hct)
  have h2 : -(tpGetScaledAccel c tc * tc.cycle_time) ≤
      tpUpdateCycleAccel m c st dbg tp tc * tc.cycle_time := by
    have := mul_le_mul_of_nonneg_right hlo (le_of_lt hct)
    linarith
  rw [abs_le]
  split_ifs with h
  · constructor <;> linarith
  · constructor <;> linarith

/-- The real target velocity never exceeds `maxvel`. -/
theorem tpGetRealTargetVel_le_maxvel (c : TPConst K) (st : EmcmotStatus K) (tp : TP K)
    (tc : TC K) : tpGetRealTargetVel c st tp tc ≤ tc.maxvel :=
  fmin_le_right _ _

/-- The feed scale is non-negative when the status feed scale is. -/
theorem tpGetFeedScale_nonneg (c : TPConst K) (st : EmcmotStatus K) (tp : TP K) (tc : TC K)
    (hfs : 0 ≤ st.net_feed_scale) : 0 ≤ tpGetFeedScale c st tp tc := by
  unfold tpGetFeedScale
  split_ifs
  · exact le_refl _
  · exact zero_le_one
  · exact hfs

/-- The real target velocity is non-negative for non-negative inputs. -/
theorem tpGetRealTargetVel_nonneg (c : TPConst K) (st : EmcmotStatus K) (tp : TP K)
    (tc : TC K) (hfs : 0 ≤ st.net_feed_scale) (htv : 0 ≤ tc.target_vel) (hmv : 0 ≤ tc.maxvel) :
    0 ≤ tpGetRealTargetVel c st tp tc :=
  le_fmin _ _ _ (mul_nonneg htv (tpGetFeedScale_nonneg c st tp tc hfs)) hmv

/-- The real final velocity never exceeds the target velocity it is clamped by. -/
theorem tpGetRealFinalVel_le (c : TPConst K) (st : EmcmotStatus K) (dbg : EmcmotDebug K)
    (tp : TP K) (tc : TC K) (tv : K) (htv : 0 ≤ tv) :
    tpGetRealFinalVel c st dbg tp tc tv ≤ tv := by
  unfold tpGetRealFinalVel
  dsimp only
  split_ifs with h1 h2
  · exact htv
  · exact le_refl _
  · exact not_lt.mp h2

/-- The velocity the trapezoidal profile aims at (after both clamps) is at most the
target velocity. -/
theorem trapezoid_newvel_le (x tv lim : K) (g : Prop) [Decidable g] (htv : 0 ≤ tv) :
    (if g then (sat_inplace (saturate x tv) lim).1 else saturate x tv) ≤ tv := by
  have h1 := saturate_le x tv htv
  have h2 := neg_le_saturate x tv htv
  split_ifs
  · rw [sat_inplace_fst]
    unfold saturate at h1 h2 ⊢
    split_ifs at h1 h2 ⊢ <;> linarith
  · exact h1

/-- One trapezoidal step never ends above `max currentvel target velocity`. -/
theorem tpCalculateTrapezoidalAccel_step_le (m : MathLib K) (c : TPConst K)
    (st : EmcmotStatus K) (dbg : EmcmotDebug K) (tp : TP K) (tc : TC K)
    (hct : 0 < tc.cycle_time) (hs : 0 ≤ tpGetScaledAccel c tc)
    (htv : 0 ≤ tpGetRealTargetVel c st tp tc) :
    tc.currentvel + (tpCalculateTrapezoidalAccel m c st dbg tp tc).1 * tc.cycle_time ≤
      max tc.currentvel (tpGetRealTargetVel c st tp tc) := by
  unfold tpCalculateTrapezoidalAccel
  dsimp only
  set nv := (if (!tpPureRotaryCheck tc) = true ∧ tc.synchronized ≠ TC_SYNC_POSITION then
      (sat_inplace (saturate _ (tpGetRealTargetVel c st tp tc)) tp.vLimit).1
      else saturate _ (tpGetRealTargetVel c st tp tc)) with hnv
  have hle : nv ≤ tpGetRealTargetVel c st tp tc := trapezoid_newvel_le _ _ _ _ htv
  have hsat := saturate_le_max ((nv - tc.currentvel) / tc.cycle_time) _ hs
  have hmul : saturate ((nv - tc.currentvel) / tc.cycle_time) (tpGetScaledAccel c tc)
      * tc.cycle_time ≤ max ((nv - tc.currentvel) / tc.cycle_time) 0 * tc.cycle_time :=
    mul_le_mul_of_nonneg_right hsat (le_of_lt hct)
  rcases le_total ((nv - tc.currentvel) / tc.cycle_time) 0 with h | h
  · rw [max_eq_right h] at hmul
    exact le_trans (by linarith) (le_max_left _ _)
  · rw [max_eq_left h, div_mul_cancel₀ _ (ne_of_gt hct)] at hmul
    exact le_trans (by linarith) (le_max_right _ _)

/-- The ramp's time estimate is strictly positive. -/
theorem rampTimeRemaining_pos (c : TPConst K) (tc : TC K) (vf : K) :
    0 < rampTimeRemaining c tc vf := by
  have hpos : (0 : K) < 1 / 10 ^ 16 := by positivity
  unfold rampTimeRemaining
  dsimp only
  split_ifs
  · exact lt_of_lt_of_le hpos (le_fmax_right _ _)
  · exact hpos

/-- The result of an accepted ramp. -/
theorem tpCalculateRampAccel_some (c : TPConst K) (st : EmcmotStatus K) (dbg : EmcmotDebug K)
    (tp : TP K) (tc : TC K) (av : K × K)
    (h : (tpCalculateRampAccel c st dbg tp tc).2 = some av) :
    ¬ (tpGetRealFinalVel c st dbg tp tc (tpGetRealTargetVel c st tp tc) < c.TP_VEL_EPSILON) ∧
    av.1 = saturate
      ((tpGetRealFinalVel c st dbg tp tc (tpGetRealTargetVel c st tp tc) - tc.currentvel) /
        rampTimeRemaining c tc (tpGetRealFinalVel c st dbg tp tc (tpGetRealTargetVel c st tp tc)))
      (tpGetScaledAccel c tc) := by
  rw [← tpCalculateRampAccel_snd_blendStart c st dbg tp tc tc.vel_at_blend_start] at h
  unfold tpCalculateRampAccel at h
  by_cases hb : tc.blending_next = 0
  · rw [if_pos hb] at h
    by_cases hv : tpGetRealFinalVel c st dbg tp tc (tpGetRealTargetVel c st tp tc)
        < c.TP_VEL_EPSILON
    · rw [if_pos (by exact hv)] at h
      cases h
    · rw [if_neg (by exact hv)] at h
      cases h
      exact ⟨hv, rfl⟩
  · rw [if_neg hb] at h
    by_cases hv : tpGetRealFinalVel c st dbg tp tc (tpGetRealTargetVel c st tp tc)
        < c.TP_VEL_EPSILON
    · rw [if_pos (by exact hv)] at h
      cases h
    · rw [if_neg (by exact hv)] at h
      cases h
      exact ⟨hv, rfl⟩

/-- C2 (amended): for a segment with `0 ≤ currentvel ≤ maxvel`, `target_vel ≥ 0`,
`maxaccel ≥ 0`, `cycle_time > 0` and a status feed scale `≥ 0`, one velocity update of
`tpUpdateCycle` yields `currentvel ≤ maxvel` (hence `≤ maxvel * maxFeedScale` when
`maxFeedScale ≥ 1`) in trapezoidal mode, including the fallback from a refused ramp, and
in ramp mode whenever `cycle_time` does not exceed the ramp's estimate of the time left
in the segment. -/
theorem tpUpdateCycle_currentvel_le_maxvel (m : MathLib K) (c : TPConst K)
    (st : EmcmotStatus K) (dbg : EmcmotDebug K) (cfg : EmcmotConfig K) (tp : TP K) (tc : TC K)
    (hc : 0 ≤ c.TP_ACC_RATIO_TANGENTIAL)
    (hv : 0 ≤ tc.currentvel) (hvm : tc.currentvel ≤ tc.maxvel) (htv : 0 ≤ tc.target_vel)
    (ha : 0 ≤ tc.maxaccel) (hct : 0 < tc.cycle_time)
    (hfs : 0 ≤ st.net_feed_scale) (_hfs2 : st.net_feed_scale ≤ cfg.maxFeedScale)
    (hramp : tc.accel_mode ≠ 0 → tc.term_cond = TC_TERM_COND_TANGENT →
      ¬ (tpGetRealFinalVel c st dbg tp tc (tpGetRealTargetVel c st tp tc) < c.TP_VEL_EPSILON) →
      tc.cycle_time ≤ rampTimeRemaining c tc
        (tpGetRealFinalVel c st dbg tp tc (tpGetRealTargetVel c st tp tc))) :
    (tpUpdateCycle m c st dbg tp tc).currentvel ≤ tc.maxvel ∧
    (1 ≤ cfg.maxFeedScale →
      (tpUpdateCycle m c st dbg tp tc).currentvel ≤ tc.maxvel * cfg.maxFeedScale) := by
  have hmv : 0 ≤ tc.maxvel := le_trans hv hvm
  have hs := tpGetScaledAccel_nonneg c tc hc ha
  have htv0 := tpGetRealTargetVel_nonneg c st tp tc hfs htv hmv
  have htvm := tpGetRealTargetVel_le_maxvel c st tp tc
  have htrap := tpCalculateTrapezoidalAccel_step_le m c st dbg tp tc hct hs htv0
  have htrap2 : tc.currentvel + (tpCalculateTrapezoidalAccel m c st dbg tp tc).1 * tc.cycle_time
      ≤ tc.maxvel := le_trans htrap (max_le hvm htvm)
  have key : tc.currentvel + tpUpdateCycleAccel m c st dbg tp tc * tc.cycle_time ≤ tc.maxvel := by
    unfold tpUpdateCycleAccel
    split_ifs with hr
    · cases hres : (tpCalculateRampAccel c st dbg tp tc).2 with
      | none => exact htrap2
      | some av =>
        obtain ⟨hnot, hav⟩ := tpCalculateRampAccel_some c st dbg tp tc av hres
        have hdt := hramp hr.1 hr.2 hnot
        have hdtpos := rampTimeRemaining_pos c tc
          (tpGetRealFinalVel c st dbg tp tc (tpGetRealTargetVel c st tp tc))
        have hvf := tpGetRealFinalVel_le c st dbg tp tc _ htv0
        set vf := tpGetRealFinalVel c st dbg tp tc (tpGetRealTargetVel c st tp tc) with hvfdef
        set dt := rampTimeRemaining c tc vf with hdtdef
        show tc.currentvel + av.1 * tc.cycle_time ≤ tc.maxvel
        rw [hav]
        have hsat := saturate_le_max ((vf - tc.currentvel) / dt) _ hs
        have hmul := mul_le_mul_of_nonneg_right hsat (le_of_lt hct)
        rcases le_total ((vf - tc.currentvel) / dt) 0 with h | h
        · rw [max_eq_right h] at hmul
          linarith
        · rw [max_eq_left h] at hmul
          have hdv : 0 ≤ vf - tc.currentvel := by
            have := mul_nonneg h (le_of_lt hdtpos)
            rwa [div_mul_cancel₀ _ (ne_of_gt hdtpos)] at this
          have hle : (vf - tc.currentvel) / dt * tc.cycle_time ≤ vf - tc.currentvel := by
            calc (vf - tc.currentvel) / dt * tc.cycle_time
                ≤ (vf - tc.currentvel) / dt * dt := mul_le_mul_of_nonneg_left hdt h
              _ = vf - tc.currentvel := div_mul_cancel₀ _ (ne_of_gt hdtpos)
          linarith
    · exact htrap2
  have main : (tpUpdateCycle m c st dbg tp tc).currentvel ≤ tc.maxvel := by
    rw [tpUpdateCycle_currentvel]
    split_ifs
    · exact hmv
    · exact key
  refine ⟨main, fun h1 => le_trans main ?_⟩
  calc tc.maxvel = tc.maxvel * 1 := (mul_one _).symm
    _ ≤ tc.maxvel * cfg.maxFeedScale := mul_le_mul_of_nonneg_left h1 hmv

/-- Counterexample to C2 as stated: in ramp mode, 0.0001 before the end of the segment,
the hypotheses of the claim hold and one update raises `currentvel` from 9 to 11, above
`maxvel = 10`. -/
theorem tpUpdateCycle_ramp_exceeds_maxvel :
    ((0 : ℝ) ≤ (rampOvershootSeg : TC ℝ).currentvel ∧
      (rampOvershootSeg : TC ℝ).currentvel ≤ (rampOvershootSeg : TC ℝ).maxvel ∧
      (0 : ℝ) ≤ (rampOvershootSeg : TC ℝ).target_vel ∧
      (0 : ℝ) ≤ (rampOvershootSeg : TC ℝ).maxaccel ∧
      (0 : ℝ) < (rampOvershootSeg : TC ℝ).cycle_time ∧
      (0 : ℝ) ≤ ({} : EmcmotStatus ℝ).net_feed_scale ∧
      ({} : EmcmotStatus ℝ).net_feed_scale ≤ ({} : EmcmotConfig ℝ).maxFeedScale) ∧
    (tpUpdateCycle realMath sampleConst {} {} {} rampOvershootSeg).currentvel = 11 ∧
    ¬ ((tpUpdateCycle realMath sampleConst {} {} {} rampOvershootSeg).currentvel ≤
      (rampOvershootSeg : TC ℝ).maxvel) := by
  have h : (tpUpdateCycle realMath sampleConst {} {} {} rampOvershootSeg).currentvel = 11 := by
    rw [tpUpdateCycle_currentvel]
    norm_num [tpUpdateCycleAccel, tpCalculateRampAccel, rampOvershootSeg, sampleConst,
      tpGetRealTargetVel, tpGetFeedScale, tpGetRealFinalVel, tpGetScaledAccel,
      rampTimeRemaining, fmin, fmax, saturate, TC_TERM_COND_TANGENT, TC_TERM_COND_PARABOLIC,
      TC_SYNC_POSITION, TC_CIRCULAR, TC_SPHERICAL, TC_LINEAR]
  refine ⟨?_, h, ?_⟩
  · norm_num [rampOvershootSeg]
  · rw [h]
    norm_num [rampOvershootSeg]

/-- Witness for C3: the cruising ramp segment. -/
theorem tpUpdateCycle_accel_bound_witness :
    |(tpUpdateCycle realMath sampleConst {} {} {} rampCruiseSeg).currentvel
        - (rampCruiseSeg : TC ℝ).currentvel| ≤
      tpGetScaledAccel sampleConst rampCruiseSeg * (rampCruiseSeg : TC ℝ).cycle_time :=
  tpUpdateCycle_accel_bound realMath sampleConst {} {} {} rampCruiseSeg
    (by norm_num [sampleConst]) (by norm_num [rampCruiseSeg]) (by norm_num [rampCruiseSeg])
    (by norm_num [rampCruiseSeg])

/-- Witness for the amended C2: the cruising ramp segment, whose cycle time 0.001 is below
the ramp's time estimate of 10. -/
theorem tpUpdateCycle_currentvel_le_maxvel_witness :
    (tpUpdateCycle realMath sampleConst {} {} {} rampCruiseSeg).currentvel ≤
        (rampCruiseSeg : TC ℝ).maxvel ∧
    ((1 : ℝ) ≤ ({} : EmcmotConfig ℝ).maxFeedScale →
      (tpUpdateCycle realMath sampleConst {} {} {} rampCruiseSeg).currentvel ≤
        (rampCruiseSeg : TC ℝ).maxvel * ({} : EmcmotConfig ℝ).maxFeedScale) :=
  tpUpdateCycle_currentvel_le_maxvel realMath sampleConst {} {} {} {} rampCruiseSeg
    (by norm_num [sampleConst]) (by norm_num [rampCruiseSeg]) (by norm_num [rampCruiseSeg])
    (by norm_num [rampCruiseSeg]) (by norm_num [rampCruiseSeg]) (by norm_num [rampCruiseSeg])
    (by norm_num) (by norm_num)
    (by
      intro _ _ _
      norm_num [rampCruiseSeg, sampleConst, tpGetRealTargetVel, tpGetFeedScale,
        tpGetRealFinalVel, rampTimeRemaining, fmin, fmax, TC_TERM_COND_TANGENT,
        TC_SYNC_POSITION])

/-- While pausing or aborting the feed scale is 0. -/
theorem tpGetFeedScale_paused (c : TPConst K) (st : EmcmotStatus K) (tp : TP K) (tc : TC K)
    (hp : tp.pausing ≠ 0 ∨ tp.aborting ≠ 0) : tpGetFeedScale c st tp tc = 0 := by
  unfold tpGetFeedScale
  rw [if_pos hp]

/-- While pausing or aborting the real target velocity is 0. -/
theorem tpGetRealTargetVel_paused (c : TPConst K) (st : EmcmotStatus K) (tp : TP K) (tc : TC K)
    (hp : tp.pausing ≠ 0 ∨ tp.aborting ≠ 0) (hmv : 0 ≤ tc.maxvel) :
    tpGetRealTargetVel c st tp tc = 0 := by
  unfold tpGetRealTargetVel fmin
  rw [tpGetFeedScale_paused c st tp tc hp, mul_zero]
  split_ifs with h
  · rfl
  · exact le_antisymm (not_lt.mp h) hmv

/-- While pausing or aborting the real final velocity is 0. -/
theorem tpGetRealFinalVel_paused (c : TPConst K) (st : EmcmotStatus K) (dbg : EmcmotDebug K)
    (tp : TP K) (tc : TC K) (hp : tp.pausing ≠ 0 ∨ tp.aborting ≠ 0) :
    tpGetRealFinalVel c st dbg tp tc 0 = 0 := by
  unfold tpGetRealFinalVel
  dsimp only
  rw [tpGetFeedScale_paused c st tp tc hp]
  have h01 : fmin (0 : K) 1 = 0 := by
    unfold fmin
    rw [if_pos zero_lt_one]
  rw [h01, mul_zero]
  split_ifs <;> rfl

theorem saturate_zero_right (x : K) : saturate x 0 = 0 := by
  unfold saturate
  split_ifs with h1 h2
  · rfl
  · exact neg_zero
  · rw [neg_zero] at h2
    exact le_antisymm (not_lt.mp h1) (not_lt.mp h2)

theorem saturate_zero_left (a : K) (ha : 0 ≤ a) : saturate 0 a = 0 := by
  unfold saturate
  split_ifs with h1 h2
  · exact absurd h1 (not_lt.mpr ha)
  · linarith
  · rfl

/-- While pausing or aborting, the trapezoidal acceleration never points along the
cycle time: `acc * cycle_time ≤ 0`, for a cycle time different from zero. -/
theorem tpCalculateTrapezoidalAccel_paused (m : MathLib K) (c : TPConst K)
    (st : EmcmotStatus K) (dbg : EmcmotDebug K) (tp : TP K) (tc : TC K)
    (hp : tp.pausing ≠ 0 ∨ tp.aborting ≠ 0) (hs : 0 ≤ tpGetScaledAccel c tc)
    (hv : 0 ≤ tc.currentvel) (hmv : 0 ≤ tc.maxvel) (hl : 0 ≤ tp.vLimit)
    (hct : tc.cycle_time ≠ 0) :
    (tpCalculateTrapezoidalAccel m c st dbg tp tc).1 * tc.cycle_time ≤ 0 := by
  unfold tpCalculateTrapezoidalAccel
  dsimp only
  rw [tpGetRealTargetVel_paused c st tp tc hp hmv]
  simp only [saturate_zero_right, sat_inplace_fst, saturate_zero_left _ hl, ite_self]
  apply saturate_mul_nonpos _ _ _ hs
  rw [div_mul_cancel₀ _ hct]
  linarith

/-- C8: while `tp.pausing` or `tp.aborting` is set, for every segment (any sync mode,
accel mode or term condition) with `currentvel ≥ 0`, `maxvel ≥ 0`, `maxaccel ≥ 0`,
`tp.vLimit ≥ 0` and a servo period `cycle_time ≠ 0` (the segment invariant is
`cycle_time > 0`), one `tpUpdateCycle` velocity update never increases the speed. The
constants `TP_ACC_RATIO_TANGENTIAL ≥ 0` and `TP_VEL_EPSILON > 0` come from the absent
header. -/
theorem tpUpdateCycle_paused_no_speedup (m : MathLib K) (c : TPConst K) (st : EmcmotStatus K)
    (dbg : EmcmotDebug K) (tp : TP K) (tc : TC K)
    (hc : 0 ≤ c.TP_ACC_RATIO_TANGENTIAL) (heps : 0 < c.TP_VEL_EPSILON)
    (hp : tp.pausing ≠ 0 ∨ tp.aborting ≠ 0)
    (hv : 0 ≤ tc.currentvel) (hmv : 0 ≤ tc.maxvel) (ha : 0 ≤ tc.maxaccel)
    (hl : 0 ≤ tp.vLimit) (hct : tc.cycle_time ≠ 0) :
    (tpUpdateCycle m c st dbg tp tc).currentvel ≤ tc.currentvel := by
  have hs := tpGetScaledAccel_nonneg c tc hc ha
  have htrap := tpCalculateTrapezoidalAccel_paused m c st dbg tp tc hp hs hv hmv hl hct
  have hnone : (tpCalculateRampAccel c st dbg tp tc).2 = none := by
    cases hres : (tpCalculateRampAccel c st dbg tp tc).2 with
    | none => rfl
    | some av =>
      obtain ⟨hnot, _⟩ := tpCalculateRampAccel_some c st dbg tp tc av hres
      rw [tpGetRealTargetVel_paused c st tp tc hp hmv,
        tpGetRealFinalVel_paused c st dbg tp tc hp] at hnot
      exact absurd heps hnot
  have hacc : tpUpdateCycleAccel m c st dbg tp tc * tc.cycle_time ≤ 0 := by
    unfold tpUpdateCycleAccel
    rw [hnone]
    split_ifs <;> exact htrap
  rw [tpUpdateCycle_currentvel]
  split_ifs
  · exact hv
  · linarith

/-- Witness for C8: the cruising ramp segment on a paused planner with `vLimit = 50`. -/
theorem tpUpdateCycle_paused_no_speedup_witness :
    (tpUpdateCycle realMath sampleConst {} {} { pausing := 1, vLimit := 50 }
        rampCruiseSeg).currentvel ≤ (rampCruiseSeg : TC ℝ).currentvel :=
  tpUpdateCycle_paused_no_speedup realMath sampleConst {} {} { pausing := 1, vLimit := 50 }
    rampCruiseSeg (by norm_num [sampleConst]) (by norm_num [sampleConst])
    (Or.inl (by decide)) (by norm_num [rampCruiseSeg]) (by norm_num [rampCruiseSeg])
    (by norm_num [rampCruiseSeg]) (by norm_num) (by norm_num [rampCruiseSeg])


/-! ### Blend arcs -/

theorem realMath_sqrtExact : SqrtExact realMath :=
  ⟨fun x => Real.sqrt_nonneg x, fun _ hx => Real.mul_self_sqrt hx,
    fun _ hx => Real.sqrt_eq_zero_of_nonpos hx⟩

theorem realMath_trigAt (θ : ℝ) (h0 : 0 < θ) (h1 : θ < Real.pi / 2) : TrigAt realMath θ where
  sin_pos := Real.sin_pos_of_pos_of_lt_pi h0 (by linarith [Real.pi_pos])
  sin_lt_one := by
    have h := Real.sin_lt_sin_of_lt_of_le_pi_div_two (by linarith [Real.pi_pos]) (le_refl _) h1
    rwa [Real.sin_pi_div_two] at h
  cos_pos := Real.cos_pos_of_mem_Ioo ⟨by linarith [Real.pi_pos], h1⟩
  tan_eq := Real.tan_eq_sin_div_cos θ
  two_mul_lt_pi := by
    show θ * 2 < Real.pi
    linarith

theorem fmin_nonneg (a b : K) (ha : 0 ≤ a) (hb : 0 ≤ b) : 0 ≤ fmin a b :=
  le_fmin _ _ _ ha hb

/-- The geometric radius `R_geom = tan θ * min(min(L1, L2), d_tol)` is non-negative and its
corner deviation `R_geom * (1 / sin θ - 1)` is within the tolerance. -/
theorem blend_R_geom_bound (s co t T L1 L2 : K) (hs0 : 0 < s) (hs1 : s < 1) (hco : 0 < co)
    (ht : t = s / co) (hT : 0 ≤ T) (hL1 : 0 ≤ L1) (hL2 : 0 ≤ L2) :
    0 ≤ t * fmin (fmin L1 L2) (co * (T / (1 - s))) ∧
    t * fmin (fmin L1 L2) (co * (T / (1 - s))) * (1 / s - 1) ≤ T := by
  have h1s : 0 < 1 - s := by linarith
  have htpos : 0 < t := by
    rw [ht]
    exact div_pos hs0 hco
  have hdtol : 0 ≤ co * (T / (1 - s)) := mul_nonneg (le_of_lt hco) (div_nonneg hT (le_of_lt h1s))
  have hd0 : 0 ≤ fmin (fmin L1 L2) (co * (T / (1 - s))) :=
    fmin_nonneg _ _ (fmin_nonneg _ _ hL1 hL2) hdtol
  have hd1 : fmin (fmin L1 L2) (co * (T / (1 - s))) ≤ co * (T / (1 - s)) := fmin_le_right _ _
  have hfac : 0 ≤ 1 / s - 1 := by
    rw [sub_nonneg, le_div_iff₀ hs0]
    linarith
  refine ⟨mul_nonneg (le_of_lt htpos) hd0, ?_⟩
  calc t * fmin (fmin L1 L2) (co * (T / (1 - s))) * (1 / s - 1)
      ≤ t * (co * (T / (1 - s))) * (1 / s - 1) :=
        mul_le_mul_of_nonneg_right (mul_le_mul_of_nonneg_left hd1 (le_of_lt htpos)) hfac
    _ = T := by
        rw [ht]
        have hs : s ≠ 0 := ne_of_gt hs0
        have hc : co ≠ 0 := ne_of_gt hco
        have h1 : 1 - s ≠ 0 := ne_of_gt h1s
        field_simp
        ring

/-- A planned speed between 0 and `sqrt (a * R)` gives a radius `v² / a` between 0 and `R`. -/
theorem blend_R_plan_le (m : MathLib K) (hm : SqrtExact m) (a R v : K) (ha : 0 < a)
    (hR : 0 ≤ R) (hv0 : 0 ≤ v) (hv : v ≤ m.sqrt (a * R)) :
    0 ≤ pmSq v / a ∧ pmSq v / a ≤ R := by
  unfold pmSq
  have hq := hm.mul_self (a * R) (mul_nonneg (le_of_lt ha) hR)
  have hvv : v * v ≤ a * R := by
    calc v * v ≤ m.sqrt (a * R) * m.sqrt (a * R) := mul_le_mul hv hv hv0 (hm.nonneg _)
      _ = a * R := hq
  refine ⟨div_nonneg (mul_nonneg hv0 hv0) (le_of_lt ha), ?_⟩
  rw [div_le_iff₀ ha]
  linarith

/-- The radius planned by `blendComputeParameters`. -/
theorem blendComputeParameters_R_plan (m : MathLib K) (c : TPConst K)
    (param : BlendParameters K) :
    (blendComputeParameters m c param).1.R_plan =
      pmSq (fmin (m.sqrt (param.a_n_max * (m.tan param.theta *
        fmin (fmin param.L1 param.L2)
          (m.cos param.theta * (param.tolerance / (1 - m.sin param.theta))))))
        param.v_goal) / param.a_n_max := by
  unfold blendComputeParameters
  dsimp only
  split_ifs <;> rfl

/-- The speed planned by `blendComputeParameters`. -/
theorem blendComputeParameters_v_plan (m : MathLib K) (c : TPConst K)
    (param : BlendParameters K) :
    (blendComputeParameters m c param).1.v_plan =
      fmin (m.sqrt (param.a_n_max * (m.tan param.theta *
        fmin (fmin param.L1 param.L2)
          (m.cos param.theta * (param.tolerance / (1 - m.sin param.theta))))))
        param.v_goal := by
  unfold blendComputeParameters
  dsimp only
  split_ifs <;> rfl

/-- Corner deviation of the radius planned by `blendComputeParameters`, for any math
routines that are exact at `θ`. -/
theorem blendComputeParameters_deviation (m : MathLib K) (c : TPConst K)
    (param : BlendParameters K) (hm : SqrtExact m) (ht : TrigAt m param.theta)
    (hT : 0 ≤ param.tolerance) (ha : 0 < param.a_n_max) (hv : 0 ≤ param.v_goal)
    (hL1 : 0 ≤ param.L1) (hL2 : 0 ≤ param.L2) :
    (blendComputeParameters m c param).1.R_plan * (1 / m.sin param.theta - 1) ≤
      param.tolerance := by
  obtain ⟨hR0, hRT⟩ := blend_R_geom_bound (m.sin param.theta) (m.cos param.theta)
    (m.tan param.theta) param.tolerance param.L1 param.L2 ht.sin_pos ht.sin_lt_one ht.cos_pos
    ht.tan_eq hT hL1 hL2
  have hfac : 0 ≤ 1 / m.sin param.theta - 1 := by
    rw [sub_nonneg, le_div_iff₀ ht.sin_pos]
    linarith [ht.sin_lt_one]
  rw [blendComputeParameters_R_plan]
  obtain ⟨_, hle⟩ := blend_R_plan_le m hm param.a_n_max _ _ ha hR0
    (fmin_nonneg _ _ (hm.nonneg _) hv) (fmin_le_left _ _)
  exact le_trans (mul_le_mul_of_nonneg_right hle hfac) hRT


/-- The radius planned by `tpCreateLineLineBlend`, in terms of its other locals. -/
theorem tpCreateLineLineBlend_R_plan (m : MathLib K) (c : TPConst K) (cfg : EmcmotConfig K)
    (st : EmcmotStatus K) (tp : TP K) (theta a_max v_max theta_acc : K) (prev_tc tc : TC K) :
    (tpCreateLineLineBlend m c cfg st tp theta a_max v_max theta_acc prev_tc tc).R_plan =
      if m.sqrt ((tpCreateLineLineBlend m c cfg st tp theta a_max v_max theta_acc prev_tc tc).a_n_max
            * (tpCreateLineLineBlend m c cfg st tp theta a_max v_max theta_acc prev_tc tc).R_geom)
          > (tpCreateLineLineBlend m c cfg st tp theta a_max v_max theta_acc prev_tc tc).v_goal
      then pmSq (tpCreateLineLineBlend m c cfg st tp theta a_max v_max theta_acc prev_tc tc).v_goal
        / (tpCreateLineLineBlend m c cfg st tp theta a_max v_max theta_acc prev_tc tc).a_n_max
      else (tpCreateLineLineBlend m c cfg st tp theta a_max v_max theta_acc prev_tc tc).R_geom :=
  rfl

/-- The geometric radius inside `tpCreateLineLineBlend`. -/
theorem tpCreateLineLineBlend_R_geom (m : MathLib K) (c : TPConst K) (cfg : EmcmotConfig K)
    (st : EmcmotStatus K) (tp : TP K) (theta a_max v_max theta_acc : K) (prev_tc tc : TC K) :
    (tpCreateLineLineBlend m c cfg st tp theta a_max v_max theta_acc prev_tc tc).R_geom =
      m.tan theta * fmin
        (fmin (tpCreateLineLineBlend m c cfg st tp theta a_max v_max theta_acc prev_tc tc).L1
          (tpCreateLineLineBlend m c cfg st tp theta a_max v_max theta_acc prev_tc tc).L2)
        (m.cos theta *
          ((tpCreateLineLineBlend m c cfg st tp theta a_max v_max theta_acc prev_tc tc).tolerance
            / (1 - m.sin theta))) :=
  rfl

/-- Corner deviation of the radius planned by `tpCreateLineLineBlend`, for any math
routines that are exact at `θ`. -/
theorem tpCreateLineLineBlend_deviation (m : MathLib K) (c : TPConst K) (cfg : EmcmotConfig K)
    (st : EmcmotStatus K) (tp : TP K) (theta a_max v_max theta_acc : K) (prev_tc tc : TC K)
    (hm : SqrtExact m) (ht : TrigAt m theta)
    (hT : 0 ≤ (tpCreateLineLineBlend m c cfg st tp theta a_max v_max theta_acc prev_tc tc).tolerance)
    (ha : 0 < (tpCreateLineLineBlend m c cfg st tp theta a_max v_max theta_acc prev_tc tc).a_n_max)
    (hv : 0 ≤ (tpCreateLineLineBlend m c cfg st tp theta a_max v_max theta_acc prev_tc tc).v_goal)
    (hL1 : 0 ≤ (tpCreateLineLineBlend m c cfg st tp theta a_max v_max theta_acc prev_tc tc).L1)
    (hL2 : 0 ≤ (tpCreateLineLineBlend m c cfg st tp theta a_max v_max theta_acc prev_tc tc).L2) :
    (tpCreateLineLineBlend m c cfg st tp theta a_max v_max theta_acc prev_tc tc).R_plan
      * (1 / m.sin theta - 1) ≤
    (tpCreateLineLineBlend m c cfg st tp theta a_max v_max theta_acc prev_tc tc).tolerance := by
  rw [tpCreateLineLineBlend_R_plan]
  set r := tpCreateLineLineBlend m c cfg st tp theta a_max v_max theta_acc prev_tc tc with hr
  have hRg := tpCreateLineLineBlend_R_geom m c cfg st tp theta a_max v_max theta_acc prev_tc tc
  rw [← hr] at hRg
  obtain ⟨hR0, hRT⟩ := blend_R_geom_bound (m.sin theta) (m.cos theta) (m.tan theta)
    r.tolerance r.L1 r.L2 ht.sin_pos ht.sin_lt_one ht.cos_pos ht.tan_eq hT hL1 hL2
  rw [← hRg] at hR0 hRT
  have hfac : 0 ≤ 1 / m.sin theta - 1 := by
    rw [sub_nonneg, le_div_iff₀ ht.sin_pos]
    linarith [ht.sin_lt_one]
  split_ifs with hgt
  · obtain ⟨_, hle⟩ := blend_R_plan_le m hm r.a_n_max r.R_geom r.v_goal ha hR0 hv (le_of_lt hgt)
    exact le_trans (mul_le_mul_of_nonneg_right hle hfac) hRT
  · exact hRT

/-- The blend tolerance is at most each declared tolerance that is non-zero. -/
theorem tcFindBlendTolerance_le (prev_tc tc : TC K) :
    (prev_tc.tolerance ≠ 0 → (tcFindBlendTolerance prev_tc tc).1 ≤ prev_tc.tolerance) ∧
    (tc.tolerance ≠ 0 → (tcFindBlendTolerance prev_tc tc).1 ≤ tc.tolerance) := by
  unfold tcFindBlendTolerance
  dsimp only
  constructor
  · intro h
    rw [if_neg h]
    exact le_trans (fmin_le_left _ _) (le_trans (fmin_le_left _ _) (fmin_le_left _ _))
  · intro h
    rw [if_neg h]
    exact le_trans (fmin_le_left _ _) (le_trans (fmin_le_left _ _) (fmin_le_right _ _))

/-- C4: for an intersection half-angle `θ ∈ (0, π/2)`, blend tolerance `T ≥ 0`,
`a_n_max > 0`, `v_goal ≥ 0` and available lengths `L1, L2 ≥ 0`, the radius `R_plan`
planned by `blendComputeParameters`, and the one planned by the same formulas inside
`tpCreateLineLineBlend`, satisfy `R_plan * (1 / sin θ - 1) ≤ T`; and the tolerance `T`
produced by `tcFindBlendTolerance` is at most each declared tolerance that is non-zero. -/
theorem blend_arc_within_tolerance (c : TPConst ℝ) (cfg : EmcmotConfig ℝ) (st : EmcmotStatus ℝ)
    (tp : TP ℝ) (param : BlendParameters ℝ) (a_max v_max theta_acc : ℝ) (prev_tc tc : TC ℝ)
    (hθ0 : 0 < param.theta) (hθ1 : param.theta < Real.pi / 2) :
    (0 ≤ param.tolerance → 0 < param.a_n_max → 0 ≤ param.v_goal → 0 ≤ param.L1 →
      0 ≤ param.L2 →
      (blendComputeParameters realMath c param).1.R_plan * (1 / Real.sin param.theta - 1) ≤
        param.tolerance) ∧
    (0 ≤ (tpCreateLineLineBlend realMath c cfg st tp param.theta a_max v_max theta_acc
          prev_tc tc).tolerance →
      0 < (tpCreateLineLineBlend realMath c cfg st tp param.theta a_max v_max theta_acc
          prev_tc tc).a_n_max →
      0 ≤ (tpCreateLineLineBlend realMath c cfg st tp param.theta a_max v_max theta_acc
          prev_tc tc).v_goal →
      0 ≤ (tpCreateLineLineBlend realMath c cfg st tp param.theta a_max v_max theta_acc
          prev_tc tc).L1 →
      0 ≤ (tpCreateLineLineBlend realMath c cfg st tp param.theta a_max v_max theta_acc
          prev_tc tc).L2 →
      (tpCreateLineLineBlend realMath c cfg st tp param.theta a_max v_max theta_acc
          prev_tc tc).R_plan * (1 / Real.sin param.theta - 1) ≤
        (tcFindBlendTolerance prev_tc tc).1) ∧
    (prev_tc.tolerance ≠ 0 → (tcFindBlendTolerance prev_tc tc).1 ≤ prev_tc.tolerance) ∧
    (tc.tolerance ≠ 0 → (tcFindBlendTolerance prev_tc tc).1 ≤ tc.tolerance) := by
  have ht := realMath_trigAt param.theta hθ0 hθ1
  refine ⟨?_, ?_, tcFindBlendTolerance_le prev_tc tc⟩
  · intro hT ha hv hL1 hL2
    exact blendComputeParameters_deviation realMath c param realMath_sqrtExact ht hT ha hv
      hL1 hL2
  · intro hT ha hv hL1 hL2
    exact tpCreateLineLineBlend_deviation realMath c cfg st tp param.theta a_max v_max
      theta_acc prev_tc tc realMath_sqrtExact ht hT ha hv hL1 hL2


/-- The parabolic reference speed written by `tpComputeBlendVelocity` (0 if none is
written) is non-negative. -/
theorem tpComputeBlendVelocity_parabolic_nonneg (m : MathLib K) (c : TPConst K)
    (cfg : EmcmotConfig K) (st : EmcmotStatus K) (tp : TP K) (theta : K) (tc nexttc : TC K)
    (planning want_parabolic : Bool) (hm : SqrtExact m) :
    0 ≤ (tpComputeBlendVelocity m c cfg st tp theta tc nexttc planning
      want_parabolic).2.2.1.getD 0 := by
  unfold tpComputeBlendVelocity
  refine ite_rec (fun r : TC K × TC K × Option K × TPErr => 0 ≤ r.2.2.1.getD 0) ?_ ?_
  · exact le_refl _
  · have key : ∀ (p : Prop) [Decidable p] (x : K),
        0 ≤ (if p then some (m.sqrt x / 2) else none).getD 0 := by
      intro p _ x
      refine ite_rec (fun o : Option K => 0 ≤ o.getD 0) ?_ ?_
      · exact div_nonneg (hm.nonneg x) (by norm_num)
      · exact le_refl _
    refine ite_rec (fun r : TC K × TC K × Option K × TPErr => 0 ≤ r.2.2.1.getD 0) ?_ ?_
    · exact key _ _
    · exact key _ _

/-- The speed cap and abort code of `tpCreateLineLineBlend`, in terms of its other locals. -/
theorem tpCreateLineLineBlend_v_plan (m : MathLib K) (c : TPConst K) (cfg : EmcmotConfig K)
    (st : EmcmotStatus K) (tp : TP K) (theta a_max v_max theta_acc : K) (prev_tc tc : TC K) :
    (tpCreateLineLineBlend m c cfg st tp theta a_max v_max theta_acc prev_tc tc).v_plan =
      (let r := tpCreateLineLineBlend m c cfg st tp theta a_max v_max theta_acc prev_tc tc
       let v0 := if m.sqrt (r.a_n_max * r.R_geom) > r.v_goal then r.v_goal
         else m.sqrt (r.a_n_max * r.R_geom)
       if v0 > r.s_arc / (tp.cycleTime * c.TP_MIN_SEGMENT_CYCLES)
       then r.s_arc / (tp.cycleTime * c.TP_MIN_SEGMENT_CYCLES) else v0) :=
  rfl

theorem tpCreateLineLineBlend_abort (m : MathLib K) (c : TPConst K) (cfg : EmcmotConfig K)
    (st : EmcmotStatus K) (tp : TP K) (theta a_max v_max theta_acc : K) (prev_tc tc : TC K) :
    (tpCreateLineLineBlend m c cfg st tp theta a_max v_max theta_acc prev_tc tc).abort =
      (let r := tpCreateLineLineBlend m c cfg st tp theta a_max v_max theta_acc prev_tc tc
       if cfg.arcBlendFallbackEnable ≠ 0 then
         (if r.v_plan ≤ (tpComputeBlendVelocity m c cfg st tp theta_acc prev_tc tc true
            true).2.2.1.getD 0 then some TPErr.NO_ACTION else none)
       else (if r.R_plan < c.TP_POS_EPSILON then some TPErr.FAIL else none)) :=
  rfl

theorem tpCreateLineLineBlend_s_arc (m : MathLib K) (c : TPConst K) (cfg : EmcmotConfig K)
    (st : EmcmotStatus K) (tp : TP K) (theta a_max v_max theta_acc : K) (prev_tc tc : TC K) :
    (tpCreateLineLineBlend m c cfg st tp theta a_max v_max theta_acc prev_tc tc).s_arc =
      (let r := tpCreateLineLineBlend m c cfg st tp theta a_max v_max theta_acc prev_tc tc
       if r.consume = true then (m.pi - theta * 2) * r.R_plan
         + (prev_tc.target - r.R_plan / m.tan theta)
       else (m.pi - theta * 2) * r.R_plan) :=
  rfl

theorem tpCreateLineLineBlend_L1_le (m : MathLib K) (c : TPConst K) (cfg : EmcmotConfig K)
    (st : EmcmotStatus K) (tp : TP K) (theta a_max v_max theta_acc : K) (prev_tc tc : TC K) :
    (tpCreateLineLineBlend m c cfg st tp theta a_max v_max theta_acc prev_tc tc).L1 ≤
      prev_tc.target :=
  fmin_le_left _ _

/-- The speed cap handed to `tpInitBlendArc` respects the normal-acceleration limit, for
any math routines that are exact at `θ`. -/
theorem tpCreateLineLineBlend_normal_accel (m : MathLib K) (c : TPConst K)
    (cfg : EmcmotConfig K) (st : EmcmotStatus K) (tp : TP K) (theta a_max v_max theta_acc : K)
    (prev_tc tc : TC K) (hm : SqrtExact m) (ht : TrigAt m theta)
    (heps : 0 ≤ c.TP_POS_EPSILON) (hmin : 0 < c.TP_MIN_SEGMENT_CYCLES) (hct : 0 ≤ tp.cycleTime)
    (ha : 0 < (tpCreateLineLineBlend m c cfg st tp theta a_max v_max theta_acc prev_tc tc).a_n_max)
    (hv : 0 ≤ (tpCreateLineLineBlend m c cfg st tp theta a_max v_max theta_acc prev_tc tc).v_goal)
    (hb : (tpCreateLineLineBlend m c cfg st tp theta a_max v_max theta_acc prev_tc tc).abort
      = none) :
    pmSq (tpCreateLineLineBlend m c cfg st tp theta a_max v_max theta_acc prev_tc tc).v_plan ≤
      (tpCreateLineLineBlend m c cfg st tp theta a_max v_max theta_acc prev_tc tc).a_n_max *
      (tpCreateLineLineBlend m c cfg st tp theta a_max v_max theta_acc prev_tc tc).R_plan := by
  have hvp := tpCreateLineLineBlend_v_plan m c cfg st tp theta a_max v_max theta_acc prev_tc tc
  have hab := tpCreateLineLineBlend_abort m c cfg st tp theta a_max v_max theta_acc prev_tc tc
  have hRp := tpCreateLineLineBlend_R_plan m c cfg st tp theta a_max v_max theta_acc prev_tc tc
  have hRg := tpCreateLineLineBlend_R_geom m c cfg st tp theta a_max v_max theta_acc prev_tc tc
  have hsa := tpCreateLineLineBlend_s_arc m c cfg st tp theta a_max v_max theta_acc prev_tc tc
  have hL1 := tpCreateLineLineBlend_L1_le m c cfg st tp theta a_max v_max theta_acc prev_tc tc
  have hpar := tpComputeBlendVelocity_parabolic_nonneg m c cfg st tp theta_acc prev_tc tc true
    true hm
  set r := tpCreateLineLineBlend m c cfg st tp theta a_max v_max theta_acc prev_tc tc with hr
  set vpar := (tpComputeBlendVelocity m c cfg st tp theta_acc prev_tc tc true true).2.2.1.getD 0
  set q := m.sqrt (r.a_n_max * r.R_geom) with hq
  set mst := tp.cycleTime * c.TP_MIN_SEGMENT_CYCLES with hmst
  dsimp only at hvp hab hsa
  have hq0 : 0 ≤ q := hm.nonneg _
  have hmst0 : 0 ≤ mst := mul_nonneg hct (le_of_lt hmin)
  have htpos : 0 < m.tan theta := by
    rw [ht.tan_eq]
    exact div_pos ht.sin_pos ht.cos_pos
  have hphi : 0 < m.pi - theta * 2 := sub_pos.mpr ht.two_mul_lt_pi
  -- the speed before the sample-rate clip
  set v0 := (if q > r.v_goal then r.v_goal else q) with hv0
  have hv0nn : 0 ≤ v0 := by
    rw [hv0]
    split_ifs
    · exact hv
    · exact hq0
  have hvle : r.v_plan ≤ v0 := by
    rw [hvp]
    split_ifs with h
    · exact le_of_lt h
    · exact le_refl _
  -- when `a * R_geom ≥ 0` (or the goal speed is the smaller one) `v0² = a * R_plan`
  have hsq : (q > r.v_goal ∨ 0 ≤ r.a_n_max * r.R_geom) → pmSq v0 = r.a_n_max * r.R_plan := by
    intro hcase
    rw [hRp, hv0]
    by_cases hgt : q > r.v_goal
    · rw [if_pos hgt, if_pos hgt]
      unfold pmSq
      field_simp
    · rw [if_neg hgt, if_neg hgt]
      rcases hcase with h | h
      · exact absurd h hgt
      · exact hm.mul_self _ h
  have hmono : 0 ≤ r.v_plan → pmSq r.v_plan ≤ pmSq v0 := by
    intro h0
    unfold pmSq
    exact mul_le_mul hvle hvle h0 hv0nn
  rw [hab] at hb
  by_cases hfb : cfg.arcBlendFallbackEnable ≠ 0
  · rw [if_pos hfb] at hb
    have hgt : vpar < r.v_plan := by
      by_contra hcon
      rw [if_pos (not_lt.mp hcon)] at hb
      cases hb
    have hvpos : 0 < r.v_plan := lt_of_le_of_lt hpar hgt
    have hv0pos : 0 < v0 := lt_of_lt_of_le hvpos hvle
    have hcase : q > r.v_goal ∨ 0 ≤ r.a_n_max * r.R_geom := by
      by_cases hgt2 : q > r.v_goal
      · exact Or.inl hgt2
      · right
        by_contra hneg
        have hq00 : q = 0 := hm.of_nonpos _ (le_of_lt (not_le.mp hneg))
        rw [hv0, if_neg hgt2, hq00] at hv0pos
        exact lt_irrefl _ hv0pos
    rw [← hsq hcase]
    exact hmono (le_of_lt hvpos)
  · rw [if_neg hfb] at hb
    have hRge : c.TP_POS_EPSILON ≤ r.R_plan := by
      by_contra hcon
      rw [if_pos (not_le.mp hcon)] at hb
      cases hb
    have hRp0 : 0 ≤ r.R_plan := le_trans heps hRge
    -- `R_plan ≤ R_geom`, and `a * R_geom ≥ 0` unless the goal speed is the smaller one
    have hRle : r.R_plan ≤ r.R_geom ∧ (q > r.v_goal ∨ 0 ≤ r.a_n_max * r.R_geom) := by
      by_cases hgt2 : q > r.v_goal
      · have hqpos : 0 < q := lt_of_le_of_lt hv hgt2
        have haR : 0 < r.a_n_max * r.R_geom := by
          by_contra hneg
          have hq00 : q = 0 := hm.of_nonpos _ (not_lt.mp hneg)
          rw [hq00] at hqpos
          exact lt_irrefl _ hqpos
        have hRg0 : 0 ≤ r.R_geom := le_of_lt ((pos_iff_pos_of_mul_pos haR).mp ha)
        obtain ⟨_, hle⟩ := blend_R_plan_le m hm r.a_n_max r.R_geom r.v_goal ha hRg0 hv
          (le_of_lt hgt2)
        rw [hRp, if_pos hgt2]
        exact ⟨hle, Or.inl hgt2⟩
      · rw [hRp, if_neg hgt2]
        rw [hRp, if_neg hgt2] at hRp0
        exact ⟨le_refl _, Or.inr (mul_nonneg (le_of_lt ha) hRp0)⟩
    have hdle : r.R_plan / m.tan theta ≤ prev_tc.target := by
      have h1 : r.R_plan / m.tan theta ≤ r.R_geom / m.tan theta :=
        div_le_div_of_nonneg_right hRle.1 (le_of_lt htpos)
      have h2 : r.R_geom / m.tan theta ≤ r.L1 := by
        rw [hRg, mul_div_cancel_left₀ _ (ne_of_gt htpos)]
        exact le_trans (fmin_le_left _ _) (fmin_le_left _ _)
      linarith
    have hs0 : 0 ≤ r.s_arc := by
      rw [hsa]
      have hpr : 0 ≤ (m.pi - theta * 2) * r.R_plan := mul_nonneg (le_of_lt hphi) hRp0
      split_ifs
      · linarith
      · exact hpr
    have hvs : 0 ≤ r.s_arc / mst := div_nonneg hs0 hmst0
    have hvp0 : 0 ≤ r.v_plan := by
      rw [hvp]
      split_ifs
      · exact hvs
      · exact hv0nn
    rw [← hsq hRle.2]
    exact hmono hvp0


/-- `blendComputeParameters` plans `R_plan = v_plan² / a_n_max`. -/
theorem blendComputeParameters_normal_accel (m : MathLib K) (c : TPConst K)
    (param : BlendParameters K) (ha : 0 < param.a_n_max) :
    pmSq (blendComputeParameters m c param).1.v_plan =
      param.a_n_max * (blendComputeParameters m c param).1.R_plan := by
  rw [blendComputeParameters_R_plan, blendComputeParameters_v_plan]
  have : param.a_n_max ≠ 0 := ne_of_gt ha
  field_simp

/-- C5: for a line-line pair with `θ ∈ (0, π/2)`, `a_n_max > 0` and `v_goal ≥ 0` for which
`tpCreateLineLineBlend` builds a blend arc, the velocity cap `v_plan` handed to
`tpInitBlendArc` as the arc's `maxvel` satisfies `v_plan² ≤ a_n_max * R_plan`; the same
holds for `v_plan` and `R_plan` of `blendComputeParameters`. The planner's cycle time is
not negative, the constant `TP_MIN_SEGMENT_CYCLES` is positive and `TP_POS_EPSILON ≥ 0`. -/
theorem blend_arc_normal_accel (c : TPConst ℝ) (cfg : EmcmotConfig ℝ) (st : EmcmotStatus ℝ)
    (tp : TP ℝ) (param : BlendParameters ℝ) (a_max v_max theta_acc : ℝ) (prev_tc tc : TC ℝ)
    (hθ0 : 0 < param.theta) (hθ1 : param.theta < Real.pi / 2) :
    (0 < param.a_n_max → 0 ≤ param.v_goal →
      pmSq (blendComputeParameters realMath c param).1.v_plan ≤
        param.a_n_max * (blendComputeParameters realMath c param).1.R_plan) ∧
    (0 ≤ c.TP_POS_EPSILON → 0 < c.TP_MIN_SEGMENT_CYCLES → 0 ≤ tp.cycleTime →
      0 < (tpCreateLineLineBlend realMath c cfg st tp param.theta a_max v_max theta_acc
          prev_tc tc).a_n_max →
      0 ≤ (tpCreateLineLineBlend realMath c cfg st tp param.theta a_max v_max theta_acc
          prev_tc tc).v_goal →
      (tpCreateLineLineBlend realMath c cfg st tp param.theta a_max v_max theta_acc
          prev_tc tc).abort = none →
      pmSq (tpCreateLineLineBlend realMath c cfg st tp param.theta a_max v_max theta_acc
          prev_tc tc).v_plan ≤
        (tpCreateLineLineBlend realMath c cfg st tp param.theta a_max v_max theta_acc
          prev_tc tc).a_n_max *
        (tpCreateLineLineBlend realMath c cfg st tp param.theta a_max v_max theta_acc
          prev_tc tc).R_plan) := by
  have ht := realMath_trigAt param.theta hθ0 hθ1
  constructor
  · intro ha _
    exact le_of_eq (blendComputeParameters_normal_accel realMath c param ha)
  · intro heps hmin hct ha hv hb
    exact tpCreateLineLineBlend_normal_accel realMath c cfg st tp param.theta a_max v_max
      theta_acc prev_tc tc realMath_sqrtExact ht heps hmin hct ha hv hb

/-! #### The sample corner -/

theorem blendTheta_pos : 0 < blendTheta := Real.arcsin_pos.mpr (by norm_num)

theorem blendTheta_lt : blendTheta < Real.pi / 2 := Real.arcsin_lt_pi_div_two.mpr (by norm_num)

theorem sin_blendTheta : Real.sin blendTheta = 3 / 5 :=
  Real.sin_arcsin (by norm_num) (by norm_num)

theorem cos_blendTheta : Real.cos blendTheta = 4 / 5 := by
  unfold blendTheta
  rw [Real.cos_arcsin]
  have h : (1 : ℝ) - (3 / 5) ^ 2 = (4 / 5) ^ 2 := by norm_num
  rw [h]
  exact Real.sqrt_sq (by norm_num)

theorem tan_blendTheta : Real.tan blendTheta = 3 / 4 := by
  rw [Real.tan_eq_sin_div_cos, sin_blendTheta, cos_blendTheta]
  norm_num

/-- At the sample corner the geometric radius is 0.15 and the goal speed 100 is above the
normal-acceleration speed `sqrt 15`, so `R_plan = R_geom = 0.15`. -/
theorem sample_blend_R_plan :
    (tpCreateLineLineBlend realMath sampleConst blendCfg {} { cycleTime := 1 / 1000 }
      blendTheta 200 150 blendTheta blendSeg blendSeg).R_plan = 3 / 20 := by
  have hRg : (tpCreateLineLineBlend realMath sampleConst blendCfg {} { cycleTime := 1 / 1000 }
      blendTheta 200 150 blendTheta blendSeg blendSeg).R_geom = 3 / 20 := by
    rw [tpCreateLineLineBlend_R_geom]
    show Real.tan blendTheta * fmin _ (Real.cos blendTheta * (_ / (1 - Real.sin blendTheta)))
      = 3 / 20
    rw [tan_blendTheta, cos_blendTheta, sin_blendTheta]
    norm_num [tpCreateLineLineBlend, tcFindBlendTolerance, blendSeg, blendCfg, fmin]
  have ha : (tpCreateLineLineBlend realMath sampleConst blendCfg {} { cycleTime := 1 / 1000 }
      blendTheta 200 150 blendTheta blendSeg blendSeg).a_n_max = 100 := by
    norm_num [tpCreateLineLineBlend, sampleConst]
  have hv : (tpCreateLineLineBlend realMath sampleConst blendCfg {} { cycleTime := 1 / 1000 }
      blendTheta 200 150 blendTheta blendSeg blendSeg).v_goal = 100 := by
    norm_num [tpCreateLineLineBlend, blendSeg, blendCfg, fmin]
  rw [tpCreateLineLineBlend_R_plan, hRg, ha, hv]
  have hq : ¬ (realMath.sqrt (100 * (3 / 20)) > 100) := by
    show ¬ (Real.sqrt (100 * (3 / 20)) > 100)
    rw [gt_iff_lt, not_lt, Real.sqrt_le_iff]
    norm_num
  rw [if_neg hq]


/-- Witness for C4: two lines of length 10 with tolerance 0.1 meeting at the 3-4-5 corner. -/
theorem blend_arc_within_tolerance_witness :
    (blendComputeParameters realMath sampleConst blendParam).1.R_plan
        * (1 / Real.sin blendParam.theta - 1) ≤ blendParam.tolerance ∧
    (tpCreateLineLineBlend realMath sampleConst blendCfg {} { cycleTime := 1 / 1000 }
        blendParam.theta 200 150 blendTheta blendSeg blendSeg).R_plan
        * (1 / Real.sin blendParam.theta - 1) ≤ (tcFindBlendTolerance blendSeg blendSeg).1 :=
  ⟨(blend_arc_within_tolerance sampleConst blendCfg {} { cycleTime := 1 / 1000 } blendParam
      200 150 blendTheta blendSeg blendSeg blendTheta_pos blendTheta_lt).1
      (by norm_num [blendParam]) (by norm_num [blendParam]) (by norm_num [blendParam])
      (by norm_num [blendParam]) (by norm_num [blendParam]),
   (blend_arc_within_tolerance sampleConst blendCfg {} { cycleTime := 1 / 1000 } blendParam
      200 150 blendTheta blendSeg blendSeg blendTheta_pos blendTheta_lt).2.1
      (by norm_num [tpCreateLineLineBlend, tcFindBlendTolerance, blendSeg, fmin])
      (by norm_num [tpCreateLineLineBlend, sampleConst])
      (by norm_num [tpCreateLineLineBlend, blendSeg, blendCfg, fmin])
      (by norm_num [tpCreateLineLineBlend, blendSeg, blendCfg, fmin])
      (by norm_num [tpCreateLineLineBlend, blendSeg, blendCfg, fmin])⟩

/-- Witness for C5: at the sample corner the arc is built (`R_plan = 0.15`). -/
theorem blend_arc_normal_accel_witness :
    pmSq (blendComputeParameters realMath sampleConst blendParam).1.v_plan ≤
        blendParam.a_n_max * (blendComputeParameters realMath sampleConst blendParam).1.R_plan ∧
    pmSq (tpCreateLineLineBlend realMath sampleConst blendCfg {} { cycleTime := 1 / 1000 }
        blendParam.theta 200 150 blendTheta blendSeg blendSeg).v_plan ≤
      (tpCreateLineLineBlend realMath sampleConst blendCfg {} { cycleTime := 1 / 1000 }
        blendParam.theta 200 150 blendTheta blendSeg blendSeg).a_n_max *
      (tpCreateLineLineBlend realMath sampleConst blendCfg {} { cycleTime := 1 / 1000 }
        blendParam.theta 200 150 blendTheta blendSeg blendSeg).R_plan :=
  ⟨(blend_arc_normal_accel sampleConst blendCfg {} { cycleTime := 1 / 1000 } blendParam
      200 150 blendTheta blendSeg blendSeg blendTheta_pos blendTheta_lt).1
      (by norm_num [blendParam]) (by norm_num [blendParam]),
   (blend_arc_normal_accel sampleConst blendCfg {} { cycleTime := 1 / 1000 } blendParam
      200 150 blendTheta blendSeg blendSeg blendTheta_pos blendTheta_lt).2
      (by norm_num [sampleConst]) (by norm_num [sampleConst]) (by norm_num)
      (by norm_num [tpCreateLineLineBlend, sampleConst])
      (by norm_num [tpCreateLineLineBlend, blendSeg, blendCfg, fmin])
      (by
        rw [tpCreateLineLineBlend_abort]
        dsimp only
        have hR := sample_blend_R_plan
        change (tpCreateLineLineBlend realMath sampleConst blendCfg {} { cycleTime := 1 / 1000 }
          blendParam.theta 200 150 blendTheta blendSeg blendSeg).R_plan = 3 / 20 at hR
        rw [hR]
        norm_num [blendCfg, sampleConst])⟩


/-! ### Abort handling -/

/-- C7: `tpHandleAbort` has three outcomes. If `tp.aborting` is clear it returns `NoAction`
and changes nothing; if aborting and a wait on spindle index or at-speed is pending, or
the head segment has `currentvel = 0` and the successor is absent or also has
`currentvel = 0`, it empties the queue, sets `goalPos = currentPos`, `done = 1`,
`execId = 0`, `depth = 0`, `aborting = 0`, `pausing = 0`, resets both waiting ids to
`MOTION_INVALID_ID` and returns `Stopped`; otherwise it returns `Slowing` and changes
nothing. -/
theorem tpHandleAbort_outcomes (c : TPConst K) (st : EmcmotStatus K) (tp : TP K) (tc : TC K)
    (nexttc : Option (TC K)) :
    (tp.aborting = 0 → tpHandleAbort c st tp tc nexttc = (tp, st, TPErr.NO_ACTION)) ∧
    (tp.aborting ≠ 0 →
      (c.MOTION_ID_VALID tp.spindle.waiting_for_index = true ∨
        c.MOTION_ID_VALID tp.spindle.waiting_for_atspeed = true ∨
        (tc.currentvel = 0 ∧ (nexttc = none ∨ ∃ n, nexttc = some n ∧ n.currentvel = 0))) →
      (tpHandleAbort c st tp tc nexttc).1.queue.queue = [] ∧
      (tpHandleAbort c st tp tc nexttc).1.goalPos = tp.currentPos ∧
      (tpHandleAbort c st tp tc nexttc).1.done = 1 ∧
      (tpHandleAbort c st tp tc nexttc).1.execId = 0 ∧
      (tpHandleAbort c st tp tc nexttc).1.depth = 0 ∧
      (tpHandleAbort c st tp tc nexttc).1.aborting = 0 ∧
      (tpHandleAbort c st tp tc nexttc).1.pausing = 0 ∧
      (tpHandleAbort c st tp tc nexttc).1.spindle.waiting_for_index = c.MOTION_INVALID_ID ∧
      (tpHandleAbort c st tp tc nexttc).1.spindle.waiting_for_atspeed = c.MOTION_INVALID_ID ∧
      (tpHandleAbort c st tp tc nexttc).2.2 = TPErr.STOPPED) ∧
    (tp.aborting ≠ 0 →
      ¬ (c.MOTION_ID_VALID tp.spindle.waiting_for_index = true ∨
        c.MOTION_ID_VALID tp.spindle.waiting_for_atspeed = true ∨
        (tc.currentvel = 0 ∧ (nexttc = none ∨ ∃ n, nexttc = some n ∧ n.currentvel = 0))) →
      tpHandleAbort c st tp tc nexttc = (tp, st, TPErr.SLOWING)) := by
  have hcond : ((c.MOTION_ID_VALID tp.spindle.waiting_for_index ||
      c.MOTION_ID_VALID tp.spindle.waiting_for_atspeed ||
      (decide (tc.currentvel = 0) &&
        (match nexttc with
         | none => true
         | some n => decide (n.currentvel = 0)))) = true) ↔
      (c.MOTION_ID_VALID tp.spindle.waiting_for_index = true ∨
        c.MOTION_ID_VALID tp.spindle.waiting_for_atspeed = true ∨
        (tc.currentvel = 0 ∧ (nexttc = none ∨ ∃ n, nexttc = some n ∧ n.currentvel = 0))) := by
    cases nexttc with
    | none => simp [or_assoc]
    | some n => simp [or_assoc]
  refine ⟨?_, ?_, ?_⟩
  · intro h
    unfold tpHandleAbort
    rw [if_pos h]
  · intro h hc
    unfold tpHandleAbort
    rw [if_neg h, if_pos (hcond.mpr hc)]
    exact ⟨rfl, rfl, rfl, rfl, rfl, rfl, rfl, rfl, rfl, rfl⟩
  · intro h hc
    unfold tpHandleAbort
    rw [if_neg h, if_neg (fun hb => hc (hcond.mp hb))]

/-- Witness for C7: a planner that is not aborting, an aborting planner whose head segment
is at rest with no successor, and an aborting planner whose head segment still moves. -/
theorem tpHandleAbort_outcomes_witness :
    tpHandleAbort (K := ℚ) sampleConst {} {} movingSeg none = ({}, {}, TPErr.NO_ACTION) ∧
    ((tpHandleAbort (K := ℚ) sampleConst {} abortingTP restingSeg none).1.queue.queue = [] ∧
      (tpHandleAbort (K := ℚ) sampleConst {} abortingTP restingSeg none).1.goalPos
        = (abortingTP : TP ℚ).currentPos ∧
      (tpHandleAbort (K := ℚ) sampleConst {} abortingTP restingSeg none).1.done = 1 ∧
      (tpHandleAbort (K := ℚ) sampleConst {} abortingTP restingSeg none).1.execId = 0 ∧
      (tpHandleAbort (K := ℚ) sampleConst {} abortingTP restingSeg none).1.depth = 0 ∧
      (tpHandleAbort (K := ℚ) sampleConst {} abortingTP restingSeg none).1.aborting = 0 ∧
      (tpHandleAbort (K := ℚ) sampleConst {} abortingTP restingSeg none).1.pausing = 0 ∧
      (tpHandleAbort (K := ℚ) sampleConst {} abortingTP restingSeg none).1.spindle.waiting_for_index
        = (sampleConst : TPConst ℚ).MOTION_INVALID_ID ∧
      (tpHandleAbort (K := ℚ) sampleConst {} abortingTP restingSeg
        none).1.spindle.waiting_for_atspeed = (sampleConst : TPConst ℚ).MOTION_INVALID_ID ∧
      (tpHandleAbort (K := ℚ) sampleConst {} abortingTP restingSeg none).2.2 = TPErr.STOPPED) ∧
    tpHandleAbort (K := ℚ) sampleConst {} abortingTP movingSeg none
      = (abortingTP, {}, TPErr.SLOWING) :=
  ⟨(tpHandleAbort_outcomes (K := ℚ) sampleConst {} {} movingSeg none).1 rfl,
   (tpHandleAbort_outcomes (K := ℚ) sampleConst {} abortingTP restingSeg none).2.1
      (by decide) (Or.inr (Or.inr ⟨rfl, Or.inl rfl⟩)),
   (tpHandleAbort_outcomes (K := ℚ) sampleConst {} abortingTP movingSeg none).2.2
      (by decide) (by
        simp [sampleConst, abortingTP, movingSeg])⟩

/-! ### Rigid tapping -/

/-- C9: for every rigid-tap segment and every spindle reading, one call of
`tpUpdateRigidTapState` either leaves `rigidtap.state` unchanged or moves it to the
immediate successor in the order `TAPPING, REVERSING, RETRACTION, FINAL_REVERSAL,
FINAL_PLACEMENT`; the successor case never starts from `FINAL_PLACEMENT`, which is
therefore never left. -/
theorem tpUpdateRigidTapState_state_step (m : MathLib K) (c : TPConst K) (old_spindlepos : K)
    (st : EmcmotStatus K) (tp : TP K) (tc : TC K) (r : PmRigidTap K) :
    rigidTapState (tpUpdateRigidTapState m c old_spindlepos st tp
        { tc with coords := Coords.rigidtap r }).2.2 = some r.state ∨
    (r.state ≠ RIGIDTAP_STATE.FINAL_PLACEMENT ∧
      ∃ s, rigidTapState (tpUpdateRigidTapState m c old_spindlepos st tp
          { tc with coords := Coords.rigidtap r }).2.2 = some s ∧
        s.index = r.state.index + 1) := by
  unfold tpUpdateRigidTapState
  dsimp only
  generalize (if st.spindle_direction < 0 then -st.spindleRevs else st.spindleRevs) = nw
  cases hs : r.state with
  | TAPPING =>
    dsimp only
    by_cases h : tc.progress ≥ r.reversal_target
    · rw [if_pos h]
      exact Or.inr ⟨by decide, RIGIDTAP_STATE.REVERSING, rfl, rfl⟩
    · rw [if_neg h]
      left
      show some r.state = _
      rw [hs]
  | REVERSING =>
    dsimp only
    by_cases h : nw < old_spindlepos
    · rw [if_pos h]
      exact Or.inr ⟨by decide, RIGIDTAP_STATE.RETRACTION, rfl, rfl⟩
    · rw [if_neg h]
      left
      show some r.state = _
      rw [hs]
  | RETRACTION =>
    dsimp only
    by_cases h : tc.progress ≥ r.reversal_target
    · rw [if_pos h]
      exact Or.inr ⟨by decide, RIGIDTAP_STATE.FINAL_REVERSAL, rfl, rfl⟩
    · rw [if_neg h]
      left
      show some r.state = _
      rw [hs]
  | FINAL_REVERSAL =>
    dsimp only
    by_cases h : nw > old_spindlepos
    · rw [if_pos h]
      exact Or.inr ⟨by decide, RIGIDTAP_STATE.FINAL_PLACEMENT, rfl, rfl⟩
    · rw [if_neg h]
      left
      show some r.state = _
      rw [hs]
  | FINAL_PLACEMENT =>
    left
    show some r.state = _
    rw [hs]


/-- In `TAPPING`, `RETRACTION` and `FINAL_PLACEMENT` the one-cycle memory `old_spindlepos`
is not refreshed. -/
theorem tpUpdateRigidTapState_memory_kept (m : MathLib K) (c : TPConst K) (old_spindlepos : K)
    (st : EmcmotStatus K) (tp : TP K) (tc : TC K) (r : PmRigidTap K)
    (hs : r.state = RIGIDTAP_STATE.TAPPING ∨ r.state = RIGIDTAP_STATE.RETRACTION ∨
      r.state = RIGIDTAP_STATE.FINAL_PLACEMENT) :
    (tpUpdateRigidTapState m c old_spindlepos st tp
      { tc with coords := Coords.rigidtap r }).1 = old_spindlepos := by
  unfold tpUpdateRigidTapState
  dsimp only
  rcases hs with h | h | h <;> rw [h] <;> dsimp only
  · exact ite_rec (fun x : K × EmcmotStatus K × TC K => x.1 = old_spindlepos) rfl rfl
  · exact ite_rec (fun x : K × EmcmotStatus K × TC K => x.1 = old_spindlepos) rfl rfl

/-- C10, evaluation at the failing input: an earlier tap ends its `FINAL_REVERSAL` with the
spindle reading 3.0, which stays in the memory `old_spindlepos`. The next tap reaches its
depth while the spindle reads 2.0 (state becomes `REVERSING`, the memory keeps the stale
3.0); in the following cycle the spindle reads 2.1, larger than the reading of the
preceding cycle, and the state nevertheless becomes `RETRACTION`. -/
theorem tpUpdateRigidTapState_stale_memory :
    rigidTapState tapCycle0.2.2 = some RIGIDTAP_STATE.FINAL_PLACEMENT ∧
    tapCycle0.1 = 3 ∧
    rigidTapState tapCycle1.2.2 = some RIGIDTAP_STATE.REVERSING ∧
    tapCycle1.1 = 3 ∧
    ((2 : ℝ) < 21 / 10) ∧
    rigidTapState tapCycle2.2.2 = some RIGIDTAP_STATE.RETRACTION := by
  have h0 : tapCycle0.1 = 3 := by
    unfold tapCycle0 tpUpdateRigidTapState
    norm_num [earlierTapSeg]
  have h0s : rigidTapState tapCycle0.2.2 = some RIGIDTAP_STATE.FINAL_PLACEMENT := by
    unfold tapCycle0 tpUpdateRigidTapState
    norm_num [earlierTapSeg, rigidTapState]
  have h1 : tapCycle1 = (3, { spindleRevs := 2, spindle_direction := 1, spindle_speed := -100 },
      tapSegReversing) := by
    unfold tapCycle1
    rw [h0]
    unfold tpUpdateRigidTapState
    norm_num [tapSegAtDepth, tapSegReversing]
  refine ⟨h0s, h0, ?_, ?_, by norm_num, ?_⟩
  · rw [h1]
    rfl
  · rw [h1]
  · unfold tapCycle2
    rw [h1]
    unfold tpUpdateRigidTapState
    norm_num [tapSegReversing, rigidTapState]


/-! ### Appending a line -/

/-- The line initialisation never reports an error. -/
theorem pmCartLineInit_snd (m : MathLib K) (c : TPConst K) (s e : PmCartesian K) :
    (pmCartLineInit m c s e).2 = 0 := by
  unfold pmCartLineInit
  exact ite_rec (fun r : PmCartLine K × Int => r.2 = 0) rfl rfl

/-- The optimizer only rewrites segments in the queue: the pending DIO/AIO buffer is kept. -/
theorem tpRunOptimizationLoop_syncdio (m : MathLib K) (c : TPConst K) (cfg : EmcmotConfig K)
    (len : Int) (fuel : Nat) (x hit_peaks : Int) (tp : TP K) :
    (tpRunOptimizationLoop m c cfg len fuel x hit_peaks tp).syncdio = tp.syncdio := by
  induction fuel generalizing x hit_peaks tp with
  | zero => rfl
  | succ n ih =>
    unfold tpRunOptimizationLoop
    refine ite_rec (fun r : TP K => r.syncdio = tp.syncdio) rfl ?_
    dsimp only
    cases tcqItem tp.queue (len - x) with
    | none => rfl
    | some tc =>
      cases tcqItem tp.queue (len - x - 1) with
      | none => rfl
      | some prev1_tc =>
        dsimp only
        refine ite_rec (fun r : TP K => r.syncdio = tp.syncdio) (ih _ _ _) ?_
        refine ite_rec (fun r : TP K => r.syncdio = tp.syncdio) rfl ?_
        refine ite_rec (fun r : TP K => r.syncdio = tp.syncdio) rfl ?_
        refine ite_rec (fun r : TP K => r.syncdio = tp.syncdio) rfl ?_
        exact (ih _ _ _).trans rfl

/-- With an empty or one-element queue the optimizer does nothing. -/
theorem tpRunOptimization_short (m : MathLib K) (c : TPConst K) (cfg : EmcmotConfig K)
    (tp : TP K) (h : tp.queue.queue.length ≤ 1) : tpRunOptimization m c cfg tp = tp := by
  unfold tpRunOptimization
  cases hf : (cfg.arcBlendOptDepth + 1).toNat with
  | zero => rfl
  | succ n =>
    unfold tpRunOptimizationLoop
    refine ite_rec (fun r : TP K => r = tp) rfl ?_
    dsimp only
    have hnone : tcqItem tp.queue (tcqLen tp.queue - 1 - 1) = none := by
      unfold tcqItem tcqLen
      have : ((tp.queue.queue.length : Int) - 1 - 1) < 0 := by omega
      rw [if_pos this]
    rw [hnone]
    cases tcqItem tp.queue (tcqLen tp.queue - 1) <;> rfl

theorem tcqSetItem_size (q : TC_QUEUE_STRUCT K) (n : Int) (tc : TC K) :
    (tcqSetItem q n tc).size = q.size ∧
    (tcqSetItem q n tc).queue.length = q.queue.length := by
  unfold tcqSetItem
  refine ite_rec (fun r : TC_QUEUE_STRUCT K => r.size = q.size ∧
    r.queue.length = q.queue.length) ⟨rfl, rfl⟩ ⟨rfl, ?_⟩
  exact List.length_set _ _ _

/-- On a full queue `tpAddSegmentToQueue` fails and leaves the planner as it is. -/
theorem tpAddSegmentToQueue_full (g : ExtGeom K) (tp : TP K) (tc : TC K) (inc_id : Bool)
    (hfull : tp.queue.size ≤ tp.queue.queue.length) :
    (tpAddSegmentToQueue g tp tc inc_id).1 = tp ∧
    (tpAddSegmentToQueue g tp tc inc_id).2.2 = TPErr.FAIL := by
  unfold tpAddSegmentToQueue tcqPut
  dsimp only
  rw [if_pos hfull]
  exact ⟨rfl, rfl⟩

/-- What `tpAddLine` does when the queue is already full (blend arcs disabled, planner not
aborting): it returns `Fail`, yet the pending DIO/AIO buffer has been moved out of the
planner and cleared. -/
theorem tpAddLine_full_queue (m : MathLib K) (c : TPConst K) (cfg : EmcmotConfig K)
    (g : ExtGeom K) (tp : TP K) (end_ : EmcPose K) (type : Int) (vel ini_maxvel acc : K)
    (enables atspeed indexrotary : Int)
    (hab : tp.aborting = 0) (hbl : cfg.arcBlendEnable = 0)
    (hfull : tp.queue.size ≤ tp.queue.queue.length) (hch : tp.syncdio.anychanged ≠ 0) :
    (tpAddLine m c cfg g tp end_ type vel ini_maxvel acc enables atspeed indexrotary).2
      = TPErr.FAIL ∧
    (tpAddLine m c cfg g tp end_ type vel ini_maxvel acc enables atspeed
      indexrotary).1.syncdio = (tpClearDIOs cfg tp).1.syncdio := by
  have he : ¬ (tpErrorCheck tp ≠ TPErr.OK) := by
    unfold tpErrorCheck
    rw [if_neg (not_not.mpr hab)]
    exact not_not.mpr rfl
  have hl : ∀ s e : PmCartesian K, ∀ s' e' s'' e'' : PmCartesian K,
      ¬ ((pmCartLineInit m c s e).2 ≠ 0 ∨ (pmCartLineInit m c s' e').2 ≠ 0 ∨
        (pmCartLineInit m c s'' e'').2 ≠ 0) := by
    intro s e s' e' s'' e''
    rw [pmCartLineInit_snd, pmCartLineInit_snd, pmCartLineInit_snd]
    simp
  unfold tpAddLine
  rw [if_neg he]
  dsimp only
  rw [if_neg (hl _ _ _ _ _ _), if_pos hch, if_neg (not_not.mpr hbl)]
  dsimp only
  generalize (tpFinalizeSegmentLength (K := K) m _).1 = fp
  generalize tcCheckLastParabolic (K := K) _ _ = tcF
  have hC : (tpClearDIOs cfg tp).1.queue = tp.queue := rfl
  have key : ∀ tpF : TP K, tpF.queue.size ≤ tpF.queue.queue.length →
      tpF.syncdio = (tpClearDIOs cfg tp).1.syncdio →
      (tpAddSegmentToQueue g tpF tcF true).2.2 = TPErr.FAIL ∧
      (tpRunOptimization m c cfg (tpAddSegmentToQueue g tpF tcF true).1).syncdio
        = (tpClearDIOs cfg tp).1.syncdio := by
    intro tpF hF hS
    obtain ⟨h1, h2⟩ := tpAddSegmentToQueue_full g tpF tcF true hF
    refine ⟨h2, ?_⟩
    rw [h1]
    unfold tpRunOptimization
    rw [tpRunOptimizationLoop_syncdio, hS]
  cases fp with
  | none => exact key _ (by rw [hC]; exact hfull) rfl
  | some p =>
    refine key _ ?_ rfl
    obtain ⟨hs, hlen⟩ := tcqSetItem_size (tpClearDIOs cfg tp).1.queue
      (tcqLen (tpClearDIOs cfg tp).1.queue - 1) p
    show (tcqSetItem _ _ p).size ≤ (tcqSetItem _ _ p).queue.length
    rw [hs, hlen, hC]
    exact hfull

/-- On a full queue of at most one segment, the segment that `tpAddLine` leaves in the queue
is the old tail after `tpFinalizeSegmentLength`. -/
theorem tpAddLine_full_queue_tail (m : MathLib K) (c : TPConst K) (cfg : EmcmotConfig K)
    (g : ExtGeom K) (tp : TP K) (end_ : EmcPose K) (type : Int) (vel ini_maxvel acc : K)
    (enables atspeed indexrotary : Int)
    (hab : tp.aborting = 0) (hbl : cfg.arcBlendEnable = 0)
    (hfull : tp.queue.size ≤ tp.queue.queue.length) (hshort : tp.queue.queue.length ≤ 1)
    (hch : tp.syncdio.anychanged ≠ 0) (p : TC K)
    (hp : (tpFinalizeSegmentLength m (tcqItem tp.queue (tcqLen tp.queue - 1))).1 = some p) :
    (tpAddLine m c cfg g tp end_ type vel ini_maxvel acc enables atspeed
      indexrotary).1.queue = tcqSetItem tp.queue (tcqLen tp.queue - 1) p := by
  have he : ¬ (tpErrorCheck tp ≠ TPErr.OK) := by
    unfold tpErrorCheck
    rw [if_neg (not_not.mpr hab)]
    exact not_not.mpr rfl
  have hl : ∀ s e : PmCartesian K, ∀ s' e' s'' e'' : PmCartesian K,
      ¬ ((pmCartLineInit m c s e).2 ≠ 0 ∨ (pmCartLineInit m c s' e').2 ≠ 0 ∨
        (pmCartLineInit m c s'' e'').2 ≠ 0) := by
    intro s e s' e' s'' e''
    rw [pmCartLineInit_snd, pmCartLineInit_snd, pmCartLineInit_snd]
    simp
  have hC : (tpClearDIOs cfg tp).1.queue = tp.queue := rfl
  unfold tpAddLine
  rw [if_neg he]
  dsimp only
  rw [if_neg (hl _ _ _ _ _ _), if_pos hch, if_neg (not_not.mpr hbl)]
  dsimp only
  rw [hC, hp]
  dsimp only
  generalize tcCheckLastParabolic (K := K) _ _ = tcF
  obtain ⟨hs, hlen⟩ := tcqSetItem_size tp.queue (tcqLen tp.queue - 1) p
  have hF : ∀ tpF : TP K, tpF.queue = tcqSetItem tp.queue (tcqLen tp.queue - 1) p →
      (tpRunOptimization m c cfg (tpAddSegmentToQueue g tpF tcF true).1).queue
        = tcqSetItem tp.queue (tcqLen tp.queue - 1) p := by
    intro tpF hq
    have hfullF : tpF.queue.size ≤ tpF.queue.queue.length := by
      rw [hq, hs, hlen]
      exact hfull
    obtain ⟨h1, _⟩ := tpAddSegmentToQueue_full g tpF tcF true hfullF
    rw [h1, tpRunOptimization_short m c cfg tpF (by rw [hq, hlen]; exact hshort), hq]
  exact hF _ rfl

/-- C6, evaluation at the failing input: a planner whose queue of capacity 1 already holds
one line and whose pending buffer asks to switch digital output 0 on. `tpAddLine` returns
`Fail`, but the pending buffer is no longer what it was: its `anychanged` flag and mask
are cleared, so the output edge is lost, and the queued line has been flagged `finalized`. -/
theorem tpAddLine_fail_alters_planner :
    (fullQueueTP : TP ℝ).aborting = 0 ∧
    (tpAddLine realMath sampleConst { num_dio := 4 } sampleGeom fullQueueTP
      { tran := ⟨10, 10, 0⟩ } 2 50 100 100 0 0 (-1)).2 = TPErr.FAIL ∧
    (fullQueueTP : TP ℝ).syncdio.anychanged = 1 ∧
    (tpAddLine realMath sampleConst { num_dio := 4 } sampleGeom fullQueueTP
      { tran := ⟨10, 10, 0⟩ } 2 50 100 100 0 0 (-1)).1.syncdio.anychanged = 0 ∧
    (tpAddLine realMath sampleConst { num_dio := 4 } sampleGeom fullQueueTP
      { tran := ⟨10, 10, 0⟩ } 2 50 100 100 0 0 (-1)).1.syncdio ≠ (fullQueueTP : TP ℝ).syncdio ∧
    (fullQueueTP : TP ℝ).queue.queue = [queuedLine] ∧
    (tpAddLine realMath sampleConst { num_dio := 4 } sampleGeom fullQueueTP
      { tran := ⟨10, 10, 0⟩ } 2 50 100 100 0 0 (-1)).1.queue.queue
        = [{ (queuedLine : TC ℝ) with finalized := 1 }] := by
  obtain ⟨h1, h2⟩ := tpAddLine_full_queue realMath sampleConst { num_dio := 4 } sampleGeom
    (fullQueueTP : TP ℝ) { tran := ⟨10, 10, 0⟩ } 2 50 100 100 0 0 (-1) rfl rfl
    (by simp [fullQueueTP]) (by simp [fullQueueTP])
  have h4 := tpAddLine_full_queue_tail realMath sampleConst { num_dio := 4 } sampleGeom
    (fullQueueTP : TP ℝ) { tran := ⟨10, 10, 0⟩ } 2 50 100 100 0 0 (-1) rfl rfl
    (by simp [fullQueueTP]) (by simp [fullQueueTP]) (by simp [fullQueueTP])
    { (queuedLine : TC ℝ) with finalized := 1 }
    (by
      simp [tpFinalizeSegmentLength, tcqItem, tcqLen, fullQueueTP, queuedLine, TC_CIRCULAR,
        TC_LINEAR])
  refine ⟨rfl, h1, rfl, ?_, ?_, rfl, ?_⟩
  · rw [h2]
    rfl
  · rw [h2]
    intro h
    have h3 := congrArg syncdio_t.anychanged h
    simp [tpClearDIOs, fullQueueTP] at h3
  · rw [h4]
    simp [tcqSetItem, tcqLen, fullQueueTP]

/-! ### Controller interface -/

/-- Zeroing the first `n` entries of a list twice is the same as doing it once. -/
theorem clearFirst_idem {α : Type} (z : α) (n : Nat) (xs : List α) :
    List.replicate (min n (List.replicate (min n xs.length) z ++ xs.drop n).length) z
      ++ (List.replicate (min n xs.length) z ++ xs.drop n).drop n
    = List.replicate (min n xs.length) z ++ xs.drop n := by
  have hlen : (List.replicate (min n xs.length) z ++ xs.drop n).length = xs.length := by
    simp only [List.length_append, List.length_replicate, List.length_drop]
    omega
  rw [hlen]
  rcases le_total n xs.length with h | h
  · have hd : (List.replicate (min n xs.length) z ++ xs.drop n).drop n = xs.drop n := by
      rw [min_eq_left h]
      exact List.drop_left' (List.length_replicate n z)
    rw [hd]
  · have h1 : xs.drop n = [] := List.drop_eq_nil_of_le h
    have hd : (List.replicate (min n xs.length) z ++ xs.drop n).drop n = [] := by
      apply List.drop_eq_nil_of_le
      rw [hlen]; exact h
    rw [hd, h1]

/-- `tpClearDIOs` applied twice gives what one application gives. -/
theorem tpClearDIOs_idem (cfg : EmcmotConfig K) (tp : TP K) :
    tpClearDIOs cfg (tpClearDIOs cfg tp).1 = tpClearDIOs cfg tp := by
  unfold tpClearDIOs
  simp only [clearFirst_idem]

/-- C15: `tpSetCycleTime`, `tpSetVmax` and `tpSetAmax` return `Fail` and leave the planner
as it was when an argument is not strictly positive; with strictly positive arguments they
return `Ok` and the planner differs from the old one exactly in `cycleTime`, in
`vMax` and `ini_maxvel`, or in `aMax`, which hold the arguments. -/
theorem tpSet_positive_arguments (tp : TP K) (secs vMax ini_maxvel aMax : K) :
    (secs ≤ 0 → tpSetCycleTime tp secs = (tp, TPErr.FAIL)) ∧
    (0 < secs → tpSetCycleTime tp secs = ({ tp with cycleTime := secs }, TPErr.OK)) ∧
    (vMax ≤ 0 ∨ ini_maxvel ≤ 0 → tpSetVmax tp vMax ini_maxvel = (tp, TPErr.FAIL)) ∧
    (0 < vMax → 0 < ini_maxvel →
      tpSetVmax tp vMax ini_maxvel
        = ({ tp with vMax := vMax, ini_maxvel := ini_maxvel }, TPErr.OK)) ∧
    (aMax ≤ 0 → tpSetAmax tp aMax = (tp, TPErr.FAIL)) ∧
    (0 < aMax → tpSetAmax tp aMax = ({ tp with aMax := aMax }, TPErr.OK)) := by
  refine ⟨fun h => ?_, fun h => ?_, fun h => ?_, fun h1 h2 => ?_, fun h => ?_, fun h => ?_⟩
  · unfold tpSetCycleTime; rw [if_pos h]
  · unfold tpSetCycleTime; rw [if_neg (not_le.mpr h)]
  · unfold tpSetVmax; rw [if_pos h]
  · unfold tpSetVmax
    rw [if_neg (by rintro (h | h); exact absurd h1 (not_lt.mpr h); exact absurd h2 (not_lt.mpr h))]
  · unfold tpSetAmax; rw [if_pos h]
  · unfold tpSetAmax; rw [if_neg (not_le.mpr h)]

theorem tpSet_positive_arguments_witness :
    tpSetCycleTime (fullQueueTP : TP ℚ) 0 = (fullQueueTP, TPErr.FAIL) ∧
    tpSetCycleTime (fullQueueTP : TP ℚ) (1 / 500)
      = ({ (fullQueueTP : TP ℚ) with cycleTime := 1 / 500 }, TPErr.OK) ∧
    tpSetVmax (fullQueueTP : TP ℚ) 0 100 = (fullQueueTP, TPErr.FAIL) ∧
    tpSetVmax (fullQueueTP : TP ℚ) 50 100
      = ({ (fullQueueTP : TP ℚ) with vMax := 50, ini_maxvel := 100 }, TPErr.OK) ∧
    tpSetAmax (fullQueueTP : TP ℚ) 0 = (fullQueueTP, TPErr.FAIL) ∧
    tpSetAmax (fullQueueTP : TP ℚ) 100 = ({ (fullQueueTP : TP ℚ) with aMax := 100 }, TPErr.OK) :=
  ⟨(tpSet_positive_arguments fullQueueTP 0 0 100 0).1 le_rfl,
   (tpSet_positive_arguments fullQueueTP (1 / 500) 50 100 100).2.1 (by norm_num),
   (tpSet_positive_arguments fullQueueTP 0 0 100 0).2.2.1 (Or.inl le_rfl),
   (tpSet_positive_arguments fullQueueTP (1 / 500) 50 100 100).2.2.2.1 (by norm_num)
     (by norm_num),
   (tpSet_positive_arguments fullQueueTP 0 0 100 0).2.2.2.2.1 le_rfl,
   (tpSet_positive_arguments fullQueueTP (1 / 500) 50 100 100).2.2.2.2.2 (by norm_num)⟩

/-- C16: `tpPause`, `tpResume`, `tpAbort` and `tpClear` are idempotent: a second call
right after the first returns the same code and leaves the same planner (and, for
`tpClear`, the same status record). -/
theorem tp_control_idempotent (cfg : EmcmotConfig K) (st : EmcmotStatus K) (tp : TP K) :
    tpPause (tpPause tp).1 = tpPause tp ∧
    tpResume (tpResume tp).1 = tpResume tp ∧
    tpAbort cfg (tpAbort cfg tp).1 = tpAbort cfg tp ∧
    tpClear cfg (tpClear cfg st tp).2.1 (tpClear cfg st tp).1 = tpClear cfg st tp := by
  refine ⟨rfl, rfl, ?_, ?_⟩
  · have e2 : ∀ tp' : TP K, tp'.aborting ≠ 0 → tpAbort cfg tp' = tpClearDIOs cfg tp' := by
      intro tp' h'
      unfold tpAbort
      rw [if_neg h']
    by_cases h : tp.aborting = 0
    · have e1 : tpAbort cfg tp = tpClearDIOs cfg { tp with pausing := 1, aborting := 1 } := by
        unfold tpAbort
        rw [if_pos h]
        rfl
      have h1 : (tpAbort cfg tp).1.aborting ≠ 0 := by
        rw [e1]
        show (1 : Int) ≠ 0
        decide
      rw [e2 _ h1, e1, tpClearDIOs_idem]
    · have h1 : (tpAbort cfg tp).1.aborting ≠ 0 := by
        rw [e2 _ h]
        exact h
      rw [e2 _ h1, e2 _ h, tpClearDIOs_idem]
  · unfold tpClear
    simp only [tpClearDIOs, tcqInit, clearFirst_idem]

/-- C17: `tpClear` keeps `cycleTime`, `vMax`, `aMax` and `currentPos`, sets `goalPos` to
`currentPos`, empties the queue, sets `done`, clears `aborting` and `pausing`, resets
`nextId` and `execId`, selects the parabolic term condition with tolerance 0 and clears
the pending DIO/AIO buffer: flag and masks zero, the first `num_dio` digital and
`num_aio` analog entries zero. -/
theorem tpClear_effect (cfg : EmcmotConfig K) (st : EmcmotStatus K) (tp : TP K) :
    (tpClear cfg st tp).1.cycleTime = tp.cycleTime ∧
    (tpClear cfg st tp).1.vMax = tp.vMax ∧
    (tpClear cfg st tp).1.aMax = tp.aMax ∧
    (tpClear cfg st tp).1.currentPos = tp.currentPos ∧
    (tpClear cfg st tp).1.goalPos = tp.currentPos ∧
    (tpClear cfg st tp).1.queue.queue = [] ∧
    tcqLen (tpClear cfg st tp).1.queue = 0 ∧
    (tpClear cfg st tp).1.done = 1 ∧
    (tpClear cfg st tp).1.aborting = 0 ∧
    (tpClear cfg st tp).1.pausing = 0 ∧
    (tpClear cfg st tp).1.nextId = 0 ∧
    (tpClear cfg st tp).1.execId = 0 ∧
    (tpClear cfg st tp).1.termCond = TC_TERM_COND_PARABOLIC ∧
    (tpClear cfg st tp).1.tolerance = 0 ∧
    (tpClear cfg st tp).1.syncdio.anychanged = 0 ∧
    (tpClear cfg st tp).1.syncdio.dio_mask = 0 ∧
    (tpClear cfg st tp).1.syncdio.aio_mask = 0 ∧
    (tpClear cfg st tp).1.syncdio.dios.take cfg.num_dio
      = List.replicate (min cfg.num_dio tp.syncdio.dios.length) 0 ∧
    (tpClear cfg st tp).1.syncdio.aios.take cfg.num_aio
      = List.replicate (min cfg.num_aio tp.syncdio.aios.length) 0 ∧
    (tpClear cfg st tp).2.2 = TPErr.OK := by
  refine ⟨rfl, rfl, rfl, rfl, rfl, rfl, rfl, rfl, rfl, rfl, rfl, rfl, rfl, rfl, rfl, rfl, rfl,
    ?_, ?_, rfl⟩
  · show (List.replicate (min cfg.num_dio tp.syncdio.dios.length) 0
      ++ tp.syncdio.dios.drop cfg.num_dio).take cfg.num_dio = _
    rw [List.take_append_eq_append_take, List.length_replicate]
    have h1 : cfg.num_dio - min cfg.num_dio tp.syncdio.dios.length = 0 ∨
        tp.syncdio.dios.drop cfg.num_dio = [] := by
      rcases le_total cfg.num_dio tp.syncdio.dios.length with h | h
      · left; rw [min_eq_left h]; omega
      · right; exact List.drop_eq_nil_of_le h
    have h2 : (List.replicate (min cfg.num_dio tp.syncdio.dios.length) (0 : Int)).take cfg.num_dio
        = List.replicate (min cfg.num_dio tp.syncdio.dios.length) 0 :=
      List.take_of_length_le (by rw [List.length_replicate]; exact min_le_left _ _)
    rw [h2]
    rcases h1 with h1 | h1
    · rw [h1]; simp
    · rw [h1]; simp
  · show (List.replicate (min cfg.num_aio tp.syncdio.aios.length) 0
      ++ tp.syncdio.aios.drop cfg.num_aio).take cfg.num_aio = _
    rw [List.take_append_eq_append_take, List.length_replicate]
    have h1 : cfg.num_aio - min cfg.num_aio tp.syncdio.aios.length = 0 ∨
        tp.syncdio.aios.drop cfg.num_aio = [] := by
      rcases le_total cfg.num_aio tp.syncdio.aios.length with h | h
      · left; rw [min_eq_left h]; omega
      · right; exact List.drop_eq_nil_of_le h
    have h2 : (List.replicate (min cfg.num_aio tp.syncdio.aios.length) (0 : K)).take cfg.num_aio
        = List.replicate (min cfg.num_aio tp.syncdio.aios.length) 0 :=
      List.take_of_length_le (by rw [List.length_replicate]; exact min_le_left _ _)
    rw [h2]
    rcases h1 with h1 | h1
    · rw [h1]; simp
    · rw [h1]; simp

/-! ### The optimizer rewrites segments in place -/

theorem set_getLast_eq {α : Type} (l : List α) (n : Nat) (a : α) (h : n + 1 < l.length) :
    (l.set n a).getLast? = l.getLast? := by
  rw [List.getLast?_eq_getElem?, List.getLast?_eq_getElem?, List.length_set,
    List.getElem?_set_ne]
  omega

/-- Writing through a pointer to a segment other than the tail keeps the tail. -/
theorem tcqSetItem_last (q : TC_QUEUE_STRUCT K) (n : Int) (tc : TC K)
    (h : n + 1 < q.queue.length) : tcqLast (tcqSetItem q n tc) = tcqLast q := by
  unfold tcqSetItem tcqLast
  by_cases hn : n < 0
  · rw [if_pos hn]
  · rw [if_neg hn]
    exact set_getLast_eq _ _ _ (by omega)

/-- The optimizer loop changes nothing but the contents of queued segments: the planner
keeps every other field, and the queue its capacity and its length. From loop counter 2
on the tail segment is kept as well. -/
theorem tpRunOptimizationLoop_frame (m : MathLib K) (c : TPConst K) (cfg : EmcmotConfig K)
    (len : Int) (fuel : Nat) (x hit_peaks : Int) (tp : TP K) :
    ∃ l : List (TC K),
      tpRunOptimizationLoop m c cfg len fuel x hit_peaks tp
        = { tp with queue := { tp.queue with queue := l } } ∧
      l.length = tp.queue.queue.length ∧
      (2 ≤ x → len = tp.queue.queue.length → l.getLast? = tp.queue.queue.getLast?) := by
  induction fuel generalizing x hit_peaks tp with
  | zero => exact ⟨tp.queue.queue, rfl, rfl, fun _ _ => rfl⟩
  | succ n ih =>
    have base : ∃ l : List (TC K),
        tp = { tp with queue := { tp.queue with queue := l } } ∧
        l.length = tp.queue.queue.length ∧
        (2 ≤ x → len = tp.queue.queue.length → l.getLast? = tp.queue.queue.getLast?) :=
      ⟨tp.queue.queue, rfl, rfl, fun _ _ => rfl⟩
    have next : ∃ l : List (TC K),
        tpRunOptimizationLoop m c cfg len n (x + 1) hit_peaks tp
          = { tp with queue := { tp.queue with queue := l } } ∧
        l.length = tp.queue.queue.length ∧
        (2 ≤ x → len = tp.queue.queue.length → l.getLast? = tp.queue.queue.getLast?) := by
      obtain ⟨l, h1, h2, h3⟩ := ih (x + 1) hit_peaks tp
      exact ⟨l, h1, h2, fun hx hl => h3 (by omega) hl⟩
    unfold tpRunOptimizationLoop
    refine ite_rec (fun r : TP K => ∃ l : List (TC K),
        r = { tp with queue := { tp.queue with queue := l } } ∧
        l.length = tp.queue.queue.length ∧
        (2 ≤ x → len = tp.queue.queue.length → l.getLast? = tp.queue.queue.getLast?))
      base ?_
    dsimp only
    cases tcqItem tp.queue (len - x) with
    | none => exact base
    | some tc =>
      cases tcqItem tp.queue (len - x - 1) with
      | none => exact base
      | some prev1_tc =>
        dsimp only
        refine ite_rec (fun r : TP K => ∃ l : List (TC K),
            r = { tp with queue := { tp.queue with queue := l } } ∧
            l.length = tp.queue.queue.length ∧
            (2 ≤ x → len = tp.queue.queue.length → l.getLast? = tp.queue.queue.getLast?))
          next ?_
        refine ite_rec (fun r : TP K => ∃ l : List (TC K),
            r = { tp with queue := { tp.queue with queue := l } } ∧
            l.length = tp.queue.queue.length ∧
            (2 ≤ x → len = tp.queue.queue.length → l.getLast? = tp.queue.queue.getLast?))
          base ?_
        refine ite_rec (fun r : TP K => ∃ l : List (TC K),
            r = { tp with queue := { tp.queue with queue := l } } ∧
            l.length = tp.queue.queue.length ∧
            (2 ≤ x → len = tp.queue.queue.length → l.getLast? = tp.queue.queue.getLast?))
          base ?_
        generalize hA : (tpComputeOptimalVelocity m c tp
          (if tc.atspeed ≠ 0 then { tc with finalvel := 0 } else tc) prev1_tc) = r
        generalize hB : ({ r.1 with active_depth := x - 2 - hit_peaks } : TC K) = tcB
        obtain ⟨s1, n1⟩ := tcqSetItem_size tp.queue (len - x) tcB
        obtain ⟨s2, n2⟩ := tcqSetItem_size (tcqSetItem tp.queue (len - x) tcB) (len - x - 1) r.2
        have hlast : 2 ≤ x → len = tp.queue.queue.length →
            (tcqSetItem (tcqSetItem tp.queue (len - x) tcB) (len - x - 1) r.2).queue.getLast?
              = tp.queue.queue.getLast? := by
          intro hx hl
          have a1 : tcqLast (tcqSetItem tp.queue (len - x) tcB) = tcqLast tp.queue :=
            tcqSetItem_last _ _ _ (by omega)
          have a2 : tcqLast (tcqSetItem (tcqSetItem tp.queue (len - x) tcB) (len - x - 1) r.2)
              = tcqLast (tcqSetItem tp.queue (len - x) tcB) :=
            tcqSetItem_last _ _ _ (by rw [n1]; omega)
          exact a2.trans a1
        generalize tcqSetItem (tcqSetItem tp.queue (len - x) tcB) (len - x - 1) r.2 = Q
          at s2 n2 hlast
        have hsize : Q.size = tp.queue.size := s2.trans s1
        have hlen : Q.queue.length = tp.queue.queue.length := n2.trans n1
        have step : ∃ l : List (TC K),
            ({ tp with queue := Q } : TP K) = { tp with queue := { tp.queue with queue := l } } ∧
            l.length = tp.queue.queue.length ∧
            (2 ≤ x → len = tp.queue.queue.length → l.getLast? = tp.queue.queue.getLast?) :=
          ⟨Q.queue, congrArg (fun s => ({ tp with queue := ⟨Q.queue, s⟩ } : TP K)) hsize, hlen,
            hlast⟩
        have nxt : ∀ hp : Int, ∃ l : List (TC K),
            tpRunOptimizationLoop m c cfg len n (x + 1) hp ({ tp with queue := Q } : TP K)
              = { tp with queue := { tp.queue with queue := l } } ∧
            l.length = tp.queue.queue.length ∧
            (2 ≤ x → len = tp.queue.queue.length → l.getLast? = tp.queue.queue.getLast?) := by
          intro hp
          obtain ⟨l, h1, h2, h3⟩ := ih (x + 1) hp ({ tp with queue := Q } : TP K)
          refine ⟨l, h1.trans (congrArg (fun s => ({ tp with queue := ⟨l, s⟩ } : TP K)) hsize),
            h2.trans hlen, fun hx hl => ?_⟩
          exact (h3 (by omega) (hl.trans (by rw [← hlen]))).trans (hlast hx hl)
        refine ite_rec (fun r : TP K => ∃ l : List (TC K),
            r = { tp with queue := { tp.queue with queue := l } } ∧
            l.length = tp.queue.queue.length ∧
            (2 ≤ x → len = tp.queue.queue.length → l.getLast? = tp.queue.queue.getLast?))
          step (nxt _)

/-- `tpRunOptimization` changes nothing but the contents of queued segments. -/
theorem tpRunOptimization_frame (m : MathLib K) (c : TPConst K) (cfg : EmcmotConfig K)
    (tp : TP K) :
    ∃ l : List (TC K),
      tpRunOptimization m c cfg tp = { tp with queue := { tp.queue with queue := l } } ∧
      l.length = tp.queue.queue.length := by
  unfold tpRunOptimization
  obtain ⟨l, h1, h2, _⟩ := tpRunOptimizationLoop_frame m c cfg (tcqLen tp.queue)
    (cfg.arcBlendOptDepth + 1).toNat 1 0 tp
  exact ⟨l, h1, h2⟩

theorem tcqItem_last (q : TC_QUEUE_STRUCT K) (tc : TC K) (h : tcqLast q = some tc) :
    tcqItem q (tcqLen q - 1) = some tc := by
  unfold tcqLast at h
  unfold tcqItem tcqLen
  have hpos : 0 < q.queue.length := by
    rcases Nat.eq_zero_or_pos q.queue.length with h0 | h0
    · rw [List.length_eq_zero] at h0
      rw [h0] at h
      exact absurd h (by simp)
    · exact h0
  have e : ((q.queue.length : Int) - 1) = ((q.queue.length - 1 : Nat) : Int) := by omega
  rw [if_neg (by omega), e, Int.toNat_ofNat, List.get?_eq_getElem?,
    ← List.getLast?_eq_getElem?]
  exact h

/-- A tail segment that is not finalized is left alone by `tpRunOptimization`. -/
theorem tpRunOptimization_last (m : MathLib K) (c : TPConst K) (cfg : EmcmotConfig K)
    (tp : TP K) (tc : TC K) (hl : tcqLast tp.queue = some tc) (hf : tc.finalized = 0) :
    tcqLast (tpRunOptimization m c cfg tp).queue = some tc := by
  unfold tpRunOptimization
  cases hfuel : (cfg.arcBlendOptDepth + 1).toNat with
  | zero => exact hl
  | succ n =>
    unfold tpRunOptimizationLoop
    refine ite_rec (fun r : TP K => tcqLast r.queue = some tc) hl ?_
    dsimp only
    rw [tcqItem_last tp.queue tc hl]
    cases tcqItem tp.queue (tcqLen tp.queue - 1 - 1) with
    | none => exact hl
    | some prev1_tc =>
      dsimp only
      rw [if_pos hf]
      obtain ⟨l, h1, _, h3⟩ := tpRunOptimizationLoop_frame m c cfg (tcqLen tp.queue) n (1 + 1) 0 tp
      rw [h1]
      show l.getLast? = some tc
      rw [h3 (by norm_num) rfl]
      exact hl

/-- With room in the queue, `tpAddSegmentToQueue` followed by `tpRunOptimization` returns
`Ok`, leaves the new segment (not finalized, with the next id) at the tail, grows the queue
by one and reports the new length as `depth`. -/
theorem tpAddSegmentToQueue_optimized (m : MathLib K) (c : TPConst K) (cfg : EmcmotConfig K)
    (g : ExtGeom K) (tp : TP K) (tc : TC K) (inc_id : Bool)
    (hroom : tp.queue.queue.length < tp.queue.size) (hf : tc.finalized = 0) :
    (tpAddSegmentToQueue g tp tc inc_id).2.2 = TPErr.OK ∧
    tcqLast (tpRunOptimization m c cfg (tpAddSegmentToQueue g tp tc inc_id).1).queue
      = some { tc with id := tp.nextId } ∧
    (tpRunOptimization m c cfg (tpAddSegmentToQueue g tp tc inc_id).1).queue.queue.length
      = tp.queue.queue.length + 1 ∧
    (tpRunOptimization m c cfg (tpAddSegmentToQueue g tp tc inc_id).1).depth
      = tcqLen (tpRunOptimization m c cfg (tpAddSegmentToQueue g tp tc inc_id).1).queue := by
  have hput : tcqPut tp.queue { tc with id := tp.nextId }
      = ({ tp.queue with queue := tp.queue.queue ++ [{ tc with id := tp.nextId }] }, 0) := by
    unfold tcqPut
    rw [if_neg (by omega)]
  have hadd : ∃ tpA : TP K, tpAddSegmentToQueue g tp tc inc_id
        = (tpA, { tc with id := tp.nextId }, TPErr.OK) ∧
      tpA.queue = { tp.queue with queue := tp.queue.queue ++ [{ tc with id := tp.nextId }] } ∧
      tpA.depth = tcqLen tpA.queue := by
    unfold tpAddSegmentToQueue
    dsimp only
    rw [hput]
    dsimp only
    rw [if_neg (by decide)]
    cases inc_id
    · exact ⟨_, rfl, rfl, rfl⟩
    · exact ⟨_, rfl, rfl, rfl⟩
  obtain ⟨tpA, hA, hq, hd⟩ := hadd
  rw [hA]
  dsimp only
  have hlastA : tcqLast tpA.queue = some { tc with id := tp.nextId } := by
    rw [hq]
    unfold tcqLast
    exact List.getLast?_concat _
  obtain ⟨l, h1, h2⟩ := tpRunOptimization_frame m c cfg tpA
  refine ⟨rfl, tpRunOptimization_last m c cfg tpA _ hlastA hf, ?_, ?_⟩
  · rw [h1]
    show l.length = _
    rw [h2, hq]
    simp
  · rw [h1]
    show tpA.depth = (l.length : Int)
    rw [hd, h2]
    rfl

/-! ### Rejected appends -/

theorem tpErrorCheck_aborting (tp : TP K) (h : tp.aborting ≠ 0) :
    tpErrorCheck tp ≠ TPErr.OK := by
  unfold tpErrorCheck
  rw [if_pos h]
  decide

theorem tpErrorCheck_ok (tp : TP K) (h : tp.aborting = 0) :
    ¬ (tpErrorCheck tp ≠ TPErr.OK) := by
  unfold tpErrorCheck
  rw [if_neg (not_not.mpr h)]
  exact not_not.mpr rfl

/-- C12: on a planner with `aborting` set, `tpAddLine`, `tpAddCircle` and `tpAddRigidTap`
each return `Fail` and hand back the planner exactly as it was (queue, `goalPos`,
`nextId`, pending DIO/AIO buffer and every other field). -/
theorem tpAdd_aborting_rejected (m : MathLib K) (c : TPConst K) (cfg : EmcmotConfig K)
    (g : ExtGeom K) (tp : TP K) (end_ : EmcPose K) (center normal : PmCartesian K)
    (turn type : Int) (vel ini_maxvel acc : K) (enables atspeed indexrotary : Int)
    (hab : tp.aborting ≠ 0) :
    tpAddLine m c cfg g tp end_ type vel ini_maxvel acc enables atspeed indexrotary
      = (tp, TPErr.FAIL) ∧
    tpAddCircle m c cfg g tp end_ center normal turn type vel ini_maxvel acc enables atspeed
      = (tp, TPErr.FAIL) ∧
    tpAddRigidTap m c cfg g tp end_ vel ini_maxvel acc enables = (tp, TPErr.FAIL) := by
  refine ⟨?_, ?_, ?_⟩
  · unfold tpAddLine
    rw [if_pos (tpErrorCheck_aborting tp hab)]
  · unfold tpAddCircle
    rw [if_pos (tpErrorCheck_aborting tp hab)]
  · unfold tpAddRigidTap
    rw [if_pos (tpErrorCheck_aborting tp hab)]

theorem tpAdd_aborting_rejected_witness :
    tpAddLine realMath sampleConst blendCfg sampleGeom abortingTP {} 0 50 100 100 0 0 (-1)
      = (abortingTP, TPErr.FAIL) ∧
    tpAddCircle realMath sampleConst blendCfg sampleGeom abortingTP {} ⟨1, 0, 0⟩ ⟨0, 0, 1⟩ 0 0
      50 100 100 0 0 = (abortingTP, TPErr.FAIL) ∧
    tpAddRigidTap realMath sampleConst blendCfg sampleGeom abortingTP {} 50 100 100 0
      = (abortingTP, TPErr.FAIL) :=
  tpAdd_aborting_rejected realMath sampleConst blendCfg sampleGeom abortingTP {} ⟨1, 0, 0⟩
    ⟨0, 0, 1⟩ 0 0 50 100 100 0 0 (-1) (by decide)

/-- C13: on a planner whose `synchronized` mode is 0, `tpAddRigidTap` returns `Fail` and
hands back the planner exactly as it was: nothing is queued, `goalPos` and `nextId` are
kept and the pending DIO/AIO buffer is not consumed. -/
theorem tpAddRigidTap_unsynchronized (m : MathLib K) (c : TPConst K) (cfg : EmcmotConfig K)
    (g : ExtGeom K) (tp : TP K) (end_ : EmcPose K) (vel ini_maxvel acc : K) (enables : Int)
    (hs : tp.synchronized = 0) :
    tpAddRigidTap m c cfg g tp end_ vel ini_maxvel acc enables = (tp, TPErr.FAIL) := by
  unfold tpAddRigidTap
  refine ite_rec (fun r : TP K × TPErr => r = (tp, TPErr.FAIL)) rfl ?_
  dsimp only
  rw [if_pos hs]

theorem tpAddRigidTap_unsynchronized_witness :
    tpAddRigidTap realMath sampleConst blendCfg sampleGeom fullQueueTP { tran := ⟨10, 0, -5⟩ }
      50 100 100 0 = (fullQueueTP, TPErr.FAIL) :=
  tpAddRigidTap_unsynchronized realMath sampleConst blendCfg sampleGeom fullQueueTP
    { tran := ⟨10, 0, -5⟩ } 50 100 100 0 rfl

/-! ### The queued rigid tap -/

/-- C14: on a synchronized, non-aborting planner with room in the queue, `tpAddRigidTap`
returns `Ok` and the segment it leaves at the tail of the queue is a rigid tap in state
`TAPPING` with `target = L + 10 * uu_per_rev`, `nominal_length = target`,
`reversal_target = L`, `atspeed = 1`, `progress = 0` and `currentvel = 0`, where `L` is
the length of the line from `goalPos` to the requested end point. -/
theorem tpAddRigidTap_queued_segment (m : MathLib K) (c : TPConst K) (cfg : EmcmotConfig K)
    (g : ExtGeom K) (tp : TP K) (end_ : EmcPose K) (vel ini_maxvel acc : K) (enables : Int)
    (hs : tp.synchronized ≠ 0) (hab : tp.aborting = 0)
    (hroom : tp.queue.queue.length < tp.queue.size) :
    (tpAddRigidTap m c cfg g tp end_ vel ini_maxvel acc enables).2 = TPErr.OK ∧
    ∃ (tc : TC K) (r : PmRigidTap K),
      tcqLast (tpAddRigidTap m c cfg g tp end_ vel ini_maxvel acc enables).1.queue = some tc ∧
      tc.coords = Coords.rigidtap r ∧
      tc.target = (pmCartLineInit m c tp.goalPos.tran end_.tran).1.tmag + 10 * tp.uu_per_rev ∧
      tc.nominal_length = tc.target ∧
      r.reversal_target = (pmCartLineInit m c tp.goalPos.tran end_.tran).1.tmag ∧
      tc.atspeed = 1 ∧
      r.state = RIGIDTAP_STATE.TAPPING ∧
      tc.progress = 0 ∧
      tc.currentvel = 0 := by
  unfold tpAddRigidTap
  rw [if_neg (tpErrorCheck_ok tp hab)]
  dsimp only
  rw [if_neg hs]
  dsimp only
  have hC : (tpClearDIOs cfg tp).1.queue = tp.queue := rfl
  have hroom1 : ∀ tp1 : TP K, tp1.queue = tp.queue → ∀ fp : Option (TC K),
      (match fp with
        | some p => ({ tp1 with queue := tcqSetItem tp1.queue (tcqLen tp1.queue - 1) p } : TP K)
        | none => tp1).queue.queue.length
      < (match fp with
        | some p => ({ tp1 with queue := tcqSetItem tp1.queue (tcqLen tp1.queue - 1) p } : TP K)
        | none => tp1).queue.size := by
    intro tp1 h1 fp
    cases fp with
    | none => show tp1.queue.queue.length < tp1.queue.size; rw [h1]; exact hroom
    | some p =>
      obtain ⟨hs1, hl1⟩ := tcqSetItem_size tp1.queue (tcqLen tp1.queue - 1) p
      show (tcqSetItem _ _ p).queue.length < (tcqSetItem _ _ p).size
      rw [hs1, hl1, h1]
      exact hroom
  have key : ∀ (tpF : TP K) (tcN : TC K), tpF.queue.queue.length < tpF.queue.size →
      tcN.finalized = 0 →
      (∃ r0 : PmRigidTap K, tcN.coords = Coords.rigidtap r0 ∧
        r0.reversal_target = (pmCartLineInit m c tp.goalPos.tran end_.tran).1.tmag ∧
        r0.state = RIGIDTAP_STATE.TAPPING) →
      tcN.target = (pmCartLineInit m c tp.goalPos.tran end_.tran).1.tmag + 10 * tp.uu_per_rev →
      tcN.nominal_length = tcN.target → tcN.atspeed = 1 → tcN.progress = 0 →
      tcN.currentvel = 0 →
      (tpRunOptimization m c cfg (tpAddSegmentToQueue g tpF tcN true).1,
        (tpAddSegmentToQueue g tpF tcN true).2.2).2 = TPErr.OK ∧
      ∃ (tc : TC K) (r : PmRigidTap K),
        tcqLast (tpRunOptimization m c cfg (tpAddSegmentToQueue g tpF tcN true).1,
          (tpAddSegmentToQueue g tpF tcN true).2.2).1.queue = some tc ∧
        tc.coords = Coords.rigidtap r ∧
        tc.target = (pmCartLineInit m c tp.goalPos.tran end_.tran).1.tmag + 10 * tp.uu_per_rev ∧
        tc.nominal_length = tc.target ∧
        r.reversal_target = (pmCartLineInit m c tp.goalPos.tran end_.tran).1.tmag ∧
        tc.atspeed = 1 ∧
        r.state = RIGIDTAP_STATE.TAPPING ∧
        tc.progress = 0 ∧
        tc.currentvel = 0 := by
    intro tpF tcN hF hfin hco ht hn ha hp hv
    obtain ⟨r0, hc0, hr0, hs0⟩ := hco
    obtain ⟨h1, h2, _, _⟩ := tpAddSegmentToQueue_optimized m c cfg g tpF tcN true hF hfin
    exact ⟨h1, { tcN with id := tpF.nextId }, r0, h2, hc0, ht, hn, hr0, ha, hs0, hp, hv⟩
  by_cases hch : tp.syncdio.anychanged ≠ 0
  · rw [if_pos hch, if_pos hch]
    refine key _ _ (hroom1 (tpClearDIOs cfg tp).1 hC _) ?_ ?_ ?_ ?_ ?_ ?_ ?_
    · rfl
    · exact ⟨_, rfl, rfl, rfl⟩
    · rfl
    · rfl
    · rfl
    · rfl
    · rfl
  · rw [if_neg hch, if_neg hch]
    refine key _ _ (hroom1 tp rfl _) ?_ ?_ ?_ ?_ ?_ ?_ ?_
    · rfl
    · exact ⟨_, rfl, rfl, rfl⟩
    · rfl
    · rfl
    · rfl
    · rfl
    · rfl

theorem tpAddRigidTap_queued_segment_witness :
    (tpAddRigidTap realMath sampleConst blendCfg sampleGeom syncedTP { tran := ⟨0, 0, -5⟩ }
      50 100 100 0).2 = TPErr.OK ∧
    ∃ (tc : TC ℝ) (r : PmRigidTap ℝ),
      tcqLast (tpAddRigidTap realMath sampleConst blendCfg sampleGeom syncedTP
        { tran := ⟨0, 0, -5⟩ } 50 100 100 0).1.queue = some tc ∧
      tc.coords = Coords.rigidtap r ∧
      tc.target = (pmCartLineInit realMath sampleConst (syncedTP : TP ℝ).goalPos.tran
        ⟨0, 0, -5⟩).1.tmag + 10 * (syncedTP : TP ℝ).uu_per_rev ∧
      tc.nominal_length = tc.target ∧
      r.reversal_target = (pmCartLineInit realMath sampleConst (syncedTP : TP ℝ).goalPos.tran
        ⟨0, 0, -5⟩).1.tmag ∧
      tc.atspeed = 1 ∧
      r.state = RIGIDTAP_STATE.TAPPING ∧
      tc.progress = 0 ∧
      tc.currentvel = 0 :=
  tpAddRigidTap_queued_segment realMath sampleConst blendCfg sampleGeom syncedTP
    { tran := ⟨0, 0, -5⟩ } 50 100 100 0 (by decide) rfl (by decide)

/-! ### The auxiliary line of a rigid tap -/

theorem pmCartLineInit_end (m : MathLib K) (c : TPConst K) (s e : PmCartesian K) :
    (pmCartLineInit m c s e).1.end_ = e := by
  unfold pmCartLineInit
  exact ite_rec (fun r : PmCartLine K × Int => r.1.end_ = e) rfl rfl

/-- One call of `tpUpdateRigidTapState`: the tap line `xyz` is kept; if the auxiliary line
ended at the start of the tap line in the states after the reversal, it still does; and a
call that enters `FINAL_PLACEMENT` sets `target` to the length of the auxiliary line and
`progress` to 0. -/
theorem tpUpdateRigidTapState_aux_step (m : MathLib K) (c : TPConst K) (old_spindlepos : K)
    (st : EmcmotStatus K) (tp : TP K) (tc : TC K) (r : PmRigidTap K) :
    ∃ r' : PmRigidTap K,
      (tpUpdateRigidTapState m c old_spindlepos st tp
        { tc with coords := Coords.rigidtap r }).2.2.coords = Coords.rigidtap r' ∧
      r'.xyz = r.xyz ∧
      (((r.state = RIGIDTAP_STATE.RETRACTION ∨ r.state = RIGIDTAP_STATE.FINAL_REVERSAL ∨
          r.state = RIGIDTAP_STATE.FINAL_PLACEMENT) → r.aux_xyz.end_ = r.xyz.start) →
        (r'.state = RIGIDTAP_STATE.RETRACTION ∨ r'.state = RIGIDTAP_STATE.FINAL_REVERSAL ∨
          r'.state = RIGIDTAP_STATE.FINAL_PLACEMENT) → r'.aux_xyz.end_ = r.xyz.start) ∧
      (r.state ≠ RIGIDTAP_STATE.FINAL_PLACEMENT → r'.state = RIGIDTAP_STATE.FINAL_PLACEMENT →
        (tpUpdateRigidTapState m c old_spindlepos st tp
          { tc with coords := Coords.rigidtap r }).2.2.target = r'.aux_xyz.tmag ∧
        (tpUpdateRigidTapState m c old_spindlepos st tp
          { tc with coords := Coords.rigidtap r }).2.2.progress = 0) := by
  have keep : ∀ s : RIGIDTAP_STATE, r.state = s → s ≠ RIGIDTAP_STATE.FINAL_PLACEMENT →
      (((r.state = RIGIDTAP_STATE.RETRACTION ∨ r.state = RIGIDTAP_STATE.FINAL_REVERSAL ∨
          r.state = RIGIDTAP_STATE.FINAL_PLACEMENT) → r.aux_xyz.end_ = r.xyz.start) →
        (r.state = RIGIDTAP_STATE.RETRACTION ∨ r.state = RIGIDTAP_STATE.FINAL_REVERSAL ∨
          r.state = RIGIDTAP_STATE.FINAL_PLACEMENT) → r.aux_xyz.end_ = r.xyz.start) ∧
      (r.state ≠ RIGIDTAP_STATE.FINAL_PLACEMENT → r.state = RIGIDTAP_STATE.FINAL_PLACEMENT →
        tc.target = r.aux_xyz.tmag ∧ tc.progress = 0) :=
    fun s _ _ => ⟨fun h => h, fun h1 h2 => absurd h2 h1⟩
  unfold tpUpdateRigidTapState
  dsimp only
  generalize (if st.spindle_direction < 0 then -st.spindleRevs else st.spindleRevs) = nw
  cases hs : r.state with
  | TAPPING =>
    dsimp only
    by_cases h : tc.progress ≥ r.reversal_target
    · rw [if_pos h]
      refine ⟨{ r with state := RIGIDTAP_STATE.REVERSING }, rfl, rfl, ?_, ?_⟩
      · intro _ hl
        rcases hl with hl | hl | hl <;> simp at hl
      · intro _ hl
        simp at hl
    · rw [if_neg h]
      refine ⟨r, rfl, rfl, ?_, ?_⟩
      · intro _ hl
        rw [hs] at hl
        rcases hl with hl | hl | hl <;> exact absurd hl (by decide)
      · intro _ hl
        rw [hs] at hl
        exact absurd hl (by decide)
  | REVERSING =>
    dsimp only
    by_cases h : nw < old_spindlepos
    · rw [if_pos h]
      refine ⟨_, rfl, rfl, ?_, ?_⟩
      · intro _ _
        exact pmCartLineInit_end m c _ _
      · intro _ hl
        simp at hl
    · rw [if_neg h]
      refine ⟨r, rfl, rfl, ?_, ?_⟩
      · intro _ hl
        rw [hs] at hl
        rcases hl with hl | hl | hl <;> exact absurd hl (by decide)
      · intro _ hl
        rw [hs] at hl
        exact absurd hl (by decide)
  | RETRACTION =>
    dsimp only
    by_cases h : tc.progress ≥ r.reversal_target
    · rw [if_pos h]
      refine ⟨{ r with state := RIGIDTAP_STATE.FINAL_REVERSAL }, rfl, rfl, ?_, ?_⟩
      · intro hi _
        exact hi (Or.inl rfl)
      · intro _ hl
        simp at hl
    · rw [if_neg h]
      refine ⟨r, rfl, rfl, ?_, ?_⟩
      · intro hi _
        exact hi (Or.inl rfl)
      · intro _ hl
        rw [hs] at hl
        exact absurd hl (by decide)
  | FINAL_REVERSAL =>
    dsimp only
    by_cases h : nw > old_spindlepos
    · rw [if_pos h]
      refine ⟨_, rfl, rfl, ?_, ?_⟩
      · intro _ _
        exact pmCartLineInit_end m c _ _
      · intro _ _
        exact ⟨rfl, rfl⟩
    · rw [if_neg h]
      refine ⟨r, rfl, rfl, ?_, ?_⟩
      · intro hi _
        exact hi (Or.inr (Or.inl rfl))
      · intro _ hl
        rw [hs] at hl
        exact absurd hl (by decide)
  | FINAL_PLACEMENT =>
    refine ⟨r, rfl, rfl, ?_, ?_⟩
    · intro hi _
      exact hi (Or.inr (Or.inr rfl))
    · intro hn _
      exact absurd rfl hn

/-- C11: in every run of `tpUpdateRigidTapState` on a segment that starts in `TAPPING`,
the tap line `xyz` stays the original one and, whenever the state reached is `RETRACTION`,
`FINAL_REVERSAL` or `FINAL_PLACEMENT`, the auxiliary line `aux_xyz` ends at the start
point of the original tap line; and a further call that enters `FINAL_PLACEMENT` leaves
`target` equal to the length of `aux_xyz` and `progress = 0`. -/
theorem tpUpdateRigidTapState_aux_line (m : MathLib K) (c : TPConst K)
    (run : List (EmcmotStatus K × TP K × TC K)) (old_spindlepos : K) (tc : TC K)
    (r0 : PmRigidTap K) (h0 : tc.coords = Coords.rigidtap r0)
    (hT : r0.state = RIGIDTAP_STATE.TAPPING) :
    ∃ r : PmRigidTap K,
      (tpUpdateRigidTapStateRun m c run old_spindlepos tc).2.coords = Coords.rigidtap r ∧
      r.xyz = r0.xyz ∧
      ((r.state = RIGIDTAP_STATE.RETRACTION ∨ r.state = RIGIDTAP_STATE.FINAL_REVERSAL ∨
          r.state = RIGIDTAP_STATE.FINAL_PLACEMENT) → r.aux_xyz.end_ = r0.xyz.start) ∧
      ∀ (st : EmcmotStatus K) (tp : TP K) (other : TC K),
        r.state ≠ RIGIDTAP_STATE.FINAL_PLACEMENT →
        rigidTapState (tpUpdateRigidTapState m c
          (tpUpdateRigidTapStateRun m c run old_spindlepos tc).1 st tp
          { other with coords := Coords.rigidtap r }).2.2
          = some RIGIDTAP_STATE.FINAL_PLACEMENT →
        ∃ r' : PmRigidTap K,
          (tpUpdateRigidTapState m c (tpUpdateRigidTapStateRun m c run old_spindlepos tc).1
            st tp { other with coords := Coords.rigidtap r }).2.2.coords
            = Coords.rigidtap r' ∧
          r'.aux_xyz.end_ = r0.xyz.start ∧
          (tpUpdateRigidTapState m c (tpUpdateRigidTapStateRun m c run old_spindlepos tc).1
            st tp { other with coords := Coords.rigidtap r }).2.2.target = r'.aux_xyz.tmag ∧
          (tpUpdateRigidTapState m c (tpUpdateRigidTapStateRun m c run old_spindlepos tc).1
            st tp { other with coords := Coords.rigidtap r }).2.2.progress = 0 := by
  have gen : ∀ (run : List (EmcmotStatus K × TP K × TC K)) (old : K) (tc : TC K)
      (r1 : PmRigidTap K), tc.coords = Coords.rigidtap r1 → r1.xyz = r0.xyz →
      ((r1.state = RIGIDTAP_STATE.RETRACTION ∨ r1.state = RIGIDTAP_STATE.FINAL_REVERSAL ∨
          r1.state = RIGIDTAP_STATE.FINAL_PLACEMENT) → r1.aux_xyz.end_ = r0.xyz.start) →
      ∃ r : PmRigidTap K,
        (tpUpdateRigidTapStateRun m c run old tc).2.coords = Coords.rigidtap r ∧
        r.xyz = r0.xyz ∧
        ((r.state = RIGIDTAP_STATE.RETRACTION ∨ r.state = RIGIDTAP_STATE.FINAL_REVERSAL ∨
            r.state = RIGIDTAP_STATE.FINAL_PLACEMENT) → r.aux_xyz.end_ = r0.xyz.start) := by
    intro run
    induction run with
    | nil =>
      intro old tc r1 h1 hx hi
      exact ⟨r1, h1, hx, hi⟩
    | cons a rest ih =>
      intro old tc r1 h1 hx hi
      obtain ⟨st, tp, other⟩ := a
      unfold tpUpdateRigidTapStateRun
      dsimp only
      rw [h1]
      obtain ⟨r', hc, hxyz, hkeep, _⟩ :=
        tpUpdateRigidTapState_aux_step m c old st tp other r1
      refine ih _ _ r' hc (hxyz.trans hx) ?_
      intro hl
      have := hkeep (fun h => (hi h).trans (by rw [hx])) hl
      rw [this, hx]
  obtain ⟨r, hc, hx, hi⟩ := gen run old_spindlepos tc r0 h0 rfl
    (fun h => by rcases h with h | h | h <;> rw [hT] at h <;> exact absurd h (by decide))
  refine ⟨r, hc, hx, hi, ?_⟩
  intro st tp other hne hent
  obtain ⟨r', hc', _, hkeep, henter⟩ := tpUpdateRigidTapState_aux_step m c
    (tpUpdateRigidTapStateRun m c run old_spindlepos tc).1 st tp other r
  have hst : r'.state = RIGIDTAP_STATE.FINAL_PLACEMENT := by
    unfold rigidTapState at hent
    rw [hc'] at hent
    exact Option.some.inj hent
  obtain ⟨ht, hp⟩ := henter hne hst
  refine ⟨r', hc', ?_, ht, hp⟩
  have := hkeep (fun h => (hi h).trans (by rw [hx])) (Or.inr (Or.inr hst))
  rw [this, hx]

theorem pmCartLineInit_tmag (m : MathLib K) (c : TPConst K) (s e : PmCartesian K) :
    (pmCartLineInit m c s e).1.tmag
      = m.sqrt ((e.x - s.x) * (e.x - s.x) + (e.y - s.y) * (e.y - s.y)
          + (e.z - s.z) * (e.z - s.z)) := by
  unfold pmCartLineInit
  exact ite_rec (fun r : PmCartLine K × Int => r.1.tmag = _) rfl rfl

theorem sqrt_1849 : Real.sqrt 1849 = 43 := by
  rw [show (1849 : ℝ) = 43 ^ 2 by norm_num]
  exact Real.sqrt_sq (by norm_num)

theorem sqrt_400 : Real.sqrt 400 = 20 := by
  rw [show (400 : ℝ) = 20 ^ 2 by norm_num]
  exact Real.sqrt_sq (by norm_num)

/-- The sample run `tapRunBack` ends in `FINAL_REVERSAL` with the spindle memory at 0.05. -/
theorem tapRunBack_state :
    (tpUpdateRigidTapStateRun realMath sampleConst tapRunBack 0 tapSegAtDepth).1 = 1 / 20 ∧
    rigidTapState (tpUpdateRigidTapStateRun realMath sampleConst tapRunBack 0 tapSegAtDepth).2
      = some RIGIDTAP_STATE.FINAL_REVERSAL := by
  constructor
  · simp only [tapRunBack, tapRun, tapBackCycle, tapCoastCycle, List.cons_append, List.nil_append,
      tpUpdateRigidTapStateRun]
    norm_num [tpUpdateRigidTapState, tapSegAtDepth, pmCartLinePoint, pmCartLineInit_tmag,
      realMath, sqrt_1849, sqrt_400]
  · simp only [tapRunBack, tapRun, tapBackCycle, tapCoastCycle, List.cons_append, List.nil_append,
      tpUpdateRigidTapStateRun]
    norm_num [tpUpdateRigidTapState, tapSegAtDepth, pmCartLinePoint, pmCartLineInit_tmag,
      realMath, sqrt_1849, sqrt_400, rigidTapState]

theorem tpUpdateRigidTapState_aux_line_witness :
    ∃ r : PmRigidTap ℝ,
      (tpUpdateRigidTapStateRun realMath sampleConst tapRunBack 0 tapSegAtDepth).2.coords
        = Coords.rigidtap r ∧
      r.xyz = (tapAtDepthGeom : PmRigidTap ℝ).xyz ∧
      r.state = RIGIDTAP_STATE.FINAL_REVERSAL ∧
      r.aux_xyz.end_ = (tapAtDepthGeom : PmRigidTap ℝ).xyz.start ∧
      ∃ r' : PmRigidTap ℝ,
        (tpUpdateRigidTapState realMath sampleConst
          (tpUpdateRigidTapStateRun realMath sampleConst tapRunBack 0 tapSegAtDepth).1
          { spindleRevs := 3 / 50, spindle_direction := 1, spindle_speed := 100 } {}
          { tapSegAtDepth with coords := Coords.rigidtap r }).2.2.coords = Coords.rigidtap r' ∧
        r'.aux_xyz.end_ = (tapAtDepthGeom : PmRigidTap ℝ).xyz.start ∧
        (tpUpdateRigidTapState realMath sampleConst
          (tpUpdateRigidTapStateRun realMath sampleConst tapRunBack 0 tapSegAtDepth).1
          { spindleRevs := 3 / 50, spindle_direction := 1, spindle_speed := 100 } {}
          { tapSegAtDepth with coords := Coords.rigidtap r }).2.2.target = r'.aux_xyz.tmag ∧
        (tpUpdateRigidTapState realMath sampleConst
          (tpUpdateRigidTapStateRun realMath sampleConst tapRunBack 0 tapSegAtDepth).1
          { spindleRevs := 3 / 50, spindle_direction := 1, spindle_speed := 100 } {}
          { tapSegAtDepth with coords := Coords.rigidtap r }).2.2.progress = 0 := by
  obtain ⟨r, hc, hx, hi, hent⟩ := tpUpdateRigidTapState_aux_line realMath sampleConst
    tapRunBack 0 tapSegAtDepth tapAtDepthGeom rfl rfl
  obtain ⟨hold, hstate⟩ := tapRunBack_state
  have hr : r.state = RIGIDTAP_STATE.FINAL_REVERSAL := by
    unfold rigidTapState at hstate
    rw [hc] at hstate
    exact Option.some.inj hstate
  refine ⟨r, hc, hx, hr, hi (Or.inr (Or.inl hr)), ?_⟩
  refine hent { spindleRevs := 3 / 50, spindle_direction := 1, spindle_speed := 100 } {}
    tapSegAtDepth (by rw [hr]; decide) ?_
  rw [hold]
  unfold tpUpdateRigidTapState
  norm_num [hr, rigidTapState]

/-! ### Spindle synchronization -/

theorem fabs_nonneg (x : K) : 0 ≤ fabs x := by
  unfold fabs
  split_ifs with h
  · exact le_of_lt (neg_pos.mpr h)
  · exact not_lt.mp h

/-- `tpSyncPositionMode` clips the requested velocity at zero. -/
theorem tpSyncPositionMode_target_vel_nonneg (m : MathLib K) (c : TPConst K)
    (st : EmcmotStatus K) (tp : TP K) (tc : TC K) (nexttc : Option (TC K)) :
    0 ≤ (tpSyncPositionMode m c st tp tc nexttc).2.1.target_vel := by
  have clip : ∀ x : TC K,
      0 ≤ (if x.target_vel < 0 then { x with target_vel := 0 } else x).target_vel := by
    intro x
    by_cases h : x.target_vel < 0
    · rw [if_pos h]
    · rw [if_neg h]
      exact not_lt.mp h
  unfold tpSyncPositionMode
  exact clip _

/-- Without a successor segment `tpSyncVelocityMode` requests a non-negative velocity when
`uu_per_rev` is non-negative. -/
theorem tpSyncVelocityMode_alone (st : EmcmotStatus K) (tc : TC K) (h : 0 ≤ tc.uu_per_rev) :
    0 ≤ (tpSyncVelocityMode st tc none).target_vel :=
  mul_nonneg (fabs_nonneg _) h

/-- C20, evaluation at the failing input: the spindle stands still (`spindleSpeedIn = 0`)
and the successor segment has already progressed by 1 in a blend; `tpSyncVelocityMode`
leaves `target_vel = -1` on the head segment, while `tpSyncPositionMode` on the same
input leaves a non-negative value. -/
theorem tpSyncVelocityMode_negative_target_vel :
    (tpSyncVelocityMode ({ spindleSpeedIn := 0 } : EmcmotStatus ℝ) velSyncSeg
      (some { progress := 1 })).target_vel = -1 ∧
    0 ≤ (tpSyncPositionMode realMath sampleConst ({ spindleSpeedIn := 0 } : EmcmotStatus ℝ)
      {} velSyncSeg (some { progress := 1 })).2.1.target_vel := by
  refine ⟨?_, tpSyncPositionMode_target_vel_nonneg _ _ _ _ _ _⟩
  norm_num [tpSyncVelocityMode, velSyncSeg, fabs]

/-! ### Queue depth -/

/-- When `tpAddSegmentToQueue` succeeds, the planner that `tpRunOptimization` then leaves
reports the queue length as `depth`. -/
theorem tpAddSegmentToQueue_ok_depth (m : MathLib K) (c : TPConst K) (cfg : EmcmotConfig K)
    (g : ExtGeom K) (tp : TP K) (tc : TC K) (inc_id : Bool)
    (hok : (tpAddSegmentToQueue g tp tc inc_id).2.2 = TPErr.OK) :
    tpQueueDepth (tpRunOptimization m c cfg (tpAddSegmentToQueue g tp tc inc_id).1)
      = tcqLen (tpRunOptimization m c cfg (tpAddSegmentToQueue g tp tc inc_id).1).queue := by
  have hd : (tpAddSegmentToQueue g tp tc inc_id).1.depth
      = tcqLen (tpAddSegmentToQueue g tp tc inc_id).1.queue := by
    revert hok
    unfold tpAddSegmentToQueue
    dsimp only
    by_cases hp : (tcqPut tp.queue { tc with id := tp.nextId }).2 = -1
    · rw [if_pos hp]
      intro h
      exact absurd (show TPErr.FAIL = TPErr.OK from h) (by decide)
    · rw [if_neg hp]
      intro _
      cases inc_id <;> rfl
  obtain ⟨l, h1, h2⟩ := tpRunOptimization_frame m c cfg (tpAddSegmentToQueue g tp tc inc_id).1
  rw [h1]
  show (tpAddSegmentToQueue g tp tc inc_id).1.depth = (l.length : Int)
  rw [hd, h2]
  rfl

/-- After a successful `tpAddLine`, `tpAddCircle` or `tpAddRigidTap` the value of
`tpQueueDepth` is the number of segments in the queue. -/
theorem tpAdd_ok_depth (m : MathLib K) (c : TPConst K) (cfg : EmcmotConfig K)
    (g : ExtGeom K) (tp : TP K) (end_ : EmcPose K) (center normal : PmCartesian K)
    (turn type : Int) (vel ini_maxvel acc : K) (enables atspeed indexrotary : Int) :
    ((tpAddLine m c cfg g tp end_ type vel ini_maxvel acc enables atspeed indexrotary).2
        = TPErr.OK →
      tpQueueDepth (tpAddLine m c cfg g tp end_ type vel ini_maxvel acc enables atspeed
        indexrotary).1
      = tcqLen (tpAddLine m c cfg g tp end_ type vel ini_maxvel acc enables atspeed
        indexrotary).1.queue) ∧
    ((tpAddCircle m c cfg g tp end_ center normal turn type vel ini_maxvel acc enables
        atspeed).2 = TPErr.OK →
      tpQueueDepth (tpAddCircle m c cfg g tp end_ center normal turn type vel ini_maxvel acc
        enables atspeed).1
      = tcqLen (tpAddCircle m c cfg g tp end_ center normal turn type vel ini_maxvel acc
        enables atspeed).1.queue) ∧
    ((tpAddRigidTap m c cfg g tp end_ vel ini_maxvel acc enables).2 = TPErr.OK →
      tpQueueDepth (tpAddRigidTap m c cfg g tp end_ vel ini_maxvel acc enables).1
      = tcqLen (tpAddRigidTap m c cfg g tp end_ vel ini_maxvel acc enables).1.queue) := by
  have fail : ∀ tp' : TP K, ((tp', TPErr.FAIL) : TP K × TPErr).2 = TPErr.OK →
      tpQueueDepth ((tp', TPErr.FAIL) : TP K × TPErr).1
        = tcqLen ((tp', TPErr.FAIL) : TP K × TPErr).1.queue :=
    fun _ h => absurd (show TPErr.FAIL = TPErr.OK from h) (by decide)
  refine ⟨?_, ?_, ?_⟩
  · unfold tpAddLine
    refine ite_rec (fun r : TP K × TPErr => r.2 = TPErr.OK →
      tpQueueDepth r.1 = tcqLen r.1.queue) (fail tp) ?_
    dsimp only
    refine ite_rec (fun r : TP K × TPErr => r.2 = TPErr.OK →
      tpQueueDepth r.1 = tcqLen r.1.queue) (fail tp) ?_
    exact tpAddSegmentToQueue_ok_depth m c cfg g _ _ true
  · unfold tpAddCircle
    refine ite_rec (fun r : TP K × TPErr => r.2 = TPErr.OK →
      tpQueueDepth r.1 = tcqLen r.1.queue) (fail tp) ?_
    dsimp only
    refine ite_rec (fun r : TP K × TPErr => r.2 = TPErr.OK →
      tpQueueDepth r.1 = tcqLen r.1.queue) (fail tp) ?_
    exact tpAddSegmentToQueue_ok_depth m c cfg g _ _ true
  · unfold tpAddRigidTap
    refine ite_rec (fun r : TP K × TPErr => r.2 = TPErr.OK →
      tpQueueDepth r.1 = tcqLen r.1.queue) (fail tp) ?_
    dsimp only
    refine ite_rec (fun r : TP K × TPErr => r.2 = TPErr.OK →
      tpQueueDepth r.1 = tcqLen r.1.queue) (fail tp) ?_
    exact tpAddSegmentToQueue_ok_depth m c cfg g _ _ true

theorem tcqRemove_one (q : TC_QUEUE_STRUCT K) : (tcqRemove q 1).1.queue = q.queue.drop 1 := by
  unfold tcqRemove
  rw [if_neg (by decide)]
  by_cases h : (q.queue.length : Int) < 1
  · rw [if_pos h]
    have h0 : q.queue = [] := List.length_eq_zero.mp (by omega)
    show q.queue = _
    rw [h0]
    rfl
  · rw [if_neg h]
    rfl

/-- `tpCompleteSegment` never writes `depth`; when it returns `Ok` it has dropped the head
of the queue. -/
theorem tpCompleteSegment_keeps_depth (g : ExtGeom K) (tp : TP K) (tc : TC K) :
    (tpCompleteSegment g tp tc).1.depth = tp.depth ∧
    ((tpCompleteSegment g tp tc).2.2 = TPErr.OK →
      (tpCompleteSegment g tp tc).1.queue.queue = tp.queue.queue.drop 1) := by
  unfold tpCompleteSegment
  refine ite_rec (fun r : TP K × List (IoEvent K) × TPErr => r.1.depth = tp.depth ∧
    (r.2.2 = TPErr.OK → r.1.queue.queue = tp.queue.queue.drop 1))
    ⟨rfl, fun h => absurd (show TPErr.FAIL = TPErr.OK from h) (by decide)⟩ ?_
  dsimp only
  by_cases hs : tc.synchronized ≠ TC_SYNC_NONE
  · rw [if_pos hs]
    refine ite_rec (fun r : TP K × List (IoEvent K) × TPErr => r.1.depth = tp.depth ∧
      (r.2.2 = TPErr.OK → r.1.queue.queue = tp.queue.queue.drop 1))
      ⟨rfl, fun h => absurd (show TPErr.FAIL = TPErr.OK from h) (by decide)⟩
      ⟨rfl, fun _ => tcqRemove_one tp.queue⟩
  · rw [if_neg hs]
    refine ite_rec (fun r : TP K × List (IoEvent K) × TPErr => r.1.depth = tp.depth ∧
      (r.2.2 = TPErr.OK → r.1.queue.queue = tp.queue.queue.drop 1))
      ⟨rfl, fun h => absurd (show TPErr.FAIL = TPErr.OK from h) (by decide)⟩
      ⟨rfl, fun _ => tcqRemove_one tp.queue⟩

/-- C19, evaluation at the failing input: the planner holds two segments and reports
depth 2; the head segment is complete, so this cycle pops it. Afterwards the queue holds
one segment and `tpQueueDepth` still returns 2. -/
theorem tpRunCycle_pop_stale_depth :
    tpQueueDepth (poppingTP : TP ℝ) = tcqLen (poppingTP : TP ℝ).queue ∧
    (tpRunCycle realMath sampleConst blendCfg sampleGeom {} 0 {} poppingTP).ret = TPErr.OK ∧
    tcqLen (tpRunCycle realMath sampleConst blendCfg sampleGeom {} 0 {} poppingTP).tp.queue = 1 ∧
    tpQueueDepth (tpRunCycle realMath sampleConst blendCfg sampleGeom {} 0 {} poppingTP).tp
      = 2 := by
  refine ⟨rfl, ?_, ?_, ?_⟩
  · decide
  · decide
  · decide

/-! ### Synchronized outputs -/

theorem flatMap_range_nil {α : Type} (f : Nat → List α) (n : Nat)
    (h : ∀ j, j < n → f j = []) : (List.range n).flatMap f = [] := by
  induction n with
  | zero => rfl
  | succ n ih =>
    rw [List.range_succ, List.flatMap_append, ih (fun j hj => h j (Nat.lt_succ_of_lt hj))]
    simp [List.flatMap, h n (Nat.lt_succ_self n)]

theorem flatMap_range_single {α : Type} (f : Nat → List α) (n i : Nat) (hi : i < n)
    (h : ∀ j, j ≠ i → f j = []) : (List.range n).flatMap f = f i := by
  induction n with
  | zero => exact absurd hi (Nat.not_lt_zero i)
  | succ n ih =>
    rw [List.range_succ, List.flatMap_append]
    by_cases hin : i = n
    · rw [flatMap_range_nil f n (fun j hj => h j (by omega)), hin]
      simp [List.flatMap]
    · rw [ih (by omega)]
      simp [List.flatMap, h n (fun e => hin e.symm)]

theorem iomask_low_ne_zero : ∀ i, i < 32 → iomask_of_int (int_shl1 i) ≠ 0 := by
  decide

/-- The mask bit `1 << i` is never zero: the shift count is taken modulo 32. -/
theorem iomask_shl1_ne_zero (i : Nat) : iomask_of_int (int_shl1 i) ≠ 0 := by
  have h : int_shl1 i = int_shl1 (i % 32) := by
    unfold int_shl1
    rw [Nat.mod_mod]
  rw [h]
  exact iomask_low_ne_zero (i % 32) (Nat.mod_lt i (by decide))

/-- The edge set by `tpSetDout` on an empty pending buffer is written exactly once: the
first `tpToggleDIOs` on a segment carrying that buffer performs the single write `(i, 1)`
for `start > 0` and `(i, 0)` otherwise and clears `anychanged`, and a second call performs
no write. -/
theorem tpSetDout_toggle_index (cfg : EmcmotConfig K) (tp : TP K) (i start e : Nat)
    (tc : TC K) (hn : i < cfg.num_dio) (hlen : i < tp.syncdio.dios.length)
    (hm : tp.syncdio.dio_mask = 0) (ham : tp.syncdio.aio_mask = 0)
    (hz : ∀ j, tp.syncdio.dios.getD j 0 = 0)
    (htc : tc.syncdio = (tpSetDout tp i start e).1.syncdio) :
    (tpToggleDIOs cfg tc).2 = [IoEvent.dio i (if start > 0 then 1 else 0)] ∧
    (tpToggleDIOs cfg tc).1.syncdio.anychanged = 0 ∧
    (tpToggleDIOs cfg (tpToggleDIOs cfg tc).1).2 = [] := by
  have hany : tc.syncdio.anychanged ≠ 0 := by
    rw [htc]
    unfold tpSetDout
    dsimp only
    by_cases hs : start > 0
    · rw [if_pos hs]; show (1 : Int) ≠ 0; decide
    · rw [if_neg hs]; show (1 : Int) ≠ 0; decide
  have hmask : tc.syncdio.dio_mask = iomask_of_int (int_shl1 i) := by
    rw [htc]
    unfold tpSetDout
    dsimp only
    by_cases hs : start > 0
    · rw [if_pos hs]; show tp.syncdio.dio_mask ||| _ = _; rw [hm]; exact Nat.zero_or _
    · rw [if_neg hs]; show tp.syncdio.dio_mask ||| _ = _; rw [hm]; exact Nat.zero_or _
  have hamask : tc.syncdio.aio_mask = 0 := by
    rw [htc]
    unfold tpSetDout
    dsimp only
    by_cases hs : start > 0
    · rw [if_pos hs]; exact ham
    · rw [if_neg hs]; exact ham
  have hdios : tc.syncdio.dios = tp.syncdio.dios.set i (if start > 0 then 1 else -1) := by
    rw [htc]
    unfold tpSetDout
    dsimp only
    by_cases hs : start > 0
    · rw [if_pos hs, if_pos hs]
    · rw [if_neg hs, if_neg hs]
  have hget : ∀ j, j ≠ i → tc.syncdio.dios.getD j 0 = 0 := by
    intro j hj
    rw [hdios, List.getD_eq_getElem?_getD, List.getElem?_set_ne (fun e => hj e.symm),
      ← List.getD_eq_getElem?_getD]
    exact hz j
  have hgeti : tc.syncdio.dios.getD i 0 = if start > 0 then 1 else -1 := by
    rw [hdios, List.getD_eq_getElem?_getD, List.getElem?_set_self hlen]
    rfl
  have second : ∀ tc2 : TC K, tc2.syncdio.anychanged = 0 → (tpToggleDIOs cfg tc2).2 = [] := by
    intro tc2 h2
    unfold tpToggleDIOs
    rw [if_neg (not_not.mpr h2)]
  have first : tpToggleDIOs cfg tc
      = ({ tc with syncdio := { tc.syncdio with anychanged := 0 } },
         [IoEvent.dio i (if start > 0 then 1 else 0)]) := by
    unfold tpToggleDIOs
    rw [if_pos hany]
    dsimp only
    rw [flatMap_range_single _ cfg.num_dio i hn, hmask, Nat.and_self,
      if_neg (iomask_shl1_ne_zero i), hgeti, hamask, flatMap_range_nil]
    · by_cases hs : start > 0
      · simp [hs]
      · simp [hs]
    · intro j _
      rw [Nat.zero_and]
      rfl
    · intro j hj
      rw [hget j hj]
      simp
  rw [first]
  exact ⟨rfl, rfl, second _ rfl⟩

theorem tcCheckLastParabolic_frame (tc : TC K) (prev_tc : Option (TC K)) :
    (tcCheckLastParabolic tc prev_tc).finalized = tc.finalized ∧
    (tcCheckLastParabolic tc prev_tc).syncdio = tc.syncdio := by
  unfold tcCheckLastParabolic
  cases prev_tc with
  | none => exact ⟨rfl, rfl⟩
  | some p =>
    exact ite_rec (fun r : TC K => r.finalized = tc.finalized ∧ r.syncdio = tc.syncdio)
      ⟨rfl, rfl⟩ ⟨rfl, rfl⟩

/-- With blend arcs disabled, `tpAddLine` on a non-aborting planner with room in the queue
and pending output changes returns `Ok` and leaves at the tail a segment that carries the
pending DIO/AIO buffer. -/
theorem tpAddLine_tail_syncdio (m : MathLib K) (c : TPConst K) (cfg : EmcmotConfig K)
    (g : ExtGeom K) (tp : TP K) (end_ : EmcPose K) (type : Int) (vel ini_maxvel acc : K)
    (enables atspeed indexrotary : Int)
    (hab : tp.aborting = 0) (hbl : cfg.arcBlendEnable = 0)
    (hroom : tp.queue.queue.length < tp.queue.size) (hch : tp.syncdio.anychanged ≠ 0) :
    (tpAddLine m c cfg g tp end_ type vel ini_maxvel acc enables atspeed indexrotary).2
      = TPErr.OK ∧
    ∃ tc : TC K,
      tcqLast (tpAddLine m c cfg g tp end_ type vel ini_maxvel acc enables atspeed
        indexrotary).1.queue = some tc ∧
      tc.syncdio = tp.syncdio := by
  have hl : ∀ s e : PmCartesian K, ∀ s' e' s'' e'' : PmCartesian K,
      ¬ ((pmCartLineInit m c s e).2 ≠ 0 ∨ (pmCartLineInit m c s' e').2 ≠ 0 ∨
        (pmCartLineInit m c s'' e'').2 ≠ 0) := by
    intro s e s' e' s'' e''
    rw [pmCartLineInit_snd, pmCartLineInit_snd, pmCartLineInit_snd]
    simp
  unfold tpAddLine
  rw [if_neg (tpErrorCheck_ok tp hab)]
  dsimp only
  rw [if_neg (hl _ _ _ _ _ _), if_pos hch, if_pos hch, if_neg (not_not.mpr hbl)]
  dsimp only
  have hC : (tpClearDIOs cfg tp).1.queue = tp.queue := rfl
  have key : ∀ (tpF : TP K) (tcN : TC K), tpF.queue.queue.length < tpF.queue.size →
      tcN.finalized = 0 → tcN.syncdio = tp.syncdio →
      (tpRunOptimization m c cfg (tpAddSegmentToQueue g tpF tcN true).1,
        (tpAddSegmentToQueue g tpF tcN true).2.2).2 = TPErr.OK ∧
      ∃ tc : TC K,
        tcqLast (tpRunOptimization m c cfg (tpAddSegmentToQueue g tpF tcN true).1,
          (tpAddSegmentToQueue g tpF tcN true).2.2).1.queue = some tc ∧
        tc.syncdio = tp.syncdio := by
    intro tpF tcN hF hfin hsd
    obtain ⟨h1, h2, _, _⟩ := tpAddSegmentToQueue_optimized m c cfg g tpF tcN true hF hfin
    exact ⟨h1, { tcN with id := tpF.nextId }, h2, hsd⟩
  generalize (tpFinalizeSegmentLength (K := K) m _).1 = fp
  generalize hF : tcCheckLastParabolic (K := K) _ _ = tcF
  have hfin : tcF.finalized = 0 := by
    rw [← hF]
    exact (tcCheckLastParabolic_frame _ _).1.trans rfl
  have hsd : tcF.syncdio = tp.syncdio := by
    rw [← hF]
    exact (tcCheckLastParabolic_frame _ _).2.trans rfl
  cases fp with
  | none => exact key _ _ (by rw [hC]; exact hroom) hfin hsd
  | some p =>
    refine key _ _ ?_ hfin hsd
    obtain ⟨hs, hlen⟩ := tcqSetItem_size (tpClearDIOs cfg tp).1.queue
      (tcqLen (tpClearDIOs cfg tp).1.queue - 1) p
    show (tcqSetItem _ _ p).queue.length < (tcqSetItem _ _ p).size
    rw [hs, hlen, hC]
    exact hroom

theorem tpToggleDIOs_congr (cfg : EmcmotConfig K) (tc tc' : TC K)
    (h : tc.syncdio = tc'.syncdio) :
    (tpToggleDIOs cfg tc).2 = (tpToggleDIOs cfg tc').2 ∧
    (tpToggleDIOs cfg tc).1.syncdio = (tpToggleDIOs cfg tc').1.syncdio := by
  unfold tpToggleDIOs
  rw [h]
  by_cases ha : tc'.syncdio.anychanged ≠ 0
  · rw [if_pos ha, if_pos ha]
    exact ⟨rfl, rfl⟩
  · rw [if_neg ha, if_neg ha]
    exact ⟨rfl, h⟩

/-- A successful `tpAddSegmentToQueue` found room in the queue. -/
theorem tpAddSegmentToQueue_ok_room (g : ExtGeom K) (tp : TP K) (tc : TC K) (inc_id : Bool)
    (hok : (tpAddSegmentToQueue g tp tc inc_id).2.2 = TPErr.OK) :
    tp.queue.queue.length < tp.queue.size := by
  by_contra hfull
  have hput : (tcqPut tp.queue { tc with id := tp.nextId }).2 = -1 := by
    unfold tcqPut
    rw [if_pos (by omega)]
  unfold tpAddSegmentToQueue at hok
  dsimp only at hok
  rw [if_pos hput] at hok
  exact absurd (show TPErr.FAIL = TPErr.OK from hok) (by decide)

/-- A `tpAddLine` that returns `Ok` with output changes pending leaves at the tail a
segment that carries the pending DIO/AIO buffer, provided the blend-arc step (run only
when `arcBlendEnable` is set) leaves the `syncdio` and `finalized` fields of the new
segment as they are. -/
theorem tpAddLine_ok_tail_syncdio (m : MathLib K) (c : TPConst K) (cfg : EmcmotConfig K)
    (g : ExtGeom K) (tp : TP K) (end_ : EmcPose K) (type : Int) (vel ini_maxvel acc : K)
    (enables atspeed indexrotary : Int)
    (hg : cfg.arcBlendEnable ≠ 0 → ∀ (tpB : TP K) (tcB : TC K),
      (g.tpHandleBlendArc tpB tcB).2.syncdio = tcB.syncdio ∧
      (g.tpHandleBlendArc tpB tcB).2.finalized = tcB.finalized)
    (hch : tp.syncdio.anychanged ≠ 0)
    (hok : (tpAddLine m c cfg g tp end_ type vel ini_maxvel acc enables atspeed
      indexrotary).2 = TPErr.OK) :
    ∃ tc : TC K,
      tcqLast (tpAddLine m c cfg g tp end_ type vel ini_maxvel acc enables atspeed
        indexrotary).1.queue = some tc ∧
      tc.syncdio = tp.syncdio := by
  unfold tpAddLine at hok ⊢
  by_cases he : tpErrorCheck tp ≠ TPErr.OK
  · rw [if_pos he] at hok
    exact absurd (show TPErr.FAIL = TPErr.OK from hok) (by decide)
  rw [if_neg he] at hok ⊢
  dsimp only at hok ⊢
  by_cases hl : (pmCartLineInit m c (emcPoseToPmCartesian tp.goalPos).1
      (emcPoseToPmCartesian end_).1).2 ≠ 0 ∨
      (pmCartLineInit m c (emcPoseToPmCartesian tp.goalPos).2.1
        (emcPoseToPmCartesian end_).2.1).2 ≠ 0 ∨
      (pmCartLineInit m c (emcPoseToPmCartesian tp.goalPos).2.2
        (emcPoseToPmCartesian end_).2.2).2 ≠ 0
  · rw [if_pos hl] at hok
    exact absurd (show TPErr.FAIL = TPErr.OK from hok) (by decide)
  rw [if_neg hl] at hok ⊢
  rw [if_pos hch, if_pos hch] at hok ⊢
  dsimp only at hok ⊢
  have key : ∀ (tpF : TP K) (tcN : TC K),
      (tpAddSegmentToQueue g tpF tcN true).2.2 = TPErr.OK →
      tcN.finalized = 0 → tcN.syncdio = tp.syncdio →
      ∃ tc : TC K,
        tcqLast (tpRunOptimization m c cfg (tpAddSegmentToQueue g tpF tcN true).1,
          (tpAddSegmentToQueue g tpF tcN true).2.2).1.queue = some tc ∧
        tc.syncdio = tp.syncdio := by
    intro tpF tcN hF hfin hsd
    have hroom := tpAddSegmentToQueue_ok_room g tpF tcN true hF
    obtain ⟨_, h2, _, _⟩ := tpAddSegmentToQueue_optimized m c cfg g tpF tcN true hroom hfin
    exact ⟨{ tcN with id := tpF.nextId }, h2, hsd⟩
  have hblend : ∀ (tpD : TP K) (tcN : TC K),
      (if cfg.arcBlendEnable ≠ 0 then g.tpHandleBlendArc tpD tcN else (tpD, tcN)).2.syncdio
        = tcN.syncdio ∧
      (if cfg.arcBlendEnable ≠ 0 then g.tpHandleBlendArc tpD tcN else (tpD, tcN)).2.finalized
        = tcN.finalized := by
    intro tpD tcN
    by_cases hb : cfg.arcBlendEnable ≠ 0
    · rw [if_pos hb]
      exact hg hb tpD tcN
    · rw [if_neg hb]
      exact ⟨rfl, rfl⟩
  refine key _ _ hok ?_ ?_
  · exact (tcCheckLastParabolic_frame _ _).1.trans ((hblend _ _).2.trans rfl)
  · exact (tcCheckLastParabolic_frame _ _).2.trans ((hblend _ _).1.trans rfl)

/-- `tpSetupTangent` leaves the pending outputs and the `finalized` flag of the new
segment. -/
theorem tpSetupTangent_new_syncdio (m : MathLib K) (c : TPConst K) (cfg : EmcmotConfig K)
    (x : BlendExt K) (dbg : EmcmotDebug K) (tp : TP K) (prev_tc tc : TC K) :
    (tpSetupTangent m c cfg x dbg tp prev_tc tc).2.1.syncdio = tc.syncdio ∧
    (tpSetupTangent m c cfg x dbg tp prev_tc tc).2.1.finalized = tc.finalized := by
  unfold tpSetupTangent
  refine ite_rec (fun r : TC K × TC K × TPErr => r.2.1.syncdio = tc.syncdio ∧
    r.2.1.finalized = tc.finalized) ⟨rfl, rfl⟩ ?_
  refine ite_rec (fun r : TC K × TC K × TPErr => r.2.1.syncdio = tc.syncdio ∧
    r.2.1.finalized = tc.finalized) ⟨rfl, rfl⟩ ?_
  dsimp only
  exact ite_rec (fun r : TC K × TC K × TPErr => r.2.1.syncdio = tc.syncdio ∧
    r.2.1.finalized = tc.finalized) ⟨rfl, rfl⟩ ⟨rfl, rfl⟩

/-- The blend-arc step `tpHandleBlendArc` of `tp.c` leaves the pending outputs and the
`finalized` flag of the new segment as they are, if `tcConnectBlendArc` (tc.c) does. -/
theorem tpHandleBlendArc_new_syncdio (m : MathLib K) (c : TPConst K) (cfg : EmcmotConfig K)
    (g : ExtGeom K) (x : BlendExt K) (st : EmcmotStatus K) (dbg : EmcmotDebug K)
    (hx : ∀ (p : Option (TC K)) (t : TC K) (a b : PmCartesian K),
      (x.tcConnectBlendArc p t a b).2.1.syncdio = t.syncdio ∧
      (x.tcConnectBlendArc p t a b).2.1.finalized = t.finalized)
    (tp : TP K) (tc : TC K) :
    ((g.withBlendArc m c cfg x st dbg).tpHandleBlendArc tp tc).2.syncdio = tc.syncdio ∧
    ((g.withBlendArc m c cfg x st dbg).tpHandleBlendArc tp tc).2.finalized
      = tc.finalized := by
  show (tpHandleBlendArc m c cfg g x st dbg tp tc).2.1.syncdio = tc.syncdio ∧
    (tpHandleBlendArc m c cfg g x st dbg tp tc).2.1.finalized = tc.finalized
  unfold tpHandleBlendArc
  cases tcqLast tp.queue with
  | none => exact ⟨rfl, rfl⟩
  | some prev_tc =>
    dsimp only
    refine ite_rec (fun r : TP K × TC K × TPErr => r.2.1.syncdio = tc.syncdio ∧
      r.2.1.finalized = tc.finalized) ⟨rfl, rfl⟩ ?_
    have ht := tpSetupTangent_new_syncdio m c cfg x dbg tp prev_tc tc
    generalize tpSetupTangent m c cfg x dbg tp prev_tc tc = t at ht ⊢
    refine ite_rec (fun r : TP K × TC K × TPErr => r.2.1.syncdio = tc.syncdio ∧
      r.2.1.finalized = tc.finalized) ht ?_
    cases tpCheckBlendArcType m c (some t.1) t.2.1 with
    | BLEND_NONE => exact ht
    | BLEND_LINE_ARC => exact ht
    | BLEND_ARC_ARC => exact ht
    | BLEND_LINE_LINE =>
      dsimp only
      have hr : ∀ (tpQ : TP K) (b : TC K),
          (tpCreateLineLineBlendTC m c cfg g x st dbg tpQ t.1 t.2.1 b).2.1.syncdio
            = tc.syncdio ∧
          (tpCreateLineLineBlendTC m c cfg g x st dbg tpQ t.1 t.2.1 b).2.1.finalized
            = tc.finalized := by
        intro tpQ b
        unfold tpCreateLineLineBlendTC
        dsimp only
        generalize tpCreateLineLineBlend m c cfg st tpQ _ _ _ _ t.1 t.2.1 = p
        cases p.abort with
        | some e => exact ht
        | none =>
          dsimp only
          generalize x.arcFromLines _ _ _ _ _ _ _ = arc
          refine ite_rec (fun r : TP K × TC K × TC K × TPErr => r.2.1.syncdio = tc.syncdio ∧
            r.2.1.finalized = tc.finalized) ?_ ?_
          · refine ite_rec (fun r : TP K × TC K × TC K × TPErr =>
              r.2.1.syncdio = tc.syncdio ∧ r.2.1.finalized = tc.finalized) ht ?_
            exact ⟨(hx _ _ _ _).1.trans ht.1, (hx _ _ _ _).2.trans ht.2⟩
          · exact ⟨(hx _ _ _ _).1.trans ht.1, (hx _ _ _ _).2.trans ht.2⟩
      have hr2 := hr ({ tp with queue := tcqSetLast tp.queue t.1 } : TP K)
        { target := 0, motion_type := 0, term_cond := 0, indexrotary := 0,
          coords := Coords.arc {} }
      generalize tpCreateLineLineBlendTC m c cfg g x st dbg
        ({ tp with queue := tcqSetLast tp.queue t.1 } : TP K) t.1 t.2.1 _ = r at hr2 ⊢
      exact ite_rec (fun s : TP K × TC K × TPErr => s.2.1.syncdio = tc.syncdio ∧
        s.2.1.finalized = tc.finalized) hr2 hr2
    | BLEND_ARC_LINE =>
      dsimp only
      have hr : ∀ (tpQ : TP K) (b : TC K),
          (tpCreateArcLineBlend m c cfg x st dbg tpQ t.1 t.2.1 b).2.1.syncdio
            = tc.syncdio ∧
          (tpCreateArcLineBlend m c cfg x st dbg tpQ t.1 t.2.1 b).2.1.finalized
            = tc.finalized := by
        intro tpQ b
        unfold tpCreateArcLineBlend
        dsimp only
        exact ite_rec (fun r : TC K × TC K × TC K × TPErr => r.2.1.syncdio = tc.syncdio ∧
          r.2.1.finalized = tc.finalized) ht ht
      have hr2 := hr ({ tp with queue := tcqSetLast tp.queue t.1 } : TP K)
        { target := 0, motion_type := 0, term_cond := 0, indexrotary := 0,
          coords := Coords.arc {} }
      generalize tpCreateArcLineBlend m c cfg x st dbg
        ({ tp with queue := tcqSetLast tp.queue t.1 } : TP K) t.1 t.2.1 _ = r at hr2 ⊢
      exact ite_rec (fun s : TP K × TC K × TPErr => s.2.1.syncdio = tc.syncdio ∧
        s.2.1.finalized = tc.finalized) hr2 hr2

/-- C18: for every output index `i < num_dio` (inside the array `dios`) and every start
value, after `tpSetDout(tp, i, start, end)` on a planner with an empty pending buffer
(both masks 0, all `dios` 0) followed by a `tpAddLine` that returns `Ok`, the first
`tpToggleDIOs` on the new segment performs exactly one write, `(i, 1)` for `start > 0` and
`(i, 0)` otherwise, and clears `anychanged`; a further `tpToggleDIOs` on that segment
performs no write. The mask bit is `1 << i` with the shift count taken modulo 32, so for
`i ≥ 32` the loop of `tpToggleDIOs` passes the mask test at `i - 32` and at `i`, and only
`dios[i]` is set. The blend-arc step, run when `arcBlendEnable` is set, is assumed to leave
the `syncdio` and `finalized` fields of the new segment, as `tpHandleBlendArc` does
(`tpHandleBlendArc_new_syncdio`). -/
theorem tpSetDout_toggle_once (m : MathLib K) (c : TPConst K) (cfg : EmcmotConfig K)
    (g : ExtGeom K) (tp : TP K) (i start e : Nat) (end_ : EmcPose K) (type : Int)
    (vel ini_maxvel acc : K) (enables atspeed indexrotary : Int)
    (hn : i < cfg.num_dio) (hlen : i < tp.syncdio.dios.length)
    (hm : tp.syncdio.dio_mask = 0) (ham : tp.syncdio.aio_mask = 0)
    (hz : ∀ j, tp.syncdio.dios.getD j 0 = 0)
    (hg : cfg.arcBlendEnable ≠ 0 → ∀ (tpB : TP K) (tcB : TC K),
      (g.tpHandleBlendArc tpB tcB).2.syncdio = tcB.syncdio ∧
      (g.tpHandleBlendArc tpB tcB).2.finalized = tcB.finalized)
    (hok : (tpAddLine m c cfg g (tpSetDout tp i start e).1 end_ type vel ini_maxvel acc
      enables atspeed indexrotary).2 = TPErr.OK) :
    ∃ tc : TC K,
      tcqLast (tpAddLine m c cfg g (tpSetDout tp i start e).1 end_ type vel ini_maxvel acc
        enables atspeed indexrotary).1.queue = some tc ∧
      (tpToggleDIOs cfg tc).2 = [IoEvent.dio i (if start > 0 then 1 else 0)] ∧
      (tpToggleDIOs cfg tc).1.syncdio.anychanged = 0 ∧
      (tpToggleDIOs cfg (tpToggleDIOs cfg tc).1).2 = [] := by
  have hch : (tpSetDout tp i start e).1.syncdio.anychanged ≠ 0 := by
    unfold tpSetDout
    dsimp only
    by_cases hs : start > 0
    · rw [if_pos hs]; show (1 : Int) ≠ 0; decide
    · rw [if_neg hs]; show (1 : Int) ≠ 0; decide
  obtain ⟨tc, h1, h2⟩ := tpAddLine_ok_tail_syncdio m c cfg g (tpSetDout tp i start e).1 end_
    type vel ini_maxvel acc enables atspeed indexrotary hg hch hok
  exact ⟨tc, h1, tpSetDout_toggle_index cfg tp i start e tc hn hlen hm ham hz h2⟩

/-- Witness for C18: output 32 of 64 on the resting planner `dioTP`; the single write is
`(32, 1)`. -/
theorem tpSetDout_toggle_once_witness :
    ∃ tc : TC ℝ,
      tcqLast (tpAddLine realMath sampleConst dioCfg sampleGeom (tpSetDout dioTP 32 1 1).1
        { tran := ⟨10, 0, 0⟩ } 1 50 100 100 0 0 (-1)).1.queue = some tc ∧
      (tpToggleDIOs dioCfg tc).2 = [IoEvent.dio 32 1] ∧
      (tpToggleDIOs dioCfg tc).1.syncdio.anychanged = 0 ∧
      (tpToggleDIOs dioCfg (tpToggleDIOs dioCfg tc).1).2 = [] :=
  tpSetDout_toggle_once realMath sampleConst dioCfg sampleGeom dioTP 32 1 1
    { tran := ⟨10, 0, 0⟩ } 1 50 100 100 0 0 (-1) (by decide) (by decide) rfl rfl
    (by
      intro j
      show (List.replicate 64 (0 : Int)).getD j 0 = 0
      rw [List.getD_eq_getElem?_getD]
      by_cases hj : j < 64
      · rw [List.getElem?_replicate_of_lt hj]; rfl
      · rw [List.getElem?_eq_none (by simpa using hj)]; rfl)
    (fun _ _ _ => ⟨rfl, rfl⟩)
    (tpAddLine_tail_syncdio realMath sampleConst dioCfg sampleGeom
      (tpSetDout (dioTP : TP ℝ) 32 1 1).1 { tran := ⟨10, 0, 0⟩ } 1 50 100 100 0 0 (-1)
      rfl rfl (by decide) (by decide)).1

/-! ### The optimizer -/

/-- C25: `tpComputeOptimalVelocity` sets `prev.finalvel` to the least of
`sqrt(curr.finalvel² + 2·a·curr.target)` (with `a = tpGetScaledAccel(curr)`), `curr.maxvel`
and `prev.maxvel` as held before the call; it sets `prev.optimization_state` to `AtMax`
exactly when that square root is at least `min(curr.maxvel, prev.maxvel)` and keeps the
state otherwise. This holds for every pair of segments, in particular for the
non-negative ones. -/
theorem tpComputeOptimalVelocity_finalvel (m : MathLib K) (c : TPConst K) (tp : TP K)
    (tc prev1_tc : TC K) :
    (tpComputeOptimalVelocity m c tp tc prev1_tc).2.finalvel
      = min (m.sqrt (tc.finalvel ^ 2 + 2 * tpGetScaledAccel c tc * tc.target))
          (min tc.maxvel prev1_tc.maxvel) ∧
    (tpComputeOptimalVelocity m c tp tc prev1_tc).2.optimization_state
      = (if m.sqrt (tc.finalvel ^ 2 + 2 * tpGetScaledAccel c tc * tc.target)
            ≥ min tc.maxvel prev1_tc.maxvel
         then TC_OPTIM_AT_MAX else prev1_tc.optimization_state) := by
  have hmin : fmin tc.maxvel prev1_tc.maxvel = min tc.maxvel prev1_tc.maxvel := by
    unfold fmin
    by_cases h : tc.maxvel < prev1_tc.maxvel
    · rw [if_pos h, min_eq_left h.le]
    · rw [if_neg h, min_eq_right (not_lt.mp h)]
  have hsq : pmSq tc.finalvel = tc.finalvel ^ 2 := by
    unfold pmSq
    ring
  unfold tpComputeOptimalVelocity
  dsimp only
  rw [hmin, hsq]
  by_cases h : m.sqrt (tc.finalvel ^ 2 + 2 * tpGetScaledAccel c tc * tc.target)
      ≥ min tc.maxvel prev1_tc.maxvel
  · rw [if_pos h, if_pos h, if_pos h]
    exact ⟨(min_eq_right h).symm, rfl⟩
  · rw [if_neg h, if_neg h, if_neg h]
    exact ⟨(min_eq_left (not_le.mp h).le).symm, rfl⟩

/-- Overwriting one element by a related one relates the lists element by element. -/
theorem forall2_set_of_rel {α : Type} (R : α → α → Prop) (hrefl : ∀ a, R a a) :
    ∀ (l : List α) (i : Nat) (a b : α), l[i]? = some a → R a b →
      List.Forall₂ R l (l.set i b)
  | [], _, _, _, h, _ => by simp at h
  | x :: xs, 0, a, b, h, hab => by
    have hx : x = a := by simpa using h
    rw [List.set_cons_zero]
    refine List.Forall₂.cons (hx ▸ hab) ?_
    exact List.forall₂_same.mpr (fun y _ => hrefl y)
  | x :: xs, i + 1, a, b, h, hab => by
    rw [List.set_cons_succ]
    refine List.Forall₂.cons (hrefl x) ?_
    exact forall2_set_of_rel R hrefl xs i a b (by simpa using h) hab

theorem forall2_trans {α : Type} (R : α → α → Prop) (htrans : ∀ a b c, R a b → R b c → R a c) :
    ∀ (l1 l2 l3 : List α), List.Forall₂ R l1 l2 → List.Forall₂ R l2 l3 → List.Forall₂ R l1 l3
  | _, _, _, List.Forall₂.nil, List.Forall₂.nil => List.Forall₂.nil
  | _, _, _, List.Forall₂.cons h1 t1, List.Forall₂.cons h2 t2 =>
    List.Forall₂.cons (htrans _ _ _ h1 h2) (forall2_trans R htrans _ _ _ t1 t2)

/-- Writing a related segment through a queue pointer relates the queues slot by slot. -/
theorem tcqSetItem_rel (R : TC K → TC K → Prop) (hrefl : ∀ a, R a a)
    (q : TC_QUEUE_STRUCT K) (n : Int) (a b : TC K) (h : tcqItem q n = some a) (hab : R a b) :
    List.Forall₂ R q.queue (tcqSetItem q n b).queue := by
  unfold tcqItem at h
  unfold tcqSetItem
  by_cases hn : n < 0
  · rw [if_pos hn] at h
    exact absurd h (by simp)
  · rw [if_neg hn] at h
    rw [if_neg hn]
    rw [List.get?_eq_getElem?] at h
    exact forall2_set_of_rel R hrefl _ _ a b h hab

/-- A write to one slot keeps what `tcqItem` reads from another slot. -/
theorem tcqItem_setItem_ne (q : TC_QUEUE_STRUCT K) (n k : Int) (b : TC K) (hk : 0 ≤ k)
    (hne : n ≠ k) : tcqItem (tcqSetItem q n b) k = tcqItem q k := by
  unfold tcqItem tcqSetItem
  by_cases hn : n < 0
  · rw [if_pos hn]
  · rw [if_neg hn, if_neg (by omega), if_neg (by omega)]
    show (q.queue.set n.toNat b).get? k.toNat = q.queue.get? k.toNat
    rw [List.get?_eq_getElem?, List.get?_eq_getElem?, List.getElem?_set_ne]
    omega

/-- An induction principle for the optimizer loop: a reflexive and transitive relation
between segments that holds for the two writes of one iteration (the current segment and
its predecessor, under the guards of the iteration) relates the queue before and after the
loop slot by slot. -/
theorem tpRunOptimizationLoop_rel (m : MathLib K) (c : TPConst K) (cfg : EmcmotConfig K)
    (R : TC K → TC K → Prop) (hrefl : ∀ a, R a a) (htrans : ∀ a b c, R a b → R b c → R a c)
    (hstep : ∀ (tp : TP K) (tc prev1_tc : TC K) (d : Int), tc.finalized ≠ 0 →
      prev1_tc.term_cond = TC_TERM_COND_TANGENT →
      R tc { (tpComputeOptimalVelocity m c tp
          (if tc.atspeed ≠ 0 then { tc with finalvel := 0 } else tc) prev1_tc).1
          with active_depth := d } ∧
      R prev1_tc (tpComputeOptimalVelocity m c tp
          (if tc.atspeed ≠ 0 then { tc with finalvel := 0 } else tc) prev1_tc).2)
    (len : Int) (fuel : Nat) (x hit_peaks : Int) (tp : TP K) :
    List.Forall₂ R tp.queue.queue
      (tpRunOptimizationLoop m c cfg len fuel x hit_peaks tp).queue.queue := by
  have hsame : ∀ l : List (TC K), List.Forall₂ R l l :=
    fun l => List.forall₂_same.mpr (fun y _ => hrefl y)
  induction fuel generalizing x hit_peaks tp with
  | zero => exact hsame _
  | succ n ih =>
    unfold tpRunOptimizationLoop
    refine ite_rec (fun r : TP K => List.Forall₂ R tp.queue.queue r.queue.queue) (hsame _) ?_
    dsimp only
    cases h1 : tcqItem tp.queue (len - x) with
    | none => exact hsame _
    | some tc =>
      cases h2 : tcqItem tp.queue (len - x - 1) with
      | none => exact hsame _
      | some prev1_tc =>
        dsimp only
        by_cases hfin : tc.finalized = 0
        · rw [if_pos hfin]
          exact ih _ _ _
        rw [if_neg hfin]
        by_cases htan : prev1_tc.term_cond ≠ TC_TERM_COND_TANGENT
        · rw [if_pos htan]
          exact hsame _
        rw [if_neg htan]
        refine ite_rec (fun r : TP K => List.Forall₂ R tp.queue.queue r.queue.queue)
          (hsame _) ?_
        obtain ⟨s1, s2⟩ := hstep tp tc prev1_tc (x - 2 - hit_peaks) hfin (not_not.mp htan)
        generalize hA : (tpComputeOptimalVelocity m c tp
          (if tc.atspeed ≠ 0 then { tc with finalvel := 0 } else tc) prev1_tc) = r at s1 s2
        generalize hB : ({ r.1 with active_depth := x - 2 - hit_peaks } : TC K) = tcB at s1
        have hpos : 0 ≤ len - x - 1 := by
          by_contra hneg
          unfold tcqItem at h2
          rw [if_pos (by omega)] at h2
          exact absurd h2 (by simp)
        have q1 : List.Forall₂ R tp.queue.queue (tcqSetItem tp.queue (len - x) tcB).queue :=
          tcqSetItem_rel R hrefl _ _ tc tcB h1 s1
        have h2' : tcqItem (tcqSetItem tp.queue (len - x) tcB) (len - x - 1) = some prev1_tc :=
          (tcqItem_setItem_ne _ _ _ _ hpos (by omega)).trans h2
        have q2 : List.Forall₂ R (tcqSetItem tp.queue (len - x) tcB).queue
            (tcqSetItem (tcqSetItem tp.queue (len - x) tcB) (len - x - 1) r.2).queue :=
          tcqSetItem_rel R hrefl _ _ prev1_tc r.2 h2' s2
        have q12 := forall2_trans R htrans _ _ _ q1 q2
        generalize tcqSetItem (tcqSetItem tp.queue (len - x) tcB) (len - x - 1) r.2 = Q at q12
        refine ite_rec (fun r : TP K => List.Forall₂ R tp.queue.queue r.queue.queue) q12 ?_
        exact forall2_trans R htrans _ _ _ q12 (ih _ _ ({ tp with queue := Q } : TP K))

/-- The same for `tpRunOptimization`. -/
theorem tpRunOptimization_rel (m : MathLib K) (c : TPConst K) (cfg : EmcmotConfig K)
    (R : TC K → TC K → Prop) (hrefl : ∀ a, R a a) (htrans : ∀ a b c, R a b → R b c → R a c)
    (hstep : ∀ (tp : TP K) (tc prev1_tc : TC K) (d : Int), tc.finalized ≠ 0 →
      prev1_tc.term_cond = TC_TERM_COND_TANGENT →
      R tc { (tpComputeOptimalVelocity m c tp
          (if tc.atspeed ≠ 0 then { tc with finalvel := 0 } else tc) prev1_tc).1
          with active_depth := d } ∧
      R prev1_tc (tpComputeOptimalVelocity m c tp
          (if tc.atspeed ≠ 0 then { tc with finalvel := 0 } else tc) prev1_tc).2)
    (tp : TP K) :
    List.Forall₂ R tp.queue.queue (tpRunOptimization m c cfg tp).queue.queue :=
  tpRunOptimizationLoop_rel m c cfg R hrefl htrans hstep _ _ _ _ tp

/-- C26: `tpRunOptimization` preserves the invariant that every queued segment whose
`term_cond` is not `Tangent` has `finalvel = 0`: when it holds for the queue before the
call it holds for the queue after the call. Slot by slot, the optimizer keeps the
`term_cond` of every segment, and the `finalvel` of a segment that does not end tangent is
either kept or set to 0, so under the invariant it is never raised. -/
theorem tpRunOptimization_nontangent_finalvel (m : MathLib K) (c : TPConst K)
    (cfg : EmcmotConfig K) (tp : TP K)
    (hinv : ∀ t ∈ tp.queue.queue, t.term_cond ≠ TC_TERM_COND_TANGENT → t.finalvel = 0) :
    (∀ t ∈ (tpRunOptimization m c cfg tp).queue.queue,
      t.term_cond ≠ TC_TERM_COND_TANGENT → t.finalvel = 0) ∧
    List.Forall₂ (fun a b : TC K => b.term_cond = a.term_cond ∧
        (a.term_cond ≠ TC_TERM_COND_TANGENT → b.finalvel ≤ a.finalvel))
      tp.queue.queue (tpRunOptimization m c cfg tp).queue.queue := by
  have hrel := tpRunOptimization_rel m c cfg
    (fun a b : TC K => b.term_cond = a.term_cond ∧
      (a.term_cond ≠ TC_TERM_COND_TANGENT → b.finalvel = a.finalvel ∨ b.finalvel = 0))
    (fun a => ⟨rfl, fun _ => Or.inl rfl⟩)
    (fun a b d hab hbd => ⟨hbd.1.trans hab.1, fun ha => by
      rcases hab.2 ha with h1 | h1
      · rcases hbd.2 (by rw [hab.1]; exact ha) with h2 | h2
        · exact Or.inl (h2.trans h1)
        · exact Or.inr h2
      · rcases hbd.2 (by rw [hab.1]; exact ha) with h2 | h2
        · exact Or.inr (h2.trans h1)
        · exact Or.inr h2⟩)
    (fun tp tc prev1_tc d _ htan => by
      constructor
      · unfold tpComputeOptimalVelocity
        dsimp only
        by_cases hat : tc.atspeed ≠ 0
        · rw [if_pos hat]
          exact ⟨rfl, fun _ => Or.inr rfl⟩
        · rw [if_neg hat]
          exact ⟨rfl, fun _ => Or.inl rfl⟩
      · unfold tpComputeOptimalVelocity
        dsimp only
        refine ⟨?_, fun h => absurd htan h⟩
        exact ite_rec (fun r : TC K => r.term_cond = prev1_tc.term_cond) rfl rfl)
    tp
  generalize (tpRunOptimization m c cfg tp).queue.queue = l' at hrel
  generalize tp.queue.queue = l at hrel hinv
  induction hrel with
  | nil => exact ⟨fun t ht => absurd ht (List.not_mem_nil t), List.Forall₂.nil⟩
  | cons hab _ ih =>
    obtain ⟨i1, i2⟩ := ih (fun t ht => hinv t (List.mem_cons_of_mem _ ht))
    have ha := hinv _ (List.mem_cons_self _ _)
    refine ⟨fun t ht => ?_, List.Forall₂.cons ⟨hab.1, fun hnt => ?_⟩ i2⟩
    · rcases List.mem_cons.mp ht with rfl | ht
      · intro hnt
        have hnt' := hab.1 ▸ hnt
        rcases hab.2 hnt' with h | h
        · exact h.trans (ha hnt')
        · exact h
      · exact i1 t ht
    · rcases hab.2 hnt with h | h
      · exact h.le
      · rw [h, ha hnt]

theorem tpRunOptimization_nontangent_finalvel_witness :
    (∀ t ∈ (tpRunOptimization realMath sampleConst blendCfg tangentPairTP).queue.queue,
      t.term_cond ≠ TC_TERM_COND_TANGENT → t.finalvel = 0) ∧
    List.Forall₂ (fun a b : TC ℝ => b.term_cond = a.term_cond ∧
        (a.term_cond ≠ TC_TERM_COND_TANGENT → b.finalvel ≤ a.finalvel))
      tangentPairTP.queue.queue
      (tpRunOptimization realMath sampleConst blendCfg tangentPairTP).queue.queue :=
  tpRunOptimization_nontangent_finalvel realMath sampleConst blendCfg tangentPairTP
    (fun t ht => by
      have h : t = tangentLine ∨ t = secondLine := by
        simpa [tangentPairTP] using ht
      rcases h with rfl | rfl
      · exact fun h => absurd rfl h
      · exact fun _ => rfl)


/-! ### Split cycles -/

theorem tpCheckEndCondition_cycle_time (m : MathLib K) (c : TPConst K) (st : EmcmotStatus K)
    (dbg : EmcmotDebug K) (tp : TP K) (tc : TC K) (hct : 0 < tp.cycleTime)
    (heps : 0 < c.TP_TIME_EPSILON) :
    SplitTimeOk tp.cycleTime (tpCheckEndCondition m c st dbg tp tc).1 := by
  have full : ∀ t : TC K, t.cycle_time = tp.cycleTime → SplitTimeOk tp.cycleTime t :=
    fun t ht => Or.inl ⟨ht ▸ hct, ht.le⟩
  unfold tpCheckEndCondition
  dsimp only
  refine ite_rec (fun r : TC K × TPErr => SplitTimeOk tp.cycleTime r.1) ?_ ?_
  · refine ite_rec (fun r : TC K => SplitTimeOk tp.cycleTime r) ?_ ?_
    · exact Or.inr ⟨rfl, rfl, rfl⟩
    · exact Or.inr ⟨rfl, rfl, rfl⟩
  refine ite_rec (fun r : TC K × TPErr => SplitTimeOk tp.cycleTime r.1) (full _ rfl) ?_
  refine ite_rec (fun r : TC K × TPErr => SplitTimeOk tp.cycleTime r.1) (full _ rfl) ?_
  refine ite_rec (fun r : TC K × TPErr => SplitTimeOk tp.cycleTime r.1) (full _ rfl) ?_
  have key : ∀ (dt v1 v2 : K) (t : TC K), t.cycle_time = tp.cycleTime →
      SplitTimeOk tp.cycleTime
        (if dt < c.TP_TIME_EPSILON then
          (tcSetSplitCycle { t with progress := t.target } 0 v1, TPErr.OK)
        else if dt < tp.cycleTime then (tcSetSplitCycle t dt v2, TPErr.OK)
        else (t, TPErr.OK)).1 := by
    intro dt v1 v2 t ht
    by_cases h1 : dt < c.TP_TIME_EPSILON
    · rw [if_pos h1]
      exact Or.inr ⟨rfl, rfl, rfl⟩
    · rw [if_neg h1]
      by_cases h2 : dt < tp.cycleTime
      · rw [if_pos h2]
        exact Or.inl ⟨lt_of_lt_of_le heps (not_lt.mp h1), h2.le⟩
      · rw [if_neg h2]
        exact full _ ht
  exact key _ _ _ _ rfl

theorem tpToggleDIOs_cycle_time (cfg : EmcmotConfig K) (tc : TC K) :
    (tpToggleDIOs cfg tc).1.cycle_time = tc.cycle_time ∧
    (tpToggleDIOs cfg tc).1.splitting = tc.splitting ∧
    (tpToggleDIOs cfg tc).1.progress = tc.progress ∧
    (tpToggleDIOs cfg tc).1.target = tc.target := by
  unfold tpToggleDIOs
  exact ite_rec (fun r : TC K × List (IoEvent K) => r.1.cycle_time = tc.cycle_time ∧
    r.1.splitting = tc.splitting ∧ r.1.progress = tc.progress ∧ r.1.target = tc.target)
    ⟨rfl, rfl, rfl, rfl⟩ ⟨rfl, rfl, rfl, rfl⟩

/-- C22 (amended): given `tp.cycleTime > 0` and `TP_TIME_EPSILON > 0`, the `cycle_time`
that `tpCheckEndCondition` leaves is either strictly positive and at most `tp.cycleTime`,
or exactly 0 on a segment flagged `splitting` whose `progress` was set to its `target`;
`tcSetSplitCycle` stores the split time it is given, zero included; `tpHandleSplitCycle`
keeps the `cycle_time` of the head segment, and a successor of a tangent head, updated
over the remainder `tp.cycleTime - head.cycle_time` of the tick, ends with a `cycle_time`
of the same kind (positive, or 0 at its target). -/
theorem split_cycle_time_nonneg (cfg : EmcmotConfig K) (g : ExtGeom K) (m : MathLib K)
    (c : TPConst K) (st : EmcmotStatus K) (dbg : EmcmotDebug K) (tp : TP K) (tc n : TC K)
    (split_time v_f : K) (hct : 0 < tp.cycleTime) (heps : 0 < c.TP_TIME_EPSILON) :
    SplitTimeOk tp.cycleTime (tpCheckEndCondition m c st dbg tp tc).1 ∧
    (tcSetSplitCycle tc split_time v_f).cycle_time = split_time ∧
    (tpHandleSplitCycle cfg g m c st dbg tp tc (some n)).2.2.1.cycle_time = tc.cycle_time ∧
    (tpHandleSplitCycle cfg g m c st dbg tp tc none).2.2.1.cycle_time = tc.cycle_time ∧
    (tc.remove = 0 → tc.term_cond = TC_TERM_COND_TANGENT →
      ∃ n' : TC K, (tpHandleSplitCycle cfg g m c st dbg tp tc (some n)).2.2.2.1 = some n' ∧
        SplitTimeOk tp.cycleTime n') := by
  refine ⟨tpCheckEndCondition_cycle_time m c st dbg tp tc hct heps, rfl, ?_, ?_, ?_⟩
  · unfold tpHandleSplitCycle
    refine ite_rec (fun r : TP K × EmcmotStatus K × TC K × Option (TC K) × List (IoEvent K)
      × TPErr => r.2.2.1.cycle_time = tc.cycle_time) rfl ?_
    dsimp only
    refine ite_rec (fun r : TP K × EmcmotStatus K × TC K × Option (TC K) × List (IoEvent K)
      × TPErr => r.2.2.1.cycle_time = tc.cycle_time) ?_ rfl
    refine ite_rec (fun r : TP K × EmcmotStatus K × TC K × Option (TC K) × List (IoEvent K)
      × TPErr => r.2.2.1.cycle_time = tc.cycle_time) ?_ rfl
    exact (tpToggleDIOs_cycle_time cfg _).1
  · unfold tpHandleSplitCycle
    exact ite_rec (fun r : TP K × EmcmotStatus K × TC K × Option (TC K) × List (IoEvent K)
      × TPErr => r.2.2.1.cycle_time = tc.cycle_time) rfl rfl
  · intro hrem htan
    unfold tpHandleSplitCycle
    rw [if_neg (not_not.mpr hrem)]
    dsimp only
    rw [if_pos htan]
    have hn : ∀ (tpX : TP K) (nX : TC K), tpX.cycleTime = tp.cycleTime →
        SplitTimeOk tp.cycleTime (tpUpdateCycleTP g m c st dbg tpX nX).2 := by
      intro tpX nX hX
      unfold tpUpdateCycleTP tpUpdateCycle
      dsimp only
      rw [← hX]
      exact tpCheckEndCondition_cycle_time m c st dbg tpX _ (hX ▸ hct) heps
    generalize hu : tpUpdateCycleTP g m c st dbg _ _ = u
    have hN : SplitTimeOk tp.cycleTime u.2 := hu ▸ hn _ _ rfl
    refine ite_rec (fun r : TP K × EmcmotStatus K × TC K × Option (TC K) × List (IoEvent K)
      × TPErr => ∃ n' : TC K, r.2.2.2.1 = some n' ∧ SplitTimeOk tp.cycleTime n')
      ⟨_, rfl, hN⟩ ⟨_, rfl, ?_⟩
    obtain ⟨e1, e2, e3, e4⟩ := tpToggleDIOs_cycle_time cfg u.2
    unfold SplitTimeOk at hN ⊢
    rw [e1, e2, e3, e4]
    exact hN

/-- Counterexample to C22 as stated: with `tp.cycleTime = 0.001 > 0`, the line `doneLine`
stands at its target, and `tpCheckEndCondition` leaves it with `cycle_time = 0`. -/
theorem tpCheckEndCondition_zero_cycle_time :
    (0 : ℝ) < poppingTP.cycleTime ∧
    (tpCheckEndCondition realMath sampleConst {} {} poppingTP doneLine).1.cycle_time = 0 := by
  refine ⟨by norm_num [poppingTP], ?_⟩
  unfold tpCheckEndCondition
  dsimp only
  rw [if_pos (by norm_num [doneLine, queuedLine, sampleConst])]
  exact ite_rec (fun r : TC ℝ => r.cycle_time = 0) rfl rfl

theorem split_cycle_time_nonneg_witness :
    SplitTimeOk (poppingTP : TP ℝ).cycleTime
      (tpCheckEndCondition realMath sampleConst {} {} poppingTP rampOvershootSeg).1 ∧
    (tcSetSplitCycle (rampOvershootSeg : TC ℝ) (1 / 2000) 10).cycle_time = 1 / 2000 ∧
    (tpHandleSplitCycle blendCfg sampleGeom realMath sampleConst {} {} poppingTP
      rampOvershootSeg (some secondLine)).2.2.1.cycle_time = rampOvershootSeg.cycle_time ∧
    (tpHandleSplitCycle blendCfg sampleGeom realMath sampleConst {} {} poppingTP
      rampOvershootSeg none).2.2.1.cycle_time = rampOvershootSeg.cycle_time ∧
    ((rampOvershootSeg : TC ℝ).remove = 0 →
      (rampOvershootSeg : TC ℝ).term_cond = TC_TERM_COND_TANGENT →
      ∃ n' : TC ℝ, (tpHandleSplitCycle blendCfg sampleGeom realMath sampleConst {} {} poppingTP
        rampOvershootSeg (some secondLine)).2.2.2.1 = some n' ∧
        SplitTimeOk (poppingTP : TP ℝ).cycleTime n') :=
  split_cycle_time_nonneg blendCfg sampleGeom realMath sampleConst {} {} poppingTP
    rampOvershootSeg secondLine (1 / 2000) 10 (by norm_num [poppingTP])
    (by norm_num [sampleConst])


/-! ### Tangent setup -/

/-- `tpSetupTangent` never writes the `maxvel` of the new segment. -/
theorem tpSetupTangent_tc_maxvel (m : MathLib K) (c : TPConst K) (cfg : EmcmotConfig K)
    (x : BlendExt K) (dbg : EmcmotDebug K) (tp : TP K) (prev_tc tc : TC K) :
    (tpSetupTangent m c cfg x dbg tp prev_tc tc).2.1.maxvel = tc.maxvel := by
  unfold tpSetupTangent
  refine ite_rec (fun r : TC K × TC K × TPErr => r.2.1.maxvel = tc.maxvel) rfl ?_
  refine ite_rec (fun r : TC K × TC K × TPErr => r.2.1.maxvel = tc.maxvel) rfl ?_
  dsimp only
  exact ite_rec (fun r : TC K × TC K × TPErr => r.2.1.maxvel = tc.maxvel) rfl rfl

/-- The angle between a direction and itself, as `tpFindIntersectionAngle` computes it. -/
theorem tpFindIntersectionAngle_x_x :
    tpFindIntersectionAngle realMath (⟨1, 0, 0⟩ : PmCartesian ℝ) ⟨1, 0, 0⟩ = Real.pi / 2 := by
  unfold tpFindIntersectionAngle
  norm_num [pmCartCartDot, realMath, Real.arccos_neg_one]

/-- The tangent setup of the collinear lines `queuedLine` and `shortLine`: the turning
angle is 0, the pair is flagged tangent and the acceleration ratio is 1. -/
theorem tpSetupTangent_short_line :
    tpSetupTangent realMath sampleConst tangentCfg (sampleBlendExt realMath sampleConst)
      sampleDbg oneLineTP queuedLine shortLine
      = ({ tcSetTermCond queuedLine TC_TERM_COND_TANGENT with
            maxaccel := 100, maxvel := 100 }, { shortLine with maxaccel := 100 }, TPErr.OK) := by
  unfold tpSetupTangent
  rw [if_neg (by decide), if_neg (by decide)]
  have e1 : (sampleBlendExt realMath sampleConst).tcGetEndTangentUnitVector
      (queuedLine : TC ℝ) = ⟨1, 0, 0⟩ := rfl
  have e2 : (sampleBlendExt realMath sampleConst).tcGetStartTangentUnitVector
      (shortLine : TC ℝ) = ⟨1, 0, 0⟩ := rfl
  have hp : 2 * (Real.pi / 2) = Real.pi := by ring
  simp only [e1, e2, tpFindIntersectionAngle_x_x]
  norm_num [tpGetMaxTargetVel, tpGetMachineAccelLimit, tpMaxTangentAngle, fmin, fmax,
    queuedLine, shortLine, tangentCfg, sampleDbg, oneLineTP, sampleConst, realMath,
    tcSetTermCond, hp]

/-- C27, evaluation at the failing input: the line `queuedLine` (length 10) is followed by
the collinear line `shortLine` of length 0.1 with `maxvel = 100`; the cycle time is 0.001
and `TP_MIN_SEGMENT_CYCLES = 2`, so the sample-rate bound of the new segment is 50.
`tpSetupTangent` returns `Ok` and flags the previous segment tangent, with its `maxvel`
within its own bound, but the `maxvel` of the new segment is still 100. -/
theorem tpSetupTangent_new_maxvel_unclipped :
    (tpSetupTangent realMath sampleConst tangentCfg (sampleBlendExt realMath sampleConst)
      sampleDbg oneLineTP queuedLine shortLine).2.2 = TPErr.OK ∧
    (tpSetupTangent realMath sampleConst tangentCfg (sampleBlendExt realMath sampleConst)
      sampleDbg oneLineTP queuedLine shortLine).1.term_cond = TC_TERM_COND_TANGENT ∧
    (tpSetupTangent realMath sampleConst tangentCfg (sampleBlendExt realMath sampleConst)
      sampleDbg oneLineTP queuedLine shortLine).1.maxvel
      ≤ (queuedLine : TC ℝ).target
        / ((oneLineTP : TP ℝ).cycleTime * (sampleConst : TPConst ℝ).TP_MIN_SEGMENT_CYCLES) ∧
    (tpSetupTangent realMath sampleConst tangentCfg (sampleBlendExt realMath sampleConst)
      sampleDbg oneLineTP queuedLine shortLine).2.1.maxvel = 100 ∧
    (shortLine : TC ℝ).target
      / ((oneLineTP : TP ℝ).cycleTime * (sampleConst : TPConst ℝ).TP_MIN_SEGMENT_CYCLES) = 50 := by
  rw [tpSetupTangent_short_line]
  refine ⟨rfl, rfl, ?_, rfl, ?_⟩
  · norm_num [queuedLine, oneLineTP, sampleConst]
  · norm_num [shortLine, oneLineTP, sampleConst]

/-- The turning angle `π - 2θ` computed from `tpFindIntersectionAngle` over the reals lies
between 0 and π. -/
theorem tpFindIntersectionAngle_phi_range (u1 u2 : PmCartesian ℝ) :
    0 ≤ Real.pi - 2 * tpFindIntersectionAngle realMath u1 u2 ∧
    Real.pi - 2 * tpFindIntersectionAngle realMath u1 u2 ≤ Real.pi := by
  unfold tpFindIntersectionAngle
  dsimp only
  generalize (if pmCartCartDot u1 u2 > 1 ∨ pmCartCartDot u1 u2 < -1
    then (sat_inplace (pmCartCartDot u1 u2) 1).1 else pmCartCartDot u1 u2) = d
  have h0 := Real.arccos_nonneg (-d)
  have h1 := Real.arccos_le_pi (-d)
  show 0 ≤ Real.pi - 2 * (Real.arccos (-d) / 2) ∧ Real.pi - 2 * (Real.arccos (-d) / 2) ≤ Real.pi
  constructor <;> linarith

/-- The arithmetic behind the tangent ratio: for a turning angle `φ ∈ [0, π]` within the
tangent limit, `1 - 2 sin(φ/2) v / (Δt a)` lies between `1 - k` and 1, where `k a` is the
acceleration margin. -/
theorem tangent_ratio_bounds (phi v dt a k eps : ℝ) (h0 : 0 ≤ phi) (hpi : phi ≤ Real.pi)
    (hv : 0 ≤ v) (hdt : 0 < dt) (ha : 0 < a) (hk : 0 ≤ k)
    (hle : phi ≤ (if v / dt > 0 then k * a / (v / dt) else eps)) :
    1 - k ≤ 1 - 2 * Real.sin (phi / 2) * v / dt / a ∧
    1 - 2 * Real.sin (phi / 2) * v / dt / a ≤ 1 := by
  have hs0 : 0 ≤ Real.sin (phi / 2) :=
    Real.sin_nonneg_of_nonneg_of_le_pi (by linarith) (by linarith)
  have hs1 : Real.sin (phi / 2) ≤ phi / 2 := Real.sin_le (by linarith)
  have hq0 : 0 ≤ 2 * Real.sin (phi / 2) * v / dt / a :=
    div_nonneg (div_nonneg (mul_nonneg (mul_nonneg (by norm_num) hs0) hv) hdt.le) ha.le
  refine ⟨?_, by linarith⟩
  by_cases hpos : v / dt > 0
  · rw [if_pos hpos] at hle
    have h1 : phi * (v / dt) ≤ k * a := (le_div_iff₀ hpos).mp hle
    have h2 : 2 * Real.sin (phi / 2) * v / dt ≤ k * a := by
      have : 2 * Real.sin (phi / 2) * v / dt = 2 * Real.sin (phi / 2) * (v / dt) := by ring
      rw [this]
      calc 2 * Real.sin (phi / 2) * (v / dt) ≤ phi * (v / dt) :=
            mul_le_mul_of_nonneg_right (by linarith) hpos.le
        _ ≤ k * a := h1
    have h3 : 2 * Real.sin (phi / 2) * v / dt / a ≤ k := by
      rw [div_le_iff₀ ha]
      exact h2
    linarith
  · have hv0 : v = 0 := by
      rcases hv.lt_or_eq with h | h
      · exact absurd (div_pos h hdt) hpos
      · exact h.symm
    rw [hv0]
    simp only [mul_zero, zero_div, sub_zero]
    linarith

/-- C28: over the reals, with a machine acceleration limit `> 0`, `cycleTime > 0`, a
reachable speed `v ≥ 0` and `TP_ACC_RATIO_NORMAL ≥ 0`: whenever `tpSetupTangent` marks the
pair tangent (returns `Ok`), the turning angle `φ` is within the limit
`0.2 * TP_ACC_RATIO_NORMAL * acc_limit * cycleTime / v` (for `v > 0`), both segments have
their `maxaccel` multiplied by the same factor
`r = 1 - 2 sin(φ/2) v / (cycleTime * acc_limit)`, and `r` lies in
`[1 - 0.2 * TP_ACC_RATIO_NORMAL, 1]`. -/
theorem tpSetupTangent_accel_ratio (c : TPConst ℝ) (cfg : EmcmotConfig ℝ) (x : BlendExt ℝ)
    (dbg : EmcmotDebug ℝ) (tp : TP ℝ) (prev_tc tc : TC ℝ)
    (hacc : 0 < tpGetMachineAccelLimit dbg) (hct : 0 < tp.cycleTime)
    (hv : 0 ≤ fmax (tpGetMaxTargetVel cfg tc) (tpGetMaxTargetVel cfg prev_tc))
    (hk : 0 ≤ c.TP_ACC_RATIO_NORMAL)
    (hok : (tpSetupTangent realMath c cfg x dbg tp prev_tc tc).2.2 = TPErr.OK) :
    (0 < fmax (tpGetMaxTargetVel cfg tc) (tpGetMaxTargetVel cfg prev_tc) →
      Real.pi - 2 * tpFindIntersectionAngle realMath (x.tcGetEndTangentUnitVector prev_tc)
          (x.tcGetStartTangentUnitVector tc)
        ≤ 2 / 10 * c.TP_ACC_RATIO_NORMAL * tpGetMachineAccelLimit dbg * tp.cycleTime
          / fmax (tpGetMaxTargetVel cfg tc) (tpGetMaxTargetVel cfg prev_tc)) ∧
    (tpSetupTangent realMath c cfg x dbg tp prev_tc tc).1.maxaccel
      = prev_tc.maxaccel *
        (1 - 2 * Real.sin ((Real.pi - 2 * tpFindIntersectionAngle realMath
            (x.tcGetEndTangentUnitVector prev_tc) (x.tcGetStartTangentUnitVector tc)) / 2)
          * fmax (tpGetMaxTargetVel cfg tc) (tpGetMaxTargetVel cfg prev_tc)
          / (tp.cycleTime * tpGetMachineAccelLimit dbg)) ∧
    (tpSetupTangent realMath c cfg x dbg tp prev_tc tc).2.1.maxaccel
      = tc.maxaccel *
        (1 - 2 * Real.sin ((Real.pi - 2 * tpFindIntersectionAngle realMath
            (x.tcGetEndTangentUnitVector prev_tc) (x.tcGetStartTangentUnitVector tc)) / 2)
          * fmax (tpGetMaxTargetVel cfg tc) (tpGetMaxTargetVel cfg prev_tc)
          / (tp.cycleTime * tpGetMachineAccelLimit dbg)) ∧
    1 - 2 / 10 * c.TP_ACC_RATIO_NORMAL
      ≤ 1 - 2 * Real.sin ((Real.pi - 2 * tpFindIntersectionAngle realMath
            (x.tcGetEndTangentUnitVector prev_tc) (x.tcGetStartTangentUnitVector tc)) / 2)
          * fmax (tpGetMaxTargetVel cfg tc) (tpGetMaxTargetVel cfg prev_tc)
          / (tp.cycleTime * tpGetMachineAccelLimit dbg) ∧
    1 - 2 * Real.sin ((Real.pi - 2 * tpFindIntersectionAngle realMath
            (x.tcGetEndTangentUnitVector prev_tc) (x.tcGetStartTangentUnitVector tc)) / 2)
          * fmax (tpGetMaxTargetVel cfg tc) (tpGetMaxTargetVel cfg prev_tc)
          / (tp.cycleTime * tpGetMachineAccelLimit dbg) ≤ 1 := by
  obtain ⟨hp0, hp1⟩ := tpFindIntersectionAngle_phi_range (x.tcGetEndTangentUnitVector prev_tc)
    (x.tcGetStartTangentUnitVector tc)
  generalize hphi : Real.pi - 2 * tpFindIntersectionAngle realMath
    (x.tcGetEndTangentUnitVector prev_tc) (x.tcGetStartTangentUnitVector tc) = phi at hp0 hp1 ⊢
  generalize hvv : fmax (tpGetMaxTargetVel cfg tc) (tpGetMaxTargetVel cfg prev_tc) = v at hv ⊢
  generalize haa : tpGetMachineAccelLimit dbg = a at hacc ⊢
  have hdiv : 2 * Real.sin (phi / 2) * v / (tp.cycleTime * a)
      = 2 * Real.sin (phi / 2) * v / tp.cycleTime / a := by
    rw [div_div]
  rw [hdiv]
  unfold tpSetupTangent at hok ⊢
  by_cases hrot : tpRotaryMotionCheck tc = true ∨ tpRotaryMotionCheck prev_tc = true
  · rw [if_pos hrot] at hok
    exact absurd (show TPErr.NO_ACTION = TPErr.OK from hok) (by decide)
  rw [if_neg hrot] at hok ⊢
  by_cases hdep : cfg.arcBlendOptDepth < 2
  · rw [if_pos hdep] at hok
    exact absurd (show TPErr.NO_ACTION = TPErr.OK from hok) (by decide)
  rw [if_neg hdep] at hok ⊢
  dsimp only at hok ⊢
  rw [hvv, haa] at hok ⊢
  have hpi : realMath.pi = Real.pi := rfl
  have hsin : realMath.sin = Real.sin := rfl
  rw [hpi, hphi] at hok ⊢
  by_cases hle : phi ≤ tpMaxTangentAngle c tp v (c.TP_ACC_RATIO_NORMAL * (2 / 10) * a)
  · rw [if_pos hle]
    have hle' : phi ≤ (if v / tp.cycleTime > 0
        then 2 / 10 * c.TP_ACC_RATIO_NORMAL * a / (v / tp.cycleTime)
        else c.TP_ANGLE_EPSILON) := by
      unfold tpMaxTangentAngle at hle
      dsimp only at hle
      have e : c.TP_ACC_RATIO_NORMAL * (2 / 10) * a = 2 / 10 * c.TP_ACC_RATIO_NORMAL * a := by
        ring
      rw [e] at hle
      exact hle
    obtain ⟨b1, b2⟩ := tangent_ratio_bounds phi v tp.cycleTime a
      (2 / 10 * c.TP_ACC_RATIO_NORMAL) c.TP_ANGLE_EPSILON hp0 hp1 hv hct hacc
      (mul_nonneg (by norm_num) hk) hle'
    refine ⟨fun hvpos => ?_, ?_, ?_, b1, b2⟩
    · rw [if_pos (div_pos hvpos hct)] at hle'
      have e : 2 / 10 * c.TP_ACC_RATIO_NORMAL * a * tp.cycleTime / v
          = 2 / 10 * c.TP_ACC_RATIO_NORMAL * a / (v / tp.cycleTime) := by
        field_simp
      rw [e]
      exact hle'
    · rfl
    · rfl
  · rw [if_neg hle] at hok
    exact absurd (show TPErr.NO_ACTION = TPErr.OK from hok) (by decide)

theorem tpSetupTangent_accel_ratio_witness :
    (tpSetupTangent realMath sampleConst tangentCfg (sampleBlendExt realMath sampleConst)
      sampleDbg oneLineTP queuedLine shortLine).2.1.maxaccel
      = (shortLine : TC ℝ).maxaccel *
        (1 - 2 * Real.sin ((Real.pi - 2 * tpFindIntersectionAngle realMath
            ((sampleBlendExt realMath sampleConst).tcGetEndTangentUnitVector queuedLine)
            ((sampleBlendExt realMath sampleConst).tcGetStartTangentUnitVector shortLine)) / 2)
          * fmax (tpGetMaxTargetVel tangentCfg shortLine) (tpGetMaxTargetVel tangentCfg queuedLine)
          / ((oneLineTP : TP ℝ).cycleTime * tpGetMachineAccelLimit sampleDbg)) ∧
    1 - 2 / 10 * (sampleConst : TPConst ℝ).TP_ACC_RATIO_NORMAL
      ≤ 1 - 2 * Real.sin ((Real.pi - 2 * tpFindIntersectionAngle realMath
            ((sampleBlendExt realMath sampleConst).tcGetEndTangentUnitVector queuedLine)
            ((sampleBlendExt realMath sampleConst).tcGetStartTangentUnitVector shortLine)) / 2)
          * fmax (tpGetMaxTargetVel tangentCfg shortLine) (tpGetMaxTargetVel tangentCfg queuedLine)
          / ((oneLineTP : TP ℝ).cycleTime * tpGetMachineAccelLimit sampleDbg) :=
  have h := tpSetupTangent_accel_ratio sampleConst tangentCfg
    (sampleBlendExt realMath sampleConst) sampleDbg oneLineTP queuedLine shortLine
    (by norm_num [tpGetMachineAccelLimit, sampleDbg, fmin])
    (by norm_num [oneLineTP])
    (by norm_num [tpGetMaxTargetVel, fmin, fmax, shortLine, queuedLine, tangentCfg])
    (by norm_num [sampleConst])
    (by rw [tpSetupTangent_short_line])
  ⟨h.2.2.1, h.2.2.2.1⟩


/-! ### The arc-line blend -/

theorem sqrt_four : Real.sqrt 4 = 2 := by
  rw [show (4 : ℝ) = 2 ^ 2 by norm_num, Real.sqrt_sq (by norm_num)]

theorem sin_three_pi_div_two : Real.sin (3 * Real.pi / 2) = -1 := by
  rw [show 3 * Real.pi / 2 = Real.pi / 2 + Real.pi by ring, Real.sin_add_pi,
    Real.sin_pi_div_two]

theorem cos_three_pi_div_two : Real.cos (3 * Real.pi / 2) = 0 := by
  rw [show 3 * Real.pi / 2 = Real.pi / 2 + Real.pi by ring, Real.cos_add_pi,
    Real.cos_pi_div_two, neg_zero]

/-- The end tangent of `threeQuarterArc` and the start tangent of `arcExitLine`. -/
theorem sample_arc_line_tangents :
    (sampleBlendExt realMath sampleConst).tcGetEndTangentUnitVector threeQuarterArc
      = ⟨0, 1, 0⟩ ∧
    (sampleBlendExt realMath sampleConst).tcGetStartTangentUnitVector (arcExitLine : TC ℝ)
      = ⟨1, 0, 0⟩ := by
  refine ⟨?_, rfl⟩
  show pmCartUnit realMath (pmCartCartSub
      (pmCartScalMult ⟨-1, 0, 0⟩ (Real.cos (3 * Real.pi / 2)))
      (pmCartScalMult ⟨0, 1, 0⟩ (Real.sin (3 * Real.pi / 2)))) = ⟨0, 1, 0⟩
  rw [sin_three_pi_div_two, cos_three_pi_div_two]
  norm_num [pmCartUnit, pmCartMag, pmCartCartSub, pmCartScalMult, pmSq, realMath]

/-- The line-arc data of the sample corner: the blend distance is 0 and the arc is to be
shortened by `acos(-1) = π`. -/
theorem sample_lineArcComputeData :
    (lineArcComputeData realMath sampleConst sampleDbg
      { tolerance := 0, u1 := ⟨0, 1, 0⟩, u2 := ⟨1, 0, 0⟩, P := ⟨1, 0, 0⟩, C1 := ⟨0, 0, 0⟩,
        R1 := 1, L2 := 10, v_req := 50 }).d = 0 ∧
    (lineArcComputeData realMath sampleConst sampleDbg
      { tolerance := 0, u1 := ⟨0, 1, 0⟩, u2 := ⟨1, 0, 0⟩, P := ⟨1, 0, 0⟩, C1 := ⟨0, 0, 0⟩,
        R1 := 1, L2 := 10, v_req := 50 }).dphi1 = Real.pi := by
  unfold lineArcComputeData
  norm_num [pmCartUnit, pmCartMag, pmCartCartSub, pmCartCartAdd, pmCartScalMult,
    pmCartCartCross, pmCartCartDot, pmSq, realMath, tpLineArcConvexTest, tpFindArcLineDist,
    tpFindRadiusFromDist, tpFindDistFromRadius, quadraticFormula, tpGetMachineAccelLimit,
    sampleDbg, sampleConst, fmin, fmax, fabs, sqrt_four, Real.arccos_neg_one]

/-- Past the coplanarity test `tpCreateArcLineBlend` stretches the circle of the previous
segment and the line of the new segment in place, and then returns `Fail`. -/
theorem tpCreateArcLineBlend_stretch (m : MathLib K) (c : TPConst K) (cfg : EmcmotConfig K)
    (x : BlendExt K) (st : EmcmotStatus K) (dbg : EmcmotDebug K) (tp : TP K)
    (prev_tc tc blend_tc : TC K)
    (hdot : ¬ pmCartCartDot prev_tc.coords.asCircle.xyz.normal tc.coords.asLine.xyz.uVec
      > c.TP_POS_EPSILON) :
    (tpCreateArcLineBlend m c cfg x st dbg tp prev_tc tc blend_tc).1.coords
      = Coords.circle { prev_tc.coords.asCircle with
          xyz := x.pmCircleStretch prev_tc.coords.asCircle.xyz
            (prev_tc.coords.asCircle.xyz.angle -
              (lineArcComputeData m c dbg
                { tolerance := 0
                  u1 := x.tcGetEndTangentUnitVector prev_tc
                  u2 := x.tcGetStartTangentUnitVector tc
                  P := tc.coords.asLine.xyz.start
                  C1 := prev_tc.coords.asCircle.xyz.center
                  R1 := prev_tc.coords.asCircle.xyz.radius
                  L2 := tc.target
                  v_req := fmax (tpGetMaxTargetVel cfg prev_tc)
                    (tpGetMaxTargetVel cfg tc) }).dphi1) 0 } ∧
    (tpCreateArcLineBlend m c cfg x st dbg tp prev_tc tc blend_tc).1.target = prev_tc.target ∧
    (tpCreateArcLineBlend m c cfg x st dbg tp prev_tc tc blend_tc).2.1.coords
      = Coords.line { tc.coords.asLine with
          xyz := x.pmCartLineStretch tc.coords.asLine.xyz
            (tc.coords.asLine.xyz.tmag -
              (lineArcComputeData m c dbg
                { tolerance := 0
                  u1 := x.tcGetEndTangentUnitVector prev_tc
                  u2 := x.tcGetStartTangentUnitVector tc
                  P := tc.coords.asLine.xyz.start
                  C1 := prev_tc.coords.asCircle.xyz.center
                  R1 := prev_tc.coords.asCircle.xyz.radius
                  L2 := tc.target
                  v_req := fmax (tpGetMaxTargetVel cfg prev_tc)
                    (tpGetMaxTargetVel cfg tc) }).d) 1 } ∧
    (tpCreateArcLineBlend m c cfg x st dbg tp prev_tc tc blend_tc).2.2.2 = TPErr.FAIL := by
  unfold tpCreateArcLineBlend
  dsimp only
  rw [if_neg hdot]
  exact ⟨rfl, rfl, rfl, rfl⟩

/-- `tpCreateArcLineBlend` never returns `Ok`. -/
theorem tpCreateArcLineBlend_fail (m : MathLib K) (c : TPConst K) (cfg : EmcmotConfig K)
    (x : BlendExt K) (st : EmcmotStatus K) (dbg : EmcmotDebug K) (tp : TP K)
    (prev_tc tc blend_tc : TC K) :
    (tpCreateArcLineBlend m c cfg x st dbg tp prev_tc tc blend_tc).2.2.2 = TPErr.FAIL := by
  unfold tpCreateArcLineBlend
  dsimp only
  exact ite_rec (fun r : TC K × TC K × TC K × TPErr => r.2.2.2 = TPErr.FAIL) rfl rfl

/-- On a non-tangent arc-line pair `tpHandleBlendArc` returns `Fail`, queues nothing and
writes what `tpCreateArcLineBlend` left in the previous segment back to the tail. -/
theorem tpHandleBlendArc_arc_line (m : MathLib K) (c : TPConst K) (cfg : EmcmotConfig K)
    (g : ExtGeom K) (x : BlendExt K) (st : EmcmotStatus K) (dbg : EmcmotDebug K) (tp : TP K)
    (prev_tc tc : TC K) (hlast : tcqLast tp.queue = some prev_tc)
    (hprog : ¬ prev_tc.progress > 0)
    (htan : tpSetupTangent m c cfg x dbg tp prev_tc tc = (prev_tc, tc, TPErr.NO_ACTION))
    (htype : tpCheckBlendArcType m c (some prev_tc) tc = blend_type_t.BLEND_ARC_LINE) :
    ∃ (tp1 : TP K) (b : TC K), tp1.cycleTime = tp.cycleTime ∧
      (tpHandleBlendArc m c cfg g x st dbg tp tc).2.2 = TPErr.FAIL ∧
      (tpHandleBlendArc m c cfg g x st dbg tp tc).2.1
        = (tpCreateArcLineBlend m c cfg x st dbg tp1 prev_tc tc b).2.1 ∧
      (tpHandleBlendArc m c cfg g x st dbg tp tc).1.queue
        = tcqSetLast (tcqSetLast tp.queue prev_tc)
            (tpCreateArcLineBlend m c cfg x st dbg tp1 prev_tc tc b).1 := by
  unfold tpHandleBlendArc
  rw [hlast]
  dsimp only
  rw [if_neg hprog, htan]
  dsimp only
  rw [if_neg (by decide), htype]
  dsimp only
  rw [tpCreateArcLineBlend_fail, if_neg (by decide)]
  exact ⟨_, _, rfl, rfl, rfl, rfl⟩

theorem arccos_zero_half :
    tpFindIntersectionAngle realMath (⟨0, 1, 0⟩ : PmCartesian ℝ) ⟨1, 0, 0⟩ = Real.pi / 4 := by
  unfold tpFindIntersectionAngle
  norm_num [pmCartCartDot, realMath, Real.arccos_zero]
  ring

/-- The tangent test rejects the right-angle corner between `threeQuarterArc` and
`arcExitLine`. -/
theorem sample_arc_line_not_tangent :
    tpSetupTangent realMath sampleConst tangentCfg (sampleBlendExt realMath sampleConst)
      sampleDbg arcTP threeQuarterArc arcExitLine
      = (threeQuarterArc, arcExitLine, TPErr.NO_ACTION) := by
  unfold tpSetupTangent
  rw [if_neg (by decide), if_neg (by decide)]
  dsimp only
  rw [sample_arc_line_tangents.1, sample_arc_line_tangents.2, arccos_zero_half]
  refine if_neg ?_
  have hv : fmax (tpGetMaxTargetVel tangentCfg (arcExitLine : TC ℝ))
      (tpGetMaxTargetVel tangentCfg threeQuarterArc) = 50 := by
    norm_num [tpGetMaxTargetVel, fmin, fmax, arcExitLine, threeQuarterArc, tangentCfg]
  rw [hv]
  have hm : tpMaxTangentAngle sampleConst arcTP 50
      ((sampleConst : TPConst ℝ).TP_ACC_RATIO_NORMAL * (2 / 10) * tpGetMachineAccelLimit sampleDbg)
      = 1 / 5000 := by
    norm_num [tpMaxTangentAngle, arcTP, sampleConst, tpGetMachineAccelLimit, sampleDbg, fmin]
  rw [hm]
  show ¬ (Real.pi - 2 * (Real.pi / 4) ≤ 1 / 5000)
  have := Real.pi_gt_three
  intro h
  linarith

/-- The pair `threeQuarterArc`, `arcExitLine` is an arc-line pair for the blend planner. -/
theorem sample_arc_line_type :
    tpCheckBlendArcType realMath sampleConst (some threeQuarterArc) (arcExitLine : TC ℝ)
      = blend_type_t.BLEND_ARC_LINE := by
  unfold tpCheckBlendArcType
  dsimp only
  rw [if_neg (by decide), if_neg (by decide)]
  have hpi : ¬ (realMath.pi - 0 < (sampleConst : TPConst ℝ).TP_MIN_ARC_ANGLE) := by
    show ¬ (Real.pi - 0 < (sampleConst : TPConst ℝ).TP_MIN_ARC_ANGLE)
    have := Real.pi_gt_three
    norm_num [sampleConst]
    linarith
  rw [if_neg hpi, if_neg (by decide), if_neg (by decide), if_neg (by decide),
    if_pos (by decide)]

/-- C30, evaluation at the failing input: the planner holds `threeQuarterArc` (three
quarters of a circle, parabolic blend, not started) and the line `arcExitLine` is being
appended at a right angle, with tangent detection and blend arcs enabled.
`tpHandleBlendArc` returns `Fail` and queues nothing, but the call of
`tpCreateArcLineBlend` has stretched the queued circle in place: its angle is `π / 2`
instead of `3π / 2`, while its `target` still is the length `3π / 2` of the original
arc. -/
theorem tpHandleBlendArc_arc_line_alters_arc :
    (tpHandleBlendArc realMath sampleConst tangentCfg sampleGeom
      (sampleBlendExt realMath sampleConst) {} sampleDbg arcTP arcExitLine).2.2 = TPErr.FAIL ∧
    (tpHandleBlendArc realMath sampleConst tangentCfg sampleGeom
      (sampleBlendExt realMath sampleConst) {} sampleDbg arcTP arcExitLine).1.queue.queue.map
        (fun t => (t.coords.asCircle.xyz.angle, t.target))
      = [(Real.pi / 2, 3 * Real.pi / 2)] ∧
    arcTP.queue.queue.map (fun t => (t.coords.asCircle.xyz.angle, t.target))
      = [(3 * Real.pi / 2, 3 * Real.pi / 2)] := by
  obtain ⟨tp1, b, _, h1, _, h3⟩ := tpHandleBlendArc_arc_line realMath sampleConst tangentCfg
    sampleGeom (sampleBlendExt realMath sampleConst) {} sampleDbg arcTP threeQuarterArc
    arcExitLine rfl (by norm_num [threeQuarterArc]) sample_arc_line_not_tangent
    sample_arc_line_type
  refine ⟨h1, ?_, rfl⟩
  rw [h3]
  have hdot : ¬ pmCartCartDot threeQuarterArc.coords.asCircle.xyz.normal
      (arcExitLine : TC ℝ).coords.asLine.xyz.uVec > (sampleConst : TPConst ℝ).TP_POS_EPSILON := by
    norm_num [pmCartCartDot, threeQuarterArc, arcExitLine, Coords.asCircle, Coords.asLine,
      sampleConst]
  obtain ⟨hc, ht, _, _⟩ := tpCreateArcLineBlend_stretch realMath sampleConst tangentCfg
    (sampleBlendExt realMath sampleConst) {} sampleDbg tp1 threeQuarterArc arcExitLine b hdot
  have hv : fmax (tpGetMaxTargetVel tangentCfg threeQuarterArc)
      (tpGetMaxTargetVel tangentCfg (arcExitLine : TC ℝ)) = 50 := by
    norm_num [tpGetMaxTargetVel, fmin, fmax, arcExitLine, threeQuarterArc, tangentCfg]
  rw [sample_arc_line_tangents.1, sample_arc_line_tangents.2, hv] at hc
  have hL : (lineArcComputeData realMath sampleConst sampleDbg
      { tolerance := 0, u1 := ⟨0, 1, 0⟩, u2 := ⟨1, 0, 0⟩,
        P := (arcExitLine : TC ℝ).coords.asLine.xyz.start,
        C1 := threeQuarterArc.coords.asCircle.xyz.center,
        R1 := threeQuarterArc.coords.asCircle.xyz.radius,
        L2 := (arcExitLine : TC ℝ).target, v_req := 50 }).dphi1 = Real.pi :=
    sample_lineArcComputeData.2
  rw [hL] at hc
  generalize (tpCreateArcLineBlend realMath sampleConst tangentCfg
    (sampleBlendExt realMath sampleConst) {} sampleDbg tp1 threeQuarterArc arcExitLine b).1
    = p at hc ht ⊢
  show [(p.coords.asCircle.xyz.angle, p.target)] = [(Real.pi / 2, 3 * Real.pi / 2)]
  rw [hc, ht]
  have hpos : ¬ (3 * Real.pi / 2 - Real.pi ≤ 0 ∨ (0 : Int) ≠ 0) := by
    have := Real.pi_pos
    intro h
    rcases h with h | h
    · linarith
    · exact h rfl
  have hang : ((sampleBlendExt realMath sampleConst).pmCircleStretch
      threeQuarterArc.coords.asCircle.xyz
      (threeQuarterArc.coords.asCircle.xyz.angle - Real.pi) 0).angle = Real.pi / 2 := by
    show (if 3 * Real.pi / 2 - Real.pi ≤ 0 ∨ (0 : Int) ≠ 0
      then threeQuarterArc.coords.asCircle.xyz
      else { threeQuarterArc.coords.asCircle.xyz with angle := 3 * Real.pi / 2 - Real.pi }).angle
        = Real.pi / 2
    rw [if_neg hpos]
    show 3 * Real.pi / 2 - Real.pi = Real.pi / 2
    ring
  show [(((sampleBlendExt realMath sampleConst).pmCircleStretch
      threeQuarterArc.coords.asCircle.xyz
      (threeQuarterArc.coords.asCircle.xyz.angle - Real.pi) 0).angle, threeQuarterArc.target)]
    = [(Real.pi / 2, 3 * Real.pi / 2)]
  rw [hang]
  rfl


/-! ### Finalized segments under later appends -/

theorem FinalizedKept.rfl_of (a : TC K) (h : a.finalized = 1) : FinalizedKept a a :=
  ⟨rfl, h, le_max_left _ _⟩

theorem FinalizedKept.trans_of {a b d : TC K} (h1 : FinalizedKept a b)
    (h2 : FinalizedKept b d) : FinalizedKept a d := by
  refine ⟨h2.1.trans h1.1, h2.2.1, le_trans h2.2.2 ?_⟩
  exact max_le (le_trans h1.2.2 (le_refl _)) (le_max_right _ _)

theorem qfk_refl (l : List (TC K)) : QueueFinalizedKept l l :=
  fun _ a hi hf => ⟨a, hi, FinalizedKept.rfl_of a hf⟩

theorem qfk_trans {l1 l2 l3 : List (TC K)} (h12 : QueueFinalizedKept l1 l2)
    (h23 : QueueFinalizedKept l2 l3) : QueueFinalizedKept l1 l3 := by
  intro i a hi hf
  obtain ⟨b, hb, hab⟩ := h12 i a hi hf
  obtain ⟨d, hd, hbd⟩ := h23 i b hb hab.2.1
  exact ⟨d, hd, hab.trans_of hbd⟩

theorem qfk_of_eq {l l' : List (TC K)} (h : l' = l) : QueueFinalizedKept l l' :=
  h ▸ qfk_refl l

/-- A slot-by-slot relation that keeps `target` and `finalized` and does not raise
`maxvel` gives `QueueFinalizedKept`. -/
theorem qfk_of_forall2 {l l' : List (TC K)}
    (h : List.Forall₂ (fun a b : TC K => b.target = a.target ∧ b.finalized = a.finalized ∧
      b.maxvel ≤ a.maxvel) l l') : QueueFinalizedKept l l' := by
  induction h with
  | nil => exact qfk_refl _
  | @cons x y xs ys hab _ ih =>
    intro i a hi hf
    cases i with
    | zero =>
      have ha : x = a := by simpa using hi
      subst ha
      exact ⟨y, by simp, hab.1, hab.2.1.trans hf, le_trans hab.2.2 (le_max_left _ _)⟩
    | succ j =>
      obtain ⟨b, hb, hk⟩ := ih j a (by simpa using hi) hf
      exact ⟨b, by simpa using hb, hk⟩

theorem qfk_set (l : List (TC K)) (i : Nat) (a b : TC K) (h : l[i]? = some a)
    (hab : a.finalized = 1 → FinalizedKept a b) : QueueFinalizedKept l (l.set i b) := by
  intro j a' hj hf
  by_cases hji : i = j
  · subst hji
    have ha : a' = a := Option.some.inj (hj.symm.trans h)
    subst ha
    obtain ⟨hlt, _⟩ := List.getElem?_eq_some.mp h
    exact ⟨b, List.getElem?_set_self hlt, hab hf⟩
  · exact ⟨a', (List.getElem?_set_ne hji).trans hj, FinalizedKept.rfl_of a' hf⟩

/-- Replacing whatever follows the segments before a tail that is not finalized keeps the
finalized segments. -/
theorem qfk_dropLast_append (l s : List (TC K))
    (h : ∀ a, l.getLast? = some a → a.finalized ≠ 1) :
    QueueFinalizedKept l (l.dropLast ++ s) := by
  intro i a hi hf
  obtain ⟨hlt, _⟩ := List.getElem?_eq_some.mp hi
  have hne : i ≠ l.length - 1 := by
    intro he
    refine h a ?_ hf
    rw [List.getLast?_eq_getElem?, ← he]
    exact hi
  have hlt' : i < l.dropLast.length := by
    rw [List.length_dropLast]
    omega
  refine ⟨a, ?_, FinalizedKept.rfl_of a hf⟩
  rw [List.getElem?_append_left hlt', List.getElem?_dropLast, if_pos (by omega)]
  exact hi

theorem qfk_append (l s : List (TC K)) : QueueFinalizedKept l (l ++ s) := by
  intro i a hi hf
  obtain ⟨hlt, _⟩ := List.getElem?_eq_some.mp hi
  exact ⟨a, (List.getElem?_append_left hlt).trans hi, FinalizedKept.rfl_of a hf⟩

theorem dropLast_append_eq_set {α : Type} (l : List α) (b : α) (h : l ≠ []) :
    l.dropLast ++ [b] = l.set (l.length - 1) b := by
  induction l with
  | nil => exact absurd rfl h
  | cons x xs ih =>
    cases xs with
    | nil => rfl
    | cons y ys =>
      have := ih (by simp)
      simp only [List.dropLast_cons₂, List.cons_append, List.length_cons,
        Nat.add_sub_cancel, List.set_cons_succ] at this ⊢
      rw [this]

theorem tcqSetLast_qfk (q : TC_QUEUE_STRUCT K) (a b : TC K) (hl : tcqLast q = some a)
    (hab : a.finalized = 1 → FinalizedKept a b) :
    QueueFinalizedKept q.queue (tcqSetLast q b).queue := by
  unfold tcqLast at hl
  have hne : q.queue ≠ [] := by
    intro h0
    rw [h0] at hl
    exact absurd hl (by simp)
  show QueueFinalizedKept q.queue (q.queue.dropLast ++ [b])
  rw [dropLast_append_eq_set _ _ hne]
  refine qfk_set _ _ a b ?_ hab
  rw [← List.getLast?_eq_getElem?]
  exact hl

theorem tcqSetLast_last (q : TC_QUEUE_STRUCT K) (b : TC K) :
    tcqLast (tcqSetLast q b) = some b :=
  List.getLast?_concat _

theorem tcqSetItem_qfk (q : TC_QUEUE_STRUCT K) (n : Int) (a b : TC K)
    (h : tcqItem q n = some a) (hab : a.finalized = 1 → FinalizedKept a b) :
    QueueFinalizedKept q.queue (tcqSetItem q n b).queue := by
  unfold tcqItem at h
  unfold tcqSetItem
  by_cases hn : n < 0
  · rw [if_pos hn] at h
    exact absurd h (by simp)
  · rw [if_neg hn] at h
    rw [if_neg hn]
    rw [List.get?_eq_getElem?] at h
    exact qfk_set _ _ a b h hab

theorem tcqPopBack_qfk (q : TC_QUEUE_STRUCT K)
    (h : ∀ a, tcqLast q = some a → a.finalized ≠ 1) :
    QueueFinalizedKept q.queue (tcqPopBack q).1.queue := by
  unfold tcqPopBack
  refine ite_rec (fun r : TC_QUEUE_STRUCT K × Int => QueueFinalizedKept q.queue r.1.queue)
    (qfk_refl _) ?_
  have := qfk_dropLast_append q.queue [] h
  rw [List.append_nil] at this
  exact this

theorem tcqPut_qfk (q : TC_QUEUE_STRUCT K) (tc : TC K) :
    QueueFinalizedKept q.queue (tcqPut q tc).1.queue := by
  unfold tcqPut
  exact ite_rec (fun r : TC_QUEUE_STRUCT K × Int => QueueFinalizedKept q.queue r.1.queue)
    (qfk_refl _) (qfk_append _ _)

theorem tpAddSegmentToQueue_qfk (g : ExtGeom K) (tp : TP K) (tc : TC K) (inc_id : Bool) :
    QueueFinalizedKept tp.queue.queue (tpAddSegmentToQueue g tp tc inc_id).1.queue.queue := by
  unfold tpAddSegmentToQueue
  dsimp only
  refine ite_rec (fun r : TP K × TC K × TPErr =>
    QueueFinalizedKept tp.queue.queue r.1.queue.queue) (qfk_refl _) ?_
  cases inc_id
  · exact tcqPut_qfk _ _
  · exact tcqPut_qfk _ _

/-- The optimizer keeps `target` and `finalized` of every queued segment and does not
raise its `maxvel`. -/
theorem tpRunOptimization_qfk (m : MathLib K) (c : TPConst K) (cfg : EmcmotConfig K)
    (tp : TP K) :
    QueueFinalizedKept tp.queue.queue (tpRunOptimization m c cfg tp).queue.queue := by
  refine qfk_of_forall2 (tpRunOptimization_rel m c cfg _ (fun a => ⟨rfl, rfl, le_refl _⟩)
    (fun a b d hab hbd => ⟨hbd.1.trans hab.1, hbd.2.1.trans hab.2.1,
      le_trans hbd.2.2 hab.2.2⟩) ?_ tp)
  intro tp tc prev1_tc d _ _
  unfold tpComputeOptimalVelocity
  dsimp only
  constructor
  · refine ⟨?_, ?_, ?_⟩
    · exact ite_rec (fun r : TC K => r.target = tc.target) rfl rfl
    · exact ite_rec (fun r : TC K => r.finalized = tc.finalized) rfl rfl
    · refine le_trans (fmin_le_left _ _) ?_
      exact le_of_eq (ite_rec (fun r : TC K => r.maxvel = tc.maxvel) rfl rfl)
  · refine ⟨?_, ?_, ?_⟩
    · exact ite_rec (fun r : TC K => r.target = prev1_tc.target) rfl rfl
    · exact ite_rec (fun r : TC K => r.finalized = prev1_tc.finalized) rfl rfl
    · exact le_of_eq (ite_rec (fun r : TC K => r.maxvel = prev1_tc.maxvel) rfl rfl)

/-- Finalizing a segment again keeps its `target`, leaves it finalized and, with
`0 ≤ sqrt(1/2) ≤ 1`, does not raise its `maxvel` above `max maxvel 0`. -/
theorem tpFinalizeSegmentLength_kept (m : MathLib K) (a : TC K) (hs0 : 0 ≤ m.sqrt (1 / 2))
    (hs1 : m.sqrt (1 / 2) ≤ 1) :
    ∃ b : TC K, (tpFinalizeSegmentLength m (some a)).1 = some b ∧ FinalizedKept a b := by
  unfold tpFinalizeSegmentLength
  dsimp only
  refine ⟨_, rfl, ?_, rfl, ?_⟩
  · exact ite_rec (fun r : TC K => r.target = a.target) rfl rfl
  · refine ite_rec (fun r : TC K => r.maxvel ≤ max a.maxvel 0) ?_ (le_max_left _ _)
    show a.maxvel * m.sqrt (1 / 2) ≤ max a.maxvel 0
    rcases le_total 0 a.maxvel with h | h
    · exact le_trans (mul_le_of_le_one_right h hs1) (le_max_left _ _)
    · exact le_trans (mul_nonpos_of_nonpos_of_nonneg h hs0) (le_max_right _ _)

/-- `tpSetupTangent` keeps `target` and `finalized` of the previous segment and does not
raise its `maxvel`. -/
theorem tpSetupTangent_prev_kept (m : MathLib K) (c : TPConst K) (cfg : EmcmotConfig K)
    (x : BlendExt K) (dbg : EmcmotDebug K) (tp : TP K) (prev_tc tc : TC K) :
    (tpSetupTangent m c cfg x dbg tp prev_tc tc).1.target = prev_tc.target ∧
    (tpSetupTangent m c cfg x dbg tp prev_tc tc).1.finalized = prev_tc.finalized ∧
    (tpSetupTangent m c cfg x dbg tp prev_tc tc).1.maxvel ≤ prev_tc.maxvel := by
  unfold tpSetupTangent
  refine ite_rec (fun r : TC K × TC K × TPErr => r.1.target = prev_tc.target ∧
    r.1.finalized = prev_tc.finalized ∧ r.1.maxvel ≤ prev_tc.maxvel)
    ⟨rfl, rfl, le_refl _⟩ ?_
  refine ite_rec (fun r : TC K × TC K × TPErr => r.1.target = prev_tc.target ∧
    r.1.finalized = prev_tc.finalized ∧ r.1.maxvel ≤ prev_tc.maxvel)
    ⟨rfl, rfl, le_refl _⟩ ?_
  dsimp only
  refine ite_rec (fun r : TC K × TC K × TPErr => r.1.target = prev_tc.target ∧
    r.1.finalized = prev_tc.finalized ∧ r.1.maxvel ≤ prev_tc.maxvel)
    ⟨rfl, rfl, fmin_le_left _ _⟩ ⟨rfl, rfl, le_refl _⟩

/-- A pair that `tpCheckBlendArcType` accepts for a blend has a previous segment that is
not finalized. -/
theorem tpCheckBlendArcType_not_finalized (m : MathLib K) (c : TPConst K) (prev_tc tc : TC K)
    (h : tpCheckBlendArcType m c (some prev_tc) tc ≠ blend_type_t.BLEND_NONE) :
    prev_tc.finalized = 0 := by
  by_contra hf
  apply h
  unfold tpCheckBlendArcType
  dsimp only
  refine ite_rec (fun r : blend_type_t => r = blend_type_t.BLEND_NONE) rfl ?_
  refine ite_rec (fun r : blend_type_t => r = blend_type_t.BLEND_NONE) rfl ?_
  refine ite_rec (fun r : blend_type_t => r = blend_type_t.BLEND_NONE) rfl ?_
  rw [if_pos (Or.inr hf)]

/-- The line-line blend touches the tail of the queue only: with a tail that is not
finalized, the finalized segments are kept. -/
theorem tpCreateLineLineBlendTC_qfk (m : MathLib K) (c : TPConst K) (cfg : EmcmotConfig K)
    (g : ExtGeom K) (x : BlendExt K) (st : EmcmotStatus K) (dbg : EmcmotDebug K) (tp : TP K)
    (prev_tc tc blend_tc : TC K) (h : ∀ a, tcqLast tp.queue = some a → a.finalized ≠ 1) :
    QueueFinalizedKept tp.queue.queue
      (tpCreateLineLineBlendTC m c cfg g x st dbg tp prev_tc tc blend_tc).1.queue.queue := by
  unfold tpCreateLineLineBlendTC
  dsimp only
  generalize tpCreateLineLineBlend m c cfg st tp _ _ _ _ prev_tc tc = p
  cases p.abort with
  | some e => exact qfk_refl _
  | none =>
    dsimp only
    generalize x.arcFromLines _ _ _ _ _ _ _ = arc
    refine ite_rec (fun r : TP K × TC K × TC K × TPErr =>
      QueueFinalizedKept tp.queue.queue r.1.queue.queue) ?_ ?_
    · exact ite_rec (fun r : TP K × TC K × TC K × TPErr =>
        QueueFinalizedKept tp.queue.queue r.1.queue.queue) (tcqPopBack_qfk _ h)
        (tcqPopBack_qfk _ h)
    · generalize x.tcConnectBlendArc _ _ _ _ = cn
      cases cn.1 with
      | none => exact qfk_refl _
      | some q =>
        show QueueFinalizedKept tp.queue.queue (tp.queue.queue.dropLast ++ [q])
        exact qfk_dropLast_append _ _ h

/-- The blend-arc step keeps the finalized segments of the queue. -/
theorem tpHandleBlendArc_qfk (m : MathLib K) (c : TPConst K) (cfg : EmcmotConfig K)
    (g : ExtGeom K) (x : BlendExt K) (st : EmcmotStatus K) (dbg : EmcmotDebug K) (tp : TP K)
    (tc : TC K) :
    QueueFinalizedKept tp.queue.queue
      (tpHandleBlendArc m c cfg g x st dbg tp tc).1.queue.queue := by
  unfold tpHandleBlendArc
  cases hl : tcqLast tp.queue with
  | none => exact qfk_refl _
  | some prev_tc =>
    dsimp only
    refine ite_rec (fun r : TP K × TC K × TPErr =>
      QueueFinalizedKept tp.queue.queue r.1.queue.queue) (qfk_refl _) ?_
    obtain ⟨k1, k2, k3⟩ := tpSetupTangent_prev_kept m c cfg x dbg tp prev_tc tc
    generalize tpSetupTangent m c cfg x dbg tp prev_tc tc = t at k1 k2 k3 ⊢
    have q1 : QueueFinalizedKept tp.queue.queue (tcqSetLast tp.queue t.1).queue :=
      tcqSetLast_qfk tp.queue prev_tc t.1 hl
        (fun hf => ⟨k1, k2.trans hf, le_trans k3 (le_max_left _ _)⟩)
    have hlast : tcqLast (tcqSetLast tp.queue t.1) = some t.1 := tcqSetLast_last _ _
    refine ite_rec (fun r : TP K × TC K × TPErr =>
      QueueFinalizedKept tp.queue.queue r.1.queue.queue) q1 ?_
    have hfree : tpCheckBlendArcType m c (some t.1) t.2.1 ≠ blend_type_t.BLEND_NONE →
        ∀ a, tcqLast (tcqSetLast tp.queue t.1) = some a → a.finalized ≠ 1 := by
      intro hty a ha
      have e : a = t.1 := Option.some.inj (ha.symm.trans hlast)
      rw [e, tpCheckBlendArcType_not_finalized m c t.1 t.2.1 hty]
      decide
    generalize tcqSetLast tp.queue t.1 = Q at q1 hfree
    cases hty : tpCheckBlendArcType m c (some t.1) t.2.1 with
    | BLEND_NONE => exact q1
    | BLEND_LINE_ARC => exact q1
    | BLEND_ARC_ARC => exact q1
    | BLEND_LINE_LINE =>
      dsimp only
      have hf := hfree (by rw [hty]; decide)
      have q2 := tpCreateLineLineBlendTC_qfk m c cfg g x st dbg
        ({ tp with queue := Q } : TP K) t.1 t.2.1
        { target := 0, motion_type := 0, term_cond := 0, indexrotary := 0,
          coords := Coords.arc {} } hf
      generalize tpCreateLineLineBlendTC m c cfg g x st dbg ({ tp with queue := Q } : TP K)
        t.1 t.2.1 _ = r at q2 ⊢
      refine ite_rec (fun s : TP K × TC K × TPErr =>
        QueueFinalizedKept tp.queue.queue s.1.queue.queue) ?_ (qfk_trans q1 q2)
      exact qfk_trans q1 (qfk_trans q2 (tpAddSegmentToQueue_qfk g _ _ _))
    | BLEND_ARC_LINE =>
      dsimp only
      have hf := hfree (by rw [hty]; decide)
      have q2 : ∀ b : TC K, QueueFinalizedKept Q.queue (tcqSetLast Q b).queue := by
        intro b
        show QueueFinalizedKept Q.queue (Q.queue.dropLast ++ [b])
        exact qfk_dropLast_append _ _ hf
      refine ite_rec (fun s : TP K × TC K × TPErr =>
        QueueFinalizedKept tp.queue.queue s.1.queue.queue) ?_ (qfk_trans q1 (q2 _))
      exact qfk_trans q1 (qfk_trans (q2 _) (tpAddSegmentToQueue_qfk g
        ({ tp with queue := tcqSetLast Q _ } : TP K) _ _))

/-- The common tail of `tpAddLine`, `tpAddCircle` and `tpAddRigidTap`: finalize the slot
of the previous tail, queue the new segment, run the optimizer. -/
theorem add_tail_qfk (m : MathLib K) (c : TPConst K) (cfg : EmcmotConfig K) (g : ExtGeom K)
    (l : List (TC K)) (tp : TP K) (tc : TC K) (n : Int) (hs0 : 0 ≤ m.sqrt (1 / 2))
    (hs1 : m.sqrt (1 / 2) ≤ 1) (h : QueueFinalizedKept l tp.queue.queue) :
    QueueFinalizedKept l
      (tpRunOptimization m c cfg (tpAddSegmentToQueue g
        (match (tpFinalizeSegmentLength m (tcqItem tp.queue n)).1 with
         | some p => { tp with queue := tcqSetItem tp.queue n p }
         | none => tp) tc true).1).queue.queue := by
  have hfin : QueueFinalizedKept tp.queue.queue
      (match (tpFinalizeSegmentLength m (tcqItem tp.queue n)).1 with
       | some p => ({ tp with queue := tcqSetItem tp.queue n p } : TP K)
       | none => tp).queue.queue := by
    cases hi : tcqItem tp.queue n with
    | none => exact qfk_refl _
    | some a =>
      obtain ⟨b, hb, hk⟩ := tpFinalizeSegmentLength_kept m a hs0 hs1
      rw [hb]
      exact tcqSetItem_qfk tp.queue n a b hi (fun _ => hk)
  exact qfk_trans h (qfk_trans hfin (qfk_trans (tpAddSegmentToQueue_qfk g _ _ _)
    (tpRunOptimization_qfk m c cfg _)))

theorem tpClearDIOs_queue (cfg : EmcmotConfig K) (tp : TP K) :
    (if tp.syncdio.anychanged ≠ 0 then (tpClearDIOs cfg tp).1 else tp).queue = tp.queue :=
  ite_rec (fun r : TP K => r.queue = tp.queue) rfl rfl

/-- C21 (amended): let the blend-arc step of `tpAddLine` and `tpAddCircle` be
`tpHandleBlendArc`, and let `0 ≤ sqrt(1/2) ≤ 1`. For every queued segment whose `finalized`
flag is 1, a later `tpAddLine`, `tpAddCircle` or `tpAddRigidTap` call (with its tangent
setup, its blend arc, its finalisation of the previous tail and its optimizer pass)
leaves a segment in the same slot with the same `target`, still finalized, and with a
`maxvel` that is not raised (at most `max maxvel 0`); the `maxvel` itself may be
lowered. -/
theorem tpAdd_finalized_kept (m : MathLib K) (c : TPConst K) (cfg : EmcmotConfig K)
    (g : ExtGeom K) (x : BlendExt K) (st : EmcmotStatus K) (dbg : EmcmotDebug K) (tp : TP K)
    (end_ : EmcPose K) (center normal : PmCartesian K) (turn type : Int)
    (vel ini_maxvel acc : K) (enables atspeed indexrotary : Int)
    (hs0 : 0 ≤ m.sqrt (1 / 2)) (hs1 : m.sqrt (1 / 2) ≤ 1) :
    QueueFinalizedKept tp.queue.queue
      (tpAddLine m c cfg (g.withBlendArc m c cfg x st dbg) tp end_ type vel ini_maxvel acc
        enables atspeed indexrotary).1.queue.queue ∧
    QueueFinalizedKept tp.queue.queue
      (tpAddCircle m c cfg (g.withBlendArc m c cfg x st dbg) tp end_ center normal turn type
        vel ini_maxvel acc enables atspeed).1.queue.queue ∧
    QueueFinalizedKept tp.queue.queue
      (tpAddRigidTap m c cfg (g.withBlendArc m c cfg x st dbg) tp end_ vel ini_maxvel acc
        enables).1.queue.queue := by
  have hblend : ∀ (tpD : TP K) (tcN : TC K), tpD.queue = tp.queue →
      QueueFinalizedKept tp.queue.queue
        (if cfg.arcBlendEnable ≠ 0
          then (g.withBlendArc m c cfg x st dbg).tpHandleBlendArc tpD tcN
          else (tpD, tcN)).1.queue.queue := by
    intro tpD tcN hq
    rw [← hq]
    exact ite_rec (fun r : TP K × TC K => QueueFinalizedKept tpD.queue.queue r.1.queue.queue)
      (tpHandleBlendArc_qfk m c cfg g x st dbg tpD tcN) (qfk_refl _)
  refine ⟨?_, ?_, ?_⟩
  · unfold tpAddLine
    refine ite_rec (fun r : TP K × TPErr => QueueFinalizedKept tp.queue.queue r.1.queue.queue)
      (qfk_refl _) ?_
    dsimp only
    refine ite_rec (fun r : TP K × TPErr => QueueFinalizedKept tp.queue.queue r.1.queue.queue)
      (qfk_refl _) ?_
    exact add_tail_qfk m c cfg _ tp.queue.queue _ _ _ hs0 hs1
      (hblend _ _ (tpClearDIOs_queue cfg tp))
  · unfold tpAddCircle
    refine ite_rec (fun r : TP K × TPErr => QueueFinalizedKept tp.queue.queue r.1.queue.queue)
      (qfk_refl _) ?_
    dsimp only
    refine ite_rec (fun r : TP K × TPErr => QueueFinalizedKept tp.queue.queue r.1.queue.queue)
      (qfk_refl _) ?_
    exact add_tail_qfk m c cfg _ tp.queue.queue _ _ _ hs0 hs1
      (hblend _ _ (tpClearDIOs_queue cfg tp))
  · unfold tpAddRigidTap
    refine ite_rec (fun r : TP K × TPErr => QueueFinalizedKept tp.queue.queue r.1.queue.queue)
      (qfk_refl _) ?_
    dsimp only
    refine ite_rec (fun r : TP K × TPErr => QueueFinalizedKept tp.queue.queue r.1.queue.queue)
      (qfk_refl _) ?_
    refine add_tail_qfk m c cfg _ tp.queue.queue _ _ _ hs0 hs1 ?_
    rw [tpClearDIOs_queue cfg tp]
    exact qfk_refl _

theorem sqrt_hundred : Real.sqrt 100 = 10 := by
  rw [show (100 : ℝ) = 10 ^ 2 by norm_num, Real.sqrt_sq (by norm_num)]

theorem sqrt_half_lt_one : Real.sqrt (1 / 2) < 1 := by
  rw [Real.sqrt_lt' (by norm_num)]
  norm_num

/-- Counterexample to C21 as stated: the queue holds the circle `finalizedArc` with
`finalized = 1`, a parabolic blend and `maxvel = 100`. A later `tpAddLine` (blend arcs
disabled) finalizes the previous tail once more and leaves that segment with
`maxvel = 100 · sqrt(1/2) < 100`. -/
theorem tpAddLine_changes_finalized_maxvel :
    finalizedArcTP.queue.queue.map (fun t => (t.finalized, t.maxvel)) = [(1, 100)] ∧
    (tpAddLine realMath sampleConst {} sampleGeom finalizedArcTP { tran := ⟨11, 0, 0⟩ } 0 50
      100 100 0 0 (-1)).1.queue.queue.map (fun t => (t.finalized, t.maxvel))
      = [(1, 100 * Real.sqrt (1 / 2)), (0, 100)] ∧
    100 * Real.sqrt (1 / 2) < 100 := by
  refine ⟨rfl, ?_, by linarith [sqrt_half_lt_one]⟩
  norm_num [tpAddLine, tpErrorCheck, finalizedArcTP, emcPoseToPmCartesian, pmCartLineInit,
    realMath, sampleConst, fabs, sqrt_hundred, tpInitializeNewSegment, tcqLen, tcqItem,
    tcCheckLastParabolic, tpFinalizeSegmentLength, finalizedArc, threeQuarterArc,
    tcqSetItem, tpAddSegmentToQueue, tcqPut, tpRunOptimization, tpRunOptimizationLoop,
    TC_TERM_COND_PARABOLIC, TC_CIRCULAR, TC_LINEAR]

theorem tpAdd_finalized_kept_witness :
    QueueFinalizedKept finalizedArcTP.queue.queue
      (tpAddLine realMath sampleConst tangentCfg
        (sampleGeom.withBlendArc realMath sampleConst tangentCfg
          (sampleBlendExt realMath sampleConst) {} sampleDbg)
        finalizedArcTP { tran := ⟨11, 0, 0⟩ } 0 50 100 100 0 0 (-1)).1.queue.queue ∧
    QueueFinalizedKept finalizedArcTP.queue.queue
      (tpAddCircle realMath sampleConst tangentCfg
        (sampleGeom.withBlendArc realMath sampleConst tangentCfg
          (sampleBlendExt realMath sampleConst) {} sampleDbg)
        finalizedArcTP { tran := ⟨11, 0, 0⟩ } ⟨6, 0, 0⟩ ⟨0, 0, 1⟩ 0 0 50 100 100 0
        0).1.queue.queue ∧
    QueueFinalizedKept finalizedArcTP.queue.queue
      (tpAddRigidTap realMath sampleConst tangentCfg
        (sampleGeom.withBlendArc realMath sampleConst tangentCfg
          (sampleBlendExt realMath sampleConst) {} sampleDbg)
        finalizedArcTP { tran := ⟨11, 0, 0⟩ } 50 100 100 0).1.queue.queue :=
  tpAdd_finalized_kept realMath sampleConst tangentCfg sampleGeom
    (sampleBlendExt realMath sampleConst) {} sampleDbg finalizedArcTP { tran := ⟨11, 0, 0⟩ }
    ⟨6, 0, 0⟩ ⟨0, 0, 1⟩ 0 0 50 100 100 0 0 (-1) (Real.sqrt_nonneg _) sqrt_half_lt_one.le


/-! ### Scenario S2: two collinear lines with term condition `Tangent` -/

theorem tcqItem_two (q : TC_QUEUE_STRUCT K) (a b : TC K) (hq : q.queue = [a, b]) :
    tcqLen q = 2 ∧ tcqItem q 1 = some b ∧ tcqItem q 0 = some a ∧ tcqItem q (-1) = none := by
  unfold tcqLen tcqItem
  rw [hq]
  exact ⟨rfl, rfl, rfl, rfl⟩

/-- The optimizer leaves a two-segment queue alone while its tail is not finalized. -/
theorem tpRunOptimization_two_unfinalized (m : MathLib K) (c : TPConst K)
    (cfg : EmcmotConfig K) (tp : TP K) (a b : TC K) (hq : tp.queue.queue = [a, b])
    (hb : b.finalized = 0) : tpRunOptimization m c cfg tp = tp := by
  obtain ⟨hlen, h1, h0, hm⟩ := tcqItem_two tp.queue a b hq
  unfold tpRunOptimization
  rw [hlen]
  cases (cfg.arcBlendOptDepth + 1).toNat with
  | zero => rfl
  | succ n =>
    unfold tpRunOptimizationLoop
    refine ite_rec (fun r : TP K => r = tp) rfl ?_
    dsimp only
    rw [show (2 : Int) - 1 = 1 from rfl, show (1 : Int) - 1 = 0 from rfl, h1, h0]
    dsimp only
    rw [if_pos hb]
    cases n with
    | zero => rfl
    | succ k =>
      unfold tpRunOptimizationLoop
      refine ite_rec (fun r : TP K => r = tp) rfl ?_
      dsimp only
      rw [show (2 : Int) - (1 + 1) = 0 from rfl, show (0 : Int) - 1 = -1 from rfl, h0, hm]

/-- What `tpSetupTangent` keeps: the `finalvel` of the previous segment, a term condition
`Tangent` of the previous segment, and the `finalized` flag of the new segment. -/
theorem tpSetupTangent_frame (m : MathLib K) (c : TPConst K) (cfg : EmcmotConfig K)
    (x : BlendExt K) (dbg : EmcmotDebug K) (tp : TP K) (prev_tc tc : TC K) :
    (tpSetupTangent m c cfg x dbg tp prev_tc tc).1.finalvel = prev_tc.finalvel ∧
    (prev_tc.term_cond = TC_TERM_COND_TANGENT →
      (tpSetupTangent m c cfg x dbg tp prev_tc tc).1.term_cond = TC_TERM_COND_TANGENT) ∧
    (tpSetupTangent m c cfg x dbg tp prev_tc tc).2.1.finalized = tc.finalized := by
  unfold tpSetupTangent
  refine ite_rec (fun r : TC K × TC K × TPErr => r.1.finalvel = prev_tc.finalvel ∧
    (prev_tc.term_cond = TC_TERM_COND_TANGENT → r.1.term_cond = TC_TERM_COND_TANGENT) ∧
    r.2.1.finalized = tc.finalized) ⟨rfl, id, rfl⟩ ?_
  refine ite_rec (fun r : TC K × TC K × TPErr => r.1.finalvel = prev_tc.finalvel ∧
    (prev_tc.term_cond = TC_TERM_COND_TANGENT → r.1.term_cond = TC_TERM_COND_TANGENT) ∧
    r.2.1.finalized = tc.finalized) ⟨rfl, id, rfl⟩ ?_
  dsimp only
  exact ite_rec (fun r : TC K × TC K × TPErr => r.1.finalvel = prev_tc.finalvel ∧
    (prev_tc.term_cond = TC_TERM_COND_TANGENT → r.1.term_cond = TC_TERM_COND_TANGENT) ∧
    r.2.1.finalized = tc.finalized) ⟨rfl, fun _ => rfl, rfl⟩ ⟨rfl, id, rfl⟩

/-- On an empty queue the blend-arc step does nothing. -/
theorem tpHandleBlendArc_empty (m : MathLib K) (c : TPConst K) (cfg : EmcmotConfig K)
    (g : ExtGeom K) (x : BlendExt K) (st : EmcmotStatus K) (dbg : EmcmotDebug K) (tp : TP K)
    (tc : TC K) (hq : tp.queue.queue = []) :
    tpHandleBlendArc m c cfg g x st dbg tp tc = (tp, tc, TPErr.FAIL) := by
  unfold tpHandleBlendArc
  have hl : tcqLast tp.queue = none := by
    unfold tcqLast
    rw [hq]
    rfl
  rw [hl]

/-- On a queue that holds one segment ending tangent, the blend-arc step keeps one
segment with the same `finalvel`; it keeps the planner outside the queue contents and the
`finalized` flag of the new segment. -/
theorem tpHandleBlendArc_tangent_single (m : MathLib K) (c : TPConst K) (cfg : EmcmotConfig K)
    (g : ExtGeom K) (x : BlendExt K) (st : EmcmotStatus K) (dbg : EmcmotDebug K) (tp : TP K)
    (tc t : TC K) (hq : tp.queue.queue = [t]) (ht : t.term_cond = TC_TERM_COND_TANGENT) :
    (∃ t' : TC K, (tpHandleBlendArc m c cfg g x st dbg tp tc).1.queue.queue = [t'] ∧
      t'.finalvel = t.finalvel) ∧
    (tpHandleBlendArc m c cfg g x st dbg tp tc).2.1.finalized = tc.finalized ∧
    (tpHandleBlendArc m c cfg g x st dbg tp tc).1.queue.size = tp.queue.size := by
  have hl : tcqLast tp.queue = some t := by
    unfold tcqLast
    rw [hq]
    rfl
  unfold tpHandleBlendArc
  rw [hl]
  dsimp only
  refine ite_rec (fun r : TP K × TC K × TPErr =>
    (∃ t' : TC K, r.1.queue.queue = [t'] ∧ t'.finalvel = t.finalvel) ∧
    r.2.1.finalized = tc.finalized ∧ r.1.queue.size = tp.queue.size)
    ⟨⟨t, hq, rfl⟩, rfl, rfl⟩ ?_
  obtain ⟨f1, f2, f3⟩ := tpSetupTangent_frame m c cfg x dbg tp t tc
  generalize tpSetupTangent m c cfg x dbg tp t tc = T at f1 f2 f3 ⊢
  have hset : (tcqSetLast tp.queue T.1).queue = [T.1] := by
    show tp.queue.queue.dropLast ++ [T.1] = [T.1]
    rw [hq]
    rfl
  have good : (∃ t' : TC K, (tcqSetLast tp.queue T.1).queue = [t'] ∧
      t'.finalvel = t.finalvel) ∧
      T.2.1.finalized = tc.finalized ∧ (tcqSetLast tp.queue T.1).size = tp.queue.size :=
    ⟨⟨T.1, hset, f1⟩, f3, rfl⟩
  refine ite_rec (fun r : TP K × TC K × TPErr =>
    (∃ t' : TC K, r.1.queue.queue = [t'] ∧ t'.finalvel = t.finalvel) ∧
    r.2.1.finalized = tc.finalized ∧ r.1.queue.size = tp.queue.size) good ?_
  have hty : tpCheckBlendArcType m c (some T.1) T.2.1 = blend_type_t.BLEND_NONE := by
    unfold tpCheckBlendArcType
    dsimp only
    rw [if_pos]
    rw [f2 ht]
    decide
  rw [hty]
  exact good

/-- The tail of `tpAddLine` on an empty queue with room: the new segment is queued alone. -/
theorem add_tail_empty (m : MathLib K) (c : TPConst K) (cfg : EmcmotConfig K) (g : ExtGeom K)
    (tpB : TP K) (tcB : TC K) (n : Int) (hq : tpB.queue.queue = []) (hn : n = -1)
    (hroom : 1 ≤ tpB.queue.size) :
    (tpAddSegmentToQueue g
        (match (tpFinalizeSegmentLength m (tcqItem tpB.queue n)).1 with
         | some p => { tpB with queue := tcqSetItem tpB.queue n p }
         | none => tpB) (tcCheckLastParabolic tcB (tcqItem tpB.queue n)) true).2.2 = TPErr.OK ∧
    (tpRunOptimization m c cfg (tpAddSegmentToQueue g
        (match (tpFinalizeSegmentLength m (tcqItem tpB.queue n)).1 with
         | some p => { tpB with queue := tcqSetItem tpB.queue n p }
         | none => tpB) (tcCheckLastParabolic tcB (tcqItem tpB.queue n)) true).1).queue
      = { tpB.queue with queue := [{ tcB with id := tpB.nextId }] } ∧
    (tpRunOptimization m c cfg (tpAddSegmentToQueue g
        (match (tpFinalizeSegmentLength m (tcqItem tpB.queue n)).1 with
         | some p => { tpB with queue := tcqSetItem tpB.queue n p }
         | none => tpB) (tcCheckLastParabolic tcB (tcqItem tpB.queue n)) true).1).aborting
      = tpB.aborting := by
  have hi : tcqItem tpB.queue n = none := by
    rw [hn]
    rfl
  rw [hi]
  have hput : tcqPut tpB.queue { tcB with id := tpB.nextId }
      = ({ tpB.queue with queue := [{ tcB with id := tpB.nextId }] }, 0) := by
    have hcond : ¬ (tpB.queue.queue.length ≥ tpB.queue.size) := by
      rw [hq]
      simp
      omega
    unfold tcqPut
    rw [if_neg hcond, hq]
    rfl
  have hadd : tpAddSegmentToQueue g tpB tcB true
      = ({ tpB with queue := { tpB.queue with queue := [{ tcB with id := tpB.nextId }] },
                    nextId := tpB.nextId + 1,
                    goalPos := g.tcGetEndpoint { tcB with id := tpB.nextId },
                    done := 0,
                    depth := tcqLen { tpB.queue with queue := [{ tcB with id := tpB.nextId }] } },
          { tcB with id := tpB.nextId }, TPErr.OK) := by
    unfold tpAddSegmentToQueue
    dsimp only
    rw [hput]
    rfl
  show (tpAddSegmentToQueue g tpB tcB true).2.2 = TPErr.OK ∧
    (tpRunOptimization m c cfg (tpAddSegmentToQueue g tpB tcB true).1).queue = _ ∧
    (tpRunOptimization m c cfg (tpAddSegmentToQueue g tpB tcB true).1).aborting = _
  rw [hadd]
  rw [tpRunOptimization_short m c cfg _ (by show ([_] : List (TC K)).length ≤ 1; simp)]
  exact ⟨rfl, rfl, rfl⟩

/-- The tail of `tpAddLine` on a queue of one segment with room for a second: the old
segment is finalized with its `finalvel` kept, and the new segment, not finalized, follows
it; the optimizer changes neither. -/
theorem add_tail_single (m : MathLib K) (c : TPConst K) (cfg : EmcmotConfig K) (g : ExtGeom K)
    (tpB : TP K) (tcB t : TC K) (n : Int) (hq : tpB.queue.queue = [t]) (hn : n = 0)
    (hroom : 2 ≤ tpB.queue.size) (hfin : tcB.finalized = 0) :
    (tpAddSegmentToQueue g
        (match (tpFinalizeSegmentLength m (tcqItem tpB.queue n)).1 with
         | some p => { tpB with queue := tcqSetItem tpB.queue n p }
         | none => tpB) (tcCheckLastParabolic tcB (tcqItem tpB.queue n)) true).2.2 = TPErr.OK ∧
    ∃ a b : TC K,
      (tpRunOptimization m c cfg (tpAddSegmentToQueue g
        (match (tpFinalizeSegmentLength m (tcqItem tpB.queue n)).1 with
         | some p => { tpB with queue := tcqSetItem tpB.queue n p }
         | none => tpB) (tcCheckLastParabolic tcB (tcqItem tpB.queue n)) true).1).queue.queue
        = [a, b] ∧
      a.finalvel = t.finalvel ∧ a.finalized = 1 ∧ b.finalized = 0 := by
  have hi : tcqItem tpB.queue n = some t := by
    rw [hn]
    unfold tcqItem
    rw [hq]
    rfl
  rw [hi]
  have hfz : ∃ t2 : TC K, (tpFinalizeSegmentLength m (some t)).1 = some t2 ∧
      t2.finalvel = t.finalvel ∧ t2.finalized = 1 := by
    unfold tpFinalizeSegmentLength
    dsimp only
    exact ⟨_, rfl, ite_rec (fun r : TC K => r.finalvel = t.finalvel) rfl rfl, rfl⟩
  obtain ⟨t2, h2, hv2, hf2⟩ := hfz
  rw [h2]
  dsimp only
  have hset : (tcqSetItem tpB.queue n t2) = { tpB.queue with queue := [t2] } := by
    rw [hn]
    unfold tcqSetItem
    rw [if_neg (by decide), hq]
    rfl
  rw [hset]
  have hcf : (tcCheckLastParabolic tcB (some t)).finalized = 0 := by
    unfold tcCheckLastParabolic
    dsimp only
    have e : (if t.term_cond = TC_TERM_COND_PARABOLIC then { tcB with blend_prev := 1 }
        else tcB).finalized = tcB.finalized :=
      ite_rec (fun r : TC K => r.finalized = tcB.finalized) rfl rfl
    exact e.trans hfin
  generalize tcCheckLastParabolic tcB (some t) = tcC at hcf ⊢
  have hput : tcqPut { tpB.queue with queue := [t2] } { tcC with id := tpB.nextId }
      = ({ tpB.queue with queue := [t2, { tcC with id := tpB.nextId }] }, 0) := by
    have hcond : ¬ (([t2] : List (TC K)).length ≥ tpB.queue.size) := by
      simp
      omega
    unfold tcqPut
    dsimp only
    rw [if_neg hcond]
    rfl
  have hadd : ∃ tpA : TP K, tpAddSegmentToQueue g
        ({ tpB with queue := { tpB.queue with queue := [t2] } } : TP K) tcC true
        = (tpA, { tcC with id := tpB.nextId }, TPErr.OK) ∧
      tpA.queue.queue = [t2, { tcC with id := tpB.nextId }] := by
    unfold tpAddSegmentToQueue
    dsimp only
    rw [hput]
    exact ⟨_, rfl, rfl⟩
  obtain ⟨tpA, hA, hqA⟩ := hadd
  rw [hA]
  dsimp only
  rw [tpRunOptimization_two_unfinalized m c cfg tpA _ _ hqA hcf]
  exact ⟨rfl, t2, _, hqA, hv2, hf2, hcf⟩

/-- The first `tpAddLine` on an empty queue with room (blend-arc step `tpHandleBlendArc`):
it returns `Ok` and queues one segment with `finalvel = 0` and the planner's term
condition; capacity and the abort flag are kept. -/
theorem tpAddLine_on_empty (m : MathLib K) (c : TPConst K) (cfg : EmcmotConfig K)
    (g : ExtGeom K) (x : BlendExt K) (st : EmcmotStatus K) (dbg : EmcmotDebug K) (tp : TP K)
    (end_ : EmcPose K) (type : Int) (vel ini_maxvel acc : K)
    (enables atspeed indexrotary : Int)
    (hq : tp.queue.queue = []) (hroom : 1 ≤ tp.queue.size) (hab : tp.aborting = 0) :
    (tpAddLine m c cfg (g.withBlendArc m c cfg x st dbg) tp end_ type vel ini_maxvel acc
      enables atspeed indexrotary).2 = TPErr.OK ∧
    (tpAddLine m c cfg (g.withBlendArc m c cfg x st dbg) tp end_ type vel ini_maxvel acc
      enables atspeed indexrotary).1.aborting = 0 ∧
    (tpAddLine m c cfg (g.withBlendArc m c cfg x st dbg) tp end_ type vel ini_maxvel acc
      enables atspeed indexrotary).1.queue.size = tp.queue.size ∧
    ∃ t : TC K,
      (tpAddLine m c cfg (g.withBlendArc m c cfg x st dbg) tp end_ type vel ini_maxvel acc
        enables atspeed indexrotary).1.queue.queue = [t] ∧
      t.finalvel = 0 ∧ t.term_cond = tp.termCond := by
  unfold tpAddLine
  rw [if_neg (tpErrorCheck_ok tp hab)]
  dsimp only
  rw [if_neg (by
    rw [pmCartLineInit_snd, pmCartLineInit_snd, pmCartLineInit_snd]
    simp)]
  have hqD : (if tp.syncdio.anychanged ≠ 0 then (tpClearDIOs cfg tp).1 else tp).queue
      = tp.queue := tpClearDIOs_queue cfg tp
  have haD : (if tp.syncdio.anychanged ≠ 0 then (tpClearDIOs cfg tp).1 else tp).aborting
      = tp.aborting := ite_rec (fun r : TP K => r.aborting = tp.aborting) rfl rfl
  generalize (if tp.syncdio.anychanged ≠ 0 then (tpClearDIOs cfg tp).1 else tp) = tpD
    at hqD haD ⊢
  have key : ∀ blend : TP K × TC K, blend.1 = tpD → blend.2.finalvel = 0 →
      blend.2.term_cond = tp.termCond →
      (tpAddSegmentToQueue (g.withBlendArc m c cfg x st dbg)
          (match (tpFinalizeSegmentLength m (tcqItem blend.1.queue (tcqLen tpD.queue - 1))).1 with
           | some p => { blend.1 with queue := tcqSetItem blend.1.queue (tcqLen tpD.queue - 1) p }
           | none => blend.1)
          (tcCheckLastParabolic blend.2 (tcqItem blend.1.queue (tcqLen tpD.queue - 1)))
          true).2.2 = TPErr.OK ∧
      (tpRunOptimization m c cfg (tpAddSegmentToQueue (g.withBlendArc m c cfg x st dbg)
          (match (tpFinalizeSegmentLength m (tcqItem blend.1.queue (tcqLen tpD.queue - 1))).1 with
           | some p => { blend.1 with queue := tcqSetItem blend.1.queue (tcqLen tpD.queue - 1) p }
           | none => blend.1)
          (tcCheckLastParabolic blend.2 (tcqItem blend.1.queue (tcqLen tpD.queue - 1)))
          true).1).aborting = 0 ∧
      (tpRunOptimization m c cfg (tpAddSegmentToQueue (g.withBlendArc m c cfg x st dbg)
          (match (tpFinalizeSegmentLength m (tcqItem blend.1.queue (tcqLen tpD.queue - 1))).1 with
           | some p => { blend.1 with queue := tcqSetItem blend.1.queue (tcqLen tpD.queue - 1) p }
           | none => blend.1)
          (tcCheckLastParabolic blend.2 (tcqItem blend.1.queue (tcqLen tpD.queue - 1)))
          true).1).queue.size = tp.queue.size ∧
      ∃ t : TC K,
        (tpRunOptimization m c cfg (tpAddSegmentToQueue (g.withBlendArc m c cfg x st dbg)
          (match (tpFinalizeSegmentLength m (tcqItem blend.1.queue (tcqLen tpD.queue - 1))).1 with
           | some p => { blend.1 with queue := tcqSetItem blend.1.queue (tcqLen tpD.queue - 1) p }
           | none => blend.1)
          (tcCheckLastParabolic blend.2 (tcqItem blend.1.queue (tcqLen tpD.queue - 1)))
          true).1).queue.queue = [t] ∧
        t.finalvel = 0 ∧ t.term_cond = tp.termCond := by
    intro blend hb hv ht
    obtain ⟨b1, tcN⟩ := blend
    dsimp only at hb hv ht ⊢
    subst hb
    have hlen : tcqLen b1.queue - 1 = -1 := by
      unfold tcqLen
      rw [hqD, hq]
      rfl
    obtain ⟨h1, h2, h3⟩ := add_tail_empty m c cfg (g.withBlendArc m c cfg x st dbg) b1 tcN
      (tcqLen b1.queue - 1) (by rw [hqD]; exact hq) hlen (by rw [hqD]; exact hroom)
    refine ⟨h1, h3.trans (haD.trans hab), ?_, _, congrArg TC_QUEUE_STRUCT.queue h2, hv, ht⟩
    rw [h2]
    show b1.queue.size = tp.queue.size
    rw [hqD]
  have hb : ∀ tcN : TC K, (if cfg.arcBlendEnable ≠ 0
      then (g.withBlendArc m c cfg x st dbg).tpHandleBlendArc tpD tcN else (tpD, tcN))
      = (tpD, tcN) := by
    intro tcN
    refine ite_rec (fun r : TP K × TC K => r = (tpD, tcN)) ?_ rfl
    show ((tpHandleBlendArc m c cfg g x st dbg tpD tcN).1,
      (tpHandleBlendArc m c cfg g x st dbg tpD tcN).2.1) = (tpD, tcN)
    rw [tpHandleBlendArc_empty m c cfg g x st dbg tpD tcN (by rw [hqD]; exact hq)]
  refine key _ ?h1 ?h2 ?h3
  case h1 => rw [hb]
  case h2 =>
    rw [hb]
    rfl
  case h3 =>
    rw [hb]
    exact ite_rec (fun r : TC K => r.term_cond = tp.termCond) rfl rfl

/-- A second `tpAddLine` after a segment that ends tangent (blend-arc step
`tpHandleBlendArc`): it returns `Ok`; the queue then holds the first segment, finalized
and with its `finalvel` unchanged, and the new segment, which is not finalized. -/
theorem tpAddLine_after_tangent (m : MathLib K) (c : TPConst K) (cfg : EmcmotConfig K)
    (g : ExtGeom K) (x : BlendExt K) (st : EmcmotStatus K) (dbg : EmcmotDebug K) (tp : TP K)
    (end_ : EmcPose K) (type : Int) (vel ini_maxvel acc : K)
    (enables atspeed indexrotary : Int) (t : TC K)
    (hq : tp.queue.queue = [t]) (ht : t.term_cond = TC_TERM_COND_TANGENT)
    (hroom : 2 ≤ tp.queue.size) (hab : tp.aborting = 0) :
    (tpAddLine m c cfg (g.withBlendArc m c cfg x st dbg) tp end_ type vel ini_maxvel acc
      enables atspeed indexrotary).2 = TPErr.OK ∧
    ∃ a b : TC K,
      (tpAddLine m c cfg (g.withBlendArc m c cfg x st dbg) tp end_ type vel ini_maxvel acc
        enables atspeed indexrotary).1.queue.queue = [a, b] ∧
      a.finalvel = t.finalvel ∧ a.finalized = 1 ∧ b.finalized = 0 := by
  unfold tpAddLine
  rw [if_neg (tpErrorCheck_ok tp hab)]
  dsimp only
  rw [if_neg (by
    rw [pmCartLineInit_snd, pmCartLineInit_snd, pmCartLineInit_snd]
    simp)]
  have hqD : (if tp.syncdio.anychanged ≠ 0 then (tpClearDIOs cfg tp).1 else tp).queue
      = tp.queue := tpClearDIOs_queue cfg tp
  generalize (if tp.syncdio.anychanged ≠ 0 then (tpClearDIOs cfg tp).1 else tp) = tpD
    at hqD ⊢
  have key : ∀ blend : TP K × TC K,
      (∃ t' : TC K, blend.1.queue.queue = [t'] ∧ t'.finalvel = t.finalvel) →
      blend.2.finalized = 0 → blend.1.queue.size = tpD.queue.size →
      (tpAddSegmentToQueue (g.withBlendArc m c cfg x st dbg)
          (match (tpFinalizeSegmentLength m (tcqItem blend.1.queue (tcqLen tpD.queue - 1))).1 with
           | some p => { blend.1 with queue := tcqSetItem blend.1.queue (tcqLen tpD.queue - 1) p }
           | none => blend.1)
          (tcCheckLastParabolic blend.2 (tcqItem blend.1.queue (tcqLen tpD.queue - 1)))
          true).2.2 = TPErr.OK ∧
      ∃ a b : TC K,
        (tpRunOptimization m c cfg (tpAddSegmentToQueue (g.withBlendArc m c cfg x st dbg)
          (match (tpFinalizeSegmentLength m (tcqItem blend.1.queue (tcqLen tpD.queue - 1))).1 with
           | some p => { blend.1 with queue := tcqSetItem blend.1.queue (tcqLen tpD.queue - 1) p }
           | none => blend.1)
          (tcCheckLastParabolic blend.2 (tcqItem blend.1.queue (tcqLen tpD.queue - 1)))
          true).1).queue.queue = [a, b] ∧
        a.finalvel = t.finalvel ∧ a.finalized = 1 ∧ b.finalized = 0 := by
    intro blend hb hf' hs'
    obtain ⟨t', hq', hv'⟩ := hb
    have hlen : tcqLen tpD.queue - 1 = 0 := by
      unfold tcqLen
      rw [hqD, hq]
      rfl
    obtain ⟨h1, a, b, h2, h3, h4, h5⟩ := add_tail_single m c cfg
      (g.withBlendArc m c cfg x st dbg) blend.1 blend.2 t' (tcqLen tpD.queue - 1) hq' hlen
      (by rw [hs', hqD]; exact hroom) hf'
    exact ⟨h1, a, b, h2, h3.trans hv', h4, h5⟩
  have hb : ∀ tcN : TC K,
      (∃ t' : TC K, (if cfg.arcBlendEnable ≠ 0
          then (g.withBlendArc m c cfg x st dbg).tpHandleBlendArc tpD tcN
          else (tpD, tcN)).1.queue.queue = [t'] ∧ t'.finalvel = t.finalvel) ∧
      (if cfg.arcBlendEnable ≠ 0
          then (g.withBlendArc m c cfg x st dbg).tpHandleBlendArc tpD tcN
          else (tpD, tcN)).2.finalized = tcN.finalized ∧
      (if cfg.arcBlendEnable ≠ 0
          then (g.withBlendArc m c cfg x st dbg).tpHandleBlendArc tpD tcN
          else (tpD, tcN)).1.queue.size = tpD.queue.size := by
    intro tcN
    refine ite_rec (fun r : TP K × TC K =>
      (∃ t' : TC K, r.1.queue.queue = [t'] ∧ t'.finalvel = t.finalvel) ∧
      r.2.finalized = tcN.finalized ∧ r.1.queue.size = tpD.queue.size) ?_
      ⟨⟨t, by rw [hqD]; exact hq, rfl⟩, rfl, rfl⟩
    exact tpHandleBlendArc_tangent_single m c cfg g x st dbg tpD tcN t
      (by rw [hqD]; exact hq) ht
  refine key _ ?h1 ?h2 ?h3
  case h1 => exact (hb _).1
  case h2 => exact (hb _).2.1.trans rfl
  case h3 => exact (hb _).2.2

/-- C24 (amended): on a planner that is not aborting, with an empty queue with room for
two segments and term condition `Tangent` set, two `tpAddLine` calls (blend-arc step
`tpHandleBlendArc`, any end points, speeds and configuration) both return `Ok` and leave
two segments queued: the first is finalized and its `finalvel` is still 0, the second is
not finalized. The optimizer has not set the `finalvel` of the first segment, because it
skips a pair whose second segment is not finalized. -/
theorem tpAddLine_twice_finalvel_zero (m : MathLib K) (c : TPConst K) (cfg : EmcmotConfig K)
    (g : ExtGeom K) (x : BlendExt K) (st : EmcmotStatus K) (dbg : EmcmotDebug K) (tp : TP K)
    (end1 end2 : EmcPose K) (type : Int) (vel ini_maxvel acc : K)
    (enables atspeed indexrotary : Int)
    (hq : tp.queue.queue = []) (hroom : 2 ≤ tp.queue.size) (hab : tp.aborting = 0)
    (hterm : tp.termCond = TC_TERM_COND_TANGENT) :
    (tpAddLine m c cfg (g.withBlendArc m c cfg x st dbg) tp end1 type vel ini_maxvel acc
      enables atspeed indexrotary).2 = TPErr.OK ∧
    (tpAddLine m c cfg (g.withBlendArc m c cfg x st dbg)
      (tpAddLine m c cfg (g.withBlendArc m c cfg x st dbg) tp end1 type vel ini_maxvel acc
        enables atspeed indexrotary).1
      end2 type vel ini_maxvel acc enables atspeed indexrotary).2 = TPErr.OK ∧
    ∃ a b : TC K,
      (tpAddLine m c cfg (g.withBlendArc m c cfg x st dbg)
        (tpAddLine m c cfg (g.withBlendArc m c cfg x st dbg) tp end1 type vel ini_maxvel acc
          enables atspeed indexrotary).1
        end2 type vel ini_maxvel acc enables atspeed indexrotary).1.queue.queue = [a, b] ∧
      a.finalvel = 0 ∧ a.finalized = 1 ∧ b.finalized = 0 := by
  obtain ⟨h1, h2, h3, t, h4, h5, h6⟩ := tpAddLine_on_empty m c cfg g x st dbg tp end1 type vel
    ini_maxvel acc enables atspeed indexrotary hq (by omega) hab
  obtain ⟨k1, a, b, k2, k3, k4, k5⟩ := tpAddLine_after_tangent m c cfg g x st dbg
    (tpAddLine m c cfg (g.withBlendArc m c cfg x st dbg) tp end1 type vel ini_maxvel acc
      enables atspeed indexrotary).1 end2 type vel ini_maxvel acc enables atspeed indexrotary
    t h4 (h6.trans hterm) (by rw [h3]; exact hroom) h2
  exact ⟨h1, k1, a, b, k2, k3.trans h5, k4, k5⟩

/-- The planner of scenario S2 before its first `tpAddLine`, field by field. -/
theorem s2TP_eq :
    (s2TP : TP ℝ) =
      { queue := { queue := [], size := 32 }, queueSize := 0, cycleTime := 1 / 1000,
        vMax := 50, ini_maxvel := 100, aMax := 100, termCond := TC_TERM_COND_TANGENT,
        spindle := { waiting_for_index := -1, waiting_for_atspeed := -1 } } := by
  norm_num [s2TP, tpSetTermCond, tpSetVmax, tpSetAmax, tpSetCycleTime, tpSetPos, tpInit,
    tpClear, tpClearDIOs, tcqInit, createdTP, tpGetMachineAccelLimit, tpGetMachineVelLimit,
    sampleDbg, sampleConst, tangentCfg, fmin, TC_TERM_COND_TANGENT, TC_TERM_COND_PARABOLIC,
    TC_TERM_COND_STOP]

/-- Counterexample to C24 as stated: in scenario S2 (cycle time 0.001, term condition
`Tangent`, two collinear lines of length 10 with feed 50, `maxvel` 100 and acceleration
100, tangent detection enabled) the two `tpAddLine` calls leave two segments queued, and
the `finalvel` of the first is 0, not 50. -/
theorem s2_first_finalvel_zero :
    ∃ a b : TC ℝ,
      (tpAddLine realMath sampleConst tangentCfg
        (sampleGeom.withBlendArc realMath sampleConst tangentCfg
          (sampleBlendExt realMath sampleConst) {} sampleDbg)
        (tpAddLine realMath sampleConst tangentCfg
          (sampleGeom.withBlendArc realMath sampleConst tangentCfg
            (sampleBlendExt realMath sampleConst) {} sampleDbg)
          s2TP { tran := ⟨10, 0, 0⟩ } 0 50 100 100 0 0 (-1)).1
        { tran := ⟨20, 0, 0⟩ } 0 50 100 100 0 0 (-1)).1.queue.queue = [a, b] ∧
      a.finalvel = 0 ∧ a.finalvel ≠ 50 := by
  have hq : (s2TP : TP ℝ).queue.queue = [] := by rw [s2TP_eq]
  have hs : (s2TP : TP ℝ).queue.size = 32 := by rw [s2TP_eq]
  have ha : (s2TP : TP ℝ).aborting = 0 := by rw [s2TP_eq]
  have ht : (s2TP : TP ℝ).termCond = TC_TERM_COND_TANGENT := by rw [s2TP_eq]
  obtain ⟨_, h2, h3, t, h4, h5, h6⟩ := tpAddLine_on_empty realMath sampleConst tangentCfg
    sampleGeom (sampleBlendExt realMath sampleConst) {} sampleDbg s2TP { tran := ⟨10, 0, 0⟩ }
    0 50 100 100 0 0 (-1) hq (by rw [hs]; norm_num) ha
  obtain ⟨_, a, b, k2, k3, _, _⟩ := tpAddLine_after_tangent realMath sampleConst tangentCfg
    sampleGeom (sampleBlendExt realMath sampleConst) {} sampleDbg
    (tpAddLine realMath sampleConst tangentCfg
      (sampleGeom.withBlendArc realMath sampleConst tangentCfg
        (sampleBlendExt realMath sampleConst) {} sampleDbg)
      s2TP { tran := ⟨10, 0, 0⟩ } 0 50 100 100 0 0 (-1)).1
    { tran := ⟨20, 0, 0⟩ } 0 50 100 100 0 0 (-1) t h4 (h6.trans ht)
    (by rw [h3, hs]; norm_num) h2
  refine ⟨a, b, k2, k3.trans h5, ?_⟩
  rw [k3, h5]
  norm_num

theorem tpAddLine_twice_finalvel_zero_witness :
    ∃ a b : TC ℝ,
      (tpAddLine realMath sampleConst tangentCfg
        (sampleGeom.withBlendArc realMath sampleConst tangentCfg
          (sampleBlendExt realMath sampleConst) {} sampleDbg)
        (tpAddLine realMath sampleConst tangentCfg
          (sampleGeom.withBlendArc realMath sampleConst tangentCfg
            (sampleBlendExt realMath sampleConst) {} sampleDbg)
          s2TP { tran := ⟨10, 0, 0⟩ } 0 50 100 100 0 0 (-1)).1
        { tran := ⟨20, 0, 0⟩ } 0 50 100 100 0 0 (-1)).1.queue.queue = [a, b] ∧
      a.finalvel = 0 ∧ a.finalized = 1 ∧ b.finalized = 0 :=
  (tpAddLine_twice_finalvel_zero realMath sampleConst tangentCfg sampleGeom
    (sampleBlendExt realMath sampleConst) {} sampleDbg s2TP { tran := ⟨10, 0, 0⟩ }
    { tran := ⟨20, 0, 0⟩ } 0 50 100 100 0 0 (-1) (by rw [s2TP_eq])
    (by rw [s2TP_eq]; norm_num) (by rw [s2TP_eq]) (by rw [s2TP_eq])).2.2

/-! ### How much of each line a blend arc removes -/

/-- The distance `R_plan / tan θ` removed from each line is at most the geometric bound
`min(min(L1, L2), d_tol)` when the planned radius is at most `tan θ` times that bound. -/
theorem blend_d_plan_le (t R d : K) (ht : 0 < t) (hR : R ≤ t * d) : R / t ≤ d := by
  rw [div_le_iff₀ ht]
  linarith [mul_comm t d]

/-- A planned speed `min(sqrt(a R), v)` with `v ≥ 0` gives a radius `v_plan² / a` of at
most `max R 0`. -/
theorem blend_R_plan_le_max (m : MathLib K) (hm : SqrtExact m) (a R v : K) (ha : 0 < a)
    (hv : 0 ≤ v) : pmSq (fmin (m.sqrt (a * R)) v) / a ≤ max R 0 := by
  rcases le_total 0 R with hR | hR
  · exact le_trans (blend_R_plan_le m hm a R _ ha hR (fmin_nonneg _ _ (hm.nonneg _) hv)
      (fmin_le_left _ _)).2 (le_max_left _ _)
  · have h0 : m.sqrt (a * R) = 0 := hm.of_nonpos _ (mul_nonpos_of_nonneg_of_nonpos ha.le hR)
    have hf : fmin (m.sqrt (a * R)) v = 0 := by
      rw [h0]
      exact le_antisymm (fmin_le_left _ _) (fmin_nonneg _ _ (le_refl _) hv)
    rw [hf]
    unfold pmSq
    rw [mul_zero, zero_div]
    exact le_max_right _ _

/-- The planned distance of `blendComputeParameters` is within `max (min L1 L2) 0`. -/
theorem blendComputeParameters_d_plan_le (m : MathLib K) (c : TPConst K)
    (param : BlendParameters K) (hm : SqrtExact m) (ht : TrigAt m param.theta)
    (ha : 0 < param.a_n_max) (hv : 0 ≤ param.v_goal) :
    (blendComputeParameters m c param).1.d_plan ≤ max (fmin param.L1 param.L2) 0 := by
  have htan : 0 < m.tan param.theta := by
    rw [ht.tan_eq]
    exact div_pos ht.sin_pos ht.cos_pos
  have hd : (blendComputeParameters m c param).1.d_plan
      = (blendComputeParameters m c param).1.R_plan / m.tan param.theta := by
    unfold blendComputeParameters
    dsimp only
    split_ifs <;> rfl
  rw [hd, blendComputeParameters_R_plan]
  generalize hdg : fmin (fmin param.L1 param.L2)
    (m.cos param.theta * (param.tolerance / (1 - m.sin param.theta))) = d_geom
  have hdl : d_geom ≤ fmin param.L1 param.L2 := hdg ▸ fmin_le_left _ _
  have hR := blend_R_plan_le_max m hm param.a_n_max (m.tan param.theta * d_geom) param.v_goal
    ha hv
  rw [div_le_iff₀ htan]
  refine le_trans hR ?_
  rcases le_total 0 d_geom with h | h
  · rw [max_eq_left (mul_nonneg htan.le h)]
    calc m.tan param.theta * d_geom ≤ m.tan param.theta * max (fmin param.L1 param.L2) 0 :=
          mul_le_mul_of_nonneg_left (le_trans hdl (le_max_left _ _)) htan.le
      _ = max (fmin param.L1 param.L2) 0 * m.tan param.theta := mul_comm _ _
  · rw [max_eq_right (mul_nonpos_of_nonneg_of_nonpos htan.le h)]
    exact mul_nonneg (le_max_right _ _) htan.le

/-- The planned distance of `tpCreateLineLineBlend` is within `max (min L1 L2) 0`. -/
theorem tpCreateLineLineBlend_d_plan_le (m : MathLib K) (c : TPConst K) (cfg : EmcmotConfig K)
    (st : EmcmotStatus K) (tp : TP K) (theta a_max v_max theta_acc : K) (prev_tc tc : TC K)
    (hm : SqrtExact m) (ht : TrigAt m theta)
    (ha : 0 < (tpCreateLineLineBlend m c cfg st tp theta a_max v_max theta_acc prev_tc tc).a_n_max)
    (hv : 0 ≤ (tpCreateLineLineBlend m c cfg st tp theta a_max v_max theta_acc prev_tc tc).v_goal) :
    (tpCreateLineLineBlend m c cfg st tp theta a_max v_max theta_acc prev_tc tc).d_plan
      ≤ max (fmin
          (tpCreateLineLineBlend m c cfg st tp theta a_max v_max theta_acc prev_tc tc).L1
          (tpCreateLineLineBlend m c cfg st tp theta a_max v_max theta_acc prev_tc tc).L2) 0 := by
  have htan : 0 < m.tan theta := by
    rw [ht.tan_eq]
    exact div_pos ht.sin_pos ht.cos_pos
  have hd : (tpCreateLineLineBlend m c cfg st tp theta a_max v_max theta_acc prev_tc tc).d_plan
      = (tpCreateLineLineBlend m c cfg st tp theta a_max v_max theta_acc prev_tc tc).R_plan
        / m.tan theta := rfl
  rw [hd, tpCreateLineLineBlend_R_plan]
  set r := tpCreateLineLineBlend m c cfg st tp theta a_max v_max theta_acc prev_tc tc with hr
  have hRg := tpCreateLineLineBlend_R_geom m c cfg st tp theta a_max v_max theta_acc prev_tc tc
  rw [← hr] at hRg
  generalize hdg : fmin (fmin r.L1 r.L2) (m.cos theta * (r.tolerance / (1 - m.sin theta)))
    = d_geom at hRg
  have hdl : d_geom ≤ fmin r.L1 r.L2 := hdg ▸ fmin_le_left _ _
  have hgeom : r.R_geom ≤ max (fmin r.L1 r.L2) 0 * m.tan theta := by
    rw [hRg]
    rcases le_total 0 d_geom with h | h
    · calc m.tan theta * d_geom ≤ m.tan theta * max (fmin r.L1 r.L2) 0 :=
            mul_le_mul_of_nonneg_left (le_trans hdl (le_max_left _ _)) htan.le
        _ = max (fmin r.L1 r.L2) 0 * m.tan theta := mul_comm _ _
    · exact le_trans (mul_nonpos_of_nonneg_of_nonpos htan.le h)
        (mul_nonneg (le_max_right _ _) htan.le)
  rw [div_le_iff₀ htan]
  split_ifs with hgt
  · have hpos : 0 ≤ r.R_geom := by
      by_contra hneg
      have h0 : m.sqrt (r.a_n_max * r.R_geom) = 0 :=
        hm.of_nonpos _ (mul_nonpos_of_nonneg_of_nonpos ha.le (not_le.mp hneg).le)
      rw [h0] at hgt
      exact absurd hv (not_le.mpr hgt)
    exact le_trans (blend_R_plan_le m hm r.a_n_max r.R_geom r.v_goal ha hpos hv hgt.le).2 hgeom
  · exact hgeom

/-- C29 (amended): for a line-line blend with `θ ∈ (0, π/2)`, `a_n_max > 0`, `v_goal ≥ 0`
and segments of non-negative `target` and `nominal_length`, the distance `d_plan` removed
from each neighbour satisfies `d_plan ≤ prev.target`, `d_plan ≤ g * prev.nominal_length`
and `d_plan ≤ g * new.target`, where `g = 1/2` in `blendInit3` followed by
`blendComputeParameters`, and `g = min(arcBlendGreediness, 1)` in
`tpCreateLineLineBlend` (for a non-negative configured greediness). -/
theorem blend_d_plan_bounds (c : TPConst ℝ) (cfg : EmcmotConfig ℝ) (st : EmcmotStatus ℝ)
    (tp : TP ℝ) (geom : BlendGeom3 ℝ) (param : BlendParameters ℝ)
    (acc_bound vel_bound : PmCartesian ℝ) (maxFeedScale theta a_max v_max theta_acc : ℝ)
    (prev_tc tc : TC ℝ)
    (hT : 0 ≤ prev_tc.target) (hN : 0 ≤ prev_tc.nominal_length) (hL : 0 ≤ tc.target) :
    (0 < (blendInit3 realMath c geom param prev_tc tc acc_bound vel_bound maxFeedScale).2.1.theta →
      (blendInit3 realMath c geom param prev_tc tc acc_bound vel_bound maxFeedScale).2.1.theta
        < Real.pi / 2 →
      0 < (blendInit3 realMath c geom param prev_tc tc acc_bound vel_bound
        maxFeedScale).2.1.a_n_max →
      0 ≤ (blendInit3 realMath c geom param prev_tc tc acc_bound vel_bound
        maxFeedScale).2.1.v_goal →
      (blendComputeParameters realMath c (blendInit3 realMath c geom param prev_tc tc acc_bound
          vel_bound maxFeedScale).2.1).1.d_plan ≤ prev_tc.target ∧
      (blendComputeParameters realMath c (blendInit3 realMath c geom param prev_tc tc acc_bound
          vel_bound maxFeedScale).2.1).1.d_plan ≤ 1 / 2 * prev_tc.nominal_length ∧
      (blendComputeParameters realMath c (blendInit3 realMath c geom param prev_tc tc acc_bound
          vel_bound maxFeedScale).2.1).1.d_plan ≤ 1 / 2 * tc.target) ∧
    (0 < theta → theta < Real.pi / 2 → 0 ≤ cfg.arcBlendGreediness →
      0 < (tpCreateLineLineBlend realMath c cfg st tp theta a_max v_max theta_acc prev_tc
        tc).a_n_max →
      0 ≤ (tpCreateLineLineBlend realMath c cfg st tp theta a_max v_max theta_acc prev_tc
        tc).v_goal →
      (tpCreateLineLineBlend realMath c cfg st tp theta a_max v_max theta_acc prev_tc
          tc).d_plan ≤ prev_tc.target ∧
      (tpCreateLineLineBlend realMath c cfg st tp theta a_max v_max theta_acc prev_tc
          tc).d_plan ≤ min cfg.arcBlendGreediness 1 * prev_tc.nominal_length ∧
      (tpCreateLineLineBlend realMath c cfg st tp theta a_max v_max theta_acc prev_tc
          tc).d_plan ≤ min cfg.arcBlendGreediness 1 * tc.target) := by
  have hmin : ∀ a b : ℝ, fmin a b = min a b := by
    intro a b
    unfold fmin
    by_cases h : a < b
    · rw [if_pos h, min_eq_left h.le]
    · rw [if_neg h, min_eq_right (not_lt.mp h)]
  constructor
  · intro h0 h1 ha hv
    have ht := realMath_trigAt _ h0 h1
    have hd := blendComputeParameters_d_plan_le realMath c _ realMath_sqrtExact ht ha hv
    have hL1 : (blendInit3 realMath c geom param prev_tc tc acc_bound vel_bound
        maxFeedScale).2.1.L1 = fmin prev_tc.target (prev_tc.nominal_length * (1 / 2)) := rfl
    have hL2 : (blendInit3 realMath c geom param prev_tc tc acc_bound vel_bound
        maxFeedScale).2.1.L2 = tc.target * (1 / 2) := rfl
    rw [hL1, hL2, hmin, hmin] at hd
    generalize (blendComputeParameters realMath c (blendInit3 realMath c geom param prev_tc tc
      acc_bound vel_bound maxFeedScale).2.1).1.d_plan = d at hd ⊢
    have hb : max (min (min prev_tc.target (prev_tc.nominal_length * (1 / 2)))
        (tc.target * (1 / 2))) 0 = min (min prev_tc.target (prev_tc.nominal_length * (1 / 2)))
        (tc.target * (1 / 2)) :=
      max_eq_left (le_min (le_min hT (by positivity)) (by positivity))
    rw [hb] at hd
    refine ⟨?_, ?_, ?_⟩
    · exact le_trans hd (le_trans (min_le_left _ _) (min_le_left _ _))
    · exact le_trans hd (le_trans (min_le_left _ _) (le_trans (min_le_right _ _)
        (le_of_eq (mul_comm _ _))))
    · exact le_trans hd (le_trans (min_le_right _ _) (le_of_eq (mul_comm _ _)))
  · intro h0 h1 hg ha hv
    have ht := realMath_trigAt _ h0 h1
    have hd := tpCreateLineLineBlend_d_plan_le realMath c cfg st tp theta a_max v_max theta_acc
      prev_tc tc realMath_sqrtExact ht ha hv
    have hL1 : (tpCreateLineLineBlend realMath c cfg st tp theta a_max v_max theta_acc prev_tc
        tc).L1 = fmin prev_tc.target (prev_tc.nominal_length * fmin cfg.arcBlendGreediness 1) :=
      rfl
    have hL2 : (tpCreateLineLineBlend realMath c cfg st tp theta a_max v_max theta_acc prev_tc
        tc).L2 = tc.target * fmin cfg.arcBlendGreediness 1 := rfl
    rw [hL1, hL2, hmin, hmin, hmin] at hd
    generalize (tpCreateLineLineBlend realMath c cfg st tp theta a_max v_max theta_acc prev_tc
      tc).d_plan = d at hd ⊢
    have hg0 : 0 ≤ min cfg.arcBlendGreediness 1 := le_min hg (by norm_num)
    have hb : max (min (min prev_tc.target (prev_tc.nominal_length *
        min cfg.arcBlendGreediness 1)) (tc.target * min cfg.arcBlendGreediness 1)) 0
        = min (min prev_tc.target (prev_tc.nominal_length * min cfg.arcBlendGreediness 1))
        (tc.target * min cfg.arcBlendGreediness 1) :=
      max_eq_left (le_min (le_min hT (mul_nonneg hN hg0)) (mul_nonneg hL hg0))
    rw [hb] at hd
    refine ⟨?_, ?_, ?_⟩
    · exact le_trans hd (le_trans (min_le_left _ _) (min_le_left _ _))
    · exact le_trans hd (le_trans (min_le_left _ _) (le_trans (min_le_right _ _)
        (le_of_eq (mul_comm _ _))))
    · exact le_trans hd (le_trans (min_le_right _ _) (le_of_eq (mul_comm _ _)))
theorem steepTheta_pos : 0 < steepTheta := Real.arcsin_pos.mpr (by norm_num)

theorem steepTheta_lt : steepTheta < Real.pi / 2 := Real.arcsin_lt_pi_div_two.mpr (by norm_num)

theorem sin_steepTheta : Real.sin steepTheta = 4 / 5 :=
  Real.sin_arcsin (by norm_num) (by norm_num)

theorem cos_steepTheta : Real.cos steepTheta = 3 / 5 := by
  unfold steepTheta
  rw [Real.cos_arcsin]
  have h : (1 - (4 / 5 : ℝ) ^ 2) = (3 / 5) ^ 2 := by norm_num
  rw [h, Real.sqrt_sq (by norm_num)]

theorem tan_steepTheta : Real.tan steepTheta = 4 / 3 := by
  rw [Real.tan_eq_sin_div_cos, sin_steepTheta, cos_steepTheta]
  norm_num

/-- The parameters `blendInit3` computes for the right-angle corner `cornerLine`,
`arcExitLine` in the XY plane: half-angle π/4, and the slow Z axis does not enter the
limits. -/
theorem blendInit3_corner :
    (blendInit3 realMath sampleConst {} {} cornerLine arcExitLine ⟨100, 200, 50⟩
      ⟨80, 60, 10⟩ 1).2.1.theta = Real.pi / 4 ∧
    (blendInit3 realMath sampleConst {} {} cornerLine arcExitLine ⟨100, 200, 50⟩
      ⟨80, 60, 10⟩ 1).2.1.a_n_max = 50 ∧
    (blendInit3 realMath sampleConst {} {} cornerLine arcExitLine ⟨100, 200, 50⟩
      ⟨80, 60, 10⟩ 1).2.1.v_goal = 50 := by
  refine ⟨?_, ?_, ?_⟩
  · exact arccos_zero_half
  · show calculateInscribedDiameter realMath _ _ * sampleConst.TP_ACC_RATIO_NORMAL = 50
    norm_num [calculateInscribedDiameter, tpGetPlanarLimit, blendCalculateNormals3,
      pmCartUnit, pmCartMag, pmCartCartCross, pmCartCartSub, pmCartScalMult, pmCartAbs,
      pmCartCartDiv, pmCartMin, fmin, fabs, pmSq, realMath, sampleConst, cornerLine,
      arcExitLine, Coords.asLine]
  · show fmin (fmin cornerLine.reqvel arcExitLine.reqvel * 1)
      (calculateInscribedDiameter realMath _ _) = 50
    norm_num [calculateInscribedDiameter, tpGetPlanarLimit, blendCalculateNormals3,
      pmCartUnit, pmCartMag, pmCartCartCross, pmCartCartSub, pmCartScalMult, pmCartAbs,
      pmCartCartDiv, pmCartMin, fmin, fabs, pmSq, realMath, sampleConst, cornerLine,
      arcExitLine, Coords.asLine]

/-- Witness for C29 (amended): the right-angle corner `cornerLine`, `arcExitLine` through
`blendInit3`, and two `blendSeg` lines at `blendTheta` with greediness 1/2 through
`tpCreateLineLineBlend`. -/
theorem blend_d_plan_bounds_witness :
    ((blendComputeParameters realMath sampleConst (blendInit3 realMath sampleConst {} {}
        cornerLine arcExitLine ⟨100, 200, 50⟩ ⟨80, 60, 10⟩ 1).2.1).1.d_plan
        ≤ (cornerLine : TC ℝ).target ∧
      (blendComputeParameters realMath sampleConst (blendInit3 realMath sampleConst {} {}
        cornerLine arcExitLine ⟨100, 200, 50⟩ ⟨80, 60, 10⟩ 1).2.1).1.d_plan
        ≤ 1 / 2 * (cornerLine : TC ℝ).nominal_length ∧
      (blendComputeParameters realMath sampleConst (blendInit3 realMath sampleConst {} {}
        cornerLine arcExitLine ⟨100, 200, 50⟩ ⟨80, 60, 10⟩ 1).2.1).1.d_plan
        ≤ 1 / 2 * (arcExitLine : TC ℝ).target) ∧
    ((tpCreateLineLineBlend realMath sampleConst blendCfg {} {} blendTheta 200 150 blendTheta
        cornerLine arcExitLine).d_plan ≤ (cornerLine : TC ℝ).target ∧
      (tpCreateLineLineBlend realMath sampleConst blendCfg {} {} blendTheta 200 150 blendTheta
        cornerLine arcExitLine).d_plan
        ≤ min (blendCfg : EmcmotConfig ℝ).arcBlendGreediness 1
          * (cornerLine : TC ℝ).nominal_length ∧
      (tpCreateLineLineBlend realMath sampleConst blendCfg {} {} blendTheta 200 150 blendTheta
        cornerLine arcExitLine).d_plan
        ≤ min (blendCfg : EmcmotConfig ℝ).arcBlendGreediness 1 * (arcExitLine : TC ℝ).target) :=
  have h := blend_d_plan_bounds sampleConst blendCfg {} {} {} {} ⟨100, 200, 50⟩ ⟨80, 60, 10⟩ 1
    blendTheta 200 150 blendTheta cornerLine arcExitLine (by norm_num [cornerLine])
    (by norm_num [cornerLine]) (by norm_num [arcExitLine])
  ⟨h.1 (by rw [blendInit3_corner.1]; exact div_pos Real.pi_pos (by norm_num))
      (by rw [blendInit3_corner.1]; linarith [Real.pi_pos])
      (by rw [blendInit3_corner.2.1]; norm_num)
      (by rw [blendInit3_corner.2.2]; norm_num),
   h.2 blendTheta_pos blendTheta_lt (by norm_num [blendCfg])
      (by norm_num [tpCreateLineLineBlend, sampleConst])
      (by norm_num [tpCreateLineLineBlend, cornerLine, arcExitLine, blendCfg, fmin])⟩

/-- Counterexample to C29 as stated: with `arcBlendGreediness = 1`, two lines of length 1
meeting at `steepTheta` (in `(0, π/2)`, `a_n_max = 100 > 0`, `v_goal = 100 ≥ 0`) give
`d_plan = 3/4` in `tpCreateLineLineBlend`, more than half of the new line's length 1. -/
theorem tpCreateLineLineBlend_greedy_d_plan :
    0 < steepTheta ∧ steepTheta < Real.pi / 2 ∧
    (tpCreateLineLineBlend realMath sampleConst greedyCfg {} {} steepTheta 200 150 steepTheta
      unitSeg unitSeg).a_n_max = 100 ∧
    (tpCreateLineLineBlend realMath sampleConst greedyCfg {} {} steepTheta 200 150 steepTheta
      unitSeg unitSeg).v_goal = 100 ∧
    (tpCreateLineLineBlend realMath sampleConst greedyCfg {} {} steepTheta 200 150 steepTheta
      unitSeg unitSeg).d_plan = 3 / 4 ∧
    ¬ ((tpCreateLineLineBlend realMath sampleConst greedyCfg {} {} steepTheta 200 150 steepTheta
      unitSeg unitSeg).d_plan ≤ 1 / 2 * (unitSeg : TC ℝ).target) := by
  have hd : (tpCreateLineLineBlend realMath sampleConst greedyCfg {} {} steepTheta 200 150
      steepTheta unitSeg unitSeg).d_plan = 3 / 4 := by
    have hR : (tpCreateLineLineBlend realMath sampleConst greedyCfg {} {} steepTheta 200 150
        steepTheta unitSeg unitSeg).R_geom = 1 := by
      rw [tpCreateLineLineBlend_R_geom]
      show Real.tan steepTheta * fmin _ (Real.cos steepTheta * (_ / (1 - Real.sin steepTheta)))
        = 1
      rw [tan_steepTheta, cos_steepTheta, sin_steepTheta]
      norm_num [tpCreateLineLineBlend, tcFindBlendTolerance, unitSeg, greedyCfg, fmin]
    have ha : (tpCreateLineLineBlend realMath sampleConst greedyCfg {} {} steepTheta 200 150
        steepTheta unitSeg unitSeg).a_n_max = 100 := by
      norm_num [tpCreateLineLineBlend, sampleConst]
    have hv : (tpCreateLineLineBlend realMath sampleConst greedyCfg {} {} steepTheta 200 150
        steepTheta unitSeg unitSeg).v_goal = 100 := by
      norm_num [tpCreateLineLineBlend, unitSeg, greedyCfg, fmin]
    have hP : (tpCreateLineLineBlend realMath sampleConst greedyCfg {} {} steepTheta 200 150
        steepTheta unitSeg unitSeg).R_plan = 1 := by
      rw [tpCreateLineLineBlend_R_plan, ha, hv, hR]
      have h10 : realMath.sqrt (100 * 1) = 10 := by
        show Real.sqrt (100 * 1) = 10
        rw [mul_one]
        exact sqrt_hundred
      rw [h10]
      norm_num
    show (tpCreateLineLineBlend realMath sampleConst greedyCfg {} {} steepTheta 200 150
        steepTheta unitSeg unitSeg).R_plan / Real.tan steepTheta = 3 / 4
    rw [hP, tan_steepTheta]
    norm_num
  refine ⟨steepTheta_pos, steepTheta_lt, ?_, ?_, hd, ?_⟩
  · norm_num [tpCreateLineLineBlend, sampleConst]
  · norm_num [tpCreateLineLineBlend, unitSeg, greedyCfg, fmin]
  · rw [hd]
    norm_num [unitSeg]

/-! ### Scenario S1: a single line with the velocity limit left at zero -/

/-- The planner of scenario S1 before its `tpAddLine`, field by field: `vLimit` is 0. -/
theorem s1TP_eq :
    (s1TP : TP ℝ) =
      { queue := { queue := [], size := 32 }, queueSize := 0, cycleTime := 1 / 1000,
        vMax := 50, ini_maxvel := 100, vLimit := 0, aMax := 100,
        termCond := TC_TERM_COND_STOP,
        spindle := { waiting_for_index := -1, waiting_for_atspeed := -1 } } := by
  norm_num [s1TP, tpSetTermCond, tpSetVmax, tpSetAmax, tpSetCycleTime, tpSetPos, tpInit,
    tpClear, tpClearDIOs, tcqInit, createdTP, tpGetMachineAccelLimit, tpGetMachineVelLimit,
    sampleDbg, sampleConst, tangentCfg, fmin, TC_TERM_COND_TANGENT, TC_TERM_COND_PARABOLIC,
    TC_TERM_COND_STOP]

theorem s1Status_eq : (s1Status : EmcmotStatus ℝ) = {} := by
  norm_num [s1Status, tpInit, tpClear, tpClearDIOs, tcqInit, createdTP]

set_option maxHeartbeats 1000000 in
/-- The `tpAddLine` of scenario S1 returns `Ok` and leaves `s1QueuedTP`. -/
theorem s1_added :
    tpAddLine realMath sampleConst tangentCfg
      (sampleGeom.withBlendArc realMath sampleConst tangentCfg
        (sampleBlendExt realMath sampleConst) {} sampleDbg)
      s1TP { tran := ⟨10, 0, 0⟩ } 2 50 100 100 0 0 (-1) = (s1QueuedTP, TPErr.OK) := by
  rw [s1TP_eq]
  have h0 : Real.sqrt 100 = 10 := sqrt_hundred
  norm_num [tpAddLine, tpErrorCheck, emcPoseToPmCartesian, pmCartLineInit, realMath,
    sampleConst, fabs, h0, tpInitializeNewSegment, tcqLen, tcqItem, ExtGeom.withBlendArc,
    tpHandleBlendArc, tcqLast, tcCheckLastParabolic, tpFinalizeSegmentLength,
    tpAddSegmentToQueue, tcqPut, sampleGeom, tpRunOptimization, tpRunOptimizationLoop,
    tangentCfg, s1QueuedTP, s1Line, TC_TERM_COND_STOP, TC_LINEAR]

/-- A limit of zero makes `sat_inplace` return zero. -/
theorem sat_inplace_zero (x : K) : (sat_inplace x 0).1 = 0 := by
  unfold sat_inplace
  split_ifs with h1 h2
  · rfl
  · exact neg_zero
  · rw [neg_zero] at h2
    exact le_antisymm (not_lt.mp h1) (not_lt.mp h2)

/-- With `vLimit = 0` the update of the resting line of scenario S1 leaves it as it is. -/
theorem s1_update_stuck (st : EmcmotStatus ℝ) (tp : TP ℝ) (tc : TC ℝ) (hv : tp.vLimit = 0)
    (hc : tp.cycleTime = 1 / 1000) (htc : tc = { s1Line with active := 1 }) :
    tpUpdateCycle realMath sampleConst st sampleDbg tp tc = { s1Line with active := 1 } := by
  subst htc
  norm_num [tpUpdateCycle, tpCalculateTrapezoidalAccel, tpGetRealTargetVel, tpGetRealFinalVel,
    tpGetScaledAccel, tpPureRotaryCheck, sat_inplace_zero, saturate, tcUpdateDistFromAccel,
    clip_max, fabs, pmSq, tpCheckEndCondition, sampleConst, sampleDbg, s1Line, realMath,
    TC_TERM_COND_STOP, TC_TERM_COND_TANGENT, TC_TERM_COND_PARABOLIC, TC_LINEAR,
    TC_SYNC_POSITION, TC_CIRCULAR, TC_SPHERICAL, hv, hc]

/-- The regular cycle of scenario S1 on the active resting line: nothing moves. -/
theorem s1_regular (st : EmcmotStatus ℝ) (tp : TP ℝ) (tc : TC ℝ) (mt ad : Int)
    (htp : tp = { s1StuckTP with motionType := mt, activeDepth := ad })
    (htc : tc = { s1Line with active := 1 }) :
    tpHandleRegularCycle tangentCfg
      (sampleGeom.withBlendArc realMath sampleConst tangentCfg
        (sampleBlendExt realMath sampleConst) {} sampleDbg)
      realMath sampleConst st sampleDbg tp tc none
      = (s1StuckTP,
         { st with distance_to_go := 10, enables_queued := 0, requested_vel := 50,
                   current_vel := 0, dtg := { tran := ⟨10, 0, 0⟩ } },
         { s1Line with active := 1 }, none, [], TPErr.OK) := by
  unfold tpHandleRegularCycle
  rw [if_neg (by rw [htc]; simp [s1Line])]
  unfold tpUpdateCycleTP
  dsimp only
  rw [s1_update_stuck st tp _ (by rw [htp]; rfl) (by rw [htp]; rfl)
    (by rw [htc, htp]; simp [s1Line, s1StuckTP])]
  subst htp htc
  norm_num [tpToggleDIOs, tpUpdateMovementStatus, emcPoseSub, emcPoseAdd,
    ExtGeom.withBlendArc, sampleGeom, s1StuckTP, s1Line]
set_option maxHeartbeats 2000000 in
/-- One `tpRunCycle` of scenario S1 once the line is active: with `vLimit = 0` the line
stays at rest at progress 0 and the planner is left as `s1StuckTP`. -/
theorem s1_cycle_active (st : EmcmotStatus ℝ) (tp : TP ℝ) (mt ad : Int)
    (htp : tp = { s1StuckTP with motionType := mt, activeDepth := ad }) :
    tpRunCycle realMath sampleConst tangentCfg
      (sampleGeom.withBlendArc realMath sampleConst tangentCfg
        (sampleBlendExt realMath sampleConst) {} sampleDbg)
      sampleDbg 0 st tp
      = ⟨s1StuckTP,
         { st with tcqlen := 1, requested_vel := 50, spindleSync := 0, distance_to_go := 10,
                   enables_queued := 0, current_vel := 0, dtg := { tran := ⟨10, 0, 0⟩ } },
         0, [], TPErr.OK⟩ := by
  unfold tpRunCycle
  lift_lets
  intro st1
  have hst1 : st1 = ({ st with tcqlen := 1, requested_vel := 0 } : EmcmotStatus ℝ) := by
    simp [st1, tpUpdateInitialStatus, htp, s1StuckTP, tcqLen]
  clear_value st1
  subst st1
  have e0 : tcqItem tp.queue 0 = some ({ s1Line with active := 1 } : TC ℝ) := by
    simp [tcqItem, htp, s1StuckTP]
  rw [e0]
  simp -zeta only []
  lift_lets
  intro src0 f1 tp5 f2 tp4 tp3 tc4 nexttc ab w src2 tp2 st3 tc3 a src1 tp1 st2 tc2 io1 rt osp
    st1b tc1 st0 sy h tc q src tpF io cs
  have h_src0 : src0 = s1Line := by
    rfl
  clear_value src0
  subst src0
  have h_f1 : f1 = (some ({ s1Line with active := 1 } : TC ℝ), TPErr.NO_ACTION) := by
    simp [f1, tpFlagEarlyStop, htp, s1StuckTP, s1Line, sampleConst, tcqItem, tcqLen, tcqSetItem, tcqSetItemOpt]
  clear_value f1
  subst f1
  have h_tp5 : tp5 = tp := by
    simp [tp5, htp, s1StuckTP, s1Line, sampleConst, tcqItem, tcqLen, tcqSetItem, tcqSetItemOpt]
  clear_value tp5
  subst tp5
  have h_f2 : f2 = (none, TPErr.NO_ACTION) := by
    simp [f2, tpFlagEarlyStop, htp, s1StuckTP, s1Line, sampleConst, tcqItem, tcqLen, tcqSetItem, tcqSetItemOpt]
  clear_value f2
  subst f2
  have h_tp4 : tp4 = tp := by
    simp [tp4, htp, s1StuckTP, s1Line, sampleConst, tcqItem, tcqLen, tcqSetItem, tcqSetItemOpt]
  clear_value tp4
  subst tp4
  have h_tp3 : tp3 = tp := by
    simp [tp3, tpForceFinalizeSegment, htp, s1StuckTP, s1Line, sampleConst, tcqItem, tcqLen, tcqSetItem, tcqSetItemOpt]
  clear_value tp3
  subst tp3
  have h_tc4 : tc4 = ({ s1Line with active := 1 } : TC ℝ) := by
    simp [tc4, htp, s1StuckTP, s1Line, sampleConst, tcqItem, tcqLen, tcqSetItem, tcqSetItemOpt]
  clear_value tc4
  subst tc4
  have h_nexttc : nexttc = none := by
    simp [nexttc, htp, s1StuckTP, s1Line, sampleConst, tcqItem, tcqLen, tcqSetItem, tcqSetItemOpt]
  clear_value nexttc
  subst nexttc
  have h_ab : ab = (tp, ({ st with tcqlen := 1, requested_vel := 0 } : EmcmotStatus ℝ), TPErr.NO_ACTION) := by
    simp [ab, tpHandleAbort, htp, s1StuckTP, s1Line, sampleConst, tcqItem, tcqLen, tcqSetItem, tcqSetItemOpt]
  clear_value ab
  subst ab
  have h_w : w = (tp, ({ st with tcqlen := 1, requested_vel := 0 } : EmcmotStatus ℝ), ({ s1Line with active := 1 } : TC ℝ), TPErr.OK) := by
    simp [w, tpHandleWaiting, htp, s1StuckTP, s1Line, sampleConst, tcqItem, tcqLen, tcqSetItem, tcqSetItemOpt]
  clear_value w
  subst w
  have h_src2 : src2 = tp := by
    rfl
  clear_value src2
  subst src2
  have h_tp2 : tp2 = tp := by
    simp [tp2, htp, s1StuckTP, s1Line, sampleConst, tcqItem, tcqLen, tcqSetItem, tcqSetItemOpt]
  clear_value tp2
  subst tp2
  have h_st3 : st3 = ({ st with tcqlen := 1, requested_vel := 0 } : EmcmotStatus ℝ) := by
    rfl
  clear_value st3
  subst st3
  have h_tc3 : tc3 = ({ s1Line with active := 1 } : TC ℝ) := by
    rfl
  clear_value tc3
  subst tc3
  have h_a : a = (tp, ({ st with tcqlen := 1, requested_vel := 0 } : EmcmotStatus ℝ), ({ s1Line with active := 1 } : TC ℝ), [], TPErr.OK) := by
    simp [a, tpActivateSegment, htp, s1StuckTP, s1Line, sampleConst, tcqItem, tcqLen, tcqSetItem, tcqSetItemOpt]
  clear_value a
  subst a
  have h_src1 : src1 = tp := by
    rfl
  clear_value src1
  subst src1
  have h_tp1 : tp1 = tp := by
    simp [tp1, htp, s1StuckTP, s1Line, sampleConst, tcqItem, tcqLen, tcqSetItem, tcqSetItemOpt]
  clear_value tp1
  subst tp1
  have h_st2 : st2 = ({ st with tcqlen := 1, requested_vel := 0 } : EmcmotStatus ℝ) := by
    rfl
  clear_value st2
  subst st2
  have h_tc2 : tc2 = ({ s1Line with active := 1 } : TC ℝ) := by
    rfl
  clear_value tc2
  subst tc2
  have h_io1 : io1 = [] := by
    rfl
  clear_value io1
  subst io1
  have h_rt : rt = (0, ({ st with tcqlen := 1, requested_vel := 0 } : EmcmotStatus ℝ), ({ s1Line with active := 1 } : TC ℝ)) := by
    simp [rt, TC_RIGIDTAP, TC_LINEAR, htp, s1StuckTP, s1Line, sampleConst, tcqItem, tcqLen, tcqSetItem, tcqSetItemOpt]
  clear_value rt
  subst rt
  have h_osp : osp = 0 := by
    rfl
  clear_value osp
  subst osp
  have h_st1b : st1b = ({ st with tcqlen := 1, requested_vel := 0 } : EmcmotStatus ℝ) := by
    rfl
  clear_value st1b
  subst st1b
  have h_tc1 : tc1 = ({ s1Line with active := 1 } : TC ℝ) := by
    rfl
  clear_value tc1
  subst tc1
  have h_st0 : st0 = ({ st with tcqlen := 1, requested_vel := 0, spindleSync := 0 } : EmcmotStatus ℝ) := by
    simp [st0, htp, s1StuckTP, s1Line, sampleConst, tcqItem, tcqLen, tcqSetItem, tcqSetItemOpt]
  clear_value st0
  subst st0
  have h_sy : sy = (tp, ({ s1Line with active := 1 } : TC ℝ), none) := by
    simp [sy, TC_SYNC_VELOCITY, TC_SYNC_POSITION, htp, s1StuckTP, s1Line, sampleConst, tcqItem, tcqLen, tcqSetItem, tcqSetItemOpt]
  clear_value sy
  subst sy
  have h_h : h = (s1StuckTP, ({ st with tcqlen := 1, requested_vel := 50, spindleSync := 0, distance_to_go := 10, enables_queued := 0, current_vel := 0, dtg := { tran := ⟨10, 0, 0⟩ } } : EmcmotStatus ℝ), ({ s1Line with active := 1 } : TC ℝ), none, [], TPErr.OK) := by
    simp only [h]
    rw [if_neg (by simp [s1Line]), s1_regular _ _ _ mt ad htp rfl]
  clear_value h
  subst h
  have h_tc : tc = ({ s1Line with active := 1 } : TC ℝ) := rfl
  clear_value tc
  subst tc
  have h_q : q = (s1StuckTP : TP ℝ).queue := by
    simp [q, s1StuckTP, s1Line, tcqSetItem, tcqSetItemOpt]
  clear_value q
  subst q
  have h_src : src = s1StuckTP := rfl
  clear_value src
  subst src
  have h_tpF : tpF = s1StuckTP := by
    simp [tpF]
  clear_value tpF
  subst tpF
  have h_io : io = [] := rfl
  clear_value io
  subst io
  simp [s1Line]
set_option maxHeartbeats 2000000 in
/-- The first `tpRunCycle` of scenario S1: the line is activated, and with `vLimit = 0` it
stays at rest at progress 0. -/
theorem s1_cycle_first (st : EmcmotStatus ℝ) (tp : TP ℝ) (htp : tp = s1QueuedTP) :
    tpRunCycle realMath sampleConst tangentCfg
      (sampleGeom.withBlendArc realMath sampleConst tangentCfg
        (sampleBlendExt realMath sampleConst) {} sampleDbg)
      sampleDbg 0 st tp
      = ⟨s1StuckTP,
         { st with tcqlen := 1, requested_vel := 50, spindleSync := 0, distance_to_go := 10,
                   enables_queued := 0, current_vel := 0, dtg := { tran := ⟨10, 0, 0⟩ } },
         0, [], TPErr.OK⟩ := by
  unfold tpRunCycle
  lift_lets
  intro st1
  have hst1 : st1 = ({ st with tcqlen := 1, requested_vel := 0 } : EmcmotStatus ℝ) := by
    simp [st1, tpUpdateInitialStatus, htp, s1QueuedTP, tcqLen]
  clear_value st1
  subst st1
  have e0 : tcqItem tp.queue 0 = some (s1Line : TC ℝ) := by
    simp [tcqItem, htp, s1QueuedTP]
  rw [e0]
  simp -zeta only []
  lift_lets
  intro f1 tp5 f2 tp4 tp3 tc4 nexttc ab w src2 tp2 st3 tc3 a src1 tp1 st2 tc2 io1 rt osp
    st1b tc1 st0 sy h tc q src tpF io cs
  have h_f1 : f1 = (some (s1Line : TC ℝ), TPErr.NO_ACTION) := by
    simp [f1, tpFlagEarlyStop, htp, s1QueuedTP, s1StuckTP, s1Line, sampleConst, tcqItem, tcqLen, tcqSetItem, tcqSetItemOpt]
  clear_value f1
  subst f1
  have h_tp5 : tp5 = tp := by
    simp [tp5, htp, s1QueuedTP, s1StuckTP, s1Line, sampleConst, tcqItem, tcqLen, tcqSetItem, tcqSetItemOpt]
  clear_value tp5
  subst tp5
  have h_f2 : f2 = (none, TPErr.NO_ACTION) := by
    simp [f2, tpFlagEarlyStop, htp, s1QueuedTP, s1StuckTP, s1Line, sampleConst, tcqItem, tcqLen, tcqSetItem, tcqSetItemOpt]
  clear_value f2
  subst f2
  have h_tp4 : tp4 = tp := by
    simp [tp4, htp, s1QueuedTP, s1StuckTP, s1Line, sampleConst, tcqItem, tcqLen, tcqSetItem, tcqSetItemOpt]
  clear_value tp4
  subst tp4
  have h_tp3 : tp3 = tp := by
    simp [tp3, tpForceFinalizeSegment, htp, s1QueuedTP, s1StuckTP, s1Line, sampleConst, tcqItem, tcqLen, tcqSetItem, tcqSetItemOpt]
  clear_value tp3
  subst tp3
  have h_tc4 : tc4 = (s1Line : TC ℝ) := by
    simp [tc4, htp, s1QueuedTP, s1StuckTP, s1Line, sampleConst, tcqItem, tcqLen, tcqSetItem, tcqSetItemOpt]
  clear_value tc4
  subst tc4
  have h_nexttc : nexttc = none := by
    simp [nexttc, htp, s1QueuedTP, s1StuckTP, s1Line, sampleConst, tcqItem, tcqLen, tcqSetItem, tcqSetItemOpt]
  clear_value nexttc
  subst nexttc
  have h_ab : ab = (tp, ({ st with tcqlen := 1, requested_vel := 0 } : EmcmotStatus ℝ), TPErr.NO_ACTION) := by
    simp [ab, tpHandleAbort, htp, s1QueuedTP, s1StuckTP, s1Line, sampleConst, tcqItem, tcqLen, tcqSetItem, tcqSetItemOpt]
  clear_value ab
  subst ab
  have h_w : w = (tp, ({ st with tcqlen := 1, requested_vel := 0 } : EmcmotStatus ℝ), (s1Line : TC ℝ), TPErr.OK) := by
    simp [w, tpHandleWaiting, htp, s1QueuedTP, s1StuckTP, s1Line, sampleConst, tcqItem, tcqLen, tcqSetItem, tcqSetItemOpt]
  clear_value w
  subst w
  have h_src2 : src2 = tp := by
    rfl
  clear_value src2
  subst src2
  have h_tp2 : tp2 = tp := by
    simp [tp2, htp, s1QueuedTP, s1StuckTP, s1Line, sampleConst, tcqItem, tcqLen, tcqSetItem, tcqSetItemOpt]
  clear_value tp2
  subst tp2
  have h_st3 : st3 = ({ st with tcqlen := 1, requested_vel := 0 } : EmcmotStatus ℝ) := by
    rfl
  clear_value st3
  subst st3
  have h_tc3 : tc3 = (s1Line : TC ℝ) := by
    rfl
  clear_value tc3
  subst tc3
  have h_a : a = (({ tp with motionType := 2 } : TP ℝ), ({ st with tcqlen := 1, requested_vel := 0 } : EmcmotStatus ℝ), ({ s1Line with active := 1 } : TC ℝ), [], TPErr.OK) := by
    norm_num [a, tpActivateSegment, ExtGeom.withBlendArc, sampleGeom, TC_TERM_COND_TANGENT, TC_TERM_COND_STOP, TC_SYNC_POSITION, htp, s1QueuedTP, s1StuckTP, s1Line, sampleConst, tcqItem, tcqLen, tcqSetItem, tcqSetItemOpt]
  clear_value a
  subst a
  have h_src1 : src1 = ({ tp with motionType := 2 } : TP ℝ) := by
    rfl
  clear_value src1
  subst src1
  have h_tp1 : tp1 = ({ s1StuckTP with motionType := 2, activeDepth := 0 } : TP ℝ) := by
    simp [tp1, htp, s1QueuedTP, s1StuckTP, s1Line, sampleConst, tcqItem, tcqLen, tcqSetItem, tcqSetItemOpt]
  clear_value tp1
  subst tp1
  have h_st2 : st2 = ({ st with tcqlen := 1, requested_vel := 0 } : EmcmotStatus ℝ) := by
    rfl
  clear_value st2
  subst st2
  have h_tc2 : tc2 = ({ s1Line with active := 1 } : TC ℝ) := by
    rfl
  clear_value tc2
  subst tc2
  have h_io1 : io1 = [] := by
    rfl
  clear_value io1
  subst io1
  have h_rt : rt = (0, ({ st with tcqlen := 1, requested_vel := 0 } : EmcmotStatus ℝ), ({ s1Line with active := 1 } : TC ℝ)) := by
    simp [rt, TC_RIGIDTAP, TC_LINEAR, htp, s1QueuedTP, s1StuckTP, s1Line, sampleConst, tcqItem, tcqLen, tcqSetItem, tcqSetItemOpt]
  clear_value rt
  subst rt
  have h_osp : osp = 0 := by
    rfl
  clear_value osp
  subst osp
  have h_st1b : st1b = ({ st with tcqlen := 1, requested_vel := 0 } : EmcmotStatus ℝ) := by
    rfl
  clear_value st1b
  subst st1b
  have h_tc1 : tc1 = ({ s1Line with active := 1 } : TC ℝ) := by
    rfl
  clear_value tc1
  subst tc1
  have h_st0 : st0 = ({ st with tcqlen := 1, requested_vel := 0, spindleSync := 0 } : EmcmotStatus ℝ) := by
    simp [st0, htp, s1QueuedTP, s1StuckTP, s1Line, sampleConst, tcqItem, tcqLen, tcqSetItem, tcqSetItemOpt]
  clear_value st0
  subst st0
  have h_sy : sy = (({ s1StuckTP with motionType := 2, activeDepth := 0 } : TP ℝ), ({ s1Line with active := 1 } : TC ℝ), none) := by
    simp [sy, TC_SYNC_VELOCITY, TC_SYNC_POSITION, htp, s1QueuedTP, s1StuckTP, s1Line, sampleConst, tcqItem, tcqLen, tcqSetItem, tcqSetItemOpt]
  clear_value sy
  subst sy
  have h_h : h = (s1StuckTP, ({ st with tcqlen := 1, requested_vel := 50, spindleSync := 0, distance_to_go := 10, enables_queued := 0, current_vel := 0, dtg := { tran := ⟨10, 0, 0⟩ } } : EmcmotStatus ℝ), ({ s1Line with active := 1 } : TC ℝ), none, [], TPErr.OK) := by
    simp only [h]
    rw [if_neg (by simp [s1Line]), s1_regular _ _ _ 2 0 rfl rfl]
  clear_value h
  subst h
  have h_tc : tc = ({ s1Line with active := 1 } : TC ℝ) := rfl
  clear_value tc
  subst tc
  have h_q : q = (s1StuckTP : TP ℝ).queue := by
    simp [q, s1StuckTP, s1Line, tcqSetItem, tcqSetItemOpt]
  clear_value q
  subst q
  have h_src : src = s1StuckTP := rfl
  clear_value src
  subst src
  have h_tpF : tpF = s1StuckTP := by
    simp [tpF]
  clear_value tpF
  subst tpF
  have h_io : io = [] := rfl
  clear_value io
  subst io
  simp [s1Line]

/-- Scenario S1 after one or more cycles: the planner is `s1StuckTP`, whatever the number
of cycles. -/
theorem s1_runs (n : Nat) :
    tpRunCycles realMath sampleConst tangentCfg
      (sampleGeom.withBlendArc realMath sampleConst tangentCfg
        (sampleBlendExt realMath sampleConst) {} sampleDbg)
      sampleDbg (n + 1) (0, s1Status, s1QueuedTP) = (0, s1StuckStatus, s1StuckTP) := by
  induction n with
  | zero =>
    unfold tpRunCycles
    unfold tpRunCycles
    dsimp only
    rw [s1_cycle_first _ _ rfl, s1Status_eq]
    simp [s1StuckStatus]
  | succ k ih =>
    unfold tpRunCycles
    rw [ih]
    dsimp only
    rw [s1_cycle_active _ _ 2 1 (by simp [s1StuckTP])]
    simp [s1StuckStatus]

/-- Scenario S1 as listed (`tpInit`, `set_pos(0)`,
`set_cycle_time(0.001)`, `set_amax(100)`, `set_vmax(50, 100)`, `set_term_cond(Stop, 0)`,
`add_line` to x = 10 with feed 50, `maxvel` 100, acceleration 100, feed scale 1): no call
sets `vLimit`, which `tpInit` leaves at 0. The `tpAddLine` returns `Ok`, and after every
number `n` of consecutive `tpRunCycle` calls `tpIsDone` is still 0, `currentPos.x` is
still 0, the reported velocity is 0 and the queued line is at rest at progress 0: the
segment never completes. -/
theorem s1_never_completes (n : Nat) :
    (s1TP : TP ℝ).vLimit = 0 ∧
    (tpAddLine realMath sampleConst tangentCfg
      (sampleGeom.withBlendArc realMath sampleConst tangentCfg
        (sampleBlendExt realMath sampleConst) {} sampleDbg)
      s1TP { tran := ⟨10, 0, 0⟩ } 2 50 100 100 0 0 (-1)).2 = TPErr.OK ∧
    tpIsDone (tpRunCycles realMath sampleConst tangentCfg
      (sampleGeom.withBlendArc realMath sampleConst tangentCfg
        (sampleBlendExt realMath sampleConst) {} sampleDbg) sampleDbg n
      (0, s1Status, (tpAddLine realMath sampleConst tangentCfg
        (sampleGeom.withBlendArc realMath sampleConst tangentCfg
          (sampleBlendExt realMath sampleConst) {} sampleDbg)
        s1TP { tran := ⟨10, 0, 0⟩ } 2 50 100 100 0 0 (-1)).1)).2.2 = 0 ∧
    (tpRunCycles realMath sampleConst tangentCfg
      (sampleGeom.withBlendArc realMath sampleConst tangentCfg
        (sampleBlendExt realMath sampleConst) {} sampleDbg) sampleDbg n
      (0, s1Status, (tpAddLine realMath sampleConst tangentCfg
        (sampleGeom.withBlendArc realMath sampleConst tangentCfg
          (sampleBlendExt realMath sampleConst) {} sampleDbg)
        s1TP { tran := ⟨10, 0, 0⟩ } 2 50 100 100 0 0 (-1)).1)).2.2.currentPos.tran.x = 0 ∧
    (tpRunCycles realMath sampleConst tangentCfg
      (sampleGeom.withBlendArc realMath sampleConst tangentCfg
        (sampleBlendExt realMath sampleConst) {} sampleDbg) sampleDbg n
      (0, s1Status, (tpAddLine realMath sampleConst tangentCfg
        (sampleGeom.withBlendArc realMath sampleConst tangentCfg
          (sampleBlendExt realMath sampleConst) {} sampleDbg)
        s1TP { tran := ⟨10, 0, 0⟩ } 2 50 100 100 0 0 (-1)).1)).2.1.current_vel = 0 ∧
    (tpRunCycles realMath sampleConst tangentCfg
      (sampleGeom.withBlendArc realMath sampleConst tangentCfg
        (sampleBlendExt realMath sampleConst) {} sampleDbg) sampleDbg n
      (0, s1Status, (tpAddLine realMath sampleConst tangentCfg
        (sampleGeom.withBlendArc realMath sampleConst tangentCfg
          (sampleBlendExt realMath sampleConst) {} sampleDbg)
        s1TP { tran := ⟨10, 0, 0⟩ } 2 50 100 100 0 0 (-1)).1)).2.2.queue.queue.map
      (fun tc => (tc.currentvel, tc.progress, tc.target)) = [(0, 0, 10)] := by
  rw [s1_added]
  refine ⟨by rw [s1TP_eq], rfl, ?_⟩
  cases n with
  | zero =>
    unfold tpRunCycles
    simp [tpIsDone, s1QueuedTP, s1Status_eq, s1Line]
  | succ k =>
    rw [s1_runs]
    simp [tpIsDone, s1StuckTP, s1StuckStatus, s1Line]

/-- Counterexample to C23 as stated: in scenario S1 there is no number `n` of consecutive
`tpRunCycle` calls after which `tpIsDone` is true and `currentPos.x = 10`. -/
theorem s1_no_completion :
    ¬ ∃ n : Nat,
      tpIsDone (tpRunCycles realMath sampleConst tangentCfg
        (sampleGeom.withBlendArc realMath sampleConst tangentCfg
          (sampleBlendExt realMath sampleConst) {} sampleDbg) sampleDbg n
        (0, s1Status, (tpAddLine realMath sampleConst tangentCfg
          (sampleGeom.withBlendArc realMath sampleConst tangentCfg
            (sampleBlendExt realMath sampleConst) {} sampleDbg)
          s1TP { tran := ⟨10, 0, 0⟩ } 2 50 100 100 0 0 (-1)).1)).2.2 ≠ 0 ∧
      (tpRunCycles realMath sampleConst tangentCfg
        (sampleGeom.withBlendArc realMath sampleConst tangentCfg
          (sampleBlendExt realMath sampleConst) {} sampleDbg) sampleDbg n
        (0, s1Status, (tpAddLine realMath sampleConst tangentCfg
          (sampleGeom.withBlendArc realMath sampleConst tangentCfg
            (sampleBlendExt realMath sampleConst) {} sampleDbg)
          s1TP { tran := ⟨10, 0, 0⟩ } 2 50 100 100 0 0 (-1)).1)).2.2.currentPos.tran.x
        = 10 := by
  rw [s1_added]
  rintro ⟨n, hd, _⟩
  apply hd
  cases n with
  | zero =>
    unfold tpRunCycles
    simp [tpIsDone, s1QueuedTP]
  | succ k =>
    rw [s1_runs]
    simp [tpIsDone, s1StuckTP]

/-! ### Scenario S1 with the velocity limit set -/

theorem saturate_pos_eq_min (x mx : K) (hx : 0 ≤ x) (hm : 0 ≤ mx) :
    saturate x mx = min x mx := by
  unfold saturate
  split_ifs with h1 h2
  · exact (min_eq_right h1.le).symm
  · linarith
  · exact (min_eq_left (not_lt.mp h1)).symm

theorem sat_inplace_pos_eq_min (x mx : K) (hx : 0 ≤ x) (hm : 0 ≤ mx) :
    (sat_inplace x mx).1 = min x mx := by
  unfold sat_inplace
  split_ifs with h1 h2
  · exact (min_eq_right h1.le).symm
  · linarith
  · exact (min_eq_left (not_lt.mp h1)).symm

/-- The velocity `mv = -1/20 + sqrt D` that the trapezoidal formula of scenario S1 proposes
(acceleration 100, cycle time 0.001): it is positive, it satisfies
`mv² + mv / 10 = 200 dx - v / 10`, and it is at least `v - 1/10` when the line can still
stop within its rest (`v² ≤ 200 dx`). -/
theorem s1_maxnewvel (v p D mv : ℝ) (hcs : v * v ≤ 200 * (10 - p))
    (hD : D = 200 * (10 - p) - v / 10 + 1 / 400) (hcase : D > 1 / 400)
    (hmv : mv = -(1 / 20) + Real.sqrt D) :
    0 < mv ∧ mv * mv + mv / 10 = 200 * (10 - p) - v / 10 ∧ v - 1 / 10 ≤ mv := by
  have hD0 : 0 ≤ D := by linarith
  have hss : Real.sqrt D * Real.sqrt D = D := Real.mul_self_sqrt hD0
  have hs1 : 1 / 20 < Real.sqrt D :=
    (Real.lt_sqrt (by norm_num)).mpr (by norm_num; linarith)
  have hmv0 : 0 < mv := by linarith
  have hid : mv * mv + mv / 10 = 200 * (10 - p) - v / 10 := by
    have e : mv * mv + mv / 10 = Real.sqrt D * Real.sqrt D - 1 / 400 := by
      rw [hmv]
      ring
    rw [e, hss, hD]
    ring
  refine ⟨hmv0, hid, ?_⟩
  by_contra hc
  have hc' := not_le.mp hc
  have h2 : mv * mv < (v - 1 / 10) * (v - 1 / 10) := mul_self_lt_mul_self hmv0.le hc'
  have h3 : (v - 1 / 10) * (v - 1 / 10) = v * v - v / 5 + 1 / 100 := by ring
  linarith

/-- The new velocity of scenario S1 while the discriminant term is taken: the minimum of
the proposed velocity, the feed 50, the limit `L` and `v + 1/10`. -/
theorem s1_newvel (L v mv nv acc vn : ℝ) (hL : 0 < L) (hv50 : v ≤ 50) (hvL : v ≤ L)
    (hmv0 : 0 < mv) (hmvv : v - 1 / 10 ≤ mv)
    (hnv : nv = (sat_inplace (saturate mv 50) L).1)
    (hacc : acc = saturate ((nv - v) / (1 / 1000)) 100)
    (hvn : vn = v + acc * (1 / 1000)) :
    nv = min (min mv 50) L ∧ vn = min nv (v + 1 / 10) := by
  have hq : (nv - v) / (1 / 1000) = (nv - v) * 1000 := by ring
  rw [hq] at hacc
  have h1 : saturate mv 50 = min mv 50 := saturate_pos_eq_min mv 50 hmv0.le (by norm_num)
  have h2 : nv = min (min mv 50) L := by
    rw [hnv, h1]
    exact sat_inplace_pos_eq_min _ _ (le_min hmv0.le (by norm_num)) hL.le
  have hnvv : v - 1 / 10 ≤ nv := by
    rw [h2]
    exact le_min (le_min hmvv (by linarith)) (by linarith)
  have hacc2 : acc = min ((nv - v) * 1000) 100 := by
    rw [hacc]
    unfold saturate
    split_ifs with a1 a2
    · exact (min_eq_right a1.le).symm
    · linarith
    · exact (min_eq_left (not_lt.mp a1)).symm
  refine ⟨h2, ?_⟩
  rw [hvn, hacc2]
  rcases le_total ((nv - v) * 1000) 100 with h | h
  · rw [min_eq_left h, min_eq_left (by linarith)]
    ring
  · rw [min_eq_right h, min_eq_right (by linarith)]
    ring

/-- Scenario S1, one trapezoidal step while the discriminant term is taken: the velocity
stays within `[0, 50]` and within the limit, the line can still stop within its rest, the
progress is not clipped, and unless the end is reached the progress grows by at least
`min (1 / (2 * 10 ^ 8)) (L / 2000)`. -/
theorem s1_scalar_move (L v p : ℝ) (hL : 0 < L) (hv0 : 0 ≤ v) (hv50 : v ≤ 50) (hvL : v ≤ L)
    (hcs : v * v ≤ 200 * (10 - p))
    (D mv nv acc vn V P : ℝ)
    (hD : D = 200 * (10 - p) - v / 10 + 1 / 400) (hcase : D > 1 / 400)
    (hmv : mv = -(1 / 20) + Real.sqrt D)
    (hnv : nv = (sat_inplace (saturate mv 50) L).1)
    (hacc : acc = saturate ((nv - v) / (1 / 1000)) 100)
    (hvn : vn = v + acc * (1 / 1000))
    (hV : V = if vn < 0 then 0 else vn)
    (hP : P = if vn < 0 then (if 10 - p < v * (1 / 1000) then 10 else p)
      else clip_max (p + (vn + v) * (1 / 2) * (1 / 1000)) 10) :
    0 ≤ V ∧ V ≤ 50 ∧ V ≤ L ∧ p ≤ P ∧ P ≤ 10 ∧ V * V ≤ 200 * (10 - P) ∧
    (10 - P ≤ 1 / 10 ^ 12 ∨ p + min (1 / (2 * 10 ^ 8)) (L / 2000) ≤ P) := by
  obtain ⟨hmv0, hid, hmvv⟩ := s1_maxnewvel v p D mv hcs hD hcase hmv
  obtain ⟨h2, hvn2⟩ := s1_newvel L v mv nv acc vn hL hv50 hvL hmv0 hmvv hnv hacc hvn
  have hnv0 : 0 < nv := by
    rw [h2]
    exact lt_min (lt_min hmv0 (by norm_num)) hL
  have hnvmv : nv ≤ mv := by
    rw [h2]
    exact le_trans (min_le_left _ _) (min_le_left _ _)
  have hnv50 : nv ≤ 50 := by
    rw [h2]
    exact le_trans (min_le_left _ _) (min_le_right _ _)
  have hnvL : nv ≤ L := by
    rw [h2]
    exact min_le_right _ _
  have hvn0 : 0 < vn := by
    rw [hvn2]
    exact lt_min hnv0 (by linarith)
  have hvnnv : vn ≤ nv := by
    rw [hvn2]
    exact min_le_left _ _
  have hVeq : V = vn := by
    rw [hV, if_neg (not_lt.mpr hvn0.le)]
  have hmm : 0 ≤ mv * mv := mul_self_nonneg mv
  have hnoclip : p + (vn + v) * (1 / 2) * (1 / 1000) ≤ 10 := by
    linarith
  have hPeq : P = p + (vn + v) * (1 / 2) * (1 / 1000) := by
    rw [hP, if_neg (not_lt.mpr hvn0.le)]
    unfold clip_max
    rw [if_neg (not_lt.mpr hnoclip)]
  have hvv : vn * vn ≤ mv * mv := mul_self_le_mul_self hvn0.le (le_trans hvnnv hnvmv)
  have hcs' : vn * vn ≤ 200 * (10 - P) := by
    rw [hPeq]
    linarith
  refine ⟨by rw [hVeq]; exact hvn0.le, by rw [hVeq]; linarith, by rw [hVeq]; linarith,
    by rw [hPeq]; linarith, by rw [hPeq]; exact hnoclip, by rw [hVeq]; exact hcs', ?_⟩
  by_cases hend : 10 - P ≤ 1 / 10 ^ 12
  · exact Or.inl hend
  · right
    have hend' := not_le.mp hend
    have hδ1 : min (1 / (2 * 10 ^ 8)) (L / 2000) ≤ 1 / (2 * 10 ^ 8) := min_le_left _ _
    have hδ2 : min (1 / (2 * 10 ^ 8)) (L / 2000) ≤ L / 2000 := min_le_right _ _
    -- every candidate for the minimum `vn` is at least `2000 δ`
    have hmvbig : vn = mv → 1 / 10 ^ 5 ≤ mv := by
      intro hvneq
      by_contra hc
      have hc' := not_le.mp hc
      have h5 : mv * mv < 1 / 10 ^ 5 * (1 / 10 ^ 5) := mul_self_lt_mul_self hmv0.le hc'
      rw [hPeq, hvneq] at hend'
      have e : (1 : ℝ) / 10 ^ 5 * (1 / 10 ^ 5) = 1 / 10 ^ 10 := by norm_num
      rw [e] at h5
      have e2 : (1 : ℝ) / 10 ^ 12 = 1 / 10 ^ 10 / 100 := by norm_num
      rw [e2] at hend'
      linarith
    have hlow : 2000 * min (1 / (2 * 10 ^ 8)) (L / 2000) ≤ vn := by
      have e3 : (2000 : ℝ) * (1 / (2 * 10 ^ 8)) = 1 / 10 ^ 5 := by norm_num
      rcases min_choice nv (v + 1 / 10) with h | h
      · rw [h] at hvn2
        rcases min_choice (min mv 50) L with h' | h'
        · rw [h'] at h2
          rcases min_choice mv 50 with h'' | h''
          · rw [h''] at h2
            have := hmvbig (by rw [hvn2, h2])
            rw [hvn2, h2]
            linarith
          · rw [h''] at h2
            rw [hvn2, h2]
            have : (1 : ℝ) / 10 ^ 5 ≤ 50 := by norm_num
            linarith
        · rw [h'] at h2
          rw [hvn2, h2]
          linarith
      · rw [h] at hvn2
        rw [hvn2]
        have : (1 : ℝ) / 10 ^ 5 ≤ 1 / 10 := by norm_num
        linarith
    rw [hPeq]
    linarith

/-- Scenario S1, one trapezoidal step when the discriminant term is not taken: the line
comes to rest at its end. -/
theorem s1_scalar_end (L v p : ℝ) (hL : 0 < L)
    (hdx : 0 < 10 - p) (hcs : v * v ≤ 200 * (10 - p))
    (D mv nv acc vn V P : ℝ)
    (hD : D = 200 * (10 - p) - v / 10 + 1 / 400) (hcase : ¬ D > 1 / 400)
    (hmv : mv = -(1 / 20))
    (hnv : nv = (sat_inplace (saturate mv 50) L).1)
    (hacc : acc = saturate ((nv - v) / (1 / 1000)) 100)
    (hvn : vn = v + acc * (1 / 1000))
    (hV : V = if vn < 0 then 0 else vn)
    (hP : P = if vn < 0 then (if 10 - p < v * (1 / 1000) then 10 else p)
      else clip_max (p + (vn + v) * (1 / 2) * (1 / 1000)) 10) :
    V = 0 ∧ P = 10 := by
  have hq : (nv - v) / (1 / 1000) = (nv - v) * 1000 := by ring
  rw [hq] at hacc
  have hD1 : D ≤ 1 / 400 := not_lt.mp hcase
  have hvpos : 0 < v := by linarith
  have hv10 : v ≤ 1 / 10 := by
    by_contra hc
    have h1 := not_le.mp hc
    have h2 : 1 / 10 * v < v * v := by
      have := mul_lt_mul_of_pos_right h1 hvpos
      linarith
    linarith
  have hdxv : 10 - p ≤ v / 2000 := by linarith
  have h1 : saturate mv 50 = -(1 / 20) := by
    rw [hmv]
    unfold saturate
    norm_num
  have hnvneg : nv < 0 := by
    rw [hnv, h1]
    unfold sat_inplace
    split_ifs with a1 a2
    · linarith
    · show -L < 0
      linarith
    · show -(1 / 20 : ℝ) < 0
      norm_num
  have hvnle : vn ≤ 0 := by
    rw [hvn, hacc]
    unfold saturate
    split_ifs with a1 a2
    · linarith
    · linarith
    · linarith
  have hV0 : V = 0 := by
    rw [hV]
    split_ifs with h
    · rfl
    · exact le_antisymm hvnle (not_lt.mp h)
  refine ⟨hV0, ?_⟩
  rw [hP]
  split_ifs with a1 a2
  · rfl
  · exact absurd (by linarith : 10 - p < v * (1 / 1000)) a2
  · have hvn0 : vn = 0 := le_antisymm hvnle (not_lt.mp a1)
    unfold clip_max
    split_ifs with a3
    · rfl
    · have := not_lt.mp a3
      rw [hvn0] at this ⊢
      linarith

/-- The segment that `tcUpdateDistFromAccel` returns: the input with `progress`,
`currentvel` and `on_final_decel` updated. -/
theorem tcUpdateDistFromAccel_eq (c : TPConst K) (tc : TC K) (acc vel_desired : K) :
    tcUpdateDistFromAccel c tc acc vel_desired =
      { tc with
        progress := (tcUpdateDistFromAccel c tc acc vel_desired).progress,
        currentvel := (tcUpdateDistFromAccel c tc acc vel_desired).currentvel,
        on_final_decel := (tcUpdateDistFromAccel c tc acc vel_desired).on_final_decel } := by
  unfold tcUpdateDistFromAccel
  dsimp only
  split_ifs <;> rfl

/-- `tpCheckEndCondition` on a segment that is not tangent: within `TP_POS_EPSILON` of the
target the segment is moved to its target and flagged `splitting` and `remove`, with a
cycle time of 0; otherwise only the cycle time is reset. -/
theorem tpCheckEndCondition_not_tangent (m : MathLib K) (c : TPConst K) (st : EmcmotStatus K)
    (dbg : EmcmotDebug K) (tp : TP K) (tc : TC K) (ht : tc.term_cond ≠ TC_TERM_COND_TANGENT) :
    (tpCheckEndCondition m c st dbg tp tc).1 =
      if tc.target - tc.progress ≤ c.TP_POS_EPSILON then
        { tc with cycle_time := 0, progress := tc.target, splitting := 1,
                  vel_at_blend_start := tc.currentvel, remove := 1 }
      else { tc with cycle_time := tp.cycleTime } := by
  unfold tpCheckEndCondition
  dsimp only
  by_cases h : tc.target - tc.progress ≤ c.TP_POS_EPSILON
  · rw [if_pos h, if_pos h]
    unfold tcSetSplitCycle
    dsimp only
    rw [if_pos ht]
  · rw [if_neg h, if_neg h, if_pos ht]

/-- `tpUpdateCycle` on a segment in trapezoidal mode that is not blending into its
successor: the trapezoidal update of the segment with `vel_at_blend_start` refreshed,
followed by `tpCheckEndCondition`. -/
theorem tpUpdateCycle_trapezoid (m : MathLib K) (c : TPConst K) (st : EmcmotStatus K)
    (dbg : EmcmotDebug K) (tp : TP K) (tc : TC K) (hb : tc.blending_next = 0)
    (hm : tc.accel_mode = 0) :
    tpUpdateCycle m c st dbg tp tc =
      (tpCheckEndCondition m c st dbg tp
        (tpTrapezoidalUpdate m c st dbg tp
          { tc with vel_at_blend_start := tc.currentvel })).1 := by
  unfold tpUpdateCycle tpTrapezoidalUpdate
  rw [if_pos hb]
  dsimp only
  rw [if_neg (fun h => h.1 hm)]

/-- `tpCheckEndCondition` on the result of `tcUpdateDistFromAccel` for a segment that is
not tangent. -/
theorem tpCheckEndCondition_after_update (m : MathLib K) (c : TPConst K) (st : EmcmotStatus K)
    (dbg : EmcmotDebug K) (tp : TP K) (tc : TC K) (acc vel_desired : K)
    (ht : tc.term_cond ≠ TC_TERM_COND_TANGENT) :
    (tpCheckEndCondition m c st dbg tp (tcUpdateDistFromAccel c tc acc vel_desired)).1 =
      if tc.target - (tcUpdateDistFromAccel c tc acc vel_desired).progress ≤ c.TP_POS_EPSILON
      then
        { tc with cycle_time := 0, progress := tc.target, splitting := 1, remove := 1,
                  currentvel := (tcUpdateDistFromAccel c tc acc vel_desired).currentvel,
                  vel_at_blend_start := (tcUpdateDistFromAccel c tc acc vel_desired).currentvel,
                  on_final_decel := (tcUpdateDistFromAccel c tc acc vel_desired).on_final_decel }
      else
        { tc with cycle_time := tp.cycleTime,
                  progress := (tcUpdateDistFromAccel c tc acc vel_desired).progress,
                  currentvel := (tcUpdateDistFromAccel c tc acc vel_desired).currentvel,
                  on_final_decel := (tcUpdateDistFromAccel c tc acc vel_desired).on_final_decel }
        := by
  have hrec := tcUpdateDistFromAccel_eq c tc acc vel_desired
  generalize (tcUpdateDistFromAccel c tc acc vel_desired).currentvel = V at hrec ⊢
  generalize (tcUpdateDistFromAccel c tc acc vel_desired).progress = P at hrec ⊢
  generalize (tcUpdateDistFromAccel c tc acc vel_desired).on_final_decel = O at hrec ⊢
  rw [hrec, tpCheckEndCondition_not_tangent _ _ _ _ _ _ (by exact ht)]

/-- The flag `on_final_decel` stored by `tcUpdateDistFromAccel`. -/
theorem tcUpdateDistFromAccel_on_final_decel (c : TPConst K) (tc : TC K)
    (acc vel_desired : K) :
    (tcUpdateDistFromAccel c tc acc vel_desired).on_final_decel =
      if fabs (vel_desired - (tcUpdateDistFromAccel c tc acc vel_desired).currentvel)
          < c.TP_VEL_EPSILON ∧ acc < 0 then 1 else 0 := by
  unfold tcUpdateDistFromAccel
  dsimp only

/-- The acceleration and the desired velocity that `tpCalculateTrapezoidalAccel` returns
for the line of scenario S1 at speed `v` and progress `p` under the velocity limit `L`. -/
theorem s1_acc (L v p vbs : ℝ) (ofd : Int) (st : EmcmotStatus ℝ) (tp : TP ℝ)
    (hst : st.net_feed_scale = 1) (htpL : tp.vLimit = L)
    (hpa : tp.pausing = 0) (hab : tp.aborting = 0) :
    tpCalculateTrapezoidalAccel realMath sampleConst st sampleDbg tp
      (s1Head v p vbs (1 / 1000) ofd 1 0 0) =
    (saturate (((sat_inplace (saturate
      (if v * (1 / 1000) < 2 * (10 - p)
        then -(1 / 20) + Real.sqrt (100 * (2 * (10 - p) - v * (1 / 1000)) + 1 / 400)
        else -(1 / 20)) 50) L).1 - v) / (1 / 1000)) 100,
     if v * (1 / 1000) < 2 * (10 - p)
        then -(1 / 20) + Real.sqrt (100 * (2 * (10 - p) - v * (1 / 1000)) + 1 / 400)
        else -(1 / 20)) := by
  unfold tpCalculateTrapezoidalAccel
  simp only [tpGetRealTargetVel, tpGetRealFinalVel, tpGetFeedScale, tpGetScaledAccel,
    tpPureRotaryCheck, s1Head, s1Line, sampleConst, sampleDbg, realMath, hst, htpL, hpa, hab,
    TC_TERM_COND_STOP, TC_TERM_COND_TANGENT, TC_TERM_COND_PARABOLIC, TC_LINEAR,
    TC_SYNC_POSITION, TC_CIRCULAR, TC_SPHERICAL, fmin, pmSq]
  norm_num

/-- One `tpUpdateCycle` of the line of scenario S1 under a velocity limit `L > 0`, at a
speed `v` in `[0, 50]` within the limit from which the line can still stop within its rest
(`v² ≤ 200 (10 - p)`): either the line stays under way in such a state, having advanced by
at least `min (1 / (2 * 10 ^ 8)) (L / 2000)`, or it ends (progress 10, flagged
`splitting` and `remove`). The result does not depend on the status record, the planner,
`vel_at_blend_start` or `on_final_decel` before the call. -/
theorem s1_update (L v p : ℝ) (hL : 0 < L) (hv0 : 0 ≤ v) (hv50 : v ≤ 50) (hvL : v ≤ L)
    (hp0 : 0 ≤ p) (hdx : 1 / 10 ^ 12 < 10 - p) (hcs : v * v ≤ 200 * (10 - p)) :
    ∃ v' p' : ℝ, ∃ ofd' : Int, 0 ≤ v' ∧ v' ≤ 50 ∧
      ((v' ≤ L ∧ 0 ≤ p' ∧ 1 / 10 ^ 12 < 10 - p' ∧ v' * v' ≤ 200 * (10 - p') ∧
          p + min (1 / (2 * 10 ^ 8)) (L / 2000) ≤ p' ∧
          ∀ (st : EmcmotStatus ℝ) (tp : TP ℝ) (vbs : ℝ) (ofd : Int),
            st.net_feed_scale = 1 → tp.vLimit = L → tp.cycleTime = 1 / 1000 →
            tp.pausing = 0 → tp.aborting = 0 →
            tpUpdateCycle realMath sampleConst st sampleDbg tp
              (s1Head v p vbs (1 / 1000) ofd 1 0 0) = s1Head v' p' v (1 / 1000) ofd' 1 0 0) ∨
        (∀ (st : EmcmotStatus ℝ) (tp : TP ℝ) (vbs : ℝ) (ofd : Int),
            st.net_feed_scale = 1 → tp.vLimit = L → tp.cycleTime = 1 / 1000 →
            tp.pausing = 0 → tp.aborting = 0 →
            tpUpdateCycle realMath sampleConst st sampleDbg tp
              (s1Head v p vbs (1 / 1000) ofd 1 0 0) = s1Head v' 10 v' 0 ofd' 1 1 1)) := by
  -- the scalars of the step
  obtain ⟨D, hD⟩ : ∃ D : ℝ, D = 100 * (2 * (10 - p) - v * (1 / 1000)) + 1 / 400 := ⟨_, rfl⟩
  have hD' : D = 200 * (10 - p) - v / 10 + 1 / 400 := by rw [hD]; ring
  have hcond : (v * (1 / 1000) < 2 * (10 - p)) ↔ D > 1 / 400 := by
    rw [hD']
    constructor
    · intro h
      linarith
    · intro h
      linarith
  obtain ⟨mv, hmv⟩ : ∃ mv : ℝ, mv = if v * (1 / 1000) < 2 * (10 - p)
      then -(1 / 20) + Real.sqrt D else -(1 / 20) := ⟨_, rfl⟩
  obtain ⟨nv, hnv⟩ : ∃ nv : ℝ, nv = (sat_inplace (saturate mv 50) L).1 := ⟨_, rfl⟩
  obtain ⟨acc, hacc⟩ : ∃ acc : ℝ, acc = saturate ((nv - v) / (1 / 1000)) 100 := ⟨_, rfl⟩
  obtain ⟨vn, hvn⟩ : ∃ vn : ℝ, vn = v + acc * (1 / 1000) := ⟨_, rfl⟩
  obtain ⟨V, hV⟩ : ∃ V : ℝ, V = if vn < 0 then 0 else vn := ⟨_, rfl⟩
  obtain ⟨P, hP⟩ : ∃ P : ℝ, P = if vn < 0
      then (if 10 - p < v * (1 / 1000) then 10 else p)
      else clip_max (p + (vn + v) * (1 / 2) * (1 / 1000)) 10 := ⟨_, rfl⟩
  obtain ⟨O, hO⟩ : ∃ O : Int, O = if fabs (mv - V) < 1 / 10 ^ 8 ∧ acc < 0 then 1 else 0 :=
    ⟨_, rfl⟩
  -- the segment after the update, whatever the planner and the status record
  have hupd : ∀ (st : EmcmotStatus ℝ) (tp : TP ℝ) (vbs : ℝ) (ofd : Int),
      st.net_feed_scale = 1 → tp.vLimit = L → tp.cycleTime = 1 / 1000 →
      tp.pausing = 0 → tp.aborting = 0 →
      tpUpdateCycle realMath sampleConst st sampleDbg tp
        (s1Head v p vbs (1 / 1000) ofd 1 0 0) =
        if 10 - P ≤ 1 / 10 ^ 12 then s1Head V 10 V 0 O 1 1 1
        else s1Head V P v (1 / 1000) O 1 0 0 := by
    intro st tp vbs ofd hst htpL htc hpa hab
    rw [tpUpdateCycle_trapezoid _ _ _ _ _ _ rfl rfl]
    have hhead : ({ s1Head v p vbs (1 / 1000) ofd 1 0 0 with
        vel_at_blend_start := (s1Head v p vbs (1 / 1000) ofd 1 0 0).currentvel } : TC ℝ)
        = s1Head v p v (1 / 1000) ofd 1 0 0 := rfl
    rw [hhead]
    have hav := s1_acc L v p v ofd st tp hst htpL hpa hab
    rw [← hD, ← hmv, ← hnv, ← hacc] at hav
    unfold tpTrapezoidalUpdate
    rw [hav]
    dsimp only
    have hVe := tcUpdateDistFromAccel_currentvel sampleConst
      (s1Head v p v (1 / 1000) ofd 1 0 0) acc mv
    have hPe := tcUpdateDistFromAccel_progress sampleConst
      (s1Head v p v (1 / 1000) ofd 1 0 0) acc mv
    have hOe := tcUpdateDistFromAccel_on_final_decel sampleConst
      (s1Head v p v (1 / 1000) ofd 1 0 0) acc mv
    rw [hVe] at hOe
    have hVe' : (tcUpdateDistFromAccel sampleConst (s1Head v p v (1 / 1000) ofd 1 0 0)
        acc mv).currentvel = V := by
      rw [hVe, hV, hvn]
      rfl
    have hPe' : (tcUpdateDistFromAccel sampleConst (s1Head v p v (1 / 1000) ofd 1 0 0)
        acc mv).progress = P := by
      rw [hPe, hP, hvn]
      rfl
    have hOe' : (tcUpdateDistFromAccel sampleConst (s1Head v p v (1 / 1000) ofd 1 0 0)
        acc mv).on_final_decel = O := by
      rw [hOe, hO, hV, hvn]
      rfl
    rw [tpCheckEndCondition_after_update _ _ _ _ _ _ _ _
      (show TC_TERM_COND_STOP ≠ TC_TERM_COND_TANGENT by decide), hVe', hPe', hOe', htc]
    rfl
  by_cases hcase : D > 1 / 400
  · rw [if_pos (hcond.mpr hcase)] at hmv
    obtain ⟨a1, a2, a3, a4, a5, a6, a7⟩ := s1_scalar_move L v p hL hv0 hv50 hvL hcs D mv nv
      acc vn V P hD' hcase hmv hnv hacc hvn hV hP
    refine ⟨V, P, O, a1, a2, ?_⟩
    by_cases hend : 10 - P ≤ 1 / 10 ^ 12
    · right
      intro st tp vbs ofd hst htpL htc hpa hab
      rw [hupd st tp vbs ofd hst htpL htc hpa hab, if_pos hend]
    · left
      refine ⟨a3, le_trans hp0 a4, not_le.mp hend, a6, ?_, ?_⟩
      · rcases a7 with h | h
        · exact absurd h hend
        · exact h
      · intro st tp vbs ofd hst htpL htc hpa hab
        rw [hupd st tp vbs ofd hst htpL htc hpa hab, if_neg hend]
  · rw [if_neg (fun h => hcase (hcond.mp h))] at hmv
    obtain ⟨a1, a2⟩ := s1_scalar_end L v p hL (lt_trans (by norm_num) hdx) hcs D mv nv
      acc vn V P hD' hcase hmv hnv hacc hvn hV hP
    refine ⟨0, 10, O, le_refl _, by norm_num, Or.inr ?_⟩
    intro st tp vbs ofd hst htpL htc hpa hab
    rw [hupd st tp vbs ofd hst htpL htc hpa hab, a1, a2, if_pos (by norm_num)]

set_option maxHeartbeats 1000000 in
/-- The regular cycle of scenario S1 on the active line, given the result of its
`tpUpdateCycle`: the tool moves with the line and the status record reports the new
state. -/
theorem s1_regular_moving (L v p vbs : ℝ) (ofd mt ad : Int) (st : EmcmotStatus ℝ) (tp : TP ℝ)
    (tc : TC ℝ) (v' p' vbs' ct' : ℝ) (ofd' spl' rem' : Int)
    (htp : tp = s1MovingTP L p mt ad [s1Head v p vbs (1 / 1000) ofd 1 0 0])
    (htc : tc = s1Head v p vbs (1 / 1000) ofd 1 0 0)
    (hU : tpUpdateCycle realMath sampleConst st sampleDbg tp
      (s1Head v p vbs (1 / 1000) ofd 1 0 0) = s1Head v' p' vbs' ct' ofd' 1 spl' rem') :
    tpHandleRegularCycle tangentCfg
      (sampleGeom.withBlendArc realMath sampleConst tangentCfg
        (sampleBlendExt realMath sampleConst) {} sampleDbg)
      realMath sampleConst st sampleDbg tp tc none
      = (s1MovingTP L p' 2 1 [s1Head v p vbs (1 / 1000) ofd 1 0 0],
         { st with distance_to_go := 10 - p', enables_queued := 0, requested_vel := 50,
                   current_vel := v', dtg := { tran := ⟨10 - p', 0, 0⟩ } },
         s1Head v' p' vbs' ct' ofd' 1 spl' rem', none, [], TPErr.OK) := by
  unfold tpHandleRegularCycle
  rw [if_neg (by rw [htc]; simp [s1Head, s1Line])]
  unfold tpUpdateCycleTP
  dsimp only
  have e1 : ({ tc with cycle_time := tp.cycleTime } : TC ℝ)
      = s1Head v p vbs (1 / 1000) ofd 1 0 0 := by
    rw [htc, htp]
    rfl
  rw [e1, hU]
  subst htp htc
  norm_num [tpToggleDIOs, tpUpdateMovementStatus, emcPoseSub, emcPoseAdd,
    ExtGeom.withBlendArc, sampleGeom, s1MovingTP, s1Head, s1Line]

set_option maxHeartbeats 4000000 in
/-- One `tpRunCycle` of scenario S1 with the line at the head of the queue, queued or
active, given that its `tpUpdateCycle` leaves it under way: the planner holds the updated
line, the tool has moved with it and the status record reports the new state. -/
theorem s1_cycle_moving (L v p vbs : ℝ) (ofd mt ad act : Int) (st : EmcmotStatus ℝ) (tp : TP ℝ)
    (v' p' vbs' ct' : ℝ) (ofd' spl' : Int)
    (htp : tp = s1MovingTP L p mt ad [s1Head v p vbs (1 / 1000) ofd act 0 0])
    (hact : act = 0 ∨ act = 1) (hst : st.net_feed_scale = 1)
    (hU : ∀ (st' : EmcmotStatus ℝ) (tp' : TP ℝ) (w : ℝ) (o : Int),
      st'.net_feed_scale = 1 → tp'.vLimit = L → tp'.cycleTime = 1 / 1000 →
      tp'.pausing = 0 → tp'.aborting = 0 →
      tpUpdateCycle realMath sampleConst st' sampleDbg tp'
        (s1Head v p w (1 / 1000) o 1 0 0) = s1Head v' p' vbs' ct' ofd' 1 spl' 0) :
    tpRunCycle realMath sampleConst tangentCfg
      (sampleGeom.withBlendArc realMath sampleConst tangentCfg
        (sampleBlendExt realMath sampleConst) {} sampleDbg)
      sampleDbg 0 st tp
      = ⟨s1MovingTP L p' 2 1 [s1Head v' p' vbs' ct' ofd' 1 spl' 0],
         { st with tcqlen := 1, requested_vel := 50, spindleSync := 0,
                   distance_to_go := 10 - p', enables_queued := 0, current_vel := v',
                   dtg := { tran := ⟨10 - p', 0, 0⟩ } },
         0, [], TPErr.OK⟩ := by
  unfold tpRunCycle
  lift_lets
  intro st1
  have hst1 : st1 = ({ st with tcqlen := 1, requested_vel := 0 } : EmcmotStatus ℝ) := by
    simp [st1, tpUpdateInitialStatus, htp, s1MovingTP, tcqLen]
  clear_value st1
  subst st1
  have e0 : tcqItem tp.queue 0 = some (s1Head v p vbs (1 / 1000) ofd act 0 0 : TC ℝ) := by
    simp [tcqItem, htp, s1MovingTP]
  rw [e0]
  simp -zeta only []
  lift_lets
  intro f1 tp5 f2 tp4 tp3 tc4 nexttc ab w src2 tp2 st3 tc3 a src1 tp1 st2 tc2 io1 rt osp
    st1b tc1 st0 sy h tc q src tpF io cs
  have h_f1 : f1 = (some (s1Head v p vbs (1 / 1000) ofd act 0 0 : TC ℝ), TPErr.NO_ACTION) := by
    simp [f1, tpFlagEarlyStop, htp, s1MovingTP, s1Head, s1Line, sampleConst, tcqItem, tcqLen, tcqSetItem, tcqSetItemOpt]
  clear_value f1
  subst f1
  have h_tp5 : tp5 = tp := by
    simp [tp5, htp, s1MovingTP, s1Head, s1Line, sampleConst, tcqItem, tcqLen, tcqSetItem, tcqSetItemOpt]
  clear_value tp5
  subst tp5
  have h_f2 : f2 = (none, TPErr.NO_ACTION) := by
    simp [f2, tpFlagEarlyStop, htp, s1MovingTP, s1Head, s1Line, sampleConst, tcqItem, tcqLen, tcqSetItem, tcqSetItemOpt]
  clear_value f2
  subst f2
  have h_tp4 : tp4 = tp := by
    simp [tp4, htp, s1MovingTP, s1Head, s1Line, sampleConst, tcqItem, tcqLen, tcqSetItem, tcqSetItemOpt]
  clear_value tp4
  subst tp4
  have h_tp3 : tp3 = tp := by
    simp [tp3, tpForceFinalizeSegment, htp, s1MovingTP, s1Head, s1Line, sampleConst, tcqItem, tcqLen, tcqSetItem, tcqSetItemOpt]
  clear_value tp3
  subst tp3
  have h_tc4 : tc4 = (s1Head v p vbs (1 / 1000) ofd act 0 0 : TC ℝ) := by
    simp [tc4, htp, s1MovingTP, s1Head, s1Line, sampleConst, tcqItem, tcqLen, tcqSetItem, tcqSetItemOpt]
  clear_value tc4
  subst tc4
  have h_nexttc : nexttc = none := by
    simp [nexttc, htp, s1MovingTP, s1Head, s1Line, sampleConst, tcqItem, tcqLen, tcqSetItem, tcqSetItemOpt]
  clear_value nexttc
  subst nexttc
  have h_ab : ab = (tp, ({ st with tcqlen := 1, requested_vel := 0 } : EmcmotStatus ℝ), TPErr.NO_ACTION) := by
    simp [ab, tpHandleAbort, htp, s1MovingTP, s1Head, s1Line, sampleConst, tcqItem, tcqLen, tcqSetItem, tcqSetItemOpt]
  clear_value ab
  subst ab
  have h_w : w = (tp, ({ st with tcqlen := 1, requested_vel := 0 } : EmcmotStatus ℝ), (s1Head v p vbs (1 / 1000) ofd act 0 0 : TC ℝ), TPErr.OK) := by
    simp [w, tpHandleWaiting, htp, s1MovingTP, s1Head, s1Line, sampleConst, tcqItem, tcqLen, tcqSetItem, tcqSetItemOpt]
  clear_value w
  subst w
  have h_src2 : src2 = tp := by
    rfl
  clear_value src2
  subst src2
  have h_tp2 : tp2 = tp := by
    simp [tp2, htp, s1MovingTP, s1Head, s1Line, sampleConst, tcqItem, tcqLen, tcqSetItem, tcqSetItemOpt]
  clear_value tp2
  subst tp2
  have h_st3 : st3 = ({ st with tcqlen := 1, requested_vel := 0 } : EmcmotStatus ℝ) := by
    rfl
  clear_value st3
  subst st3
  have h_tc3 : tc3 = (s1Head v p vbs (1 / 1000) ofd act 0 0 : TC ℝ) := by
    rfl
  clear_value tc3
  subst tc3
  have h_a : ∃ (o mt1 : Int), a = ((s1MovingTP L p mt1 ad [s1Head v p vbs (1 / 1000) ofd act 0 0] : TP ℝ), ({ st with tcqlen := 1, requested_vel := 0 } : EmcmotStatus ℝ),
      (s1Head v p vbs (1 / 1000) o 1 0 0 : TC ℝ), [], TPErr.OK) := by
    rcases hact with h0 | h1
    · refine ⟨0, 2, ?_⟩
      subst h0
      norm_num [a, tpActivateSegment, ExtGeom.withBlendArc, sampleGeom, TC_TERM_COND_TANGENT,
        TC_TERM_COND_STOP, TC_SYNC_POSITION, htp, s1MovingTP, s1Head, s1Line, sampleConst, tcqItem, tcqLen, tcqSetItem, tcqSetItemOpt]
    · refine ⟨ofd, mt, ?_⟩
      subst h1
      simp [a, tpActivateSegment, htp, s1MovingTP, s1Head, s1Line, sampleConst, tcqItem, tcqLen, tcqSetItem, tcqSetItemOpt]
  obtain ⟨o, mt1, h_a⟩ := h_a
  clear_value a
  subst a
  have h_src1 : src1 = (s1MovingTP L p mt1 ad [s1Head v p vbs (1 / 1000) ofd act 0 0] : TP ℝ) := by
    rfl
  clear_value src1
  subst src1
  have h_tp1 : tp1 = (s1MovingTP L p mt1 ad [s1Head v p vbs (1 / 1000) o 1 0 0] : TP ℝ) := by
    simp [tp1, htp, s1MovingTP, s1Head, s1Line, sampleConst, tcqItem, tcqLen, tcqSetItem, tcqSetItemOpt]
  clear_value tp1
  subst tp1
  have h_st2 : st2 = ({ st with tcqlen := 1, requested_vel := 0 } : EmcmotStatus ℝ) := by
    rfl
  clear_value st2
  subst st2
  have h_tc2 : tc2 = (s1Head v p vbs (1 / 1000) o 1 0 0 : TC ℝ) := by
    rfl
  clear_value tc2
  subst tc2
  have h_io1 : io1 = [] := by
    rfl
  clear_value io1
  subst io1
  have h_rt : rt = (0, ({ st with tcqlen := 1, requested_vel := 0 } : EmcmotStatus ℝ), (s1Head v p vbs (1 / 1000) o 1 0 0 : TC ℝ)) := by
    simp [rt, TC_RIGIDTAP, TC_LINEAR, htp, s1MovingTP, s1Head, s1Line, sampleConst, tcqItem, tcqLen, tcqSetItem, tcqSetItemOpt]
  clear_value rt
  subst rt
  have h_osp : osp = 0 := by
    rfl
  clear_value osp
  subst osp
  have h_st1b : st1b = ({ st with tcqlen := 1, requested_vel := 0 } : EmcmotStatus ℝ) := by
    rfl
  clear_value st1b
  subst st1b
  have h_tc1 : tc1 = (s1Head v p vbs (1 / 1000) o 1 0 0 : TC ℝ) := by
    rfl
  clear_value tc1
  subst tc1
  have h_st0 : st0 = ({ st with tcqlen := 1, requested_vel := 0, spindleSync := 0 } : EmcmotStatus ℝ) := by
    simp [st0, htp, s1MovingTP, s1Head, s1Line, sampleConst, tcqItem, tcqLen, tcqSetItem, tcqSetItemOpt]
  clear_value st0
  subst st0
  have h_sy : sy = ((s1MovingTP L p mt1 ad [s1Head v p vbs (1 / 1000) o 1 0 0] : TP ℝ), (s1Head v p vbs (1 / 1000) o 1 0 0 : TC ℝ), none) := by
    simp [sy, TC_SYNC_VELOCITY, TC_SYNC_POSITION, htp, s1MovingTP, s1Head, s1Line, sampleConst, tcqItem, tcqLen, tcqSetItem, tcqSetItemOpt]
  clear_value sy
  subst sy
  have h_h : h = ((s1MovingTP L p' 2 1 [s1Head v p vbs (1 / 1000) o 1 0 0] : TP ℝ), ({ st with tcqlen := 1, requested_vel := 50, spindleSync := 0, distance_to_go := 10 - p', enables_queued := 0, current_vel := v', dtg := { tran := ⟨10 - p', 0, 0⟩ } } : EmcmotStatus ℝ), (s1Head v' p' vbs' ct' ofd' 1 spl' 0 : TC ℝ), none, [], TPErr.OK) := by
    simp only [h]
    rw [if_neg (by simp [s1Head, s1Line]), s1_regular_moving L v p vbs o mt1 ad ({ st with tcqlen := 1, requested_vel := 0, spindleSync := 0 } : EmcmotStatus ℝ)
      (s1MovingTP L p mt1 ad [s1Head v p vbs (1 / 1000) o 1 0 0] : TP ℝ) (s1Head v p vbs (1 / 1000) o 1 0 0 : TC ℝ) v' p' vbs' ct' ofd' spl' 0 rfl rfl
      (hU ({ st with tcqlen := 1, requested_vel := 0, spindleSync := 0 } : EmcmotStatus ℝ) (s1MovingTP L p mt1 ad [s1Head v p vbs (1 / 1000) o 1 0 0] : TP ℝ) vbs o hst rfl rfl rfl rfl)]
  clear_value h
  subst h
  have h_tc : tc = (s1Head v' p' vbs' ct' ofd' 1 spl' 0 : TC ℝ) := rfl
  clear_value tc
  subst tc
  have h_q : q = ({ queue := [s1Head v' p' vbs' ct' ofd' 1 spl' 0], size := 32 } : TC_QUEUE_STRUCT ℝ) := by
    simp [q, s1MovingTP, tcqSetItem, tcqSetItemOpt]
  clear_value q
  subst q
  have h_src : src = (s1MovingTP L p' 2 1 [s1Head v p vbs (1 / 1000) o 1 0 0] : TP ℝ) := rfl
  clear_value src
  subst src
  have h_tpF : tpF = (s1MovingTP L p' 2 1 [s1Head v' p' vbs' ct' ofd' 1 spl' 0] : TP ℝ) := by
    simp [tpF, s1MovingTP]
  clear_value tpF
  subst tpF
  have h_io : io = [] := rfl
  clear_value io
  subst io
  simp [s1Head, s1Line]

set_option maxHeartbeats 4000000 in
/-- One `tpRunCycle` of scenario S1 with the line at the head of the queue, queued or
active, given that its `tpUpdateCycle` flags it `remove`: the line is popped in the same
cycle, the tool has moved with it and the status record reports the last state. -/
theorem s1_cycle_final (L v p vbs : ℝ) (ofd mt ad act : Int) (st : EmcmotStatus ℝ) (tp : TP ℝ)
    (v' p' vbs' ct' : ℝ) (ofd' spl' : Int)
    (htp : tp = s1MovingTP L p mt ad [s1Head v p vbs (1 / 1000) ofd act 0 0])
    (hact : act = 0 ∨ act = 1) (hst : st.net_feed_scale = 1)
    (hU : ∀ (st' : EmcmotStatus ℝ) (tp' : TP ℝ) (w : ℝ) (o : Int),
      st'.net_feed_scale = 1 → tp'.vLimit = L → tp'.cycleTime = 1 / 1000 →
      tp'.pausing = 0 → tp'.aborting = 0 →
      tpUpdateCycle realMath sampleConst st' sampleDbg tp'
        (s1Head v p w (1 / 1000) o 1 0 0) = s1Head v' p' vbs' ct' ofd' 1 spl' 1) :
    tpRunCycle realMath sampleConst tangentCfg
      (sampleGeom.withBlendArc realMath sampleConst tangentCfg
        (sampleBlendExt realMath sampleConst) {} sampleDbg)
      sampleDbg 0 st tp
      = ⟨s1MovingTP L p' 2 1 [],
         { st with tcqlen := 1, requested_vel := 50, spindleSync := 0,
                   distance_to_go := 10 - p', enables_queued := 0, current_vel := v',
                   dtg := { tran := ⟨10 - p', 0, 0⟩ } },
         0, [], TPErr.OK⟩ := by
  unfold tpRunCycle
  lift_lets
  intro st1
  have hst1 : st1 = ({ st with tcqlen := 1, requested_vel := 0 } : EmcmotStatus ℝ) := by
    simp [st1, tpUpdateInitialStatus, htp, s1MovingTP, tcqLen]
  clear_value st1
  subst st1
  have e0 : tcqItem tp.queue 0 = some (s1Head v p vbs (1 / 1000) ofd act 0 0 : TC ℝ) := by
    simp [tcqItem, htp, s1MovingTP]
  rw [e0]
  simp -zeta only []
  lift_lets
  intro f1 tp5 f2 tp4 tp3 tc4 nexttc ab w src2 tp2 st3 tc3 a src1 tp1 st2 tc2 io1 rt osp
    st1b tc1 st0 sy h tc q src tpF io cs
  have h_f1 : f1 = (some (s1Head v p vbs (1 / 1000) ofd act 0 0 : TC ℝ), TPErr.NO_ACTION) := by
    simp [f1, tpFlagEarlyStop, htp, s1MovingTP, s1Head, s1Line, sampleConst, tcqItem, tcqLen, tcqSetItem, tcqSetItemOpt]
  clear_value f1
  subst f1
  have h_tp5 : tp5 = tp := by
    simp [tp5, htp, s1MovingTP, s1Head, s1Line, sampleConst, tcqItem, tcqLen, tcqSetItem, tcqSetItemOpt]
  clear_value tp5
  subst tp5
  have h_f2 : f2 = (none, TPErr.NO_ACTION) := by
    simp [f2, tpFlagEarlyStop, htp, s1MovingTP, s1Head, s1Line, sampleConst, tcqItem, tcqLen, tcqSetItem, tcqSetItemOpt]
  clear_value f2
  subst f2
  have h_tp4 : tp4 = tp := by
    simp [tp4, htp, s1MovingTP, s1Head, s1Line, sampleConst, tcqItem, tcqLen, tcqSetItem, tcqSetItemOpt]
  clear_value tp4
  subst tp4
  have h_tp3 : tp3 = tp := by
    simp [tp3, tpForceFinalizeSegment, htp, s1MovingTP, s1Head, s1Line, sampleConst, tcqItem, tcqLen, tcqSetItem, tcqSetItemOpt]
  clear_value tp3
  subst tp3
  have h_tc4 : tc4 = (s1Head v p vbs (1 / 1000) ofd act 0 0 : TC ℝ) := by
    simp [tc4, htp, s1MovingTP, s1Head, s1Line, sampleConst, tcqItem, tcqLen, tcqSetItem, tcqSetItemOpt]
  clear_value tc4
  subst tc4
  have h_nexttc : nexttc = none := by
    simp [nexttc, htp, s1MovingTP, s1Head, s1Line, sampleConst, tcqItem, tcqLen, tcqSetItem, tcqSetItemOpt]
  clear_value nexttc
  subst nexttc
  have h_ab : ab = (tp, ({ st with tcqlen := 1, requested_vel := 0 } : EmcmotStatus ℝ), TPErr.NO_ACTION) := by
    simp [ab, tpHandleAbort, htp, s1MovingTP, s1Head, s1Line, sampleConst, tcqItem, tcqLen, tcqSetItem, tcqSetItemOpt]
  clear_value ab
  subst ab
  have h_w : w = (tp, ({ st with tcqlen := 1, requested_vel := 0 } : EmcmotStatus ℝ), (s1Head v p vbs (1 / 1000) ofd act 0 0 : TC ℝ), TPErr.OK) := by
    simp [w, tpHandleWaiting, htp, s1MovingTP, s1Head, s1Line, sampleConst, tcqItem, tcqLen, tcqSetItem, tcqSetItemOpt]
  clear_value w
  subst w
  have h_src2 : src2 = tp := by
    rfl
  clear_value src2
  subst src2
  have h_tp2 : tp2 = tp := by
    simp [tp2, htp, s1MovingTP, s1Head, s1Line, sampleConst, tcqItem, tcqLen, tcqSetItem, tcqSetItemOpt]
  clear_value tp2
  subst tp2
  have h_st3 : st3 = ({ st with tcqlen := 1, requested_vel := 0 } : EmcmotStatus ℝ) := by
    rfl
  clear_value st3
  subst st3
  have h_tc3 : tc3 = (s1Head v p vbs (1 / 1000) ofd act 0 0 : TC ℝ) := by
    rfl
  clear_value tc3
  subst tc3
  have h_a : ∃ (o mt1 : Int), a = ((s1MovingTP L p mt1 ad [s1Head v p vbs (1 / 1000) ofd act 0 0] : TP ℝ), ({ st with tcqlen := 1, requested_vel := 0 } : EmcmotStatus ℝ),
      (s1Head v p vbs (1 / 1000) o 1 0 0 : TC ℝ), [], TPErr.OK) := by
    rcases hact with h0 | h1
    · refine ⟨0, 2, ?_⟩
      subst h0
      norm_num [a, tpActivateSegment, ExtGeom.withBlendArc, sampleGeom, TC_TERM_COND_TANGENT,
        TC_TERM_COND_STOP, TC_SYNC_POSITION, htp, s1MovingTP, s1Head, s1Line, sampleConst, tcqItem, tcqLen, tcqSetItem, tcqSetItemOpt]
    · refine ⟨ofd, mt, ?_⟩
      subst h1
      simp [a, tpActivateSegment, htp, s1MovingTP, s1Head, s1Line, sampleConst, tcqItem, tcqLen, tcqSetItem, tcqSetItemOpt]
  obtain ⟨o, mt1, h_a⟩ := h_a
  clear_value a
  subst a
  have h_src1 : src1 = (s1MovingTP L p mt1 ad [s1Head v p vbs (1 / 1000) ofd act 0 0] : TP ℝ) := by
    rfl
  clear_value src1
  subst src1
  have h_tp1 : tp1 = (s1MovingTP L p mt1 ad [s1Head v p vbs (1 / 1000) o 1 0 0] : TP ℝ) := by
    simp [tp1, htp, s1MovingTP, s1Head, s1Line, sampleConst, tcqItem, tcqLen, tcqSetItem, tcqSetItemOpt]
  clear_value tp1
  subst tp1
  have h_st2 : st2 = ({ st with tcqlen := 1, requested_vel := 0 } : EmcmotStatus ℝ) := by
    rfl
  clear_value st2
  subst st2
  have h_tc2 : tc2 = (s1Head v p vbs (1 / 1000) o 1 0 0 : TC ℝ) := by
    rfl
  clear_value tc2
  subst tc2
  have h_io1 : io1 = [] := by
    rfl
  clear_value io1
  subst io1
  have h_rt : rt = (0, ({ st with tcqlen := 1, requested_vel := 0 } : EmcmotStatus ℝ), (s1Head v p vbs (1 / 1000) o 1 0 0 : TC ℝ)) := by
    simp [rt, TC_RIGIDTAP, TC_LINEAR, htp, s1MovingTP, s1Head, s1Line, sampleConst, tcqItem, tcqLen, tcqSetItem, tcqSetItemOpt]
  clear_value rt
  subst rt
  have h_osp : osp = 0 := by
    rfl
  clear_value osp
  subst osp
  have h_st1b : st1b = ({ st with tcqlen := 1, requested_vel := 0 } : EmcmotStatus ℝ) := by
    rfl
  clear_value st1b
  subst st1b
  have h_tc1 : tc1 = (s1Head v p vbs (1 / 1000) o 1 0 0 : TC ℝ) := by
    rfl
  clear_value tc1
  subst tc1
  have h_st0 : st0 = ({ st with tcqlen := 1, requested_vel := 0, spindleSync := 0 } : EmcmotStatus ℝ) := by
    simp [st0, htp, s1MovingTP, s1Head, s1Line, sampleConst, tcqItem, tcqLen, tcqSetItem, tcqSetItemOpt]
  clear_value st0
  subst st0
  have h_sy : sy = ((s1MovingTP L p mt1 ad [s1Head v p vbs (1 / 1000) o 1 0 0] : TP ℝ), (s1Head v p vbs (1 / 1000) o 1 0 0 : TC ℝ), none) := by
    simp [sy, TC_SYNC_VELOCITY, TC_SYNC_POSITION, htp, s1MovingTP, s1Head, s1Line, sampleConst, tcqItem, tcqLen, tcqSetItem, tcqSetItemOpt]
  clear_value sy
  subst sy
  have h_h : h = ((s1MovingTP L p' 2 1 [s1Head v p vbs (1 / 1000) o 1 0 0] : TP ℝ), ({ st with tcqlen := 1, requested_vel := 50, spindleSync := 0, distance_to_go := 10 - p', enables_queued := 0, current_vel := v', dtg := { tran := ⟨10 - p', 0, 0⟩ } } : EmcmotStatus ℝ), (s1Head v' p' vbs' ct' ofd' 1 spl' 1 : TC ℝ), none, [], TPErr.OK) := by
    simp only [h]
    rw [if_neg (by simp [s1Head, s1Line]), s1_regular_moving L v p vbs o mt1 ad ({ st with tcqlen := 1, requested_vel := 0, spindleSync := 0 } : EmcmotStatus ℝ)
      (s1MovingTP L p mt1 ad [s1Head v p vbs (1 / 1000) o 1 0 0] : TP ℝ) (s1Head v p vbs (1 / 1000) o 1 0 0 : TC ℝ) v' p' vbs' ct' ofd' spl' 1 rfl rfl
      (hU ({ st with tcqlen := 1, requested_vel := 0, spindleSync := 0 } : EmcmotStatus ℝ) (s1MovingTP L p mt1 ad [s1Head v p vbs (1 / 1000) o 1 0 0] : TP ℝ) vbs o hst rfl rfl rfl rfl)]
  clear_value h
  subst h
  have h_tc : tc = (s1Head v' p' vbs' ct' ofd' 1 spl' 1 : TC ℝ) := rfl
  clear_value tc
  subst tc
  have h_q : q = ({ queue := [s1Head v' p' vbs' ct' ofd' 1 spl' 1], size := 32 } : TC_QUEUE_STRUCT ℝ) := by
    simp [q, s1MovingTP, tcqSetItem, tcqSetItemOpt]
  clear_value q
  subst q
  have h_src : src = (s1MovingTP L p' 2 1 [s1Head v p vbs (1 / 1000) o 1 0 0] : TP ℝ) := rfl
  clear_value src
  subst src
  have h_tpF : tpF = (s1MovingTP L p' 2 1 [s1Head v' p' vbs' ct' ofd' 1 spl' 1] : TP ℝ) := by
    simp [tpF, s1MovingTP]
  clear_value tpF
  subst tpF
  have h_io : io = [] := rfl
  clear_value io
  subst io
  have h_cs : cs = ((s1MovingTP L p' 2 1 [] : TP ℝ), [], TPErr.OK) := by
    simp [cs, tpCompleteSegment, tcqRemove, TC_SYNC_NONE, s1MovingTP, s1Head, s1Line]
  clear_value cs
  subst cs
  simp [s1Head, s1Line]

/-- Running `n + 1` cycles is running one cycle and then `n` more. -/
theorem tpRunCycles_succ_front (m : MathLib K) (c : TPConst K) (cfg : EmcmotConfig K)
    (g : ExtGeom K) (dbg : EmcmotDebug K) (n : Nat) (s : K × EmcmotStatus K × TP K) :
    tpRunCycles m c cfg g dbg (n + 1) s
      = tpRunCycles m c cfg g dbg n (tpRunCycles m c cfg g dbg 1 s) := by
  induction n with
  | zero => rfl
  | succ k ih =>
    show (let p := tpRunCycles m c cfg g dbg (k + 1) s
      let r := tpRunCycle m c cfg g dbg p.1 p.2.1 p.2.2
      (r.old_spindlepos, r.st, r.tp)) = _
    rw [ih]
    rfl

/-- A run completes if the run from the state after one cycle completes and the velocities
of the first state are within the bounds. -/
theorem completesAt_step (m : MathLib K) (c : TPConst K) (cfg : EmcmotConfig K)
    (g : ExtGeom K) (dbg : EmcmotDebug K) (x vmax : K) (s : K × EmcmotStatus K × TP K)
    (hv : VelocityWithin vmax s)
    (h : CompletesAt m c cfg g dbg x vmax (tpRunCycles m c cfg g dbg 1 s)) :
    CompletesAt m c cfg g dbg x vmax s := by
  obtain ⟨n, h1, h2, h3⟩ := h
  refine ⟨n + 1, ?_, ?_, ?_⟩
  · rw [tpRunCycles_succ_front]
    exact h1
  · rw [tpRunCycles_succ_front]
    exact h2
  · intro k hk
    cases k with
    | zero => exact hv
    | succ j =>
      rw [tpRunCycles_succ_front]
      exact h3 j (by omega)

/-- One cycle, spelled out. -/
theorem tpRunCycles_one (m : MathLib K) (c : TPConst K) (cfg : EmcmotConfig K)
    (g : ExtGeom K) (dbg : EmcmotDebug K) (s : K × EmcmotStatus K × TP K) :
    tpRunCycles m c cfg g dbg 1 s
      = ((tpRunCycle m c cfg g dbg s.1 s.2.1 s.2.2).old_spindlepos,
         (tpRunCycle m c cfg g dbg s.1 s.2.1 s.2.2).st,
         (tpRunCycle m c cfg g dbg s.1 s.2.1 s.2.2).tp) := rfl

/-- A cycle of scenario S1 on the empty queue: the planner reports done and the tool stays
where it is. -/
theorem s1_cycle_empty (L x : ℝ) (mt ad : Int) (st : EmcmotStatus ℝ) :
    tpIsDone (tpRunCycle realMath sampleConst tangentCfg
      (sampleGeom.withBlendArc realMath sampleConst tangentCfg
        (sampleBlendExt realMath sampleConst) {} sampleDbg)
      sampleDbg 0 st (s1MovingTP L x mt ad [])).tp = 1 ∧
    (tpRunCycle realMath sampleConst tangentCfg
      (sampleGeom.withBlendArc realMath sampleConst tangentCfg
        (sampleBlendExt realMath sampleConst) {} sampleDbg)
      sampleDbg 0 st (s1MovingTP L x mt ad [])).tp.currentPos.tran.x = x ∧
    (tpRunCycle realMath sampleConst tangentCfg
      (sampleGeom.withBlendArc realMath sampleConst tangentCfg
        (sampleBlendExt realMath sampleConst) {} sampleDbg)
      sampleDbg 0 st (s1MovingTP L x mt ad [])).tp.queue.queue = [] ∧
    (tpRunCycle realMath sampleConst tangentCfg
      (sampleGeom.withBlendArc realMath sampleConst tangentCfg
        (sampleBlendExt realMath sampleConst) {} sampleDbg)
      sampleDbg 0 st (s1MovingTP L x mt ad [])).st.current_vel = st.current_vel := by
  simp [tpRunCycle, tpUpdateInitialStatus, tcqItem, tcqLen, tpHandleEmptyQueue, tcqInit,
    tpResume, tpIsDone, s1MovingTP]

/-- The `tpAddLine` of scenario S1 after `tpSetVlimit(L)` with `L > 0` returns `Ok` and
queues the line. -/
theorem s1_limit_added (L : ℝ) (hL : 0 < L) :
    tpAddLine realMath sampleConst tangentCfg
      (sampleGeom.withBlendArc realMath sampleConst tangentCfg
        (sampleBlendExt realMath sampleConst) {} sampleDbg)
      (s1LimitTP L) { tran := ⟨10, 0, 0⟩ } 2 50 100 100 0 0 (-1)
      = (s1MovingTP L 0 0 0 [s1Head 0 0 0 (1 / 1000) 0 0 0 0], TPErr.OK) := by
  unfold s1LimitTP tpSetVlimit
  rw [if_neg (not_lt.mpr hL.le), s1TP_eq]
  have h0 : Real.sqrt 100 = 10 := sqrt_hundred
  norm_num [tpAddLine, tpErrorCheck, emcPoseToPmCartesian, pmCartLineInit, realMath,
    sampleConst, fabs, h0, tpInitializeNewSegment, tcqLen, tcqItem, ExtGeom.withBlendArc,
    tpHandleBlendArc, tcqLast, tcCheckLastParabolic, tpFinalizeSegmentLength,
    tpAddSegmentToQueue, tcqPut, sampleGeom, tpRunOptimization, tpRunOptimizationLoop,
    tangentCfg, s1MovingTP, s1Head, s1Line, TC_TERM_COND_STOP, TC_LINEAR]

/-- Scenario S1 under a velocity limit `L > 0`: from every state in which the line is at
the head of the queue (queued or active) at a speed `v` in `[0, 50]` within the limit from
which it can still stop within its rest, the run completes at `x = 10`. The number `k`
bounds the cycles that the line stays under way: each of them advances the line by at least
`min (1 / (2 * 10 ^ 8)) (L / 2000)`. -/
theorem s1_completes_from (L : ℝ) (hL : 0 < L) (k : Nat) :
    ∀ (v p vbs : ℝ) (ofd mt ad act : Int) (st : EmcmotStatus ℝ),
      st.net_feed_scale = 1 → 0 ≤ st.current_vel → st.current_vel ≤ 50 →
      (act = 0 ∨ act = 1) → 0 ≤ v → v ≤ 50 → v ≤ L → 0 ≤ p → 1 / 10 ^ 12 < 10 - p →
      v * v ≤ 200 * (10 - p) → 10 - p ≤ k * min (1 / (2 * 10 ^ 8)) (L / 2000) →
      CompletesAt realMath sampleConst tangentCfg
        (sampleGeom.withBlendArc realMath sampleConst tangentCfg
          (sampleBlendExt realMath sampleConst) {} sampleDbg) sampleDbg 10 50
        (0, st, s1MovingTP L p mt ad [s1Head v p vbs (1 / 1000) ofd act 0 0]) := by
  induction k with
  | zero =>
    intro v p vbs ofd mt ad act st _ _ _ _ _ _ _ _ hdx _ hk
    rw [Nat.cast_zero, zero_mul] at hk
    have : (0 : ℝ) < 1 / 10 ^ 12 := by norm_num
    linarith
  | succ k ih =>
    intro v p vbs ofd mt ad act st hst hs0 hs50 hact hv0 hv50 hvL hp0 hdx hcs hk
    have hvel : VelocityWithin 50
        ((0 : ℝ), st, s1MovingTP L p mt ad [s1Head v p vbs (1 / 1000) ofd act 0 0]) := by
      refine ⟨⟨hs0, hs50⟩, ?_⟩
      intro tc htc
      have e : tc = s1Head v p vbs (1 / 1000) ofd act 0 0 := by
        simpa [s1MovingTP] using htc
      rw [e]
      exact ⟨hv0, hv50⟩
    refine completesAt_step _ _ _ _ _ _ _ _ hvel ?_
    rw [tpRunCycles_one]
    obtain ⟨v', p', ofd', hv'0, hv'50, hmove | hfin⟩ := s1_update L v p hL hv0 hv50 hvL hp0
      hdx hcs
    · obtain ⟨b1, b2, b3, b4, b5, hU⟩ := hmove
      have hrun := s1_cycle_moving L v p vbs ofd mt ad act st _ v' p' v (1 / 1000) ofd' 0 rfl
        hact hst (fun st' tp' w o h1 h2 h3 h4 h5 => hU st' tp' w o h1 h2 h3 h4 h5)
      dsimp only
      rw [hrun]
      refine ih v' p' v ofd' 2 1 1 _ hst hv'0 hv'50 (Or.inr rfl) hv'0 hv'50 b1 b2 b3 b4 ?_
      rw [Nat.cast_succ] at hk
      linarith
    · have hrun := s1_cycle_final L v p vbs ofd mt ad act st _ v' 10 v' 0 ofd' 1 rfl
        hact hst (fun st' tp' w o h1 h2 h3 h4 h5 => hfin st' tp' w o h1 h2 h3 h4 h5)
      dsimp only
      rw [hrun]
      obtain ⟨e1, e2, e3, e4⟩ := s1_cycle_empty L 10 2 1
        { st with tcqlen := 1, requested_vel := 50, spindleSync := 0,
                  distance_to_go := 10 - 10, enables_queued := 0, current_vel := v',
                  dtg := { tran := ⟨10 - 10, 0, 0⟩ } }
      refine ⟨1, ?_, ?_, ?_⟩
      · rw [tpRunCycles_one]
        exact e1
      · rw [tpRunCycles_one]
        exact e2
      · intro j hj
        have hj' : j = 0 ∨ j = 1 := by omega
        rcases hj' with rfl | rfl
        · refine ⟨⟨hv'0, hv'50⟩, ?_⟩
          intro tc htc
          simp [tpRunCycles, s1MovingTP] at htc
        · rw [tpRunCycles_one]
          refine ⟨⟨?_, ?_⟩, ?_⟩
          · rw [e4]
            exact hv'0
          · rw [e4]
            exact hv'50
          · intro tc htc
            rw [e3] at htc
            simp at htc

/-- C23 (amended): scenario S1 with the additional call `set_vlimit(L)`, `L > 0` (`tpInit`
leaves the limit at 0): after `tpInit`, `set_pos(0)`, `set_cycle_time(0.001)`,
`set_amax(100)`, `set_vmax(50, 100)`, `set_term_cond(Stop, 0)`, `set_vlimit(L)` and
`add_line` to x = 10 with feed 50, `maxvel` 100, acceleration 100 and feed scale 1, the
`tpAddLine` returns `Ok` and there is a number `n` of consecutive `tpRunCycle` calls after
which `tpIsDone` is 1 and `currentPos.x = 10`, with the reported velocity and the
`currentvel` of the queued line between 0 and 50 in every cycle. -/
theorem s1_with_vlimit_completes (L : ℝ) (hL : 0 < L) :
    (tpAddLine realMath sampleConst tangentCfg
      (sampleGeom.withBlendArc realMath sampleConst tangentCfg
        (sampleBlendExt realMath sampleConst) {} sampleDbg)
      (s1LimitTP L) { tran := ⟨10, 0, 0⟩ } 2 50 100 100 0 0 (-1)).2 = TPErr.OK ∧
    CompletesAt realMath sampleConst tangentCfg
      (sampleGeom.withBlendArc realMath sampleConst tangentCfg
        (sampleBlendExt realMath sampleConst) {} sampleDbg) sampleDbg 10 50
      (0, s1Status, (tpAddLine realMath sampleConst tangentCfg
        (sampleGeom.withBlendArc realMath sampleConst tangentCfg
          (sampleBlendExt realMath sampleConst) {} sampleDbg)
        (s1LimitTP L) { tran := ⟨10, 0, 0⟩ } 2 50 100 100 0 0 (-1)).1) := by
  rw [s1_limit_added L hL]
  refine ⟨rfl, ?_⟩
  have hδ : 0 < min (1 / (2 * 10 ^ 8)) (L / 2000) :=
    lt_min (by norm_num) (div_pos hL (by norm_num))
  obtain ⟨k, hk⟩ := exists_nat_ge (10 / min (1 / (2 * 10 ^ 8)) (L / 2000))
  have hk' : (10 : ℝ) - 0 ≤ k * min (1 / (2 * 10 ^ 8)) (L / 2000) := by
    rw [sub_zero]
    exact (div_le_iff₀ hδ).mp hk
  exact s1_completes_from L hL k 0 0 0 0 0 0 0 s1Status (by rw [s1Status_eq])
    (by rw [s1Status_eq]) (by rw [s1Status_eq]; norm_num) (Or.inl rfl) (le_refl _)
    (by norm_num) hL.le (le_refl _) (by norm_num) (by norm_num) hk'

/-- Witness for the amended C23: the limit 100. -/
theorem s1_with_vlimit_completes_witness :
    (0 : ℝ) < 100 ∧
    (tpAddLine realMath sampleConst tangentCfg
      (sampleGeom.withBlendArc realMath sampleConst tangentCfg
        (sampleBlendExt realMath sampleConst) {} sampleDbg)
      (s1LimitTP 100) { tran := ⟨10, 0, 0⟩ } 2 50 100 100 0 0 (-1)).2 = TPErr.OK ∧
    CompletesAt realMath sampleConst tangentCfg
      (sampleGeom.withBlendArc realMath sampleConst tangentCfg
        (sampleBlendExt realMath sampleConst) {} sampleDbg) sampleDbg 10 50
      (0, s1Status, (tpAddLine realMath sampleConst tangentCfg
        (sampleGeom.withBlendArc realMath sampleConst tangentCfg
          (sampleBlendExt realMath sampleConst) {} sampleDbg)
        (s1LimitTP 100) { tran := ⟨10, 0, 0⟩ } 2 50 100 100 0 0 (-1)).1) :=
  ⟨by norm_num, s1_with_vlimit_completes 100 (by norm_num)⟩

/-- Scenario S1 under a velocity limit `L > 0`: from every state in which the line is at
the head of the queue at a speed from which it can still stop within its rest, the run
reaches the cycle that pops the line; the planner it leaves holds an empty queue. -/
theorem s1_reaches_pop (L : ℝ) (hL : 0 < L) (k : Nat) :
    ∀ (v p vbs : ℝ) (ofd mt ad act : Int) (st : EmcmotStatus ℝ),
      st.net_feed_scale = 1 → (act = 0 ∨ act = 1) → 0 ≤ v → v ≤ 50 → v ≤ L → 0 ≤ p →
      1 / 10 ^ 12 < 10 - p → v * v ≤ 200 * (10 - p) →
      10 - p ≤ k * min (1 / (2 * 10 ^ 8)) (L / 2000) →
      ∃ (n : Nat) (st' : EmcmotStatus ℝ),
        tpRunCycles realMath sampleConst tangentCfg
          (sampleGeom.withBlendArc realMath sampleConst tangentCfg
            (sampleBlendExt realMath sampleConst) {} sampleDbg) sampleDbg n
          (0, st, s1MovingTP L p mt ad [s1Head v p vbs (1 / 1000) ofd act 0 0])
        = (0, st', s1MovingTP L 10 2 1 []) := by
  induction k with
  | zero =>
    intro v p vbs ofd mt ad act st _ _ _ _ _ _ hdx _ hk
    rw [Nat.cast_zero, zero_mul] at hk
    have : (0 : ℝ) < 1 / 10 ^ 12 := by norm_num
    linarith
  | succ k ih =>
    intro v p vbs ofd mt ad act st hst hact hv0 hv50 hvL hp0 hdx hcs hk
    obtain ⟨v', p', ofd', hv'0, hv'50, hmove | hfin⟩ := s1_update L v p hL hv0 hv50 hvL hp0
      hdx hcs
    · obtain ⟨b1, b2, b3, b4, b5, hU⟩ := hmove
      have hrun := s1_cycle_moving L v p vbs ofd mt ad act st _ v' p' v (1 / 1000) ofd' 0 rfl
        hact hst (fun st' tp' w o h1 h2 h3 h4 h5 => hU st' tp' w o h1 h2 h3 h4 h5)
      obtain ⟨n, st', hn⟩ := ih v' p' v ofd' 2 1 1
        { st with tcqlen := 1, requested_vel := 50, spindleSync := 0,
                  distance_to_go := 10 - p', enables_queued := 0, current_vel := v',
                  dtg := { tran := ⟨10 - p', 0, 0⟩ } }
        hst (Or.inr rfl) hv'0 hv'50 b1 b2 b3 b4
        (by rw [Nat.cast_succ] at hk; linarith)
      refine ⟨n + 1, st', ?_⟩
      rw [tpRunCycles_succ_front, tpRunCycles_one]
      dsimp only
      rw [hrun]
      exact hn
    · have hrun := s1_cycle_final L v p vbs ofd mt ad act st _ v' 10 v' 0 ofd' 1 rfl
        hact hst (fun st' tp' w o h1 h2 h3 h4 h5 => hfin st' tp' w o h1 h2 h3 h4 h5)
      refine ⟨1,
        { st with tcqlen := 1, requested_vel := 50, spindleSync := 0,
                  distance_to_go := 10 - 10, enables_queued := 0, current_vel := v',
                  dtg := { tran := ⟨10 - 10, 0, 0⟩ } }, ?_⟩
      rw [tpRunCycles_one]
      dsimp only
      rw [hrun]

/-- The stale depth in a run from `tpInit`: in scenario S1 with the velocity limit set to
`L > 0` there is a number `n` of consecutive `tpRunCycle` calls after which the line has
been popped, the queue holds no segment and `tpQueueDepth` still returns 1. -/
theorem s1_pop_stale_depth (L : ℝ) (hL : 0 < L) :
    ∃ n : Nat,
      tcqLen (tpRunCycles realMath sampleConst tangentCfg
        (sampleGeom.withBlendArc realMath sampleConst tangentCfg
          (sampleBlendExt realMath sampleConst) {} sampleDbg) sampleDbg n
        (0, s1Status, (tpAddLine realMath sampleConst tangentCfg
          (sampleGeom.withBlendArc realMath sampleConst tangentCfg
            (sampleBlendExt realMath sampleConst) {} sampleDbg)
          (s1LimitTP L) { tran := ⟨10, 0, 0⟩ } 2 50 100 100 0 0 (-1)).1)).2.2.queue = 0 ∧
      tpQueueDepth (tpRunCycles realMath sampleConst tangentCfg
        (sampleGeom.withBlendArc realMath sampleConst tangentCfg
          (sampleBlendExt realMath sampleConst) {} sampleDbg) sampleDbg n
        (0, s1Status, (tpAddLine realMath sampleConst tangentCfg
          (sampleGeom.withBlendArc realMath sampleConst tangentCfg
            (sampleBlendExt realMath sampleConst) {} sampleDbg)
          (s1LimitTP L) { tran := ⟨10, 0, 0⟩ } 2 50 100 100 0 0 (-1)).1)).2.2 = 1 := by
  rw [s1_limit_added L hL]
  have hδ : 0 < min (1 / (2 * 10 ^ 8)) (L / 2000) :=
    lt_min (by norm_num) (div_pos hL (by norm_num))
  obtain ⟨k, hk⟩ := exists_nat_ge (10 / min (1 / (2 * 10 ^ 8)) (L / 2000))
  have hk' : (10 : ℝ) - 0 ≤ k * min (1 / (2 * 10 ^ 8)) (L / 2000) := by
    rw [sub_zero]
    exact (div_le_iff₀ hδ).mp hk
  obtain ⟨n, st', hn⟩ := s1_reaches_pop L hL k 0 0 0 0 0 0 0 s1Status (by rw [s1Status_eq])
    (Or.inl rfl) (le_refl _) (by norm_num) hL.le (le_refl _) (by norm_num) (by norm_num) hk'
  refine ⟨n, ?_, ?_⟩
  · rw [hn]
    rfl
  · rw [hn]
    rfl

/-! ### Blend velocities of a parabolic blend -/

/-- The two blend velocities of the shorter-segment branch give the same blend time. -/
theorem fmin_blend_time (x y a1 a2 : K) (h1 : 0 < a1) (h2 : 0 < a2) :
    fmin x (y * a1 / a2) / a1 = fmin (x * a2 / a1) y / a2 := by
  have hiff : x < y * a1 / a2 ↔ x * a2 / a1 < y := by
    rw [lt_div_iff₀ h2, div_lt_iff₀ h1]
  unfold fmin
  by_cases h : x < y * a1 / a2
  · rw [if_pos h, if_pos (hiff.mp h)]
    field_simp
    ring
  · rw [if_neg h, if_neg (fun h' => h (hiff.mpr h'))]
    field_simp
    ring

/-- C31: for every pair `(tc, nexttc)` with `tc.term_cond = Parabolic`, positive scaled
accelerations `a₁ = tpGetScaledAccel tc`, `a₂ = tpGetScaledAccel nexttc`, `tc.tolerance = 0`
and `planning = 0`, `tpComputeBlendVelocity` returns `Ok` and stores blend velocities with
equal blend time: `tc.blend_vel / a₁ = nexttc.blend_vel / a₂`. -/
theorem tpComputeBlendVelocity_equal_blend_time (m : MathLib K) (c : TPConst K)
    (cfg : EmcmotConfig K) (st : EmcmotStatus K) (tp : TP K) (theta : K) (tc nexttc : TC K)
    (want_parabolic : Bool) (hterm : tc.term_cond = TC_TERM_COND_PARABOLIC)
    (h1 : 0 < tpGetScaledAccel c tc) (h2 : 0 < tpGetScaledAccel c nexttc)
    (htol : tc.tolerance = 0) :
    (tpComputeBlendVelocity m c cfg st tp theta tc nexttc false want_parabolic).2.2.2
      = TPErr.OK ∧
    (tpComputeBlendVelocity m c cfg st tp theta tc nexttc false want_parabolic).1.blend_vel
        / tpGetScaledAccel c tc
      = (tpComputeBlendVelocity m c cfg st tp theta tc nexttc false
          want_parabolic).2.1.blend_vel / tpGetScaledAccel c nexttc := by
  unfold tpComputeBlendVelocity
  rw [if_neg (fun h => h.1 hterm)]
  dsimp only
  have hin : ¬ ((tc.tolerance > 0 ∨ false = true) ∧
      m.cos theta > m.cos (m.pi / 2 - c.TP_MIN_ARC_ANGLE)) := by
    rintro ⟨h | h, _⟩
    · rw [htol] at h
      exact lt_irrefl _ h
    · exact Bool.noConfusion h
  rw [if_neg hin]
  refine ⟨rfl, ?_⟩
  have hft : (false = true) = False := by simp
  simp only [hft, if_false]
  generalize tpGetScaledAccel c tc = a1 at h1 ⊢
  generalize tpGetScaledAccel c nexttc = a2 at h2 ⊢
  generalize fmin (tpCalculateTriangleVel m c tc) (tpGetRealTargetVel c st tp tc) = v1
  generalize fmin (tpCalculateTriangleVel m c nexttc) (tpGetRealTargetVel c st tp nexttc) = v2
  by_cases h : v1 < v2
  · rw [if_pos h]
    exact fmin_blend_time v1 v2 a1 a2 h1 h2
  · rw [if_neg h]
    show fmin (v2 * a1 / a2) (v2 * a1 / a2) / a1 = fmin v2 v2 / a2
    have e : ∀ z : K, fmin z z = z := fun z => by unfold fmin; split_ifs <;> rfl
    rw [e, e]
    field_simp
    ring

/-- A parabolic segment of length 10 with scaled acceleration 50 followed by a stop segment
with scaled acceleration 100 (C31 at a concrete pair). -/
theorem tpComputeBlendVelocity_equal_blend_time_witness :
    (tpComputeBlendVelocity realMath sampleConst blendCfg {} {} 0
      { blendSeg with tolerance := 0 } queuedLine false false).2.2.2 = TPErr.OK ∧
    (tpComputeBlendVelocity realMath sampleConst blendCfg {} {} 0
      { blendSeg with tolerance := 0 } queuedLine false false).1.blend_vel
        / tpGetScaledAccel sampleConst ({ blendSeg with tolerance := 0 } : TC ℝ)
      = (tpComputeBlendVelocity realMath sampleConst blendCfg {} {} 0
          { blendSeg with tolerance := 0 } queuedLine false false).2.1.blend_vel
        / tpGetScaledAccel sampleConst (queuedLine : TC ℝ) :=
  tpComputeBlendVelocity_equal_blend_time realMath sampleConst blendCfg {} {} 0
    { blendSeg with tolerance := 0 } queuedLine false (by decide)
    (by norm_num [tpGetScaledAccel, blendSeg, TC_TERM_COND_PARABOLIC, TC_LINEAR, TC_CIRCULAR,
      TC_SPHERICAL])
    (by norm_num [tpGetScaledAccel, queuedLine, TC_TERM_COND_PARABOLIC, TC_TERM_COND_STOP,
      TC_LINEAR, TC_CIRCULAR, TC_SPHERICAL])
    rfl

/-! ### The trapezoidal update with a negative discriminant, and the limit `vLimit` -/

theorem saturate_nonpos (x mx : K) (hx : x ≤ 0) (hm : 0 ≤ mx) : saturate x mx ≤ 0 := by
  unfold saturate
  split_ifs
  · linarith
  · linarith
  · exact hx

theorem sat_inplace_nonpos (x mx : K) (hx : x ≤ 0) (hm : 0 ≤ mx) : (sat_inplace x mx).1 ≤ 0 := by
  unfold sat_inplace
  split_ifs
  · linarith
  · show -mx ≤ 0
    linarith
  · exact hx

theorem sat_inplace_le (x mx : K) (hm : 0 ≤ mx) : (sat_inplace x mx).1 ≤ mx := by
  unfold sat_inplace
  split_ifs with h1 h2
  · exact le_refl _
  · show -mx ≤ mx
    linarith
  · exact not_lt.mp h1

/-- The acceleration that `tpCalculateTrapezoidalAccel` returns, in terms of the bounded
new velocity `newvel`. -/
theorem tpCalculateTrapezoidalAccel_acc (m : MathLib K) (c : TPConst K) (st : EmcmotStatus K)
    (dbg : EmcmotDebug K) (tp : TP K) (tc : TC K) :
    ∃ maxnewvel : K,
      (maxnewvel = -(tpGetScaledAccel c tc * tc.cycle_time * (1 / 2)) ∨
        (trapezoidDiscr c st dbg tp tc
            > pmSq (tpGetScaledAccel c tc * tc.cycle_time * (1 / 2)) ∧
          maxnewvel = -(tpGetScaledAccel c tc * tc.cycle_time * (1 / 2))
            + m.sqrt (trapezoidDiscr c st dbg tp tc))) ∧
      (tpCalculateTrapezoidalAccel m c st dbg tp tc).1 =
        saturate (((if !tpPureRotaryCheck tc ∧ tc.synchronized ≠ TC_SYNC_POSITION
            then (sat_inplace (saturate maxnewvel (tpGetRealTargetVel c st tp tc)) tp.vLimit).1
            else saturate maxnewvel (tpGetRealTargetVel c st tp tc)) - tc.currentvel)
          / tc.cycle_time) (tpGetScaledAccel c tc) ∧
      (trapezoidDiscr c st dbg tp tc < 0 →
        maxnewvel = -(tpGetScaledAccel c tc * tc.cycle_time * (1 / 2))) := by
  unfold tpCalculateTrapezoidalAccel trapezoidDiscr
  dsimp only
  have cases2 : ∀ (p : Prop) [Decidable p] (a b : K),
      (if p then a else b) = b ∨ (p ∧ (if p then a else b) = a) := by
    intro p _ a b
    by_cases h : p
    · exact Or.inr ⟨h, if_pos h⟩
    · exact Or.inl (if_neg h)
  refine ⟨_, cases2 _ _ _, rfl, ?_⟩
  intro hD
  refine if_neg (fun h => ?_)
  have h3 : 0 ≤ pmSq (tpGetScaledAccel c tc * tc.cycle_time * (1 / 2)) := mul_self_nonneg _
  exact absurd (lt_of_le_of_lt h3 h) (not_lt.mpr hD.le)

/-- With a negative discriminant the acceleration of the trapezoidal update is either the
full deceleration `-a`, or a deceleration within `-a` that brings the velocity to zero or
below within the cycle. -/
theorem trapezoid_negative_discr_acc (m : MathLib K) (c : TPConst K) (st : EmcmotStatus K)
    (dbg : EmcmotDebug K) (tp : TP K) (tc : TC K) (ha : 0 < tpGetScaledAccel c tc)
    (hdt : 0 < tc.cycle_time) (hv : 0 ≤ tc.currentvel)
    (htv : 0 ≤ tpGetRealTargetVel c st tp tc) (hL : 0 ≤ tp.vLimit)
    (hD : trapezoidDiscr c st dbg tp tc < 0) :
    (tpCalculateTrapezoidalAccel m c st dbg tp tc).1 = -tpGetScaledAccel c tc ∨
    (-tpGetScaledAccel c tc ≤ (tpCalculateTrapezoidalAccel m c st dbg tp tc).1 ∧
      tc.currentvel + (tpCalculateTrapezoidalAccel m c st dbg tp tc).1 * tc.cycle_time ≤ 0) := by
  obtain ⟨mv, _, hacc, hneg⟩ := tpCalculateTrapezoidalAccel_acc m c st dbg tp tc
  have hmv : mv ≤ 0 := by
    rw [hneg hD]
    have : 0 ≤ tpGetScaledAccel c tc * tc.cycle_time * (1 / 2) :=
      mul_nonneg (mul_nonneg ha.le hdt.le) (by norm_num)
    linarith
  have hs : saturate mv (tpGetRealTargetVel c st tp tc) ≤ 0 := saturate_nonpos _ _ hmv htv
  have hnv : (if !tpPureRotaryCheck tc ∧ tc.synchronized ≠ TC_SYNC_POSITION
      then (sat_inplace (saturate mv (tpGetRealTargetVel c st tp tc)) tp.vLimit).1
      else saturate mv (tpGetRealTargetVel c st tp tc)) ≤ 0 :=
    ite_rec (fun r : K => r ≤ 0) (sat_inplace_nonpos _ _ hs hL) hs
  rw [hacc]
  generalize (if !tpPureRotaryCheck tc ∧ tc.synchronized ≠ TC_SYNC_POSITION
      then (sat_inplace (saturate mv (tpGetRealTargetVel c st tp tc)) tp.vLimit).1
      else saturate mv (tpGetRealTargetVel c st tp tc)) = nv at hnv ⊢
  generalize tpGetScaledAccel c tc = a at ha ⊢
  have hx : (nv - tc.currentvel) / tc.cycle_time ≤ 0 :=
    div_nonpos_of_nonpos_of_nonneg (by linarith) hdt.le
  unfold saturate
  rw [if_neg (not_lt.mpr (le_trans hx ha.le))]
  by_cases h2 : (nv - tc.currentvel) / tc.cycle_time < -a
  · rw [if_pos h2]
    exact Or.inl rfl
  · rw [if_neg h2]
    refine Or.inr ⟨not_lt.mp h2, ?_⟩
    rw [div_mul_cancel₀ _ hdt.ne']
    linarith

/-- From a negative discriminant: the remaining distance is below `v dt / 2 - a dt² / 8`. -/
theorem trapezoid_negative_discr_dx (c : TPConst K) (st : EmcmotStatus K)
    (dbg : EmcmotDebug K) (tp : TP K) (tc : TC K) (ha : 0 < tpGetScaledAccel c tc)
    (hD : trapezoidDiscr c st dbg tp tc < 0) :
    tc.target - tc.progress < tc.currentvel * tc.cycle_time * (1 / 2)
      - tpGetScaledAccel c tc * tc.cycle_time * tc.cycle_time * (1 / 8) := by
  unfold trapezoidDiscr at hD
  dsimp only at hD
  generalize tpGetScaledAccel c tc = a at ha hD ⊢
  generalize (if tpGetRealFinalVel c st dbg tp tc (tpGetRealTargetVel c st tp tc) > 0 ∧
      tc.term_cond ≠ TC_TERM_COND_TANGENT then (0 : K)
      else tpGetRealFinalVel c st dbg tp tc (tpGetRealTargetVel c st tp tc)) = vf at hD
  unfold pmSq at hD
  have h1 : 0 ≤ vf * vf := mul_self_nonneg _
  have h2 : a * (2 * (tc.target - tc.progress) - tc.currentvel * tc.cycle_time)
      + a * tc.cycle_time * (1 / 2) * (a * tc.cycle_time * (1 / 2)) < 0 := by linarith
  have h3 : a * ((tc.target - tc.progress) - (tc.currentvel * tc.cycle_time * (1 / 2)
      - a * tc.cycle_time * tc.cycle_time * (1 / 8))) < 0 := by
    have e : a * ((tc.target - tc.progress) - (tc.currentvel * tc.cycle_time * (1 / 2)
        - a * tc.cycle_time * tc.cycle_time * (1 / 8)))
        = (a * (2 * (tc.target - tc.progress) - tc.currentvel * tc.cycle_time)
          + a * tc.cycle_time * (1 / 2) * (a * tc.cycle_time * (1 / 2))) * (1 / 2) := by ring
    rw [e]
    exact mul_neg_of_neg_of_pos h2 (by norm_num)
  have h4 := (mul_neg_iff.mp h3)
  rcases h4 with ⟨_, h⟩ | ⟨h, _⟩
  · linarith
  · exact absurd ha (not_lt.mpr h.le)

/-- C32: in a trapezoidal update (`tpCalculateTrapezoidalAccel` followed by
`tcUpdateDistFromAccel`) with scaled acceleration `a > 0`, `cycle_time > 0`,
`currentvel ≥ 0`, target velocity `≥ 0`, `vLimit ≥ 0` and `progress ≤ target`: if the
discriminant `v_f² + a (2 dx - v dt) + (a dt / 2)²` is negative, the segment is snapped to
its end point, `progress = target`. -/
theorem trapezoid_negative_discr_progress (m : MathLib K) (c : TPConst K)
    (st : EmcmotStatus K) (dbg : EmcmotDebug K) (tp : TP K) (tc : TC K)
    (ha : 0 < tpGetScaledAccel c tc) (hdt : 0 < tc.cycle_time) (hv : 0 ≤ tc.currentvel)
    (htv : 0 ≤ tpGetRealTargetVel c st tp tc) (hL : 0 ≤ tp.vLimit)
    (hp : tc.progress ≤ tc.target) (hD : trapezoidDiscr c st dbg tp tc < 0) :
    (tpTrapezoidalUpdate m c st dbg tp tc).progress = tc.target := by
  have hacc := trapezoid_negative_discr_acc m c st dbg tp tc ha hdt hv htv hL hD
  have hdx := trapezoid_negative_discr_dx c st dbg tp tc ha hD
  unfold tpTrapezoidalUpdate
  dsimp only
  rw [tcUpdateDistFromAccel_progress]
  generalize (tpCalculateTrapezoidalAccel m c st dbg tp tc).1 = acc at hacc ⊢
  generalize tpGetScaledAccel c tc = a at ha hacc hdx
  have hadt : 0 < a * tc.cycle_time * tc.cycle_time := mul_pos (mul_pos ha hdt) hdt
  have hvdt : 0 ≤ tc.currentvel * tc.cycle_time := mul_nonneg hv hdt.le
  by_cases hn : tc.currentvel + acc * tc.cycle_time < 0
  · rw [if_pos hn, if_pos (by linarith)]
  · rw [if_neg hn]
    unfold clip_max
    split_ifs with hc
    · rfl
    · have hge : tc.target ≤ tc.progress + (tc.currentvel + acc * tc.cycle_time
          + tc.currentvel) * (1 / 2) * tc.cycle_time := by
        rcases hacc with h | ⟨h1, h2⟩
        · subst h
          have hvn : 0 ≤ tc.currentvel + -a * tc.cycle_time := not_lt.mp hn
          have hm : 0 ≤ (tc.currentvel + -a * tc.cycle_time) * tc.cycle_time :=
            mul_nonneg hvn hdt.le
          nlinarith
        · have h0 : tc.currentvel + acc * tc.cycle_time = 0 :=
            le_antisymm h2 (not_lt.mp hn)
          rw [h0]
          linarith
      exact le_antisymm (not_lt.mp hc) hge

/-- C33 (amended): in a trapezoidal update with scaled acceleration `a > 0`,
`cycle_time = dt > 0`, `currentvel = v ≥ 0`, target velocity `≥ 0` and `vLimit ≥ 0`, a
negative discriminant makes the segment decelerate at the full rate: the new `currentvel`
is `v - a dt` when that is not negative, and 0 otherwise. The remaining speed is zero
exactly when `v ≤ a dt`. -/
theorem trapezoid_negative_discr_currentvel (m : MathLib K) (c : TPConst K)
    (st : EmcmotStatus K) (dbg : EmcmotDebug K) (tp : TP K) (tc : TC K)
    (ha : 0 < tpGetScaledAccel c tc) (hdt : 0 < tc.cycle_time) (hv : 0 ≤ tc.currentvel)
    (htv : 0 ≤ tpGetRealTargetVel c st tp tc) (hL : 0 ≤ tp.vLimit)
    (hD : trapezoidDiscr c st dbg tp tc < 0) :
    (tpTrapezoidalUpdate m c st dbg tp tc).currentvel =
        (if tc.currentvel - tpGetScaledAccel c tc * tc.cycle_time < 0 then 0
         else tc.currentvel - tpGetScaledAccel c tc * tc.cycle_time) ∧
    ((tpTrapezoidalUpdate m c st dbg tp tc).currentvel = 0 ↔
      tc.currentvel ≤ tpGetScaledAccel c tc * tc.cycle_time) := by
  have hacc := trapezoid_negative_discr_acc m c st dbg tp tc ha hdt hv htv hL hD
  have h1 : (tpTrapezoidalUpdate m c st dbg tp tc).currentvel =
      (if tc.currentvel - tpGetScaledAccel c tc * tc.cycle_time < 0 then 0
       else tc.currentvel - tpGetScaledAccel c tc * tc.cycle_time) := by
    unfold tpTrapezoidalUpdate
    dsimp only
    rw [tcUpdateDistFromAccel_currentvel]
    generalize (tpCalculateTrapezoidalAccel m c st dbg tp tc).1 = acc at hacc ⊢
    generalize tpGetScaledAccel c tc = a at ha hacc ⊢
    rcases hacc with h | ⟨h1, h2⟩
    · subst h
      have e : tc.currentvel + -a * tc.cycle_time = tc.currentvel - a * tc.cycle_time := by
        ring
      rw [e]
    · have h3 : tc.currentvel - a * tc.cycle_time ≤ 0 := by
        have := mul_le_mul_of_nonneg_right h1 hdt.le
        linarith
      have el : (if tc.currentvel + acc * tc.cycle_time < 0 then (0 : K)
          else tc.currentvel + acc * tc.cycle_time) = 0 := by
        split_ifs with h
        · rfl
        · exact le_antisymm h2 (not_lt.mp h)
      have er : (if tc.currentvel - a * tc.cycle_time < 0 then (0 : K)
          else tc.currentvel - a * tc.cycle_time) = 0 := by
        split_ifs with h
        · rfl
        · exact le_antisymm h3 (not_lt.mp h)
      rw [el, er]
  refine ⟨h1, ?_⟩
  rw [h1]
  constructor
  · intro h
    by_contra hc
    rw [if_neg (by linarith [not_le.mp hc])] at h
    linarith [not_le.mp hc]
  · intro h
    split_ifs with h'
    · rfl
    · linarith [not_lt.mp h']

/-- The quantities of `tpCalculateTrapezoidalAccel` for `overshootLine` under `limitTP`:
scaled acceleration 100, target velocity 50 and discriminant `-319/400`. -/
theorem overshootLine_values :
    tpGetScaledAccel sampleConst (overshootLine : TC ℝ) = 100 ∧
    tpGetRealTargetVel sampleConst {} limitTP (overshootLine : TC ℝ) = 50 ∧
    trapezoidDiscr sampleConst {} {} limitTP (overshootLine : TC ℝ) = -(319 / 400) := by
  refine ⟨?_, ?_, ?_⟩
  · norm_num [tpGetScaledAccel, overshootLine, queuedLine, TC_TERM_COND_PARABOLIC,
      TC_TERM_COND_STOP, TC_LINEAR, TC_CIRCULAR, TC_SPHERICAL]
  · norm_num [tpGetRealTargetVel, tpGetFeedScale, fmin, overshootLine, queuedLine, limitTP,
      sampleConst, TC_SYNC_POSITION]
  · norm_num [trapezoidDiscr, tpGetRealTargetVel, tpGetRealFinalVel, tpGetFeedScale,
      tpGetScaledAccel, fmin, pmSq, overshootLine, queuedLine, limitTP, sampleConst,
      TC_SYNC_POSITION, TC_TERM_COND_PARABOLIC, TC_TERM_COND_STOP, TC_TERM_COND_TANGENT,
      TC_LINEAR, TC_CIRCULAR, TC_SPHERICAL]

theorem trapezoid_negative_discr_progress_witness :
    (tpTrapezoidalUpdate realMath sampleConst {} {} limitTP (overshootLine : TC ℝ)).progress
      = (overshootLine : TC ℝ).target :=
  trapezoid_negative_discr_progress realMath sampleConst {} {} limitTP overshootLine
    (by rw [overshootLine_values.1]; norm_num) (by norm_num [overshootLine, queuedLine])
    (by norm_num [overshootLine]) (by rw [overshootLine_values.2.1]; norm_num)
    (by norm_num [limitTP]) (by norm_num [overshootLine, queuedLine])
    (by rw [overshootLine_values.2.2]; norm_num)

theorem trapezoid_negative_discr_currentvel_witness :
    (tpTrapezoidalUpdate realMath sampleConst {} {} limitTP (overshootLine : TC ℝ)).currentvel =
        (if (overshootLine : TC ℝ).currentvel
            - tpGetScaledAccel sampleConst (overshootLine : TC ℝ)
              * (overshootLine : TC ℝ).cycle_time < 0 then 0
         else (overshootLine : TC ℝ).currentvel
            - tpGetScaledAccel sampleConst (overshootLine : TC ℝ)
              * (overshootLine : TC ℝ).cycle_time) ∧
    ((tpTrapezoidalUpdate realMath sampleConst {} {} limitTP
        (overshootLine : TC ℝ)).currentvel = 0 ↔
      (overshootLine : TC ℝ).currentvel
        ≤ tpGetScaledAccel sampleConst (overshootLine : TC ℝ)
          * (overshootLine : TC ℝ).cycle_time) :=
  trapezoid_negative_discr_currentvel realMath sampleConst {} {} limitTP overshootLine
    (by rw [overshootLine_values.1]; norm_num) (by norm_num [overshootLine, queuedLine])
    (by norm_num [overshootLine]) (by rw [overshootLine_values.2.1]; norm_num)
    (by norm_num [limitTP]) (by rw [overshootLine_values.2.2]; norm_num)

/-- Counterexample to C33 as stated: `overshootLine` (scaled acceleration 100,
`cycle_time = 0.001`, `currentvel = 10`, target velocity 50, `progress = 9.999` of 10)
under `vLimit = 100` has the negative discriminant `-319/400`, and after the trapezoidal
update its `currentvel` is 9.9, not 0 (while its `progress` is at the target). -/
theorem trapezoid_negative_discr_speed_left :
    0 < tpGetScaledAccel sampleConst (overshootLine : TC ℝ) ∧
    0 < (overshootLine : TC ℝ).cycle_time ∧ 0 ≤ (overshootLine : TC ℝ).currentvel ∧
    0 ≤ tpGetRealTargetVel sampleConst {} limitTP (overshootLine : TC ℝ) ∧
    0 ≤ (limitTP : TP ℝ).vLimit ∧ 0 ≤ (overshootLine : TC ℝ).progress ∧
    (overshootLine : TC ℝ).progress ≤ (overshootLine : TC ℝ).target ∧
    trapezoidDiscr sampleConst {} {} limitTP (overshootLine : TC ℝ) < 0 ∧
    (tpTrapezoidalUpdate realMath sampleConst {} {} limitTP (overshootLine : TC ℝ)).currentvel
      = 99 / 10 ∧
    (tpTrapezoidalUpdate realMath sampleConst {} {} limitTP (overshootLine : TC ℝ)).currentvel
      ≠ 0 := by
  have hc : (tpTrapezoidalUpdate realMath sampleConst {} {} limitTP
      (overshootLine : TC ℝ)).currentvel = 99 / 10 := by
    unfold tpTrapezoidalUpdate
    dsimp only
    rw [tcUpdateDistFromAccel_currentvel]
    norm_num [tpCalculateTrapezoidalAccel, tpGetRealTargetVel, tpGetRealFinalVel,
      tpGetFeedScale, tpGetScaledAccel, tpPureRotaryCheck, saturate, sat_inplace, fmin, pmSq,
      overshootLine, queuedLine, limitTP, sampleConst, TC_SYNC_POSITION,
      TC_TERM_COND_PARABOLIC, TC_TERM_COND_STOP, TC_TERM_COND_TANGENT, TC_LINEAR, TC_CIRCULAR,
      TC_SPHERICAL]
  refine ⟨by rw [overshootLine_values.1]; norm_num, by norm_num [overshootLine, queuedLine],
    by norm_num [overshootLine], by rw [overshootLine_values.2.1]; norm_num,
    by norm_num [limitTP], by norm_num [overshootLine],
    by norm_num [overshootLine, queuedLine], by rw [overshootLine_values.2.2]; norm_num,
    hc, ?_⟩
  rw [hc]
  norm_num

/-- C34: for every segment that is not pure-rotary and not position-synchronized, with
`0 ≤ currentvel ≤ tp.vLimit`, scaled acceleration `≥ 0` and a servo period
`cycle_time ≠ 0` (the segment invariant is `cycle_time > 0`), one trapezoidal update (`tpCalculateTrapezoidalAccel` followed by `tcUpdateDistFromAccel`)
yields a new `currentvel ≤ tp.vLimit`; for a pure-rotary or position-synchronized segment
`tc'` the limit is not applied: the update does not depend on `vLimit`. -/
theorem trapezoid_vLimit (m : MathLib K) (c : TPConst K) (st : EmcmotStatus K)
    (dbg : EmcmotDebug K) (tp : TP K) (tc tc' : TC K) (L : K) :
    (tpPureRotaryCheck tc = false → tc.synchronized ≠ TC_SYNC_POSITION →
      0 ≤ tc.currentvel → tc.currentvel ≤ tp.vLimit → 0 ≤ tpGetScaledAccel c tc →
      tc.cycle_time ≠ 0 →
      (tpTrapezoidalUpdate m c st dbg tp tc).currentvel ≤ tp.vLimit) ∧
    (tpPureRotaryCheck tc' = true ∨ tc'.synchronized = TC_SYNC_POSITION →
      tpTrapezoidalUpdate m c st dbg { tp with vLimit := L } tc'
        = tpTrapezoidalUpdate m c st dbg tp tc') := by
  constructor
  · intro hrot hsync hv hvL ha hdt
    have hL : 0 ≤ tp.vLimit := le_trans hv hvL
    obtain ⟨mv, _, hacc, _⟩ := tpCalculateTrapezoidalAccel_acc m c st dbg tp tc
    rw [if_pos ⟨by rw [hrot]; rfl, hsync⟩] at hacc
    have hnv := sat_inplace_le (saturate mv (tpGetRealTargetVel c st tp tc)) tp.vLimit hL
    unfold tpTrapezoidalUpdate
    dsimp only
    rw [tcUpdateDistFromAccel_currentvel, hacc]
    generalize (sat_inplace (saturate mv (tpGetRealTargetVel c st tp tc)) tp.vLimit).1 = nv
      at hnv ⊢
    generalize tpGetScaledAccel c tc = a at ha ⊢
    have hnext : tc.currentvel + saturate ((nv - tc.currentvel) / tc.cycle_time) a
        * tc.cycle_time ≤ tp.vLimit := by
      have hx : (nv - tc.currentvel) / tc.cycle_time * tc.cycle_time = nv - tc.currentvel :=
        div_mul_cancel₀ _ hdt
      rcases lt_or_gt_of_ne hdt with hneg | hpos
      · unfold saturate
        split_ifs with h1 h2
        · have : a * tc.cycle_time ≤ 0 := mul_nonpos_of_nonneg_of_nonpos ha hneg.le
          linarith
        · have := mul_lt_mul_of_neg_right h2 hneg
          linarith
        · linarith
      · unfold saturate
        split_ifs with h1 h2
        · have := mul_lt_mul_of_pos_right h1 hpos
          linarith
        · have : 0 ≤ a * tc.cycle_time := mul_nonneg ha hpos.le
          linarith
        · linarith
    split_ifs
    · exact hL
    · exact hnext
  · intro h
    have hc : ¬ ((!tpPureRotaryCheck tc') = true ∧ tc'.synchronized ≠ TC_SYNC_POSITION) := by
      rintro ⟨h1, h2⟩
      rcases h with h | h
      · rw [h] at h1
        exact Bool.noConfusion h1
      · exact h2 h
    have e : tpCalculateTrapezoidalAccel m c st dbg { tp with vLimit := L } tc'
        = tpCalculateTrapezoidalAccel m c st dbg tp tc' := by
      unfold tpCalculateTrapezoidalAccel
      dsimp only
      rw [if_neg hc, if_neg hc]
      rfl
    unfold tpTrapezoidalUpdate
    rw [e]

theorem trapezoid_vLimit_witness :
    (tpTrapezoidalUpdate realMath sampleConst {} {} limitTP
        (overshootLine : TC ℝ)).currentvel ≤ (limitTP : TP ℝ).vLimit ∧
    tpTrapezoidalUpdate realMath sampleConst {} {} { limitTP with vLimit := 1 }
        (rotaryLine : TC ℝ)
      = tpTrapezoidalUpdate realMath sampleConst {} {} limitTP (rotaryLine : TC ℝ) :=
  have h := trapezoid_vLimit realMath sampleConst {} {} limitTP overshootLine rotaryLine 1
  ⟨h.1 (by decide) (by decide) (by norm_num [overshootLine])
      (by norm_num [overshootLine, limitTP]) (by rw [overshootLine_values.1]; norm_num)
      (by norm_num [overshootLine, queuedLine]),
   h.2 (Or.inl (by decide))⟩

/-! ### The split cycle behind a tangent head -/

/-- `tpHandleSplitCycle` for a tangent head that is not flagged `remove` and has a
successor: the head is moved to its target and flagged `remove`, and the successor returned
is the result of `tpUpdateCycle` on `tpSplitSuccessor`, with the pending DIO changes
toggled if the successor has the larger share of the tick. -/
theorem tpHandleSplitCycle_tangent (cfg : EmcmotConfig K) (g : ExtGeom K) (m : MathLib K)
    (c : TPConst K) (st : EmcmotStatus K) (dbg : EmcmotDebug K) (tp : TP K) (tc n : TC K)
    (hrem : tc.remove = 0) (htan : tc.term_cond = TC_TERM_COND_TANGENT) :
    (tpHandleSplitCycle cfg g m c st dbg tp tc (some n)).2.2.1.progress = tc.target ∧
    (tpHandleSplitCycle cfg g m c st dbg tp tc (some n)).2.2.1.remove = 1 ∧
    (tpHandleSplitCycle cfg g m c st dbg tp tc (some n)).2.2.2.2.2 = TPErr.OK ∧
    (tpHandleSplitCycle cfg g m c st dbg tp tc (some n)).2.2.2.1 =
      some (if tc.cycle_time >
          (tpUpdateCycleTP g m c st dbg (tpSplitPlanner g tp tc)
            (tpSplitSuccessor tp tc n)).2.cycle_time
        then (tpUpdateCycleTP g m c st dbg (tpSplitPlanner g tp tc)
            (tpSplitSuccessor tp tc n)).2
        else (tpToggleDIOs cfg (tpUpdateCycleTP g m c st dbg (tpSplitPlanner g tp tc)
            (tpSplitSuccessor tp tc n)).2).1) := by
  unfold tpHandleSplitCycle tpSplitPlanner tpSplitSuccessor
  rw [if_neg (not_not.mpr hrem)]
  dsimp only
  rw [if_pos htan]
  generalize tpUpdateCycleTP g m c st dbg _ _ = u
  by_cases h : tc.cycle_time > u.2.cycle_time
  · rw [if_pos h, if_pos h]
    exact ⟨(tpToggleDIOs_cycle_time cfg _).2.2.1, rfl, rfl, rfl⟩
  · rw [if_neg h, if_neg h]
    exact ⟨rfl, rfl, rfl, rfl⟩

/-- When `tpCheckEndCondition` flags a segment that was not flagged before as `splitting`,
the `cycle_time` it stores is a fragment of the servo period. -/
theorem tpCheckEndCondition_split_fragment (m : MathLib K) (c : TPConst K)
    (st : EmcmotStatus K) (dbg : EmcmotDebug K) (tp : TP K) (tc : TC K)
    (hct : 0 < tp.cycleTime) (heps : 0 ≤ c.TP_TIME_EPSILON) (h0 : tc.splitting = 0)
    (hs : (tpCheckEndCondition m c st dbg tp tc).1.splitting ≠ 0) :
    0 ≤ (tpCheckEndCondition m c st dbg tp tc).1.cycle_time ∧
    (tpCheckEndCondition m c st dbg tp tc).1.cycle_time < tp.cycleTime := by
  have keep : ∀ t : TC K, t.splitting = 0 →
      (t.splitting ≠ 0 → 0 ≤ t.cycle_time ∧ t.cycle_time < tp.cycleTime) :=
    fun t ht h => absurd ht h
  have zero : ∀ t : TC K, t.cycle_time = 0 →
      (t.splitting ≠ 0 → 0 ≤ t.cycle_time ∧ t.cycle_time < tp.cycleTime) :=
    fun t ht _ => ⟨ht.ge, ht ▸ hct⟩
  revert hs
  unfold tpCheckEndCondition
  dsimp only
  refine ite_rec (fun r : TC K × TPErr => r.1.splitting ≠ 0 →
    0 ≤ r.1.cycle_time ∧ r.1.cycle_time < tp.cycleTime) ?_ ?_
  · refine ite_rec (fun r : TC K => r.splitting ≠ 0 →
      0 ≤ r.cycle_time ∧ r.cycle_time < tp.cycleTime) ?_ ?_
    · exact zero _ rfl
    · exact zero _ rfl
  refine ite_rec (fun r : TC K × TPErr => r.1.splitting ≠ 0 →
    0 ≤ r.1.cycle_time ∧ r.1.cycle_time < tp.cycleTime) (keep _ h0) ?_
  refine ite_rec (fun r : TC K × TPErr => r.1.splitting ≠ 0 →
    0 ≤ r.1.cycle_time ∧ r.1.cycle_time < tp.cycleTime) (keep _ h0) ?_
  refine ite_rec (fun r : TC K × TPErr => r.1.splitting ≠ 0 →
    0 ≤ r.1.cycle_time ∧ r.1.cycle_time < tp.cycleTime) (keep _ h0) ?_
  have key : ∀ (dt v1 v2 : K) (t : TC K), t.splitting = 0 →
      ((if dt < c.TP_TIME_EPSILON then
          (tcSetSplitCycle { t with progress := t.target } 0 v1, TPErr.OK)
        else if dt < tp.cycleTime then (tcSetSplitCycle t dt v2, TPErr.OK)
        else (t, TPErr.OK)).1.splitting ≠ 0 →
       0 ≤ (if dt < c.TP_TIME_EPSILON then
          (tcSetSplitCycle { t with progress := t.target } 0 v1, TPErr.OK)
        else if dt < tp.cycleTime then (tcSetSplitCycle t dt v2, TPErr.OK)
        else (t, TPErr.OK)).1.cycle_time ∧
       (if dt < c.TP_TIME_EPSILON then
          (tcSetSplitCycle { t with progress := t.target } 0 v1, TPErr.OK)
        else if dt < tp.cycleTime then (tcSetSplitCycle t dt v2, TPErr.OK)
        else (t, TPErr.OK)).1.cycle_time < tp.cycleTime) := by
    intro dt v1 v2 t ht
    by_cases h1 : dt < c.TP_TIME_EPSILON
    · rw [if_pos h1]
      exact zero _ rfl
    · rw [if_neg h1]
      by_cases h2 : dt < tp.cycleTime
      · rw [if_pos h2]
        exact fun _ => ⟨le_trans heps (not_lt.mp h1), h2⟩
      · rw [if_neg h2]
        exact keep _ ht
  exact key _ _ _ _ h0

/-- The segment that `tpCheckEndCondition` leaves of `splitHead` under `poppingTP`: flagged
`splitting` with the fragment 1/1100 of the tick, the final velocity 12 stored in
`vel_at_blend_start`, and `currentvel` still 10. -/
theorem splitHead_checked :
    (tpCheckEndCondition realMath sampleConst {} {} poppingTP (splitHead : TC ℝ)).1
      = { splitHead with splitting := 1, cycle_time := 1 / 1100, vel_at_blend_start := 12 } := by
  norm_num [tpCheckEndCondition, tcSetSplitCycle, tpGetRealTargetVel, tpGetRealFinalVel,
    tpGetFeedScale, tpGetScaledAccel, sat_inplace, fmin, fmax, pmSq, splitHead, queuedLine,
    poppingTP, sampleConst, TC_TERM_COND_TANGENT, TC_TERM_COND_PARABOLIC, TC_TERM_COND_STOP,
    TC_SYNC_POSITION, TC_LINEAR, TC_CIRCULAR, TC_SPHERICAL]

/-- C35 (amended): in `tpHandleSplitCycle`, for every head segment with
`term_cond = Tangent` that is not flagged `remove` and has a successor, the head's
`progress` is set to its `target`, and the successor starts its partial-cycle update
(`tpUpdateCycle` on `tpSplitSuccessor`) with `currentvel` equal to the head's
`vel_at_blend_start`, the end velocity `v_f` that `tcSetSplitCycle` stored, not to the
head's `currentvel` field; the two agree when the head was flagged through the
`dx ≤ TP_POS_EPSILON` branch of `tpCheckEndCondition`. -/
theorem tpHandleSplitCycle_successor_start (cfg : EmcmotConfig K) (g : ExtGeom K)
    (m : MathLib K) (c : TPConst K) (st : EmcmotStatus K) (dbg : EmcmotDebug K) (tp : TP K)
    (tc n t0 : TC K) (split_time v_f : K)
    (hrem : tc.remove = 0) (htan : tc.term_cond = TC_TERM_COND_TANGENT) :
    (tpHandleSplitCycle cfg g m c st dbg tp tc (some n)).2.2.1.progress = tc.target ∧
    (tpSplitSuccessor tp tc n).currentvel = tc.vel_at_blend_start ∧
    (tpHandleSplitCycle cfg g m c st dbg tp tc (some n)).2.2.2.1 =
      some (if tc.cycle_time >
          (tpUpdateCycleTP g m c st dbg (tpSplitPlanner g tp tc)
            (tpSplitSuccessor tp tc n)).2.cycle_time
        then (tpUpdateCycleTP g m c st dbg (tpSplitPlanner g tp tc)
            (tpSplitSuccessor tp tc n)).2
        else (tpToggleDIOs cfg (tpUpdateCycleTP g m c st dbg (tpSplitPlanner g tp tc)
            (tpSplitSuccessor tp tc n)).2).1) ∧
    (tcSetSplitCycle t0 split_time v_f).vel_at_blend_start = v_f ∧
    (tcSetSplitCycle t0 split_time v_f).currentvel = t0.currentvel ∧
    (t0.target - t0.progress ≤ c.TP_POS_EPSILON →
      (tpCheckEndCondition m c st dbg tp t0).1.vel_at_blend_start = t0.currentvel ∧
      (tpCheckEndCondition m c st dbg tp t0).1.currentvel = t0.currentvel) := by
  obtain ⟨h1, _, _, h4⟩ := tpHandleSplitCycle_tangent cfg g m c st dbg tp tc n hrem htan
  refine ⟨h1, rfl, h4, rfl, rfl, ?_⟩
  intro hdx
  unfold tpCheckEndCondition
  dsimp only
  rw [if_pos hdx]
  exact ite_rec (fun r : TC K => r.vel_at_blend_start = t0.currentvel ∧
    r.currentvel = t0.currentvel) ⟨rfl, rfl⟩ ⟨rfl, rfl⟩

theorem tpHandleSplitCycle_successor_start_witness :
    (tpHandleSplitCycle blendCfg sampleGeom realMath sampleConst {} {} poppingTP
      (rampOvershootSeg : TC ℝ) (some secondLine)).2.2.1.progress
      = (rampOvershootSeg : TC ℝ).target ∧
    (tpSplitSuccessor poppingTP (rampOvershootSeg : TC ℝ) secondLine).currentvel
      = (rampOvershootSeg : TC ℝ).vel_at_blend_start ∧
    (tcSetSplitCycle (doneLine : TC ℝ) 0 3).vel_at_blend_start = 3 ∧
    (tpCheckEndCondition realMath sampleConst {} {} poppingTP
      (doneLine : TC ℝ)).1.vel_at_blend_start = (doneLine : TC ℝ).currentvel :=
  have h := tpHandleSplitCycle_successor_start blendCfg sampleGeom realMath sampleConst {} {}
    poppingTP rampOvershootSeg secondLine doneLine 0 3 (by decide) (by decide)
  ⟨h.1, h.2.1, h.2.2.2.1,
    (h.2.2.2.2.2 (by norm_num [doneLine, queuedLine, sampleConst])).1⟩

/-- Counterexample to C35 as stated: the tangent line `splitHead` moves at 10 with a
planned final velocity of 12. `tpCheckEndCondition` flags it `splitting` and stores 12 in
`vel_at_blend_start`; in the split cycle that follows, the successor starts its update
with `currentvel = 12`, while the head's `currentvel` is 10. -/
theorem split_successor_not_head_currentvel :
    (tpCheckEndCondition realMath sampleConst {} {} poppingTP
      (splitHead : TC ℝ)).1.term_cond = TC_TERM_COND_TANGENT ∧
    (tpCheckEndCondition realMath sampleConst {} {} poppingTP (splitHead : TC ℝ)).1.remove
      = 0 ∧
    (tpCheckEndCondition realMath sampleConst {} {} poppingTP (splitHead : TC ℝ)).1.splitting
      = 1 ∧
    (tpCheckEndCondition realMath sampleConst {} {} poppingTP (splitHead : TC ℝ)).1.currentvel
      = 10 ∧
    (tpSplitSuccessor poppingTP
      (tpCheckEndCondition realMath sampleConst {} {} poppingTP (splitHead : TC ℝ)).1
      (secondLine : TC ℝ)).currentvel = 12 ∧
    (tpSplitSuccessor poppingTP
      (tpCheckEndCondition realMath sampleConst {} {} poppingTP (splitHead : TC ℝ)).1
      (secondLine : TC ℝ)).currentvel
      ≠ (tpCheckEndCondition realMath sampleConst {} {} poppingTP
        (splitHead : TC ℝ)).1.currentvel := by
  rw [splitHead_checked]
  refine ⟨rfl, rfl, rfl, by norm_num [splitHead], rfl, ?_⟩
  show (12 : ℝ) ≠ (splitHead : TC ℝ).currentvel
  norm_num [splitHead]

/-- C36: with `tp.cycleTime > 0` and `TP_TIME_EPSILON ≥ 0`, whenever `tpCheckEndCondition`
flags a segment (not flagged before) as `splitting`, the fragment stored in its
`cycle_time` satisfies `0 ≤ cycle_time < tp.cycleTime`; and in `tpHandleSplitCycle` with a
tangent head `h` (not flagged `remove`) and a successor, the successor is updated with
`cycle_time = tp.cycleTime - h.cycle_time`, so the two fragments of the tick sum to the
servo period. -/
theorem split_fragments_sum (cfg : EmcmotConfig K) (g : ExtGeom K) (m : MathLib K)
    (c : TPConst K) (st : EmcmotStatus K) (dbg : EmcmotDebug K) (tp : TP K) (tc h n : TC K)
    (hct : 0 < tp.cycleTime) (heps : 0 ≤ c.TP_TIME_EPSILON) :
    (tc.splitting = 0 → (tpCheckEndCondition m c st dbg tp tc).1.splitting ≠ 0 →
      0 ≤ (tpCheckEndCondition m c st dbg tp tc).1.cycle_time ∧
      (tpCheckEndCondition m c st dbg tp tc).1.cycle_time < tp.cycleTime) ∧
    (h.remove = 0 → h.term_cond = TC_TERM_COND_TANGENT →
      (tpSplitSuccessor tp h n).cycle_time = tp.cycleTime - h.cycle_time ∧
      h.cycle_time + (tpSplitSuccessor tp h n).cycle_time = tp.cycleTime ∧
      (tpHandleSplitCycle cfg g m c st dbg tp h (some n)).2.2.2.1 =
        some (if h.cycle_time >
            (tpUpdateCycleTP g m c st dbg (tpSplitPlanner g tp h)
              (tpSplitSuccessor tp h n)).2.cycle_time
          then (tpUpdateCycleTP g m c st dbg (tpSplitPlanner g tp h)
              (tpSplitSuccessor tp h n)).2
          else (tpToggleDIOs cfg (tpUpdateCycleTP g m c st dbg (tpSplitPlanner g tp h)
              (tpSplitSuccessor tp h n)).2).1)) := by
  refine ⟨tpCheckEndCondition_split_fragment m c st dbg tp tc hct heps, ?_⟩
  intro hrem htan
  refine ⟨rfl, ?_, (tpHandleSplitCycle_tangent cfg g m c st dbg tp h n hrem htan).2.2.2⟩
  show h.cycle_time + (tp.cycleTime - h.cycle_time) = tp.cycleTime
  ring

theorem split_fragments_sum_witness :
    (0 ≤ (tpCheckEndCondition realMath sampleConst {} {} poppingTP
        (splitHead : TC ℝ)).1.cycle_time ∧
      (tpCheckEndCondition realMath sampleConst {} {} poppingTP
        (splitHead : TC ℝ)).1.cycle_time < (poppingTP : TP ℝ).cycleTime) ∧
    (tpSplitSuccessor poppingTP (rampOvershootSeg : TC ℝ) secondLine).cycle_time
      = (poppingTP : TP ℝ).cycleTime - (rampOvershootSeg : TC ℝ).cycle_time ∧
    (rampOvershootSeg : TC ℝ).cycle_time
      + (tpSplitSuccessor poppingTP (rampOvershootSeg : TC ℝ) secondLine).cycle_time
      = (poppingTP : TP ℝ).cycleTime :=
  have h := split_fragments_sum blendCfg sampleGeom realMath sampleConst {} {} poppingTP
    splitHead rampOvershootSeg secondLine (by norm_num [poppingTP])
    (by norm_num [sampleConst])
  ⟨h.1 (by decide) (by rw [splitHead_checked]; decide),
    (h.2 (by decide) (by decide)).1, (h.2 (by decide) (by decide)).2.1⟩

/-! ### The final velocity and the sample-rate cap in `tpComputeOptimalVelocity` -/

theorem sqrt_one_div_25 : Real.sqrt (1 / 25) = 1 / 5 := by
  rw [show (1 / 25 : ℝ) = (1 / 5) ^ 2 by norm_num, Real.sqrt_sq (by norm_num)]

/-- C37, evaluation at the failing input: `tpComputeOptimalVelocity` on the pair
(`tangentLine`, `tinyLine`) with cycle time 0.001 and `TP_MIN_SEGMENT_CYCLES = 2`. All of
`finalvel`, `target`, `maxvel` and the scaled acceleration are non-negative. The final
velocity given to the previous segment is `sqrt(2 · 100 · 0.0002) = 0.2`, capped by the
`maxvel = 100` that the current segment had before the call; the call then lowers the
current segment's `maxvel` to the sample-rate bound `0.0002 / 0.002 = 0.1`, so the previous
segment ends faster than the current segment's velocity cap. -/
theorem tpComputeOptimalVelocity_finalvel_above_cap :
    0 ≤ (tinyLine : TC ℝ).finalvel ∧ 0 ≤ (tinyLine : TC ℝ).target ∧
    0 ≤ (tinyLine : TC ℝ).maxvel ∧ 0 ≤ (tangentLine : TC ℝ).maxvel ∧
    0 ≤ tpGetScaledAccel sampleConst (tinyLine : TC ℝ) ∧ 0 < (oneLineTP : TP ℝ).cycleTime ∧
    (tpComputeOptimalVelocity realMath sampleConst oneLineTP tinyLine tangentLine).2.finalvel
      = 1 / 5 ∧
    (tpComputeOptimalVelocity realMath sampleConst oneLineTP tinyLine tangentLine).1.maxvel
      = 1 / 10 ∧
    ¬ ((tpComputeOptimalVelocity realMath sampleConst oneLineTP tinyLine tangentLine).2.finalvel
      ≤ (tpComputeOptimalVelocity realMath sampleConst oneLineTP tinyLine
          tangentLine).1.maxvel) := by
  have ha : tpGetScaledAccel sampleConst (tinyLine : TC ℝ) = 100 := by
    norm_num [tpGetScaledAccel, tinyLine, TC_TERM_COND_PARABOLIC, TC_TERM_COND_STOP, TC_LINEAR,
      TC_CIRCULAR, TC_SPHERICAL]
  have hs : realMath.sqrt (pmSq (tinyLine : TC ℝ).finalvel
      + 2 * tpGetScaledAccel sampleConst (tinyLine : TC ℝ) * (tinyLine : TC ℝ).target)
      = 1 / 5 := by
    rw [ha]
    show Real.sqrt _ = 1 / 5
    rw [← sqrt_one_div_25]
    congr 1
    norm_num [pmSq, tinyLine]
  have hf : (tpComputeOptimalVelocity realMath sampleConst oneLineTP tinyLine
      tangentLine).2.finalvel = 1 / 5 := by
    unfold tpComputeOptimalVelocity
    dsimp only
    rw [hs]
    norm_num [fmin, tinyLine, tangentLine, queuedLine]
  have hm : (tpComputeOptimalVelocity realMath sampleConst oneLineTP tinyLine
      tangentLine).1.maxvel = 1 / 10 := by
    unfold tpComputeOptimalVelocity
    dsimp only
    norm_num [fmin, tinyLine, oneLineTP, sampleConst]
  refine ⟨by norm_num [tinyLine], by norm_num [tinyLine], by norm_num [tinyLine],
    by norm_num [tangentLine, queuedLine], by rw [ha]; norm_num, by norm_num [oneLineTP],
    hf, hm, ?_⟩
  rw [hf, hm]
  norm_num

/-! ### The end points of a blend arc -/

/-- For unit vectors with intersection half-angle `θ` the dot product is `1 - 2 cos² θ`. -/
theorem findIntersectionAngle_dot (u1 u2 : PmCartesian ℝ)
    (h1 : pmCartMag realMath u1 = 1) (h2 : pmCartMag realMath u2 = 1) :
    pmCartCartDot u1 u2 = 1 - 2 * Real.cos (findIntersectionAngle realMath u1 u2) ^ 2 := by
  have e1 : u1.x * u1.x + u1.y * u1.y + u1.z * u1.z = 1 := by
    have : Real.sqrt (u1.x * u1.x + u1.y * u1.y + u1.z * u1.z) = 1 := h1
    exact (Real.sqrt_eq_one).mp this
  have e2 : u2.x * u2.x + u2.y * u2.y + u2.z * u2.z = 1 := by
    have : Real.sqrt (u2.x * u2.x + u2.y * u2.y + u2.z * u2.z) = 1 := h2
    exact (Real.sqrt_eq_one).mp this
  have hcs : pmCartCartDot u1 u2 * pmCartCartDot u1 u2 ≤ 1 := by
    unfold pmCartCartDot
    have hl : (u1.x * u1.x + u1.y * u1.y + u1.z * u1.z)
        * (u2.x * u2.x + u2.y * u2.y + u2.z * u2.z)
        - (u1.x * u2.x + u1.y * u2.y + u1.z * u2.z) * (u1.x * u2.x + u1.y * u2.y + u1.z * u2.z)
        = (u1.x * u2.y - u1.y * u2.x) ^ 2 + (u1.y * u2.z - u1.z * u2.y) ^ 2
          + (u1.z * u2.x - u1.x * u2.z) ^ 2 := by ring
    rw [e1, e2] at hl
    nlinarith [sq_nonneg (u1.x * u2.y - u1.y * u2.x), sq_nonneg (u1.y * u2.z - u1.z * u2.y),
      sq_nonneg (u1.z * u2.x - u1.x * u2.z)]
  have hle : pmCartCartDot u1 u2 ≤ 1 := by nlinarith
  have hge : -1 ≤ pmCartCartDot u1 u2 := by nlinarith
  have hθ : findIntersectionAngle realMath u1 u2 = Real.arccos (-pmCartCartDot u1 u2) / 2 := by
    unfold findIntersectionAngle tpFindIntersectionAngle
    dsimp only
    rw [if_neg (by
      rintro (h | h)
      · exact absurd h (not_lt.mpr hle)
      · exact absurd h (not_lt.mpr hge))]
    rfl
  have hcos : Real.cos (2 * findIntersectionAngle realMath u1 u2) = -pmCartCartDot u1 u2 := by
    rw [hθ, mul_div_cancel₀ _ (two_ne_zero), Real.cos_arccos (by linarith) (by linarith)]
  rw [Real.cos_two_mul] at hcos
  linarith

/-- The length of a triple whose squares sum to `r²`, `r ≥ 0`. -/
theorem pmCartMag_of_sq (v : PmCartesian ℝ) (r : ℝ) (hr : 0 ≤ r)
    (h : v.x * v.x + v.y * v.y + v.z * v.z = r * r) : pmCartMag realMath v = r := by
  show Real.sqrt (v.x * v.x + v.y * v.y + v.z * v.z) = r
  rw [h, Real.sqrt_mul_self hr]

/-- C38: for unit vectors `u1`, `u2` with `θ = acos(-u1·u2)/2` in `(0, π/2)`, every
intersection point `P` and every `R_plan > 0` with `d_plan = R_plan / tan θ` (the relation
`blendComputeParameters` establishes), the points computed by `blendFindPoints3` with the
normal from `blendCalculateNormals3` satisfy
`|arc_start - arc_center| = |arc_end - arc_center| = R_plan` and
`|arc_start - P| = |arc_end - P| = d_plan`. -/
theorem blendFindPoints3_on_circle (c : TPConst ℝ) (u1 u2 P : PmCartesian ℝ)
    (points : BlendPoints3 ℝ) (param p0 : BlendParameters ℝ)
    (h1 : pmCartMag realMath u1 = 1) (h2 : pmCartMag realMath u2 = 1)
    (hθ : param.theta = findIntersectionAngle realMath u1 u2) (h0 : 0 < param.theta)
    (hlt : param.theta < Real.pi / 2) (hR : 0 < param.R_plan)
    (hd : param.d_plan = param.R_plan / Real.tan param.theta) :
    (blendComputeParameters realMath c p0).1.d_plan
      = (blendComputeParameters realMath c p0).1.R_plan / Real.tan p0.theta ∧
    pmCartMag realMath (pmCartCartSub
      (blendFindPoints3 realMath points
        (blendCalculateNormals3 realMath { u1 := u1, u2 := u2, P := P }) param).1.arc_start
      (blendFindPoints3 realMath points
        (blendCalculateNormals3 realMath { u1 := u1, u2 := u2, P := P }) param).1.arc_center)
      = param.R_plan ∧
    pmCartMag realMath (pmCartCartSub
      (blendFindPoints3 realMath points
        (blendCalculateNormals3 realMath { u1 := u1, u2 := u2, P := P }) param).1.arc_end
      (blendFindPoints3 realMath points
        (blendCalculateNormals3 realMath { u1 := u1, u2 := u2, P := P }) param).1.arc_center)
      = param.R_plan ∧
    pmCartMag realMath (pmCartCartSub
      (blendFindPoints3 realMath points
        (blendCalculateNormals3 realMath { u1 := u1, u2 := u2, P := P }) param).1.arc_start P)
      = param.d_plan ∧
    pmCartMag realMath (pmCartCartSub
      (blendFindPoints3 realMath points
        (blendCalculateNormals3 realMath { u1 := u1, u2 := u2, P := P }) param).1.arc_end P)
      = param.d_plan := by
  have hdp : (blendComputeParameters realMath c p0).1.d_plan
      = (blendComputeParameters realMath c p0).1.R_plan / Real.tan p0.theta := by
    unfold blendComputeParameters
    dsimp only
    split_ifs <;> rfl
  refine ⟨hdp, ?_⟩
  have ht := realMath_trigAt param.theta h0 hlt
  have hs : 0 < Real.sin param.theta := ht.sin_pos
  have hk : 0 < Real.cos param.theta := ht.cos_pos
  have hks : Real.sin param.theta ^ 2 + Real.cos param.theta ^ 2 = 1 :=
    Real.sin_sq_add_cos_sq _
  have hdot := findIntersectionAngle_dot u1 u2 h1 h2
  rw [← hθ] at hdot
  unfold pmCartCartDot at hdot
  have e1 : u1.x * u1.x + u1.y * u1.y + u1.z * u1.z = 1 := by
    have : Real.sqrt (u1.x * u1.x + u1.y * u1.y + u1.z * u1.z) = 1 := h1
    exact (Real.sqrt_eq_one).mp this
  have e2 : u2.x * u2.x + u2.y * u2.y + u2.z * u2.z = 1 := by
    have : Real.sqrt (u2.x * u2.x + u2.y * u2.y + u2.z * u2.z) = 1 := h2
    exact (Real.sqrt_eq_one).mp this
  have hsize : pmCartMag realMath (pmCartCartSub u2 u1) = 2 * Real.cos param.theta := by
    refine pmCartMag_of_sq _ _ (by linarith) ?_
    show (u2.x - u1.x) * (u2.x - u1.x) + (u2.y - u1.y) * (u2.y - u1.y)
      + (u2.z - u1.z) * (u2.z - u1.z) = 2 * Real.cos param.theta * (2 * Real.cos param.theta)
    linear_combination e1 + e2 - 2 * hdot
  have hnormal : (blendCalculateNormals3 realMath { u1 := u1, u2 := u2, P := P }).normal
      = ⟨(u2.x - u1.x) / (2 * Real.cos param.theta), (u2.y - u1.y) / (2 * Real.cos param.theta),
         (u2.z - u1.z) / (2 * Real.cos param.theta)⟩ := by
    show pmCartUnit realMath (pmCartCartSub u2 u1) = _
    unfold pmCartUnit
    dsimp only
    rw [hsize, if_neg (by linarith)]
    rfl
  -- the components of the normal, the centre distance and the distance along the lines
  obtain ⟨nx, hnx⟩ : ∃ nx : ℝ, nx = (u2.x - u1.x) / (2 * Real.cos param.theta) := ⟨_, rfl⟩
  obtain ⟨ny, hny⟩ : ∃ ny : ℝ, ny = (u2.y - u1.y) / (2 * Real.cos param.theta) := ⟨_, rfl⟩
  obtain ⟨nz, hnz⟩ : ∃ nz : ℝ, nz = (u2.z - u1.z) / (2 * Real.cos param.theta) := ⟨_, rfl⟩
  have k2 : (2 * Real.cos param.theta) ≠ 0 := by linarith
  have fx : nx * (2 * Real.cos param.theta) = u2.x - u1.x := by
    rw [hnx, div_mul_cancel₀ _ k2]
  have fy : ny * (2 * Real.cos param.theta) = u2.y - u1.y := by
    rw [hny, div_mul_cancel₀ _ k2]
  have fz : nz * (2 * Real.cos param.theta) = u2.z - u1.z := by
    rw [hnz, div_mul_cancel₀ _ k2]
  rw [← hnx, ← hny, ← hnz] at hnormal
  obtain ⟨α, hα⟩ : ∃ α : ℝ, α = param.R_plan / Real.sin param.theta := ⟨_, rfl⟩
  have hαs : α * Real.sin param.theta = param.R_plan := by
    rw [hα, div_mul_cancel₀ _ hs.ne']
  have hαpos : 0 < α := by
    rw [hα]
    exact div_pos hR hs
  have hdα : param.d_plan = α * Real.cos param.theta := by
    rw [hd, Real.tan_eq_sin_div_cos, hα]
    field_simp
  have hcenter : (blendFindPoints3 realMath points
      (blendCalculateNormals3 realMath { u1 := u1, u2 := u2, P := P }) param).1.arc_center
      = ⟨nx * α + P.x, ny * α + P.y, nz * α + P.z⟩ := by
    unfold blendFindPoints3
    dsimp only
    rw [hnormal, hα]
    rfl
  have hstart : (blendFindPoints3 realMath points
      (blendCalculateNormals3 realMath { u1 := u1, u2 := u2, P := P }) param).1.arc_start
      = ⟨u1.x * -param.d_plan + P.x, u1.y * -param.d_plan + P.y, u1.z * -param.d_plan + P.z⟩ :=
    rfl
  have hend : (blendFindPoints3 realMath points
      (blendCalculateNormals3 realMath { u1 := u1, u2 := u2, P := P }) param).1.arc_end
      = ⟨u2.x * param.d_plan + P.x, u2.y * param.d_plan + P.y, u2.z * param.d_plan + P.z⟩ :=
    rfl
  rw [hcenter, hstart, hend]
  clear hcenter hstart hend hnormal
  generalize Real.cos param.theta = k at hk hks hdot fx fy fz hdα k2
  generalize Real.sin param.theta = s at hs hks hαs hα
  have hk0 : k ≠ 0 := hk.ne'
  have hnn : nx * nx + ny * ny + nz * nz = 1 := by
    have h4 : (2 * k) * (2 * k) * (nx * nx + ny * ny + nz * nz) = (2 * k) * (2 * k) * 1 := by
      linear_combination (nx * (2 * k) + (u2.x - u1.x)) * fx
        + (ny * (2 * k) + (u2.y - u1.y)) * fy + (nz * (2 * k) + (u2.z - u1.z)) * fz
        + e1 + e2 - 2 * hdot
    exact mul_left_cancel₀ (mul_ne_zero k2 k2) h4
  have han : k * (u1.x * nx + u1.y * ny + u1.z * nz) = -(k * k) := by
    linear_combination (u1.x / 2) * fx + (u1.y / 2) * fy + (u1.z / 2) * fz
      + (1 / 2) * hdot - (1 / 2) * e1
  have hbn : k * (u2.x * nx + u2.y * ny + u2.z * nz) = k * k := by
    linear_combination (u2.x / 2) * fx + (u2.y / 2) * fy + (u2.z / 2) * fz
      - (1 / 2) * hdot + (1 / 2) * e2
  have hd0 : 0 ≤ param.d_plan := by
    rw [hdα]
    exact (mul_pos hαpos hk).le
  refine ⟨?_, ?_, ?_, ?_⟩
  · refine pmCartMag_of_sq _ _ hR.le ?_
    rw [hdα]
    show (u1.x * -(α * k) + P.x - (nx * α + P.x)) * (u1.x * -(α * k) + P.x - (nx * α + P.x))
      + (u1.y * -(α * k) + P.y - (ny * α + P.y)) * (u1.y * -(α * k) + P.y - (ny * α + P.y))
      + (u1.z * -(α * k) + P.z - (nz * α + P.z)) * (u1.z * -(α * k) + P.z - (nz * α + P.z))
      = param.R_plan * param.R_plan
    rw [← hαs]
    linear_combination (α * α * k * k) * e1 + (α * α) * hnn + (2 * α * α) * han
      - (α * α) * hks
  · refine pmCartMag_of_sq _ _ hR.le ?_
    rw [hdα]
    show (u2.x * (α * k) + P.x - (nx * α + P.x)) * (u2.x * (α * k) + P.x - (nx * α + P.x))
      + (u2.y * (α * k) + P.y - (ny * α + P.y)) * (u2.y * (α * k) + P.y - (ny * α + P.y))
      + (u2.z * (α * k) + P.z - (nz * α + P.z)) * (u2.z * (α * k) + P.z - (nz * α + P.z))
      = param.R_plan * param.R_plan
    rw [← hαs]
    linear_combination (α * α * k * k) * e2 + (α * α) * hnn - (2 * α * α) * hbn
      - (α * α) * hks
  · refine pmCartMag_of_sq _ _ hd0 ?_
    show (u1.x * -param.d_plan + P.x - P.x) * (u1.x * -param.d_plan + P.x - P.x)
      + (u1.y * -param.d_plan + P.y - P.y) * (u1.y * -param.d_plan + P.y - P.y)
      + (u1.z * -param.d_plan + P.z - P.z) * (u1.z * -param.d_plan + P.z - P.z)
      = param.d_plan * param.d_plan
    linear_combination (param.d_plan * param.d_plan) * e1
  · refine pmCartMag_of_sq _ _ hd0 ?_
    show (u2.x * param.d_plan + P.x - P.x) * (u2.x * param.d_plan + P.x - P.x)
      + (u2.y * param.d_plan + P.y - P.y) * (u2.y * param.d_plan + P.y - P.y)
      + (u2.z * param.d_plan + P.z - P.z) * (u2.z * param.d_plan + P.z - P.z)
      = param.d_plan * param.d_plan
    linear_combination (param.d_plan * param.d_plan) * e2

theorem blendFindPoints3_on_circle_witness :
    pmCartMag realMath (pmCartCartSub
      (blendFindPoints3 realMath {}
        (blendCalculateNormals3 realMath { u1 := ⟨0, 1, 0⟩, u2 := ⟨1, 0, 0⟩, P := ⟨1, 0, 0⟩ })
        cornerBlendParam).1.arc_start
      (blendFindPoints3 realMath {}
        (blendCalculateNormals3 realMath { u1 := ⟨0, 1, 0⟩, u2 := ⟨1, 0, 0⟩, P := ⟨1, 0, 0⟩ })
        cornerBlendParam).1.arc_center) = cornerBlendParam.R_plan ∧
    pmCartMag realMath (pmCartCartSub
      (blendFindPoints3 realMath {}
        (blendCalculateNormals3 realMath { u1 := ⟨0, 1, 0⟩, u2 := ⟨1, 0, 0⟩, P := ⟨1, 0, 0⟩ })
        cornerBlendParam).1.arc_end
      (blendFindPoints3 realMath {}
        (blendCalculateNormals3 realMath { u1 := ⟨0, 1, 0⟩, u2 := ⟨1, 0, 0⟩, P := ⟨1, 0, 0⟩ })
        cornerBlendParam).1.arc_center) = cornerBlendParam.R_plan :=
  have h := blendFindPoints3_on_circle sampleConst ⟨0, 1, 0⟩ ⟨1, 0, 0⟩ ⟨1, 0, 0⟩ {}
    cornerBlendParam blendParam
    (by norm_num [pmCartMag, pmSq, realMath]) (by norm_num [pmCartMag, pmSq, realMath])
    arccos_zero_half.symm (div_pos Real.pi_pos (by norm_num))
    (by show Real.pi / 4 < Real.pi / 2; linarith [Real.pi_pos]) (by norm_num [cornerBlendParam])
    rfl
  ⟨h.2.1, h.2.2.1⟩

/-! ### `tpCompleteSegment` while the rotary axis is still unlocked -/

/-- C39, evaluation at the failing input: the head segment `indexSyncLine` of `indexTP` is a
finished, spindle-synchronized indexing move whose rotary axis still reports unlocked.
`tpCompleteSegment` returns `Fail` and keeps the queue, but it has already added
`target / uu_per_rev = 2` to `tp.spindle.offset`; the call repeated on the next tick
returns `Fail` again and the offset is 4. -/
theorem tpCompleteSegment_fail_accumulates_offset :
    (indexTP : TP ℝ).spindle.offset = 0 ∧
    (tpCompleteSegment unlockedGeom (indexTP : TP ℝ) indexSyncLine).2.2 = TPErr.FAIL ∧
    (tpCompleteSegment unlockedGeom (indexTP : TP ℝ) indexSyncLine).1.queue
      = (indexTP : TP ℝ).queue ∧
    (tpCompleteSegment unlockedGeom (indexTP : TP ℝ) indexSyncLine).1.spindle.offset = 2 ∧
    (tpCompleteSegment unlockedGeom
      (tpCompleteSegment unlockedGeom (indexTP : TP ℝ) indexSyncLine).1 indexSyncLine).2.2
      = TPErr.FAIL ∧
    (tpCompleteSegment unlockedGeom
      (tpCompleteSegment unlockedGeom (indexTP : TP ℝ) indexSyncLine).1
      indexSyncLine).1.spindle.offset = 4 := by
  have e1 : tpCompleteSegment unlockedGeom (indexTP : TP ℝ) indexSyncLine
      = ({ indexTP with spindle := { indexTP.spindle with offset := 2 } },
         [IoEvent.rotaryUnlock 0 0], TPErr.FAIL) := by
    norm_num [tpCompleteSegment, unlockedGeom, sampleGeom, indexTP, indexSyncLine,
      TC_SYNC_NONE, TC_SYNC_VELOCITY]
  have e2 : tpCompleteSegment unlockedGeom
      ({ indexTP with spindle := { indexTP.spindle with offset := 2 } } : TP ℝ) indexSyncLine
      = ({ indexTP with spindle := { indexTP.spindle with offset := 4 } },
         [IoEvent.rotaryUnlock 0 0], TPErr.FAIL) := by
    norm_num [tpCompleteSegment, unlockedGeom, sampleGeom, indexTP, indexSyncLine,
      TC_SYNC_NONE, TC_SYNC_VELOCITY]
  rw [e1, e2]
  exact ⟨rfl, rfl, rfl, rfl, rfl, rfl⟩

/-! ### The depth stored by the optimizer in a finalized tail -/

theorem tcqItem_append_two (q : TC_QUEUE_STRUCT K) (l : List (TC K)) (p t : TC K)
    (hq : q.queue = l ++ [p, t]) :
    tcqLen q = l.length + 2 ∧ tcqItem q (tcqLen q - 1) = some t ∧
    tcqItem q (tcqLen q - 1 - 1) = some p := by
  have hlen : tcqLen q = l.length + 2 := by
    unfold tcqLen
    rw [hq]
    simp
  refine ⟨hlen, ?_, ?_⟩
  · unfold tcqItem
    rw [hlen, if_neg (by omega), hq]
    have e : ((l.length : Int) + 2 - 1).toNat = l.length + 1 := by omega
    rw [e, List.get?_eq_getElem?, List.getElem?_append_right (by omega)]
    simp
  · unfold tcqItem
    rw [hlen, if_neg (by omega), hq]
    have e : ((l.length : Int) + 2 - 1 - 1).toNat = l.length := by omega
    rw [e, List.get?_eq_getElem?, List.getElem?_append_right (by omega)]
    simp

theorem tcqSetItem_append_two (q : TC_QUEUE_STRUCT K) (l : List (TC K)) (p t p' t' : TC K)
    (hq : q.queue = l ++ [p, t]) :
    (tcqSetItem (tcqSetItem q (tcqLen q - 1) t') (tcqLen q - 1 - 1) p').queue
      = l ++ [p', t'] := by
  have hlen : tcqLen q = l.length + 2 := (tcqItem_append_two q l p t hq).1
  unfold tcqSetItem
  rw [hlen, if_neg (by omega), if_neg (by omega)]
  have e1 : ((l.length : Int) + 2 - 1).toNat = l.length + 1 := by omega
  have e0 : ((l.length : Int) + 2 - 1 - 1).toNat = l.length := by omega
  show (q.queue.set _ t').set _ p' = _
  rw [e1, e0, hq]
  simp [List.set_append]

/-- When the tail of the queue is finalized and its predecessor ends tangent and has not
started, `tpRunOptimization` visits the tail with loop counter `x = 1` and stores
`active_depth = x - 2 - hit_peaks = -1` in it. -/
theorem tpRunOptimization_tail_depth (m : MathLib K) (c : TPConst K) (cfg : EmcmotConfig K)
    (tp : TP K) (l : List (TC K)) (p t : TC K) (hq : tp.queue.queue = l ++ [p, t])
    (hf : t.finalized ≠ 0) (htan : p.term_cond = TC_TERM_COND_TANGENT)
    (hprog : ¬ p.progress > 0) (hdepth : 0 ≤ cfg.arcBlendOptDepth) :
    ∃ t' : TC K, (tpRunOptimization m c cfg tp).queue.queue.getLast? = some t' ∧
      t'.active_depth = -1 := by
  obtain ⟨hlen, h1, h0⟩ := tcqItem_append_two tp.queue l p t hq
  unfold tpRunOptimization
  obtain ⟨n, hn⟩ : ∃ n : Nat, (cfg.arcBlendOptDepth + 1).toNat = n + 1 :=
    ⟨(cfg.arcBlendOptDepth + 1).toNat - 1, by omega⟩
  rw [hn]
  unfold tpRunOptimizationLoop
  rw [if_neg (by omega)]
  dsimp only
  rw [h1, h0]
  dsimp only
  rw [if_neg hf, if_neg (not_not.mpr htan), if_neg hprog]
  have key : ∀ (t' p' : TC K) (q' : TC_QUEUE_STRUCT K) (hp : Int),
      q'.queue = l ++ [p', t'] → t'.active_depth = -1 →
      ∃ t'' : TC K,
        (if hp > c.TP_OPTIMIZATION_CUTOFF then ({ tp with queue := q' } : TP K)
         else tpRunOptimizationLoop m c cfg (tcqLen tp.queue) n (1 + 1) hp
          { tp with queue := q' }).queue.queue.getLast? = some t'' ∧
        t''.active_depth = -1 := by
    intro t' p' q' hp hset ht'
    have hlast : q'.queue.getLast? = some t' := by
      rw [hset]
      simp
    refine ite_rec (fun r : TP K => ∃ t'' : TC K, r.queue.queue.getLast? = some t'' ∧
      t''.active_depth = -1) ⟨t', hlast, ht'⟩ ?_
    obtain ⟨l2, e1, _, e3⟩ := tpRunOptimizationLoop_frame m c cfg (tcqLen tp.queue) n (1 + 1) hp
      ({ tp with queue := q' } : TP K)
    rw [e1]
    refine ⟨t', ?_, ht'⟩
    show l2.getLast? = some t'
    rw [e3 (by norm_num) (by
      show tcqLen tp.queue = (q'.queue.length : Int)
      rw [hset, hlen]
      simp)]
    exact hlast
  exact key _ _ _ _ (tcqSetItem_append_two tp.queue l p t _ _ hq) rfl

/-- C40, the divergence in general form: when `tpRunCycle` force-finalizes the tail of the
queue (`tpForceFinalizeSegment` on a tail `t` with `finalized = 0`) and the segment before
it ends tangent and has not started, the optimizer pass stores `active_depth = -1` in the
tail; once that segment is the one being executed, `tpUpdateMovementStatus` copies the
value to `tp.activeDepth`, and `tpActiveDepth` returns `-1`. -/
theorem tpForceFinalizeSegment_negative_depth (m : MathLib K) (c : TPConst K)
    (cfg : EmcmotConfig K) (g : ExtGeom K) (st : EmcmotStatus K) (tp tpX : TP K)
    (l : List (TC K)) (p t : TC K) (hq : tp.queue.queue = l ++ [p, t])
    (hf : t.finalized = 0) (htan : p.term_cond = TC_TERM_COND_TANGENT)
    (hprog : ¬ p.progress > 0) (hdepth : 0 ≤ cfg.arcBlendOptDepth) :
    ∃ t' : TC K,
      (tpForceFinalizeSegment m c cfg tp (l.length + 1)).1.queue.queue.getLast? = some t' ∧
      t'.active_depth = -1 ∧
      tpActiveDepth (tpUpdateMovementStatus g st tpX t').1 = -1 ∧
      tpActiveDepth (tpUpdateMovementStatus g st tpX t').1 < 0 := by
  obtain ⟨hlen, h1, _⟩ := tcqItem_append_two tp.queue l p t hq
  have hn : tcqLen tp.queue - 1 = (l.length : Int) + 1 := by omega
  rw [hn] at h1
  unfold tpForceFinalizeSegment
  rw [h1]
  dsimp only
  rw [if_pos hf]
  have hq' : (tcqSetItem tp.queue ((l.length : Int) + 1) { t with finalized := 1 }).queue
      = l ++ [p, { t with finalized := 1 }] := by
    unfold tcqSetItem
    rw [if_neg (by omega)]
    have e1 : ((l.length : Int) + 1).toNat = l.length + 1 := by omega
    show tp.queue.queue.set _ _ = _
    rw [e1, hq]
    simp [List.set_append]
  obtain ⟨t', ht1, ht2⟩ := tpRunOptimization_tail_depth m c cfg
    { tp with queue := tcqSetItem tp.queue ((l.length : Int) + 1) { t with finalized := 1 } }
    l p { t with finalized := 1 } hq' (fun h => absurd (show (1 : Int) = 0 from h) (by decide))
    htan hprog hdepth
  refine ⟨t', ht1, ht2, ?_, ?_⟩
  · show t'.active_depth = -1
    exact ht2
  · show t'.active_depth < 0
    rw [ht2]
    decide

theorem tpForceFinalizeSegment_negative_depth_witness :
    ∃ t' : TC ℝ,
      (tpForceFinalizeSegment realMath sampleConst tangentCfg threeLineTP
        (([tangentLine] : List (TC ℝ)).length + 1)).1.queue.queue.getLast? = some t' ∧
      t'.active_depth = -1 ∧
      tpActiveDepth (tpUpdateMovementStatus sampleGeom {} (threeLineTP : TP ℝ) t').1 = -1 ∧
      tpActiveDepth (tpUpdateMovementStatus sampleGeom {} (threeLineTP : TP ℝ) t').1 < 0 :=
  tpForceFinalizeSegment_negative_depth realMath sampleConst tangentCfg sampleGeom {}
    threeLineTP threeLineTP [tangentLine] { tangentLine with id := 2 }
    { secondLine with id := 3, finalized := 0 } rfl rfl rfl
    (by norm_num [tangentLine, queuedLine]) (by decide)

end LinuxCNC
